import Mathlib

/-! WebSockets_Generic: frame codec, receive state machine and dispatcher

A shallow embedding of `src/WebSockets_Generic-Impl.h` (the synchronous network
path, i.e. every `#else` branch of `WEBSOCKETS_NETWORK_TYPE == NETWORK_ESP8266_ASYNC`).

Conventions of the embedding

* `uint8_t` values are natural numbers below 256, `size_t` and `unsigned long`
  are 32 bits wide (the boards this library targets): arithmetic that can leave
  the range is reduced explicitly with `% 2 ^ 32` or `% 256`.
* A pointer into a buffer is the buffer (a `List Nat`) together with an offset;
  a pointer that may be `NULL` is an `Option`.
* The transport, the clock, the allocator and the two virtual methods
  (`clientDisconnect(client)` and `messageReceived`) are outside this file.  The
  transport and the clock are driven by a script of observations (`Poll`), the
  allocator and the local disconnect are parameters (`Host`), and every call
  that leaves the file is recorded in a chronological trace (`Event`).
-/

set_option autoImplicit false

namespace WebSockets

/-! ## Constants and types declared outside the file -/

/-- Modelled from the spec: `WEBSOCKETS_MAX_HEADER_SIZE`, the capacity of the receive
accumulator, "14 bytes: 2 base + 8 extended-length + 4 mask key". -/
def WEBSOCKETS_MAX_HEADER_SIZE : Nat := 14

/-- Modelled from the spec: the opcode enum `WSopcode_t`, "continuation(0x0), text(0x1),
binary(0x2), close(0x8), ping(0x9), pong(0xA)"; an opcode travels as its number. -/
def WSop_continuation : Nat := 0x00

/-- Modelled from the spec: opcode `text(0x1)`. -/
def WSop_text : Nat := 0x01

/-- Modelled from the spec: opcode `binary(0x2)`. -/
def WSop_binary : Nat := 0x02

/-- Modelled from the spec: opcode `close(0x8)`. -/
def WSop_close : Nat := 0x08

/-- Modelled from the spec: opcode `ping(0x9)`. -/
def WSop_ping : Nat := 0x09

/-- Modelled from the spec: opcode `pong(0xA)`. -/
def WSop_pong : Nat := 0x0A

/-- The Arduino macro `bit(n)`, that is `1 << n`. -/
def bit (n : Nat) : Nat := 1 <<< n

/-! ## Frame codec: `createHeader` -/

/-- `WebSockets::createHeader`.  The function writes through `headerPtr` and advances
it after every byte, so its effect on memory is the list of bytes written, in order,
starting at the address passed in; the second component is the returned `headerSize`.
`maskKey[i]` is `maskKey.getD i 0`. -/
def createHeader (opcode : Nat) (length : Nat) (mask : Bool) (maskKey : List Nat)
    (fin : Bool) : List Nat × Nat :=
  -- calculate header Size
  let headerSize : Nat :=
    if length < 126 then 2
    else if length < 0xFFFF then 4
    else 10
  let headerSize : Nat := if mask then headerSize + 4 else headerSize
  -- byte 0
  let b0 : Nat := 0x00
  let b0 : Nat := if fin then b0 ||| bit 7 else b0
  let b0 : Nat := (b0 ||| opcode) % 256
  -- byte 1
  let b1 : Nat := 0x00
  let b1 : Nat := if mask then b1 ||| bit 7 else b1
  let lenBytes : List Nat :=
    if length < 126 then
      [(b1 ||| length) % 256]
    else if length < 0xFFFF then
      [b1 ||| 126, (length >>> 8) &&& 0xFF, length &&& 0xFF]
    else
      [b1 ||| 127, 0x00, 0x00, 0x00, 0x00,
        (length >>> 24) &&& 0xFF, (length >>> 16) &&& 0xFF,
        (length >>> 8) &&& 0xFF, length &&& 0xFF]
  let keyBytes : List Nat :=
    if mask then [maskKey.getD 0 0, maskKey.getD 1 0, maskKey.getD 2 0, maskKey.getD 3 0]
    else []
  (b0 :: lenBytes ++ keyBytes, headerSize)

/-! ## Connection, transport and trace -/

/-- Modelled from the spec: the lifecycle `status` of a connection, "status ∈ {CLOSED,
CONNECTING, CONNECTED}"; the source names the last one `WSC_CONNECTED`. -/
inductive WSclientsStatus_t where
  | WSC_NOT_CONNECTED
  | WSC_HEADER
  | WSC_CONNECTED
  deriving DecidableEq, Repr

/-- Modelled from the spec: the decoded-header slot `WSMessageHeader_t`, "fin (bool),
reserved bits rsv1–rsv3, opcode, mask flag, payload length (up to 32-bit), mask key".
In the source `maskKey` is a pointer into the accumulator `cWsHeader`; here it is the
offset of that pointer from the start of `cWsHeader`. -/
structure WSMessageHeader_t where
  fin : Bool
  rsv1 : Bool
  rsv2 : Bool
  rsv3 : Bool
  opCode : Nat
  mask : Bool
  payloadLen : Nat
  maskKey : Nat
  deriving DecidableEq, Repr

/-- Modelled from the spec: the per-connection record `WSclient_t`, "role, lifecycle
status, a receive accumulator (fixed-capacity byte buffer plus a count of bytes currently
valid in it), a decoded-header slot, heartbeat fields".  `tcp` says whether the pointer
`client->tcp` is non-null. -/
structure WSclient_t where
  tcp : Bool
  status : WSclientsStatus_t
  cIsClient : Bool
  cWsRXsize : Nat
  cWsHeader : List Nat
  cWsHeaderDecode : WSMessageHeader_t
  pingInterval : Nat
  pongTimeout : Nat
  disconnectTimeoutCount : Nat
  lastPing : Nat
  pongTimeoutCount : Nat
  pongReceived : Bool
  deriving DecidableEq, Repr

/-- What the transport object answers right now: `millis()`, `tcp->connected()`, the bytes
`tcp->read` can hand over (`tcp->available()` is their number), the bytes `tcp->write` has
accepted so far, and the value `tcp->write` returns when called. -/
structure Tcp where
  now : Nat
  connected : Bool
  inbuf : List Nat
  sent : List Nat
  accept : Nat
  deriving DecidableEq, Repr

/-- One observation of the outside world, made when the code yields
(`WEBSOCKETS_YIELD`, `WEBSOCKETS_YIELD_MORE`): the clock, the connection status, the bytes
that arrived meanwhile and what the next `tcp->write` will return. -/
structure Poll where
  now : Nat
  connected : Bool
  arrive : List Nat
  accept : Nat
  deriving DecidableEq, Repr

/-- Destination of a read: the accumulator `&client->cWsHeader[off]` or the payload buffer. -/
inductive Dst where
  | header (off : Nat)
  | payload
  deriving DecidableEq, Repr

/-- Calls recorded in the trace, in chronological order. -/
inductive Event where
  /-- `clientDisconnect(client, code, ...)` was entered. -/
  | closeReq (code : Nat)
  /-- the virtual `clientDisconnect(client)` was called. -/
  | disconnected
  /-- `sendFrame` passed its guards and hands a frame to the transport. -/
  | frame (opcode : Nat) (payload : Option (List Nat)) (length : Nat) (fin : Bool)
      (headerToPayload : Bool)
  /-- the virtual `messageReceived(client, opcode, payload, length, fin)` was called. -/
  | message (opcode : Nat) (payload : Option (List Nat)) (length : Nat) (fin : Bool)
  /-- the receive path called `malloc(size)` for a payload buffer, and whether it got one. -/
  | malloc (size : Nat) (ok : Bool)
  /-- the receive path called `free` on a non-null payload buffer. -/
  | free
  /-- the header fields `handleWebsocketCb` reports once the length is decoded (the
  `WSK_LOGDEBUG` block of lines 585-594): fin, rsv1, rsv2, rsv3, opCode, mask, payloadLen. -/
  | decoded (fin rsv1 rsv2 rsv3 : Bool) (opCode : Nat) (mask : Bool) (payloadLen : Nat)
  /-- `readCb(client, dst, n, ...)` was called. -/
  | read (dst : Dst) (n : Nat)
  deriving DecidableEq, Repr

/-- What the file takes from its surroundings: the configuration macros
`WEBSOCKETS_MAX_DATA_SIZE`, `WEBSOCKETS_TCP_TIMEOUT`, `WEBSOCKETS_USE_BIG_MEM`,
`GET_FREE_HEAP`; the allocator (`mallocOk size` says whether `malloc(size)` succeeds, `junk i`
is the uninitialised byte at index `i` of a fresh buffer); the `n`-th result of `random(0xFF)`;
and the effect of the virtual `clientDisconnect(client)` on the connection record. -/
structure Host where
  maxDataSize : Nat
  tcpTimeout : Nat
  useBigMem : Bool
  freeHeap : Nat
  mallocOk : Nat → Bool
  junk : Nat → Nat
  random : Nat → Nat
  disconnect : WSclient_t → WSclient_t

/-- The whole state: the connection record, the transport, the observations still to come,
the trace so far and the number of `random` calls made. -/
structure State where
  client : WSclient_t
  tcp : Tcp
  polls : List Poll
  trace : List Event
  rngCalls : Nat
  deriving DecidableEq, Repr

/-- Why a run of the model stops without a state: the recursion budget of
`handleWebsocketCb` ran out, or a payload buffer was accessed outside its bounds (or
through a null pointer). -/
inductive Fault where
  | fuel
  | bounds
  deriving DecidableEq, Repr

/-- The world moves on by one observation. -/
def advance (p : Poll) (t : Tcp) : Tcp :=
  { now := p.now, connected := p.connected, inbuf := t.inbuf ++ p.arrive,
    sent := t.sent, accept := p.accept }

/-- `WEBSOCKETS_YIELD()` outside a loop: the next observation, if there is one. -/
def yield (s : State) : State :=
  match s.polls with
  | [] => s
  | p :: ps => { s with tcp := advance p s.tcp, polls := ps }

/-- Append one event to the trace. -/
def log (s : State) (e : Event) : State :=
  { s with trace := s.trace ++ [e] }

/-- Consecutive stores `buf[off] = b₀; buf[off + 1] = b₁; ...`. -/
def writeAt (buf : List Nat) (off : Nat) : List Nat → List Nat
  | [] => buf
  | b :: bs => writeAt (buf.set off b) (off + 1) bs

/-- The XOR loop shared by `sendFrame` (lines 386-389) and `handleWebsocketPayloadCb`
(lines 652-655): `for (x = 0; x < len; x++) ptr[x] = ptr[x] ^ key[x % 4]`, with
`ptr = buf + base`. -/
def xorMask (key : Nat → Nat) (base : Nat) (len : Nat) (buf : List Nat) : List Nat :=
  (List.range len).foldl
    (fun p x => p.set (base + x) (p.getD (base + x) 0 ^^^ key (x % 4))) buf

/-- `millis() - t` on `unsigned long`. -/
def elapsed (now t : Nat) : Nat := (now + 2 ^ 32 - t % 2 ^ 32) % 2 ^ 32

/-! ## Timed I/O: `write` -/

/-- The `while (n > 0)` loop of `WebSockets::write` (lines 922-962).  `out + off` is the
moving pointer.  The loop yields after every pass that leaves bytes to write; when no
observation is left the transport stays as it is until the inactivity timeout ends the
loop.  `tcp->write` puts `min len n` of the offered bytes on the wire and returns `len`. -/
def writeLoop (tmo : Nat) (hasTcp : Bool) (out : List Nat) :
    List Poll → Tcp → Nat → Nat → Nat → Nat → Nat × Tcp × List Poll
  | polls, tcp, off, n, t, total =>
    if n = 0 then (total, tcp, polls)
    else if !hasTcp then (total, tcp, polls)
    else if !tcp.connected then (total, tcp, polls)
    else if elapsed tcp.now t > tmo then (total, tcp, polls)
    else
      let len := tcp.accept % 2 ^ 32
      let tcp1 : Tcp := { tcp with sent := tcp.sent ++ (out.drop off).take (min len n) }
      let off1 := if len ≠ 0 then off + len else off
      let n1 := if len ≠ 0 then (n + 2 ^ 32 - len) % 2 ^ 32 else n
      let t1 := if len ≠ 0 then tcp.now else t
      let total1 := if len ≠ 0 then (total + len) % 2 ^ 32 else total
      if n1 > 0 then
        match polls with
        | [] => (total1, tcp1, [])
        | p :: ps => writeLoop tmo hasTcp out ps (advance p tcp1) off1 n1 t1 total1
      else (total1, tcp1, polls)

/-- `size_t WebSockets::write(WSclient_t * client, uint8_t * out, size_t n)` with
`out = buf + off`; a null `out` is `none`. -/
def write (h : Host) (s : State) (out : Option (List Nat)) (off n : Nat) : Nat × State :=
  match out with
  | none => (0, s)
  | some buf =>
    let r := writeLoop h.tcpTimeout s.client.tcp buf s.polls s.tcp off n s.tcp.now 0
    (r.1, yield { s with tcp := r.2.1, polls := r.2.2 })

/-! ## Sending: `sendFrame`, `clientDisconnect` -/

/-- Lines 396-422 of `sendFrame`: hand the frame to the transport, in one `write` when the
header sits in front of the payload (`payloadPtr[14 - headerSize]` onwards), else the
header from `buffer` and then the payload. -/
def sendFrameWrite (h : Host) (s : State) (toPayload : Bool) (payloadPtr : Option (List Nat))
    (buffer : List Nat) (headerSize length : Nat) : Bool × State :=
  if toPayload then
    -- header has be added to payload
    let n := (length + headerSize) % 2 ^ 32
    let w := write h s payloadPtr (WEBSOCKETS_MAX_HEADER_SIZE - headerSize) n
    (decide (w.1 = n), w.2)
  else
    -- send header
    let w := write h s (some buffer) 0 headerSize
    let ret := decide (w.1 = headerSize)
    if payloadPtr.isSome && decide (length > 0) then
      -- send payload
      let w2 := write h w.2 payloadPtr 0 length
      (ret && decide (w2.1 = length), w2.2)
    else (ret, w.2)

/-- `WebSockets::sendFrame` (lines 272-436).  `payload` is the pointer passed in (`none` for
`NULL`); `fin` and `headerToPayload` are passed explicitly (the declaration defaults them
to `true` and `false`).  `toPayload` is `headerToPayload` after the big-memory block. -/
def sendFrame (h : Host) (s : State) (opcode : Nat) (payload : Option (List Nat))
    (length : Nat) (fin : Bool) (headerToPayload : Bool) : Bool × State :=
  if s.client.tcp && !s.tcp.connected then (false, s)
  else if s.client.status ≠ WSclientsStatus_t.WSC_CONNECTED then (false, s)
  else
    let buffer : List Nat := List.replicate WEBSOCKETS_MAX_HEADER_SIZE 0
    -- calculate header Size
    let headerSize : Nat :=
      if length < 126 then 2
      else if length < 0xFFFF then 4
      else 10
    let headerSize : Nat := if s.client.cIsClient then headerSize + 4 else headerSize
    -- WEBSOCKETS_USE_BIG_MEM: try to send data in one TCP package
    let size := (length + WEBSOCKETS_MAX_HEADER_SIZE) % 2 ^ 32
    let tryPack := h.useBigMem && !headerToPayload
      && (decide (length > 0) && decide (length < 1400)) && decide (h.freeHeap > 6000)
    let useInternBuffer := tryPack && h.mallocOk size
    let toPayload := headerToPayload || useInternBuffer
    let payloadPtr : Option (List Nat) :=
      if useInternBuffer then
        some (writeAt ((List.range size).map h.junk) WEBSOCKETS_MAX_HEADER_SIZE
          ((payload.getD []).take length))
      else payload
    -- if we use a Intern Buffer we can modify the data: a random mask key
    let maskKey : List Nat :=
      if s.client.cIsClient && useInternBuffer then
        [h.random s.rngCalls % 256, h.random (s.rngCalls + 1) % 256,
          h.random (s.rngCalls + 2) % 256, h.random (s.rngCalls + 3) % 256]
      else [0x00, 0x00, 0x00, 0x00]
    let hdr := (createHeader opcode length s.client.cIsClient maskKey fin).1
    -- set Header Pointer, createHeader(headerPtr, ...)
    let payloadPtr : Option (List Nat) :=
      if toPayload then
        payloadPtr.map (fun p => writeAt p (WEBSOCKETS_MAX_HEADER_SIZE - headerSize) hdr)
      else payloadPtr
    let buffer : List Nat := if toPayload then buffer else writeAt buffer 0 hdr
    let payloadPtr : Option (List Nat) :=
      if s.client.cIsClient && useInternBuffer then
        payloadPtr.map (fun p =>
          xorMask (fun i => maskKey.getD i 0)
            (if toPayload then WEBSOCKETS_MAX_HEADER_SIZE else 0) length p)
      else payloadPtr
    -- the calls made so far: the frame itself and the four `random` calls
    let s1 : State :=
      { client := s.client, tcp := s.tcp, polls := s.polls
        trace := s.trace ++ [Event.frame opcode payload length fin headerToPayload]
        rngCalls := if s.client.cIsClient && useInternBuffer then s.rngCalls + 4 else s.rngCalls }
    sendFrameWrite h s1 toPayload payloadPtr buffer headerSize length

/-- The virtual `clientDisconnect(client)`: recorded, and the connection record changes as
the host says. -/
def localDisconnect (h : Host) (s : State) : State :=
  log { s with client := h.disconnect s.client } Event.disconnected

/-- `WebSockets::clientDisconnect(client, code, reason, reasonLen)` (lines 111-131); `code`
is a `uint16_t`. -/
def clientDisconnect (h : Host) (s : State) (code : Nat) (reason : Option (List Nat))
    (reasonLen : Nat) : State :=
  let s := log s (Event.closeReq code)
  let s :=
    if s.client.status = WSclientsStatus_t.WSC_CONNECTED ∧ code ≠ 0 then
      match reason with
      | some r => (sendFrame h s WSop_close (some r) reasonLen true false).2
      | none =>
        (sendFrame h s WSop_close (some [(code >>> 8) &&& 0xFF, code &&& 0xFF]) 2 true false).2
    else s
  localDisconnect h s

/-! ## Timed I/O: `readCb` -/

/-- The `while (n > 0)` loop of `WebSockets::readCb` (lines 829-888).  `out + off` is the
moving pointer.  `tcp->read(out, n)` hands over `min n available` bytes.  The loop yields
when nothing is available and after every read that leaves bytes to read; when no
observation is left the transport stays silent until the inactivity timeout ends the loop
with a failure.  The result is the success flag, the memory behind `out`, and the transport. -/
def readLoop (tmo : Nat) (hasTcp : Bool) :
    List Poll → Tcp → List Nat → Nat → Nat → Nat → Bool × List Nat × Tcp × List Poll
  | polls, tcp, out, off, n, t =>
    if n = 0 then (true, out, tcp, polls)
    else if !hasTcp then (false, out, tcp, polls)
    else if !tcp.connected then (false, out, tcp, polls)
    else if elapsed tcp.now t > tmo then (false, out, tcp, polls)
    else if tcp.inbuf.length = 0 then
      match polls with
      | [] => (false, out, tcp, [])
      | p :: ps => readLoop tmo hasTcp ps (advance p tcp) out off n t
    else
      let len := min n tcp.inbuf.length
      let out1 := writeAt out off (tcp.inbuf.take len)
      let tcp1 : Tcp := { tcp with inbuf := tcp.inbuf.drop len }
      if n - len > 0 then
        match polls with
        | [] => (false, out1, tcp1, [])
        | p :: ps => readLoop tmo hasTcp ps (advance p tcp1) out1 (off + len) (n - len) tcp.now
      else (true, out1, tcp1, polls)

/-- `WebSockets::readCb(client, out, n, cb)` (lines 824-898): the loop, then the callback with
the outcome (`cb` is never null at the two call sites), then the closing yield on success.
The callback receives the memory behind `out` as the loop left it. -/
def readCb (h : Host) (s : State) (dst : Dst) (out : List Nat) (off n : Nat)
    (cb : State → List Nat → Bool → Except Fault State) : Except Fault (Bool × State) :=
  let s := log s (Event.read dst n)
  let r := readLoop h.tcpTimeout s.client.tcp s.polls s.tcp out off n s.tcp.now
  let s := { s with tcp := r.2.2.1, polls := r.2.2.2 }
  if r.1 then
    match cb s r.2.1 true with
    | Except.error e => Except.error e
    | Except.ok s => Except.ok (true, yield s)
  else
    match cb s r.2.1 false with
    | Except.error e => Except.error e
    | Except.ok s => Except.ok (false, s)

/-! ## Dispatcher: `handleWebsocketPayloadCb` -/

/-- Lines 645-657 of `handleWebsocketPayloadCb`: the terminator store
`payload[payloadLen] = 0x00` and the unmasking loop.  Every index touched is checked
against the buffer: a store or load outside it, or through `NULL`, is `Fault.bounds`. -/
def unmaskPayload (c : WSclient_t) (payload : Option (List Nat)) :
    Except Fault (Option (List Nat)) :=
  let header := c.cWsHeaderDecode
  if header.payloadLen > 0 then
    match payload with
    | none => Except.error Fault.bounds
    | some p =>
      if header.payloadLen < p.length then
        let p := p.set header.payloadLen 0x00
        if header.mask then
          -- decode XOR
          Except.ok (some (xorMask (fun j => c.cWsHeader.getD (header.maskKey + j) 0) 0
            header.payloadLen p))
        else Except.ok (some p)
      else Except.error Fault.bounds
  else Except.ok payload

/-- Lines 688-693 of `handleWebsocketPayloadCb`: the peer's close code
`reasonCode = payload[0] << 8 | payload[1]` (a `uint16_t`), read only when
`payloadLen >= 2`; both loads are checked against the buffer. -/
def closeReasonCode (header : WSMessageHeader_t) (payload : Option (List Nat)) :
    Except Fault Nat :=
  if header.payloadLen ≥ 2 then
    match payload with
    | none => Except.error Fault.bounds
    | some p =>
      match p.get? 0, p.get? 1 with
      | some a, some b => Except.ok ((a <<< 8 ||| b) % 2 ^ 16)
      | _, _ => Except.error Fault.bounds
  else Except.ok 1000

/-- The `switch (header->opCode)` of `handleWebsocketPayloadCb` (lines 659-710). -/
def dispatch (h : Host) (s : State) (payload : Option (List Nat)) : Except Fault State :=
  let header := s.client.cWsHeaderDecode
  if header.opCode = WSop_text then
    Except.ok (log s (Event.message header.opCode payload header.payloadLen header.fin))
  else if header.opCode = WSop_binary ∨ header.opCode = WSop_continuation then
    Except.ok (log s (Event.message header.opCode payload header.payloadLen header.fin))
  else if header.opCode = WSop_ping then
    -- send pong back
    let s := (sendFrame h s WSop_pong payload header.payloadLen true false).2
    Except.ok (log s (Event.message header.opCode payload header.payloadLen header.fin))
  else if header.opCode = WSop_pong then
    let s := { s with client := { s.client with pongReceived := true } }
    Except.ok (log s (Event.message header.opCode payload header.payloadLen header.fin))
  else if header.opCode = WSop_close then
    match closeReasonCode header payload with
    | Except.error e => Except.error e
    | Except.ok _ => Except.ok (clientDisconnect h s 1000 none 0)
  else
    Except.ok (clientDisconnect h s 1002 none 0)

/-- `WebSockets::handleWebsocketPayloadCb(client, ok, payload)` (lines 639-732). -/
def handleWebsocketPayloadCb (h : Host) (s : State) (ok : Bool) (payload : Option (List Nat)) :
    Except Fault State :=
  if ok then
    match unmaskPayload s.client payload with
    | Except.error e => Except.error e
    | Except.ok payload =>
      match dispatch h s payload with
      | Except.error e => Except.error e
      | Except.ok s =>
        let s := if payload.isSome then log s Event.free else s
        -- reset input
        Except.ok { s with client := { s.client with cWsRXsize := 0 } }
  else
    let s := if payload.isSome then log s Event.free else s
    Except.ok (clientDisconnect h s 1002 none 0)

/-! ## Receive state machine -/

/-- `WebSockets::headerDone` (lines 442-453). -/
def headerDone (s : State) : State :=
  { s with client := { s.client with status := WSclientsStatus_t.WSC_CONNECTED, cWsRXsize := 0 } }

/-- `WebSockets::handleWebsocketWaitFor(client, size)` (lines 472-517).  `k` is
`server->handleWebsocketCb`, which the read callback re-enters. -/
def handleWebsocketWaitFor (h : Host) (k : State → Except Fault State) (s : State)
    (size : Nat) : Except Fault (Bool × State) :=
  if !s.client.tcp || !s.tcp.connected then Except.ok (false, s)
  else if size > WEBSOCKETS_MAX_HEADER_SIZE then Except.ok (false, s)
  else if s.client.cWsRXsize ≥ size then Except.ok (true, s)
  else
    match readCb h s (Dst.header s.client.cWsRXsize) s.client.cWsHeader s.client.cWsRXsize
        (size - s.client.cWsRXsize)
        (fun s1 mem ok =>
          let s1 := { s1 with client := { s1.client with cWsHeader := mem } }
          if ok then
            k { s1 with client := { s1.client with cWsRXsize := size } }
          else
            -- timeout or error
            Except.ok (clientDisconnect h
              { s1 with client := { s1.client with cWsRXsize := 0 } } 1002 none 0)) with
    | Except.error e => Except.error e
    | Except.ok r => Except.ok (false, r.2)

/-- Lines 617-636 of `handleWebsocketCb`: acquire the payload buffer and read the payload,
or dispatch at once when the payload is empty. -/
def receivePayload (h : Host) (s : State) : Except Fault State :=
  let header := s.client.cWsHeaderDecode
  if header.payloadLen > 0 then
    -- if text data we need one more
    let size := (header.payloadLen + 1) % 2 ^ 32
    if h.mallocOk size then
      let s := log s (Event.malloc size true)
      match readCb h s Dst.payload ((List.range size).map h.junk) 0 header.payloadLen
          (fun s1 mem ok => handleWebsocketPayloadCb h s1 ok (some mem)) with
      | Except.error e => Except.error e
      | Except.ok r => Except.ok r.2
    else
      Except.ok (clientDisconnect h (log s (Event.malloc size false)) 1011 none 0)
  else
    handleWebsocketPayloadCb h s true none

/-- Lines 585-636 of `handleWebsocketCb`: the report of the decoded header, the size check,
the wait for the mask key and the payload.  `off` is `buffer - client->cWsHeader` and
`headerLen` the bytes required so far. -/
def afterLength (h : Host) (k : State → Except Fault State) (s : State) (off headerLen : Nat) :
    Except Fault State :=
  let hd := s.client.cWsHeaderDecode
  let s := log s (Event.decoded hd.fin hd.rsv1 hd.rsv2 hd.rsv3 hd.opCode hd.mask hd.payloadLen)
  if s.client.cWsHeaderDecode.payloadLen > h.maxDataSize then
    Except.ok (clientDisconnect h s 1009 none 0)
  else if s.client.cWsHeaderDecode.mask then
    match handleWebsocketWaitFor h k s (headerLen + 4) with
    | Except.error e => Except.error e
    | Except.ok (false, s) => Except.ok s
    | Except.ok (true, s) =>
      receivePayload h
        { s with client := { s.client with
            cWsHeaderDecode := { s.client.cWsHeaderDecode with maskKey := off } } }
  else receivePayload h s

/-- Lines 538-548 of `handleWebsocketCb`: split the first 2 bytes into the header slot. -/
def splitFirstBytes (c : WSclient_t) : WSclient_t :=
  let b0 := c.cWsHeader.getD 0 0
  let b1 := c.cWsHeader.getD 1 0
  { c with cWsHeaderDecode := { c.cWsHeaderDecode with
      fin := ((b0 >>> 7) &&& 0x01) != 0
      rsv1 := ((b0 >>> 6) &&& 0x01) != 0
      rsv2 := ((b0 >>> 5) &&& 0x01) != 0
      rsv3 := ((b0 >>> 4) &&& 0x01) != 0
      opCode := b0 &&& 0x0F
      mask := ((b1 >>> 7) &&& 0x01) != 0
      payloadLen := b1 &&& 0x7F } }

/-- Line 559: `buffer[0] << 8 | buffer[1]`, stored in a `size_t`. -/
def length16 (buffer : List Nat) : Nat :=
  (buffer.getD 0 0 <<< 8 ||| buffer.getD 1 0) % 2 ^ 32

/-- Lines 572-580: the 64 bit length; `0xFFFFFFFF` ("really too big!") when one of its upper
four bytes is not zero, else the lower four bytes, stored in a `size_t`. -/
def length64 (buffer : List Nat) : Nat :=
  if buffer.getD 0 0 ≠ 0 ∨ buffer.getD 1 0 ≠ 0 ∨ buffer.getD 2 0 ≠ 0 ∨ buffer.getD 3 0 ≠ 0 then
    0xFFFFFFFF
  else
    (buffer.getD 4 0 <<< 24 ||| buffer.getD 5 0 <<< 16 ||| buffer.getD 6 0 <<< 8
      ||| buffer.getD 7 0) % 2 ^ 32

/-- Store `header->payloadLen`. -/
def setPayloadLen (s : State) (len : Nat) : State :=
  { s with client := { s.client with
      cWsHeaderDecode := { s.client.cWsHeaderDecode with payloadLen := len } } }

/-- `WebSockets::handleWebsocketCb(client)` (lines 519-637).  The function re-enters itself
from the read callback of `handleWebsocketWaitFor`; the first argument bounds the depth of
that re-entry (`Fault.fuel` when it is used up). -/
def handleWebsocketCb (h : Host) : Nat → State → Except Fault State
  | 0, _ => Except.error Fault.fuel
  | fuel + 1, s =>
    if !s.client.tcp || !s.tcp.connected then Except.ok s
    else
      let k := handleWebsocketCb h fuel
      match handleWebsocketWaitFor h k s 2 with
      | Except.error e => Except.error e
      | Except.ok (false, s) => Except.ok s
      | Except.ok (true, s) =>
        -- split first 2 bytes in the data
        let s := { s with client := splitFirstBytes s.client }
        if s.client.cWsHeaderDecode.payloadLen = 126 then
          match handleWebsocketWaitFor h k s (2 + 2) with
          | Except.error e => Except.error e
          | Except.ok (false, s) => Except.ok s
          | Except.ok (true, s) =>
            let buffer := s.client.cWsHeader.drop 2
            let s := setPayloadLen s (length16 buffer)
            afterLength h k s (2 + 2) (2 + 2)
        else if s.client.cWsHeaderDecode.payloadLen = 127 then
          -- read 64bit integer as length
          match handleWebsocketWaitFor h k s (2 + 8) with
          | Except.error e => Except.error e
          | Except.ok (false, s) => Except.ok s
          | Except.ok (true, s) =>
            let buffer := s.client.cWsHeader.drop 2
            let s := setPayloadLen s (length64 buffer)
            afterLength h k s (2 + 8) (2 + 8)
        else afterLength h k s 2 2

/-- `WebSockets::handleWebsocket(client)` (lines 459-465). -/
def handleWebsocket (h : Host) (fuel : Nat) (s : State) : Except Fault State :=
  if s.client.cWsRXsize = 0 then handleWebsocketCb h fuel s else Except.ok s

/-! ## Derived notions used to state the properties -/

/-- The number of header bytes up to the end of the length field, as byte 1 announces it
(lines 550-583): `2`, `2 + 2` for the marker 126, `2 + 8` for the marker 127. -/
def lengthEnd (hdr : List Nat) : Nat :=
  if hdr.getD 1 0 &&& 0x7F = 126 then 2 + 2
  else if hdr.getD 1 0 &&& 0x7F = 127 then 2 + 8
  else 2

/-- The payload length lines 547-583 leave in `header->payloadLen` for the accumulator
content `hdr`. -/
def declaredLen (hdr : List Nat) : Nat :=
  if hdr.getD 1 0 &&& 0x7F = 126 then length16 (hdr.drop 2)
  else if hdr.getD 1 0 &&& 0x7F = 127 then length64 (hdr.drop 2)
  else hdr.getD 1 0 &&& 0x7F

/-- The connection record after lines 538-583: the first two bytes split and the payload
length stored. -/
def decodeLength (c : WSclient_t) : WSclient_t :=
  { splitFirstBytes c with
    cWsHeaderDecode :=
      { (splitFirstBytes c).cWsHeaderDecode with payloadLen := declaredLen c.cWsHeader } }

/-- The number of header bytes of the frame whose first bytes are `hdr`: the length field
and, when the mask bit is set, the 4 bytes of the mask key. -/
def headerEnd (hdr : List Nat) : Nat :=
  if ((hdr.getD 1 0 >>> 7) &&& 0x01) != 0 then lengthEnd hdr + 4 else lengthEnd hdr

/-- A connected client holds a complete frame header in its accumulator. -/
structure HeaderReady (s : State) : Prop where
  tcp : s.client.tcp = true
  connected : s.tcp.connected = true
  complete : headerEnd s.client.cWsHeader ≤ s.client.cWsRXsize

/-- The event lines 585-594 report for the accumulator content of `c`. -/
def decodedEvent (c : WSclient_t) : Event :=
  Event.decoded (decodeLength c).cWsHeaderDecode.fin (decodeLength c).cWsHeaderDecode.rsv1
    (decodeLength c).cWsHeaderDecode.rsv2 (decodeLength c).cWsHeaderDecode.rsv3
    (decodeLength c).cWsHeaderDecode.opCode (decodeLength c).cWsHeaderDecode.mask
    (decodeLength c).cWsHeaderDecode.payloadLen

/-- The loop of the payload read `handleWebsocketCb` issues from state `s` for a frame of
`len` bytes (lines 620-631): a fresh buffer of `len + 1` bytes, `len` bytes wanted. -/
def payloadRead (h : Host) (s : State) (len : Nat) : Bool × List Nat × Tcp × List Poll :=
  readLoop h.tcpTimeout s.client.tcp s.polls s.tcp
    ((List.range ((len + 1) % 2 ^ 32)).map h.junk) 0 len s.tcp.now

/-- The payload of the frame in `s` is received: nothing to do for an empty payload, else
the buffer is acquired and the payload read succeeds. -/
def PayloadReceived (h : Host) (s : State) : Prop :=
  0 < declaredLen s.client.cWsHeader →
    h.mallocOk ((declaredLen s.client.cWsHeader + 1) % 2 ^ 32) = true
      ∧ (payloadRead h s (declaredLen s.client.cWsHeader)).1 = true

/-- The calls that acquire and fill the payload buffer of a frame of `len` bytes. -/
def acquireEvents (len : Nat) : List Event :=
  if 0 < len then [Event.malloc ((len + 1) % 2 ^ 32) true, Event.read Dst.payload len] else []

/-- The call that frees the payload buffer of a frame of `len` bytes. -/
def releaseEvents (len : Nat) : List Event :=
  if 0 < len then [Event.free] else []

/-- The payload pointer the dispatcher gets for the frame in `s`: `NULL` for an empty
payload, else the buffer the payload read filled, with the terminator stored and, for a
masked frame, the XOR loop run with the key at the end of the length field. -/
def deliveredPayload (h : Host) (s : State) : Option (List Nat) :=
  if 0 < declaredLen s.client.cWsHeader then
    some
      (if (decodeLength s.client).cWsHeaderDecode.mask then
        xorMask (fun j => s.client.cWsHeader.getD (lengthEnd s.client.cWsHeader + j) 0) 0
          (declaredLen s.client.cWsHeader)
          ((payloadRead h s (declaredLen s.client.cWsHeader)).2.1.set
            (declaredLen s.client.cWsHeader) 0x00)
      else
        (payloadRead h s (declaredLen s.client.cWsHeader)).2.1.set
          (declaredLen s.client.cWsHeader) 0x00)
  else none

/-- The state in which the dispatcher runs for the frame in `s`: the header slot filled, the
transport as the payload read left it, the trace extended by the decode report and the
acquisition of the payload. -/
def atDispatch (h : Host) (s : State) : State :=
  { client :=
      { decodeLength s.client with
        cWsHeaderDecode :=
          { (decodeLength s.client).cWsHeaderDecode with
            maskKey :=
              if (decodeLength s.client).cWsHeaderDecode.mask then lengthEnd s.client.cWsHeader
              else s.client.cWsHeaderDecode.maskKey } }
    tcp :=
      if 0 < declaredLen s.client.cWsHeader then
        (payloadRead h s (declaredLen s.client.cWsHeader)).2.2.1
      else s.tcp
    polls :=
      if 0 < declaredLen s.client.cWsHeader then
        (payloadRead h s (declaredLen s.client.cWsHeader)).2.2.2
      else s.polls
    trace := s.trace ++ [decodedEvent s.client] ++ acquireEvents (declaredLen s.client.cWsHeader)
    rngCalls := s.rngCalls }

/-- What `handleWebsocketPayloadCb` and `readCb` do after the dispatcher returned `sD`
(lines 712-718 and 895): free the payload, reset the accumulator, yield after a read. -/
def afterDispatch (len : Nat) (sD : State) : State :=
  if 0 < len then
    yield { log sD Event.free with client := { sD.client with cWsRXsize := 0 } }
  else { sD with client := { sD.client with cWsRXsize := 0 } }

/-- The close frame `clientDisconnect(client, code)` sends when it is given no reason
(lines 123-126): opcode close, the two bytes of `code`, most significant first. -/
def closeFrame (code : Nat) : Event :=
  Event.frame WSop_close (some [(code >>> 8) &&& 0xFF, code &&& 0xFF]) 2 true false

/-- What `clientDisconnect(client, code)` with a non-zero `code` and no reason adds to the
trace: the call itself, the close frame when `sendFrame` gets past its guards (`sends`),
and the local disconnect. -/
def closeEvents (sends : Bool) (code : Nat) : List Event :=
  [Event.closeReq code] ++ (if sends then [closeFrame code] else []) ++ [Event.disconnected]

/-- May the stages after the header (lines 617-732) add this event?  They may add anything
but a read into the accumulator, a decode report and a close with code 1009. -/
def Event.isPayloadStage : Event → Bool
  | Event.read (Dst.header _) _ => false
  | Event.decoded _ _ _ _ _ _ _ => false
  | Event.closeReq code => code != 1009
  | _ => true

/-- The trace of `s'` is the trace of `s` followed by events that all satisfy `P`. -/
def Grows (P : Event → Bool) (s s' : State) : Prop :=
  ∃ evs, s'.trace = s.trace ++ evs ∧ evs.all P = true

/-- The loop of the read `handleWebsocketWaitFor(client, size)` issues from state `s` when
the accumulator holds fewer than `size` bytes (line 495): `size - cWsRXsize` bytes wanted,
stored from `cWsHeader[cWsRXsize]` on. -/
def headerRead (h : Host) (s : State) (size : Nat) : Bool × List Nat × Tcp × List Poll :=
  readLoop h.tcpTimeout s.client.tcp s.polls s.tcp s.client.cWsHeader s.client.cWsRXsize
    (size - s.client.cWsRXsize) s.tcp.now

/-- The state in which the callback of that read runs, before it sets `cWsRXsize`: the
accumulator and the transport as the loop left them, the read recorded. -/
def afterHeaderRead (h : Host) (s : State) (size : Nat) : State :=
  { client := { s.client with cWsHeader := (headerRead h s size).2.1 }
    tcp := (headerRead h s size).2.2.1
    polls := (headerRead h s size).2.2.2
    trace := s.trace ++ [Event.read (Dst.header s.client.cWsRXsize) (size - s.client.cWsRXsize)]
    rngCalls := s.rngCalls }

/-- Store `client->cWsRXsize`. -/
def setRXsize (s : State) (n : Nat) : State :=
  { s with client := { s.client with cWsRXsize := n } }

/-- The state after lines 538-594: the header slot filled from the accumulator and the
decoded header reported. -/
def reported (s : State) : State :=
  log { s with client := decodeLength s.client } (decodedEvent s.client)

/-- Every event but a close with code 1009. -/
def Event.notTooBig : Event → Bool
  | Event.closeReq code => code != 1009
  | _ => true

/-- Every event. -/
def Event.any : Event → Bool := fun _ => true

/-- The events a run added to the trace `before`. -/
def newEvents (before : List Event) (s : State) : List Event :=
  s.trace.drop before.length

/-- Is the event a read into the accumulator? -/
def Event.isHeaderRead : Event → Bool
  | Event.read (Dst.header _) _ => true
  | _ => false

/-- Is the event a frame handed to the transport? -/
def Event.isFrame : Event → Bool
  | Event.frame _ _ _ _ _ => true
  | _ => false

/-- Is the event a call of the message callback? -/
def Event.isMessage : Event → Bool
  | Event.message _ _ _ _ => true
  | _ => false

/-- Is the event a close of the connection (either `clientDisconnect`)? -/
def Event.isClose : Event → Bool
  | Event.closeReq _ => true
  | Event.disconnected => true
  | _ => false

/-- Is the event the acquisition of a payload buffer or a payload read? -/
def Event.isPayloadIO : Event → Bool
  | Event.malloc _ _ => true
  | Event.read Dst.payload _ => true
  | _ => false

/-! ### Concrete hosts and connections, for the worked instances -/

/-- A host with the usual configuration: 15 KiB maximum payload, 5 s inactivity timeout, no
big-memory path, an allocator that always succeeds, and a local disconnect that drops the
transport and resets the connection record. -/
def demoHost : Host :=
  { maxDataSize := 15 * 1024, tcpTimeout := 5000, useBigMem := false, freeHeap := 0
    mallocOk := fun _ => true, junk := fun _ => 0xAA, random := fun n => n
    disconnect := fun c =>
      { c with tcp := false, status := WSclientsStatus_t.WSC_NOT_CONNECTED, cWsRXsize := 0 } }

/-- A connected server-side connection whose accumulator holds `hdr` with `rx` valid bytes
and whose transport has the bytes `inbuf` ready. -/
def demoState (hdr : List Nat) (rx : Nat) (inbuf : List Nat) : State :=
  { client :=
      { tcp := true, status := WSclientsStatus_t.WSC_CONNECTED, cIsClient := false
        cWsRXsize := rx, cWsHeader := hdr
        cWsHeaderDecode :=
          { fin := false, rsv1 := false, rsv2 := false, rsv3 := false, opCode := 0
            mask := false, payloadLen := 0, maskKey := 0 }
        pingInterval := 0, pongTimeout := 0, disconnectTimeoutCount := 0, lastPing := 0
        pongTimeoutCount := 0, pongReceived := false }
    tcp := { now := 1000, connected := true, inbuf := inbuf, sent := [], accept := 1460 }
    polls := [], trace := [], rngCalls := 0 }

/-- The masked text frame "hi" (mask key 01 02 03 04): its 6 header bytes are in the
accumulator, its 2 masked payload bytes wait in the transport. -/
def maskedHi : State :=
  demoState [0x81, 0x82, 1, 2, 3, 4, 0, 0, 0, 0, 0, 0, 0, 0] 6 [0x68 ^^^ 1, 0x69 ^^^ 2]

/-- The unmasked ping frame with payload "hi". -/
def pingHi : State :=
  demoState [0x89, 0x02, 0, 0, 0, 0, 0, 0, 0, 0, 0, 0, 0, 0] 2 [0x68, 0x69]

/-- The unmasked close frame with payload 03 E8 (close code 1000). -/
def close1000 : State :=
  demoState [0x88, 0x02, 0, 0, 0, 0, 0, 0, 0, 0, 0, 0, 0, 0] 2 [0x03, 0xE8]

/-- An empty frame with the reserved opcode 0x3. -/
def reserved3 : State :=
  demoState [0x83, 0x00, 0, 0, 0, 0, 0, 0, 0, 0, 0, 0, 0, 0] 2 []

/-- A masked binary header declaring 16384 bytes (more than the 15 KiB of `demoHost`): the
4 bytes up to the length field are accumulated, the mask key has not arrived. -/
def oversizeMasked : State :=
  demoState [0x82, 0xFE, 0x40, 0x00, 0, 0, 0, 0, 0, 0, 0, 0, 0, 0] 4 []

/-- A binary header with the marker 127 whose 64 bit length is 2^32 (upper half 1). -/
def upperLength : State :=
  demoState [0x82, 0x7F, 0, 0, 0, 1, 0, 0, 0, 0, 0, 0, 0, 0] 10 []

/-- The host `demoHost` with `WEBSOCKETS_MAX_DATA_SIZE` set to `0xFFFFFFFF`. -/
def maxHost : Host := { demoHost with maxDataSize := 0xFFFFFFFF }

/-- What a call of `handleWebsocketWaitFor(client, size)` that has to read amounts to for the
caller `handleWebsocketCb` (lines 495-513 and the `return` that follows the call): the read
of the missing bytes from state `s`, then either the re-entered `handleWebsocketCb` (`k`)
with `cWsRXsize = size`, or the close with code 1002. -/
def afterWait (h : Host) (k : State → Except Fault State) (s : State) (size : Nat) :
    Except Fault State :=
  if (headerRead h s size).1 then
    match k (setRXsize (afterHeaderRead h s size) size) with
    | Except.error e => Except.error e
    | Except.ok s2 => Except.ok (yield s2)
  else
    Except.ok (clientDisconnect h (setRXsize (afterHeaderRead h s size) 0) 1002 none 0)

/-- The number of header bytes `handleWebsocketCb` asks for before it leaves the header, for
a frame of `n` header bytes: all of them, but not the 4 bytes of the mask key when the
declared length exceeds `WEBSOCKETS_MAX_DATA_SIZE` (line 597 comes before line 605). -/
def requiredHeaderBytes (h : Host) (length : Nat) (mask : Bool) (n : Nat) : Nat :=
  if mask = true ∧ h.maxDataSize < length then n - 4 else n

/-- The 14 header bytes `createHeader` writes for a masked text frame of 65536 bytes (mask
key 01 02 03 04) in the accumulator, the first 10 of them accumulated. -/
def masked65536 : State :=
  demoState (createHeader WSop_text 65536 true [1, 2, 3, 4] true).1 10 []

/-- The 8 header bytes `createHeader` writes for a masked text frame of 126 bytes (mask key
01 02 03 04) accumulated. -/
def masked126 : State :=
  demoState ((createHeader WSop_text 126 true [1, 2, 3, 4] true).1 ++ [0, 0, 0, 0, 0, 0]) 8 []

/-- The events one call of `handleWebsocketCb` adds to the trace, when the call returns. -/
def runEvents (h : Host) (fuel : Nat) (s : State) : Option (List Event) :=
  match handleWebsocketCb h fuel s with
  | Except.ok s' => some (newEvents s.trace s')
  | Except.error _ => none

/-! ### Heartbeat -/

/-- `WebSockets::enableHeartbeat` (lines 987-996).  The three parameters are a `uint32_t`,
a `uint32_t` and a `uint8_t`; the client pointer is never null here. -/
def enableHeartbeat (s : State) (pingInterval pongTimeout disconnectTimeoutCount : Nat) :
    State :=
  { s with client := { s.client with
      pingInterval := pingInterval
      pongTimeout := pongTimeout
      disconnectTimeoutCount := disconnectTimeoutCount
      pongReceived := false } }

/-- Lines 1018-1019 of `handleHBTimeout`: `client->pongTimeoutCount++` and
`client->lastPing = millis() - client->pingInterval - 500`.  The type of the field
`pongTimeoutCount` is declared outside the file: `w` is its width in bits, so that the
increment is modulo `2 ^ w`; `lastPing` and the clock are 32 bits wide. -/
def countTimeout (w : Nat) (now : Nat) (c : WSclient_t) : WSclient_t :=
  { c with
    pongTimeoutCount := (c.pongTimeoutCount + 1) % 2 ^ w
    lastPing := elapsed (elapsed now c.pingInterval) 500 }

/-- Lines 1024-1029 of `handleHBTimeout`: the virtual local disconnect when the threshold
is non-zero and reached. -/
def evictOnThreshold (h : Host) (s : State) : State :=
  if s.client.disconnectTimeoutCount ≠ 0
      ∧ s.client.pongTimeoutCount ≥ s.client.disconnectTimeoutCount then
    localDisconnect h s
  else s

/-- `WebSockets::handleHBTimeout` (lines 1002-1033).  `millis()` is the clock of the
transport record; `pi` is a `uint32_t`. -/
def handleHBTimeout (h : Host) (w : Nat) (s : State) : State :=
  if s.client.pingInterval ≠ 0 then
    -- if heartbeat is enabled
    if s.client.pongReceived then
      { s with client := { s.client with pongTimeoutCount := 0 } }
    else if elapsed s.tcp.now s.client.lastPing > s.client.pongTimeout then
      -- pong not received in time
      evictOnThreshold h { s with client := countTimeout w s.tcp.now s.client }
    else s
  else s

/-- The same state some time later: only the transport and the script moved on. -/
def later (s : State) (tcp : Tcp) (polls : List Poll) : State :=
  { s with tcp := tcp, polls := polls }

/-- A connection at time 1000 whose last ping was sent at time 0. -/
def hbStart : State := demoState [0, 0, 0, 0, 0, 0, 0, 0, 0, 0, 0, 0, 0, 0] 0 []

/-- The transport at time `now`, connected and idle. -/
def idleAt (now : Nat) : Tcp :=
  { now := now, connected := true, inbuf := [], sent := [], accept := 1460 }

/-- The state in which the first timeout check of a connection runs: heartbeat enabled with
interval `T`, pong timeout `P` and threshold 2, the transport and the script moved on. -/
def firstCheck (s : State) (T P : Nat) (tcp : Tcp) (polls : List Poll) : State :=
  later (enableHeartbeat s T P 2) tcp polls

/-- A state whose decoded-header slot holds the header `hd`. -/
def withHeader (s : State) (hd : WSMessageHeader_t) : State :=
  { s with client := { s.client with cWsHeaderDecode := hd } }

/-- A connection in `WSC_CONNECTED` status whose transport object exists but reports that
the peer is gone (`tcp->connected()` is false). -/
def deadPeer : State :=
  { demoState [0, 0, 0, 0, 0, 0, 0, 0, 0, 0, 0, 0, 0, 0] 0 [] with
    tcp := { now := 1000, connected := false, inbuf := [], sent := [], accept := 1460 } }

/-- A binary header with the marker 126: its first 2 bytes are accumulated, the 2 bytes
00 7E of the extended length wait in the transport. -/
def waitingForLength : State :=
  demoState [0x82, 0x7E, 0, 0, 0, 0, 0, 0, 0, 0, 0, 0, 0, 0] 2 [0x00, 0x7E]

/-- A connected connection with an empty accumulator and a transport that has nothing to
hand over: the next time the code looks at the world, 6 seconds have passed and still no
byte has arrived. -/
def silent : State :=
  { demoState [0, 0, 0, 0, 0, 0, 0, 0, 0, 0, 0, 0, 0, 0] 0 [] with
    polls := [{ now := 7000, connected := true, arrive := [], accept := 1460 }] }

/-- What a run leaves to be seen from outside: the trace, the status of the connection and
the bytes the transport accepted; nothing when the run stopped on a fault. -/
def seen (r : Except Fault State) : Option (List Event × WSclientsStatus_t × List Nat) :=
  match r with
  | Except.ok s => some (s.trace, s.client.status, s.tcp.sent)
  | Except.error _ => none

/-- Modelled from the spec: the virtual `clientDisconnect(client)` of the server and client
classes, which is not in this file.  It ends the connection, and with it the receive state
is reset: "the connection is closed with code 1009 (message too big) and the state
resets".  Of the reset only the accumulator count matters here. -/
def ResetsOnClose (h : Host) : Prop :=
  ∀ c, (h.disconnect c).cWsRXsize = 0

/-- Does a read into the accumulator stay inside its 14 bytes?  Every other event passes. -/
def Event.insideHeader : Event → Bool
  | Event.read (Dst.header off) n => decide (off + n ≤ 14)
  | _ => true

/-- One step of the receive path from `s` to `s'`: a count of at most 14 stays at most 14,
and the trace grows by events that keep every header read inside the accumulator. -/
def Keeps (s s' : State) : Prop :=
  (s.client.cWsRXsize ≤ 14 → s'.client.cWsRXsize ≤ 14) ∧ Grows Event.insideHeader s s'

/-- What is asked of the virtual `clientDisconnect(client)`, which is not in this file: it
does not raise the accumulator count above 14. -/
def DisconnectKeepsCount (h : Host) : Prop :=
  ∀ c, c.cWsRXsize ≤ 14 → (h.disconnect c).cWsRXsize ≤ 14

/-! ### `write`: what the transport reports -/

/-- Does every `tcp->write` call that the loop of `WebSockets::write` makes report at most
the number of bytes it was offered?  The predicate follows the loop (lines 922-962) call by
call, with the same bookkeeping. -/
def writeHonest (tmo : Nat) (hasTcp : Bool) (out : List Nat) :
    List Poll → Tcp → Nat → Nat → Nat → Bool
  | polls, tcp, off, n, t =>
    if n = 0 then true
    else if !hasTcp then true
    else if !tcp.connected then true
    else if elapsed tcp.now t > tmo then true
    else
      let len := tcp.accept % 2 ^ 32
      let tcp1 : Tcp := { tcp with sent := tcp.sent ++ (out.drop off).take (min len n) }
      let off1 := if len ≠ 0 then off + len else off
      let n1 := if len ≠ 0 then (n + 2 ^ 32 - len) % 2 ^ 32 else n
      let t1 := if len ≠ 0 then tcp.now else t
      decide (len ≤ n) &&
        (if n1 > 0 then
          match polls with
          | [] => true
          | p :: ps => writeHonest tmo hasTcp out ps (advance p tcp1) off1 n1 t1
        else true)

/-- `size_t WebSockets::write(WSclient_t * client, uint8_t * out, size_t n)` with the two
null checks of lines 910-914: `client` says whether the client pointer is non-null (the
state then holds its record), a null `out` is `none`. -/
def writeChecked (h : Host) (client : Bool) (s : State) (out : Option (List Nat))
    (off n : Nat) : Nat × State :=
  match out with
  | none => (0, s)
  | some buf => if !client then (0, s) else write h s (some buf) off n

/-- A connection with the 4 bytes 88 02 03 E8 to send over a transport that takes 3 bytes
at the first call and, as the next observation shows, is gone after that. -/
def halfSent : State :=
  { demoState [0, 0, 0, 0, 0, 0, 0, 0, 0, 0, 0, 0, 0, 0] 0 [] with
    tcp := { now := 1000, connected := true, inbuf := [], sent := [], accept := 3 }
    polls := [{ now := 1001, connected := false, arrive := [], accept := 0 }] }

/-! ### Handshake key: `acceptKey`, `base64_encode` -/

/-- The bytes of an ASCII string. -/
def ascii (s : String) : List Nat := s.toList.map Char.toNat

/-- Rotate a 32 bit word left by `n` bits. -/
def rotl32 (n x : Nat) : Nat := ((x <<< n) ||| (x >>> (32 - n))) % 2 ^ 32

/-- The 4 bytes of a 32 bit word, most significant first. -/
def be32 (x : Nat) : List Nat :=
  [(x >>> 24) &&& 0xFF, (x >>> 16) &&& 0xFF, (x >>> 8) &&& 0xFF, x &&& 0xFF]

/-- The padding of SHA-1: the byte 80, zero bytes up to 56 modulo 64, and the length of the
message in bits as a 64 bit big-endian number. -/
def sha1Pad (msg : List Nat) : List Nat :=
  msg ++ [0x80] ++ List.replicate ((119 - msg.length % 64) % 64) 0
    ++ be32 ((8 * msg.length) >>> 32) ++ be32 ((8 * msg.length) % 2 ^ 32)

/-- The message schedule of SHA-1 for one 64 byte block: 80 words. -/
def sha1Schedule (block : List Nat) : List Nat :=
  (List.range 64).foldl
    (fun w t =>
      w ++ [rotl32 1 (w.getD (t + 13) 0 ^^^ w.getD (t + 8) 0 ^^^ w.getD (t + 2) 0
        ^^^ w.getD t 0)])
    ((List.range 16).map (fun i =>
      block.getD (4 * i) 0 <<< 24 ||| block.getD (4 * i + 1) 0 <<< 16
        ||| block.getD (4 * i + 2) 0 <<< 8 ||| block.getD (4 * i + 3) 0))

/-- One of the 80 rounds of SHA-1 on the working variables `a b c d e`. -/
def sha1Round (w : List Nat) (v : Nat × Nat × Nat × Nat × Nat) (t : Nat) :
    Nat × Nat × Nat × Nat × Nat :=
  let (a, b, c, d, e) := v
  let f :=
    if t < 20 then (b &&& c) ||| ((b ^^^ 0xFFFFFFFF) &&& d)
    else if t < 40 then b ^^^ c ^^^ d
    else if t < 60 then (b &&& c) ||| (b &&& d) ||| (c &&& d)
    else b ^^^ c ^^^ d
  let k :=
    if t < 20 then 0x5A827999
    else if t < 40 then 0x6ED9EBA1
    else if t < 60 then 0x8F1BBCDC
    else 0xCA62C1D6
  ((rotl32 5 a + f + e + k + w.getD t 0) % 2 ^ 32, a, rotl32 30 b, c, d)

/-- The compression of one 64 byte block into the hash value `hv`. -/
def sha1Block (hv : Nat × Nat × Nat × Nat × Nat) (block : List Nat) :
    Nat × Nat × Nat × Nat × Nat :=
  let v := (List.range 80).foldl (sha1Round (sha1Schedule block)) hv
  ((hv.1 + v.1) % 2 ^ 32, (hv.2.1 + v.2.1) % 2 ^ 32, (hv.2.2.1 + v.2.2.1) % 2 ^ 32,
    (hv.2.2.2.1 + v.2.2.2.1) % 2 ^ 32, (hv.2.2.2.2 + v.2.2.2.2) % 2 ^ 32)

/-- Modelled from the spec: the hash function behind `sha1(...)`, `esp_sha(SHA1, ...)` and
`SHA1Init`/`SHA1Update`/`SHA1Final` (lines 743-754), whose code is not in this file; the
spec names it `sha1`: the SHA-1 digest of the message, 20 bytes. -/
def sha1 (msg : List Nat) : List Nat :=
  let hv := (List.range ((sha1Pad msg).length / 64)).foldl
    (fun hv i => sha1Block hv (((sha1Pad msg).drop (64 * i)).take 64))
    (0x67452301, 0xEFCDAB89, 0x98BADCFE, 0x10325476, 0xC3D2E1F0)
  be32 hv.1 ++ be32 hv.2.1 ++ be32 hv.2.2.1 ++ be32 hv.2.2.2.1 ++ be32 hv.2.2.2.2

/-- The character of the Base64 alphabet for a 6 bit value. -/
def base64Char (n : Nat) : Nat :=
  if n < 26 then 65 + n
  else if n < 52 then 97 + (n - 26)
  else if n < 62 then 48 + (n - 52)
  else if n = 62 then 43
  else 47

/-- Modelled from the spec: what `base64_encode_block` followed by `base64_encode_blockend`
(lines 782-786) leave in the buffer, their code not being in this file; the spec names it
`base64`: the Base64 text of the bytes, 4 characters for every 3 bytes, padded with `=`. -/
def base64Text : List Nat → List Nat
  | a :: b :: c :: rest =>
    [base64Char (a >>> 2), base64Char (((a &&& 3) <<< 4) ||| (b >>> 4)),
      base64Char (((b &&& 15) <<< 2) ||| (c >>> 6)), base64Char (c &&& 63)] ++ base64Text rest
  | [a, b] =>
    [base64Char (a >>> 2), base64Char (((a &&& 3) <<< 4) ||| (b >>> 4)),
      base64Char ((b &&& 15) <<< 2), 61]
  | [a] => [base64Char (a >>> 2), base64Char ((a &&& 3) <<< 4), 61, 61]
  | [] => []

/-- Is the character white space (`isspace`)? -/
def isSpace (c : Nat) : Bool := c == 32 || (9 ≤ c && c ≤ 13)

/-- Modelled from the spec: `String::trim()` of the Arduino core, "trimmed of whitespace":
the string without its leading and trailing white space. -/
def trim (s : List Nat) : List Nat :=
  ((s.dropWhile isSpace).reverse.dropWhile isSpace).reverse

/-- `WebSockets::base64_encode(data, length)` (lines 769-798).  The buffer size is
`(length * 1.6f) + 1` converted to `size_t`, here `length * 16 / 10 + 1` (33 for the only
call in this file, with `length = 20`).  The text and its terminator must fit the buffer:
the result is `none` when they do not.  `"-FAIL-"` is returned when `malloc` fails. -/
def base64_encode (h : Host) (data : List Nat) (length : Nat) : Option (List Nat) :=
  let size := length * 16 / 10 + 1
  if h.mallocOk size then
    let text := base64Text (data.take length)
    if text.length + 1 ≤ size then some text else none
  else some (ascii "-FAIL-")

/-- The board the file is compiled for, as far as `acceptKey` tells boards apart: the three
branches `#ifdef ESP8266`, `#elif defined(ESP32)` and `#else` of lines 743-754. -/
inductive Board where
  | esp8266
  | esp32
  | other
  deriving DecidableEq, Repr

/-- `WebSockets::acceptKey(String & clientKey)` (lines 739-760).  The parameter is a
reference to the caller's string: the second component is that string after the call.  On
the ESP8266 and on the ESP32 the key and the GUID are concatenated in a temporary (lines
744 and 746); on every other board the GUID is appended to `clientKey` itself (line 749)
and `clientKey` is hashed. -/
def acceptKey (h : Host) (board : Board) (clientKey : List Nat) :
    Option (List Nat) × List Nat :=
  match board with
  | Board.esp8266 =>
    let sha1HashBin := sha1 (clientKey ++ ascii "258EAFA5-E914-47DA-95CA-C5AB0DC85B11")
    ((base64_encode h sha1HashBin 20).map trim, clientKey)
  | Board.esp32 =>
    let data := clientKey ++ ascii "258EAFA5-E914-47DA-95CA-C5AB0DC85B11"
    let sha1HashBin := sha1 data
    ((base64_encode h sha1HashBin 20).map trim, clientKey)
  | Board.other =>
    let clientKey := clientKey ++ ascii "258EAFA5-E914-47DA-95CA-C5AB0DC85B11"
    let sha1HashBin := sha1 clientKey
    ((base64_encode h sha1HashBin 20).map trim, clientKey)

/-! ### Delivery of the header bytes -/

/-- One observation per byte: the bytes `bytes` arrive one at a time, one at every look the
code takes at the world, while the clock, the connection status and the write window stay
as they are in `tcp`. -/
def trickle (tcp : Tcp) (bytes : List Nat) : List Poll :=
  bytes.map (fun b =>
    { now := tcp.now, connected := tcp.connected, arrive := [b], accept := tcp.accept })

/-- The bytes `bytes` reach the connection `s`: all of them are there for the first
`tcp->read` (`atOnce`), or they arrive one at a time (`trickle`), ahead of what the script
of `s` holds. -/
def delivered (atOnce : Bool) (s : State) (bytes : List Nat) : State :=
  if atOnce then { s with tcp := { s.tcp with inbuf := s.tcp.inbuf ++ bytes } }
  else { s with polls := trickle s.tcp bytes ++ s.polls }

/-- What a run leaves behind: the connection record and the trace, or the fault. -/
def outcome (r : Except Fault State) : Except Fault (WSclient_t × List Event) :=
  match r with
  | Except.ok s => Except.ok (s.client, s.trace)
  | Except.error e => Except.error e

/-- The connection after a successful `handleWebsocketWaitFor(client, size)` read that
stored `chunk` behind the bytes already accumulated (lines 495-507): the accumulator
filled, `cWsRXsize = size`, the read recorded. -/
def took (s : State) (size : Nat) (chunk : List Nat) : State :=
  { s with
    client := { s.client with
      cWsHeader := writeAt s.client.cWsHeader s.client.cWsRXsize chunk
      cWsRXsize := size }
    trace := s.trace
      ++ [Event.read (Dst.header s.client.cWsRXsize) (size - s.client.cWsRXsize)] }

/-- The first `cWsRXsize` bytes of the accumulator are the first bytes of `hdr`. -/
def Accumulated (s : State) (hdr : List Nat) : Prop :=
  ∀ i, i < s.client.cWsRXsize → s.client.cWsHeader[i]? = hdr[i]?

/-- An idle connection with an empty accumulator; the next thing the transport brings is
the masked payload of "hi" (mask key 01 02 03 04). -/
def idle : State :=
  { demoState [0, 0, 0, 0, 0, 0, 0, 0, 0, 0, 0, 0, 0, 0] 0 [] with
    polls := [{ now := 1000, connected := true, arrive := [0x68 ^^^ 1, 0x69 ^^^ 2],
                accept := 1460 }] }

/-! ### `sendFrame`: header size and internal buffer -/

/-- Lines 312-329 of `sendFrame`: the header size `sendFrame` computes for itself before it
calls `createHeader`. -/
def ownHeaderSize (cIsClient : Bool) (length : Nat) : Nat :=
  let headerSize : Nat :=
    if length < 126 then 2
    else if length < 0xFFFF then 4
    else 10
  if cIsClient then headerSize + 4 else headerSize

/-- Lines 331-348 of `sendFrame`: is the frame packed into an internal buffer of
`length + WEBSOCKETS_MAX_HEADER_SIZE` bytes (`useInternBuffer`)?  Only with
`WEBSOCKETS_USE_BIG_MEM`, a caller that did not reserve the header room, a payload of 1 to
1399 bytes, more than 6000 bytes of free heap and a successful `malloc`. -/
def useInternBuffer (h : Host) (length : Nat) (headerToPayload : Bool) : Bool :=
  (h.useBigMem && !headerToPayload
      && (decide (length > 0) && decide (length < 1400)) && decide (h.freeHeap > 6000))
    && h.mallocOk ((length + WEBSOCKETS_MAX_HEADER_SIZE) % 2 ^ 32)

/-- Lines 408-413 of `sendFrame`, without the internal buffer and with the header in
`buffer`: the `write` of the header. -/
def headerWrite (h : Host) (s : State) (opcode : Nat) (payload : Option (List Nat))
    (length : Nat) (fin : Bool) : Nat × State :=
  write h (log s (Event.frame opcode payload length fin false))
    (some (writeAt (List.replicate WEBSOCKETS_MAX_HEADER_SIZE 0) 0
      (createHeader opcode length s.client.cIsClient [0x00, 0x00, 0x00, 0x00] fin).1))
    0 (ownHeaderSize s.client.cIsClient length)

/-- Lines 415-422 of `sendFrame`: the `write` of the payload that follows the header. -/
def payloadWrite (h : Host) (s : State) (opcode : Nat) (payload : Option (List Nat))
    (length : Nat) (fin : Bool) : Nat × State :=
  write h (headerWrite h s opcode payload length fin).2 payload 0 length

/-- Does every `tcp->write` of the call `write(client, buf + off, n)` made in state `s`
report at most the count it was offered? -/
def honestWrite (h : Host) (s : State) (buf : List Nat) (off n : Nat) : Bool :=
  writeHonest h.tcpTimeout s.client.tcp buf s.polls s.tcp off n s.tcp.now

/-- A connected client-role connection whose transport takes, at every call, exactly what
the two writes of a text frame "hi" offer: 6 header bytes, then 2 payload bytes. -/
def clientSide : State :=
  { demoState [0, 0, 0, 0, 0, 0, 0, 0, 0, 0, 0, 0, 0, 0] 0 [] with
    client := { (demoState [0, 0, 0, 0, 0, 0, 0, 0, 0, 0, 0, 0, 0, 0] 0 []).client with
      cIsClient := true }
    tcp := { now := 1000, connected := true, inbuf := [], sent := [], accept := 6 }
    polls := [{ now := 1000, connected := true, arrive := [], accept := 2 }] }

/-- A connected server-side connection whose transport takes 4 bytes at once. -/
def serverSide : State :=
  { demoState [0, 0, 0, 0, 0, 0, 0, 0, 0, 0, 0, 0, 0, 0] 0 [] with
    tcp := { now := 1000, connected := true, inbuf := [], sent := [], accept := 4 } }

/-! ### The payload stage -/

/-- The state in which `handleWebsocketCb` goes on to the payload (line 617) for a complete
header: the header slot filled, the place of the mask key stored for a masked frame
(line 613), the decoded header reported. -/
def atPayload (s : State) : State :=
  { reported s with
    client := { (reported s).client with
      cWsHeaderDecode := { (reported s).client.cWsHeaderDecode with
        maskKey :=
          if (decodeLength s.client).cWsHeaderDecode.mask then lengthEnd s.client.cWsHeader
          else s.client.cWsHeaderDecode.maskKey } } }

/-- The state in which the callback of the payload read runs (lines 620-631): the buffer
acquired, the read recorded, the transport as the read left it. -/
def afterPayloadRead (h : Host) (s : State) : State :=
  { client := s.client
    tcp := (payloadRead h s s.client.cWsHeaderDecode.payloadLen).2.2.1
    polls := (payloadRead h s s.client.cWsHeaderDecode.payloadLen).2.2.2
    trace := s.trace
      ++ [Event.malloc ((s.client.cWsHeaderDecode.payloadLen + 1) % 2 ^ 32) true]
      ++ [Event.read Dst.payload s.client.cWsHeaderDecode.payloadLen]
    rngCalls := s.rngCalls }

/-- A binary header with the marker 127 whose 64 bit length is 2^32 - 1 (upper half zero,
lower half FF FF FF FF), complete in the accumulator; one payload byte waits in the
transport. -/
def fullLength : State :=
  demoState [0x82, 0x7F, 0, 0, 0, 0, 0xFF, 0xFF, 0xFF, 0xFF, 0, 0, 0, 0] 10 [0x41]

/-! ### Reserved bits -/

/-- The event with the reserved bits of a decode report left out. -/
def Event.withoutRsv : Event → Event
  | Event.decoded fin _ _ _ opCode mask payloadLen =>
    Event.decoded fin false false false opCode mask payloadLen
  | e => e

/-- What a run shows, the reserved bits of its decode reports apart: every call that left
the file, with its arguments and in order, or the fault. -/
def handling (r : Except Fault State) : Except Fault (List Event) :=
  match r with
  | Except.ok s => Except.ok (s.trace.map Event.withoutRsv)
  | Except.error e => Except.error e

/-- Two byte sequences of the same length that differ at most in bits 6-4 of their first
byte (`0x8F` is the first header byte without rsv1, rsv2 and rsv3). -/
structure RsvBytes (a b : List Nat) : Prop where
  length : a.length = b.length
  first : a.getD 0 0 &&& 0x8F = b.getD 0 0 &&& 0x8F
  rest : a.drop 1 = b.drop 1

/-- Two states of the receive path that differ at most in the reserved bits of the frame
being received: in bits 6-4 of the first accumulator byte or, while the accumulator is
empty, of the first byte that waits in the transport; and, with them, in what the header
slot and the decode reports say about these bits.  The slot is filled anew from the
accumulator by every call of `handleWebsocketCb`, so nothing is asked of it. -/
structure RsvTwins (a b : State) : Prop where
  tcp : a.client.tcp = b.client.tcp
  status : a.client.status = b.client.status
  rx : a.client.cWsRXsize = b.client.cWsRXsize
  header : RsvBytes a.client.cWsHeader b.client.cWsHeader
  now : a.tcp.now = b.tcp.now
  connected : a.tcp.connected = b.tcp.connected
  sent : a.tcp.sent = b.tcp.sent
  accept : a.tcp.accept = b.tcp.accept
  inbuf : RsvBytes a.tcp.inbuf b.tcp.inbuf
  settled : 0 < a.client.cWsRXsize → a.tcp.inbuf = b.tcp.inbuf
  polls : a.polls = b.polls
  trace : a.trace.map Event.withoutRsv = b.trace.map Event.withoutRsv

/-- Two states at the payload stage (lines 617-732) that differ at most in what the header
slot says about the reserved bits and in bits 6-4 of the first accumulator byte. -/
structure PayloadTwins (a b : State) : Prop where
  tcp : a.client.tcp = b.client.tcp
  status : a.client.status = b.client.status
  fin : a.client.cWsHeaderDecode.fin = b.client.cWsHeaderDecode.fin
  opCode : a.client.cWsHeaderDecode.opCode = b.client.cWsHeaderDecode.opCode
  mask : a.client.cWsHeaderDecode.mask = b.client.cWsHeaderDecode.mask
  payloadLen : a.client.cWsHeaderDecode.payloadLen = b.client.cWsHeaderDecode.payloadLen
  maskKey : a.client.cWsHeaderDecode.mask = true →
    a.client.cWsHeaderDecode.maskKey = b.client.cWsHeaderDecode.maskKey
      ∧ 1 ≤ a.client.cWsHeaderDecode.maskKey
  header : a.client.cWsHeader.drop 1 = b.client.cWsHeader.drop 1
  transport : a.tcp = b.tcp
  polls : a.polls = b.polls
  trace : a.trace.map Event.withoutRsv = b.trace.map Event.withoutRsv

/-- The state with the reserved bits of the first accumulator byte cleared. -/
def clearRsv (s : State) : State :=
  { s with client := { s.client with
      cWsHeader := s.client.cWsHeader.set 0 (s.client.cWsHeader.getD 0 0 &&& 0x8F) } }

/-- Is the event a reaction to a frame: a close, a frame sent or a message delivered? -/
def Event.isReaction (e : Event) : Bool := e.isClose || e.isFrame || e.isMessage

/-- The masked text frame "hi" of `maskedHi` with rsv1, rsv2 and rsv3 set (first byte F1). -/
def maskedHiRsv : State :=
  demoState [0xF1, 0x82, 1, 2, 3, 4, 0, 0, 0, 0, 0, 0, 0, 0] 6 [0x68 ^^^ 1, 0x69 ^^^ 2]

/-- Does `sendFrame` get past its two guards (lines 274-287)? -/
def canSend (s : State) : Bool :=
  !(s.client.tcp && !s.tcp.connected)
    && decide (s.client.status = WSclientsStatus_t.WSC_CONNECTED)

/-! ## Basic facts -/

@[simp] theorem log_client (s : State) (e : Event) : (log s e).client = s.client := rfl
@[simp] theorem log_tcp (s : State) (e : Event) : (log s e).tcp = s.tcp := rfl
@[simp] theorem log_polls (s : State) (e : Event) : (log s e).polls = s.polls := rfl
@[simp] theorem log_trace (s : State) (e : Event) : (log s e).trace = s.trace ++ [e] := rfl
@[simp] theorem log_rngCalls (s : State) (e : Event) : (log s e).rngCalls = s.rngCalls := rfl

@[simp] theorem yield_client (s : State) : (yield s).client = s.client := by
  unfold yield; split <;> rfl
@[simp] theorem yield_trace (s : State) : (yield s).trace = s.trace := by
  unfold yield; split <;> rfl

theorem lengthEnd_le (hdr : List Nat) : lengthEnd hdr ≤ 10 := by
  unfold lengthEnd; split_ifs <;> omega

theorem two_le_lengthEnd (hdr : List Nat) : 2 ≤ lengthEnd hdr := by
  unfold lengthEnd; split_ifs <;> omega

theorem handleWebsocketWaitFor_ready (h : Host) (k : State → Except Fault State) (s : State)
    (size : Nat) (htcp : s.client.tcp = true) (hconn : s.tcp.connected = true)
    (hsize : size ≤ 14) (hrx : size ≤ s.client.cWsRXsize) :
    handleWebsocketWaitFor h k s size = Except.ok (true, s) := by
  unfold handleWebsocketWaitFor
  have h1 : ¬ size > WEBSOCKETS_MAX_HEADER_SIZE := by
    unfold WEBSOCKETS_MAX_HEADER_SIZE; omega
  simp only [htcp, hconn, h1, Bool.not_true, Bool.or_self, Bool.false_eq_true, if_false]
  simp only [ge_iff_le, hrx, if_true]

@[simp] theorem splitFirstBytes_tcp (c : WSclient_t) : (splitFirstBytes c).tcp = c.tcp := rfl
@[simp] theorem splitFirstBytes_cWsRXsize (c : WSclient_t) :
    (splitFirstBytes c).cWsRXsize = c.cWsRXsize := rfl
@[simp] theorem splitFirstBytes_cWsHeader (c : WSclient_t) :
    (splitFirstBytes c).cWsHeader = c.cWsHeader := rfl

theorem handleWebsocketCb_lengthReady (h : Host) (fuel : Nat) (s : State)
    (htcp : s.client.tcp = true) (hconn : s.tcp.connected = true)
    (hrx : lengthEnd s.client.cWsHeader ≤ s.client.cWsRXsize) :
    handleWebsocketCb h (fuel + 1) s
      = afterLength h (handleWebsocketCb h fuel) { s with client := decodeLength s.client }
          (lengthEnd s.client.cWsHeader) (lengthEnd s.client.cWsHeader) := by
  have h2 := two_le_lengthEnd s.client.cWsHeader
  rw [handleWebsocketCb]
  simp only [htcp, hconn, Bool.not_true, Bool.or_self, Bool.false_eq_true, if_false]
  rw [handleWebsocketWaitFor_ready h _ s 2 htcp hconn (by omega) (by omega)]
  simp only []
  by_cases m126 : s.client.cWsHeader.getD 1 0 &&& 0x7F = 126
  · have hle : 2 + 2 ≤ s.client.cWsRXsize := by
      unfold lengthEnd at hrx; rw [if_pos m126] at hrx; exact hrx
    have e1 : (splitFirstBytes s.client).cWsHeaderDecode.payloadLen = 126 := m126
    have e2 : lengthEnd s.client.cWsHeader = 2 + 2 := by unfold lengthEnd; rw [if_pos m126]
    have e3 : declaredLen s.client.cWsHeader = length16 (s.client.cWsHeader.drop 2) := by
      unfold declaredLen; rw [if_pos m126]
    simp only [e1, if_true]
    rw [handleWebsocketWaitFor_ready h (handleWebsocketCb h fuel)
      { s with client := splitFirstBytes s.client } (2 + 2) htcp hconn (by omega) hle, e2]
    simp only [setPayloadLen, decodeLength, e3, splitFirstBytes_cWsHeader]
  · have e1 : ¬ (splitFirstBytes s.client).cWsHeaderDecode.payloadLen = 126 := m126
    by_cases m127 : s.client.cWsHeader.getD 1 0 &&& 0x7F = 127
    · have hle : 2 + 8 ≤ s.client.cWsRXsize := by
        unfold lengthEnd at hrx; rw [if_neg m126, if_pos m127] at hrx; exact hrx
      have e1b : (splitFirstBytes s.client).cWsHeaderDecode.payloadLen = 127 := m127
      have e2 : lengthEnd s.client.cWsHeader = 2 + 8 := by
        unfold lengthEnd; rw [if_neg m126, if_pos m127]
      have e3 : declaredLen s.client.cWsHeader = length64 (s.client.cWsHeader.drop 2) := by
        unfold declaredLen; rw [if_neg m126, if_pos m127]
      simp only [e1b, show ¬ ((127 : Nat) = 126) by decide, if_false, if_true]
      rw [handleWebsocketWaitFor_ready h (handleWebsocketCb h fuel)
        { s with client := splitFirstBytes s.client } (2 + 8) htcp hconn (by omega) hle, e2]
      simp only [setPayloadLen, decodeLength, e3, splitFirstBytes_cWsHeader]
    · have e1b : ¬ (splitFirstBytes s.client).cWsHeaderDecode.payloadLen = 127 := m127
      have e2 : lengthEnd s.client.cWsHeader = 2 := by
        unfold lengthEnd; rw [if_neg m126, if_neg m127]
      have e3 : declaredLen s.client.cWsHeader = s.client.cWsHeader.getD 1 0 &&& 0x7F := by
        unfold declaredLen; rw [if_neg m126, if_neg m127]
      have e4 : decodeLength s.client = splitFirstBytes s.client := by
        unfold decodeLength; rw [e3]; rfl
      simp only [e1, if_false, e1b, e2, e4]

/-! ## Memory: `writeAt` and `xorMask` -/

@[simp] theorem writeAt_length (bs : List Nat) : ∀ (buf : List Nat) (off : Nat),
    (writeAt buf off bs).length = buf.length := by
  induction bs with
  | nil => intro buf off; rfl
  | cons b bs ih => intro buf off; simp only [writeAt, ih, List.length_set]

theorem writeAt_getElem?_lt (bs : List Nat) : ∀ (buf : List Nat) (off i : Nat), i < off →
    (writeAt buf off bs)[i]? = buf[i]? := by
  induction bs with
  | nil => intro buf off i _; rfl
  | cons b bs ih =>
    intro buf off i hi
    simp only [writeAt]
    rw [ih (buf.set off b) (off + 1) i (by omega), List.getElem?_set_ne (by omega)]

theorem xorMask_succ (key : Nat → Nat) (base len : Nat) (buf : List Nat) :
    xorMask key base (len + 1) buf
      = (xorMask key base len buf).set (base + len)
          ((xorMask key base len buf).getD (base + len) 0 ^^^ key (len % 4)) := by
  simp only [xorMask, List.range_succ, List.foldl_append, List.foldl_cons, List.foldl_nil]

@[simp] theorem xorMask_length (key : Nat → Nat) (base len : Nat) (buf : List Nat) :
    (xorMask key base len buf).length = buf.length := by
  induction len with
  | zero => rfl
  | succ n ih => rw [xorMask_succ, List.length_set, ih]

theorem xorMask_getElem? (key : Nat → Nat) (base len : Nat) (buf : List Nat) (j : Nat) :
    (xorMask key base len buf)[j]?
      = if base ≤ j ∧ j < base + len then
          buf[j]?.map (fun b => b ^^^ key ((j - base) % 4))
        else buf[j]? := by
  induction len with
  | zero =>
    have : ¬ (base ≤ j ∧ j < base + 0) := by omega
    rw [if_neg this]; rfl
  | succ n ih =>
    rw [xorMask_succ, List.getElem?_set']
    by_cases hj : base + n = j
    · subst hj
      have h1 : ¬ (base ≤ base + n ∧ base + n < base + n) := by omega
      have h2 : base ≤ base + n ∧ base + n < base + (n + 1) := by omega
      have h3 : base + n - base = n := by omega
      rw [if_pos rfl, if_pos h2, ih, if_neg h1, List.getD_eq_getElem?_getD, ih, if_neg h1, h3]
      cases buf[base + n]? <;> rfl
    · rw [if_neg hj, ih]
      by_cases hc : base ≤ j ∧ j < base + n
      · rw [if_pos hc, if_pos (by omega)]
      · rw [if_neg hc, if_neg (by omega)]

theorem xorMask_involutive (key : Nat → Nat) (base len : Nat) (buf : List Nat) :
    xorMask key base len (xorMask key base len buf) = buf := by
  apply List.ext_getElem?
  intro j
  rw [xorMask_getElem?, xorMask_getElem?]
  by_cases hc : base ≤ j ∧ j < base + len
  · simp only [if_pos hc]
    cases buf[j]? with
    | none => rfl
    | some b =>
      simp only [Option.map_some', Nat.xor_assoc, Nat.xor_self, Nat.xor_zero]
  · simp only [if_neg hc]

/-! ## Sending -/

@[simp] theorem write_trace (h : Host) (s : State) (out : Option (List Nat)) (off n : Nat) :
    (write h s out off n).2.trace = s.trace := by
  unfold write; cases out <;> simp only [yield_trace]

@[simp] theorem write_client (h : Host) (s : State) (out : Option (List Nat)) (off n : Nat) :
    (write h s out off n).2.client = s.client := by
  unfold write; cases out <;> simp only [yield_client]

theorem sendFrameWrite_trace (h : Host) (s : State) (toPayload : Bool)
    (payloadPtr : Option (List Nat)) (buffer : List Nat) (headerSize length : Nat) :
    (sendFrameWrite h s toPayload payloadPtr buffer headerSize length).2.trace = s.trace := by
  unfold sendFrameWrite
  split_ifs <;> simp only [write_trace]

theorem sendFrameWrite_client (h : Host) (s : State) (toPayload : Bool)
    (payloadPtr : Option (List Nat)) (buffer : List Nat) (headerSize length : Nat) :
    (sendFrameWrite h s toPayload payloadPtr buffer headerSize length).2.client = s.client := by
  unfold sendFrameWrite
  split_ifs <;> simp only [write_client]

theorem sendFrame_trace (h : Host) (s : State) (opcode : Nat) (payload : Option (List Nat))
    (length : Nat) (fin headerToPayload : Bool) :
    (sendFrame h s opcode payload length fin headerToPayload).2.trace
      = s.trace ++ (if canSend s then [Event.frame opcode payload length fin headerToPayload]
          else []) := by
  unfold sendFrame canSend
  by_cases g1 : (s.client.tcp && !s.tcp.connected) = true
  · simp only [g1, if_true, Bool.not_true, Bool.false_and, Bool.false_eq_true, if_false,
      List.append_nil]
  · by_cases g2 : s.client.status = WSclientsStatus_t.WSC_CONNECTED
    · have g3 : (!(s.client.tcp && !s.tcp.connected)
          && decide (s.client.status = WSclientsStatus_t.WSC_CONNECTED)) = true := by
        simp only [g2, decide_True, Bool.and_true, Bool.not_eq_true']
        simpa using g1
      rw [if_neg g1, if_neg (by simp only [g2, ne_eq, not_true_eq_false, not_false_eq_true]),
        if_pos g3]
      simp only [sendFrameWrite_trace]
    · have g3 : ¬ (!(s.client.tcp && !s.tcp.connected)
          && decide (s.client.status = WSclientsStatus_t.WSC_CONNECTED)) = true := by
        simp only [g2, decide_False, Bool.and_false, Bool.false_eq_true, not_false_eq_true]
      rw [if_neg g1, if_pos (by simpa using g2), if_neg g3, List.append_nil]

theorem sendFrame_client (h : Host) (s : State) (opcode : Nat) (payload : Option (List Nat))
    (length : Nat) (fin headerToPayload : Bool) :
    (sendFrame h s opcode payload length fin headerToPayload).2.client = s.client := by
  unfold sendFrame
  by_cases g1 : (s.client.tcp && !s.tcp.connected) = true
  · rw [if_pos g1]
  · by_cases g2 : s.client.status ≠ WSclientsStatus_t.WSC_CONNECTED
    · rw [if_neg g1, if_pos g2]
    · rw [if_neg g1, if_neg g2]
      simp only [sendFrameWrite_client]

theorem canSend_of_connected (s : State) (hconn : s.tcp.connected = true)
    (hst : s.client.status = WSclientsStatus_t.WSC_CONNECTED) : canSend s = true := by
  unfold canSend
  simp only [hconn, hst, Bool.not_true, Bool.and_false, Bool.not_false, decide_True,
    Bool.and_self]

theorem localDisconnect_trace (h : Host) (s : State) :
    (localDisconnect h s).trace = s.trace ++ [Event.disconnected] := rfl

/-- The close frame `clientDisconnect(client, code)` sends when no reason is given. -/
theorem clientDisconnect_trace (h : Host) (s : State) (code : Nat) :
    (clientDisconnect h s code none 0).trace
      = s.trace ++ [Event.closeReq code]
          ++ (if canSend s = true ∧ code ≠ 0 then
                [Event.frame WSop_close (some [(code >>> 8) &&& 0xFF, code &&& 0xFF]) 2 true false]
              else [])
          ++ [Event.disconnected] := by
  unfold clientDisconnect
  simp only [localDisconnect_trace, log_client]
  by_cases hst : s.client.status = WSclientsStatus_t.WSC_CONNECTED ∧ code ≠ 0
  · rw [if_pos hst, sendFrame_trace]
    have hc : canSend (log s (Event.closeReq code)) = canSend s := rfl
    rw [hc]
    by_cases hs : canSend s = true
    · rw [if_pos hs, if_pos ⟨hs, hst.2⟩]; rfl
    · rw [if_neg hs, if_neg (fun hh => hs hh.1), List.append_nil, log_trace, List.append_nil]
  · rw [if_neg hst]
    have : ¬ (canSend s = true ∧ code ≠ 0) := by
      intro hh
      apply hst
      refine ⟨?_, hh.2⟩
      have := hh.1
      unfold canSend at this
      simp only [Bool.and_eq_true, decide_eq_true_eq] at this
      exact this.2
    rw [if_neg this, log_trace, List.append_nil]

/-! ## Reading -/

theorem readLoop_length (tmo : Nat) (hasTcp : Bool) : ∀ (polls : List Poll) (tcp : Tcp)
    (out : List Nat) (off n t : Nat),
    (readLoop tmo hasTcp polls tcp out off n t).2.1.length = out.length := by
  intro polls
  induction polls with
  | nil =>
    intro tcp out off n t
    rw [readLoop]; dsimp only
    split_ifs <;> simp only [writeAt_length]
  | cons p ps ih =>
    intro tcp out off n t
    rw [readLoop]; dsimp only
    split_ifs <;> simp only [writeAt_length, ih]

theorem readLoop_getElem?_lt (tmo : Nat) (hasTcp : Bool) : ∀ (polls : List Poll) (tcp : Tcp)
    (out : List Nat) (off n t i : Nat), i < off →
    (readLoop tmo hasTcp polls tcp out off n t).2.1[i]? = out[i]? := by
  intro polls
  induction polls with
  | nil =>
    intro tcp out off n t i hi
    rw [readLoop]; dsimp only
    split_ifs <;> simp only [writeAt_getElem?_lt _ _ _ _ hi]
  | cons p ps ih =>
    intro tcp out off n t i hi
    rw [readLoop]; dsimp only
    split_ifs
    all_goals first
      | rfl
      | exact ih _ _ _ _ _ i hi
      | exact writeAt_getElem?_lt _ _ _ _ hi
      | (rw [ih _ _ _ _ _ i (by omega)]; exact writeAt_getElem?_lt _ _ _ _ hi)

theorem readLoop_connected (tmo : Nat) (hasTcp : Bool) : ∀ (polls : List Poll) (tcp : Tcp)
    (out : List Nat) (off n t : Nat), 0 < n →
    (readLoop tmo hasTcp polls tcp out off n t).1 = true →
    (readLoop tmo hasTcp polls tcp out off n t).2.2.1.connected = true := by
  intro polls
  induction polls with
  | nil =>
    intro tcp out off n t hn
    rw [readLoop]; dsimp only
    split_ifs <;> simp_all
  | cons p ps ih =>
    intro tcp out off n t hn
    rw [readLoop]; dsimp only
    split_ifs
    all_goals first
      | omega
      | exact ih _ _ _ _ _ hn
      | exact ih _ _ _ _ _ (by omega)
      | simp_all

theorem readCb_ok (h : Host) (s : State) (dst : Dst) (out : List Nat) (off n : Nat)
    (cb : State → List Nat → Bool → Except Fault State)
    (hr : (readLoop h.tcpTimeout s.client.tcp s.polls s.tcp out off n s.tcp.now).1 = true) :
    readCb h s dst out off n cb
      = match cb { client := s.client
                   tcp := (readLoop h.tcpTimeout s.client.tcp s.polls s.tcp out off n s.tcp.now).2.2.1
                   polls := (readLoop h.tcpTimeout s.client.tcp s.polls s.tcp out off n s.tcp.now).2.2.2
                   trace := s.trace ++ [Event.read dst n]
                   rngCalls := s.rngCalls }
            (readLoop h.tcpTimeout s.client.tcp s.polls s.tcp out off n s.tcp.now).2.1 true with
        | Except.error e => Except.error e
        | Except.ok s1 => Except.ok (true, yield s1) := by
  unfold readCb
  simp only [log_client, log_tcp, log_polls, log_trace, log_rngCalls, hr, if_true]

theorem readCb_fail (h : Host) (s : State) (dst : Dst) (out : List Nat) (off n : Nat)
    (cb : State → List Nat → Bool → Except Fault State)
    (hr : (readLoop h.tcpTimeout s.client.tcp s.polls s.tcp out off n s.tcp.now).1 = false) :
    readCb h s dst out off n cb
      = match cb { client := s.client
                   tcp := (readLoop h.tcpTimeout s.client.tcp s.polls s.tcp out off n s.tcp.now).2.2.1
                   polls := (readLoop h.tcpTimeout s.client.tcp s.polls s.tcp out off n s.tcp.now).2.2.2
                   trace := s.trace ++ [Event.read dst n]
                   rngCalls := s.rngCalls }
            (readLoop h.tcpTimeout s.client.tcp s.polls s.tcp out off n s.tcp.now).2.1 false with
        | Except.error e => Except.error e
        | Except.ok s1 => Except.ok (false, s1) := by
  unfold readCb
  simp only [log_client, log_tcp, log_polls, log_trace, log_rngCalls, hr, Bool.false_eq_true,
    if_false]

theorem payloadRead_length (h : Host) (s : State) (len : Nat) :
    (payloadRead h s len).2.1.length = (len + 1) % 2 ^ 32 := by
  unfold payloadRead
  rw [readLoop_length, List.length_map, List.length_range]

/-- The dispatcher's part of `handleWebsocketPayloadCb` on a successful read. -/
theorem handleWebsocketPayloadCb_ok (h : Host) (s : State) (payload p : Option (List Nat))
    (hu : unmaskPayload s.client payload = Except.ok p) :
    handleWebsocketPayloadCb h s true payload
      = match dispatch h s p with
        | Except.error e => Except.error e
        | Except.ok sD =>
          Except.ok
            { (if p.isSome then log sD Event.free else sD) with
              client := { (if p.isSome then log sD Event.free else sD).client with
                cWsRXsize := 0 } } := by
  unfold handleWebsocketPayloadCb
  simp only [if_true, hu]

theorem receivePayload_empty (h : Host) (s : State)
    (hlen : s.client.cWsHeaderDecode.payloadLen = 0) :
    receivePayload h s
      = match dispatch h s none with
        | Except.error e => Except.error e
        | Except.ok sD => Except.ok { sD with client := { sD.client with cWsRXsize := 0 } } := by
  have hu : unmaskPayload s.client none = Except.ok none := by
    unfold unmaskPayload
    simp only [hlen, gt_iff_lt, Nat.lt_irrefl, if_false]
  unfold receivePayload
  simp only [hlen, gt_iff_lt, Nat.lt_irrefl, if_false]
  rw [handleWebsocketPayloadCb_ok h s none none hu]
  rfl

theorem receivePayload_received (h : Host) (s : State) (len : Nat)
    (hlen : s.client.cWsHeaderDecode.payloadLen = len) (hpos : 0 < len)
    (hfit : len + 1 < 2 ^ 32) (hm : h.mallocOk ((len + 1) % 2 ^ 32) = true)
    (hr : (payloadRead h s len).1 = true) :
    receivePayload h s
      = match dispatch h
            { client := s.client, tcp := (payloadRead h s len).2.2.1
              polls := (payloadRead h s len).2.2.2
              trace := s.trace ++ [Event.malloc ((len + 1) % 2 ^ 32) true]
                ++ [Event.read Dst.payload len]
              rngCalls := s.rngCalls }
            (some (if s.client.cWsHeaderDecode.mask then
              xorMask (fun j => s.client.cWsHeader.getD (s.client.cWsHeaderDecode.maskKey + j) 0)
                0 len ((payloadRead h s len).2.1.set len 0x00)
              else (payloadRead h s len).2.1.set len 0x00)) with
        | Except.error e => Except.error e
        | Except.ok sD =>
          Except.ok (yield { log sD Event.free with client := { sD.client with cWsRXsize := 0 } })
    := by
  have hmem : len < (payloadRead h s len).2.1.length := by
    rw [payloadRead_length, Nat.mod_eq_of_lt hfit]; omega
  have hu : unmaskPayload s.client (some (payloadRead h s len).2.1)
      = Except.ok (some (if s.client.cWsHeaderDecode.mask then
              xorMask (fun j => s.client.cWsHeader.getD (s.client.cWsHeaderDecode.maskKey + j) 0)
                0 len ((payloadRead h s len).2.1.set len 0x00)
              else (payloadRead h s len).2.1.set len 0x00)) := by
    unfold unmaskPayload
    simp only [hlen, gt_iff_lt, hpos, if_true, hmem]
    split_ifs <;> rfl
  unfold receivePayload
  simp only [hlen, gt_iff_lt, hpos, if_true, hm]
  rw [readCb_ok h (log s (Event.malloc ((len + 1) % 2 ^ 32) true)) Dst.payload _ 0 len _ hr]
  simp only [log_client, log_tcp, log_polls, log_trace, log_rngCalls]
  rw [show readLoop h.tcpTimeout s.client.tcp s.polls s.tcp
      (List.map h.junk (List.range ((len + 1) % 2 ^ 32))) 0 len s.tcp.now
      = payloadRead h s len from rfl]
  rw [handleWebsocketPayloadCb_ok h
    { client := s.client, tcp := (payloadRead h s len).2.2.1
      polls := (payloadRead h s len).2.2.2
      trace := s.trace ++ [Event.malloc ((len + 1) % 2 ^ 32) true]
        ++ [Event.read Dst.payload len]
      rngCalls := s.rngCalls } _ _ hu]
  simp only [Option.isSome_some, if_true]
  cases dispatch h
      { client := s.client, tcp := (payloadRead h s len).2.2.1
        polls := (payloadRead h s len).2.2.2
        trace := s.trace ++ [Event.malloc ((len + 1) % 2 ^ 32) true]
          ++ [Event.read Dst.payload len]
        rngCalls := s.rngCalls }
      (some (if s.client.cWsHeaderDecode.mask then
        xorMask (fun j => s.client.cWsHeader.getD (s.client.cWsHeaderDecode.maskKey + j) 0)
          0 len ((payloadRead h s len).2.1.set len 0x00)
        else (payloadRead h s len).2.1.set len 0x00)) with
  | error e => rfl
  | ok sD => rfl

@[simp] theorem decodeLength_tcp (c : WSclient_t) : (decodeLength c).tcp = c.tcp := rfl
@[simp] theorem decodeLength_cWsRXsize (c : WSclient_t) :
    (decodeLength c).cWsRXsize = c.cWsRXsize := rfl
@[simp] theorem decodeLength_cWsHeader (c : WSclient_t) :
    (decodeLength c).cWsHeader = c.cWsHeader := rfl
@[simp] theorem decodeLength_status (c : WSclient_t) : (decodeLength c).status = c.status := rfl
@[simp] theorem decodeLength_payloadLen (c : WSclient_t) :
    (decodeLength c).cWsHeaderDecode.payloadLen = declaredLen c.cWsHeader := rfl
@[simp] theorem decodeLength_maskKey (c : WSclient_t) :
    (decodeLength c).cWsHeaderDecode.maskKey = c.cWsHeaderDecode.maskKey := rfl

theorem lengthEnd_le_headerEnd (hdr : List Nat) : lengthEnd hdr ≤ headerEnd hdr := by
  unfold headerEnd; split_ifs <;> omega

theorem headerEnd_le (hdr : List Nat) : headerEnd hdr ≤ 14 := by
  have := lengthEnd_le hdr
  unfold headerEnd; split_ifs <;> omega

/-- A frame whose header is complete and whose payload arrives: `handleWebsocketCb` runs the
dispatcher once, in the state `atDispatch`, on the payload `deliveredPayload`. -/
theorem handleWebsocketCb_received (h : Host) (fuel : Nat) (s : State) (hr : HeaderReady s)
    (hmax : declaredLen s.client.cWsHeader ≤ h.maxDataSize)
    (hfit : declaredLen s.client.cWsHeader + 1 < 2 ^ 32) (hp : PayloadReceived h s) :
    handleWebsocketCb h (fuel + 1) s
      = match dispatch h (atDispatch h s) (deliveredPayload h s) with
        | Except.error e => Except.error e
        | Except.ok sD => Except.ok (afterDispatch (declaredLen s.client.cWsHeader) sD) := by
  have hle : lengthEnd s.client.cWsHeader ≤ s.client.cWsRXsize :=
    Nat.le_trans (lengthEnd_le_headerEnd _) hr.complete
  have h10 := lengthEnd_le s.client.cWsHeader
  rw [handleWebsocketCb_lengthReady h fuel s hr.tcp hr.connected hle]
  unfold afterLength
  simp only [log_client, decodeLength_payloadLen, gt_iff_lt, if_neg (Nat.not_lt.mpr hmax)]
  by_cases hm : (decodeLength s.client).cWsHeaderDecode.mask = true
  · have hend : lengthEnd s.client.cWsHeader + 4 ≤ s.client.cWsRXsize := by
      have := hr.complete
      have hm' : (((s.client.cWsHeader.getD 1 0 >>> 7) &&& 0x01) != 0) = true := hm
      unfold headerEnd at this
      rw [if_pos hm'] at this
      exact this
    rw [if_pos hm]
    rw [handleWebsocketWaitFor_ready]
    · simp only []
      by_cases hl : 0 < declaredLen s.client.cWsHeader
      · rw [receivePayload_received h _ (declaredLen s.client.cWsHeader)]
        · unfold atDispatch deliveredPayload afterDispatch acquireEvents decodedEvent
          simp only [if_pos hl, if_pos hm, log_client, log_trace, log_tcp, log_polls,
            log_rngCalls, decodeLength_cWsHeader, List.append_assoc]
          rfl
        · rfl
        · exact hl
        · exact hfit
        · exact (hp hl).1
        · exact (hp hl).2
      · have hz : declaredLen s.client.cWsHeader = 0 := by omega
        rw [receivePayload_empty]
        · unfold atDispatch deliveredPayload afterDispatch acquireEvents decodedEvent
          simp only [if_neg hl, if_pos hm, log_client, log_trace, log_tcp, log_polls,
            log_rngCalls, List.append_nil]
          rfl
        · exact hz
    · exact hr.tcp
    · exact hr.connected
    · omega
    · exact hend
  · rw [if_neg hm]
    by_cases hl : 0 < declaredLen s.client.cWsHeader
    · rw [receivePayload_received h _ (declaredLen s.client.cWsHeader)]
      · unfold atDispatch deliveredPayload afterDispatch acquireEvents decodedEvent
        simp only [if_pos hl, if_neg hm, log_client, log_trace, log_tcp, log_polls,
          log_rngCalls, decodeLength_cWsHeader, List.append_assoc]
        rfl
      · rfl
      · exact hl
      · exact hfit
      · exact (hp hl).1
      · exact (hp hl).2
    · have hz : declaredLen s.client.cWsHeader = 0 := by omega
      rw [receivePayload_empty]
      · unfold atDispatch deliveredPayload afterDispatch acquireEvents decodedEvent
        simp only [if_neg hl, if_neg hm, log_client, log_trace, log_tcp, log_polls,
          log_rngCalls, List.append_nil]
        rfl
      · exact hz

theorem newEvents_append (before evs : List Event) (s : State)
    (ht : s.trace = before ++ evs) : newEvents before s = evs := by
  unfold newEvents
  rw [ht, List.drop_left]

theorem afterDispatch_trace (len : Nat) (sD : State) :
    (afterDispatch len sD).trace = sD.trace ++ releaseEvents len := by
  unfold afterDispatch releaseEvents
  split_ifs
  · rw [yield_trace]; rfl
  · rw [List.append_nil]

/-- The trace of a run that receives a frame: the decode report, the acquisition of the
payload, what the dispatcher adds, the release of the payload. -/
theorem received_trace (h : Host) (fuel : Nat) (s : State) (hr : HeaderReady s)
    (hmax : declaredLen s.client.cWsHeader ≤ h.maxDataSize)
    (hfit : declaredLen s.client.cWsHeader + 1 < 2 ^ 32) (hp : PayloadReceived h s)
    (sD : State) (evs : List Event)
    (hd : dispatch h (atDispatch h s) (deliveredPayload h s) = Except.ok sD)
    (ht : sD.trace = (atDispatch h s).trace ++ evs) :
    ∃ s', handleWebsocketCb h (fuel + 1) s = Except.ok s'
      ∧ newEvents s.trace s'
          = [decodedEvent s.client] ++ acquireEvents (declaredLen s.client.cWsHeader) ++ evs
              ++ releaseEvents (declaredLen s.client.cWsHeader) := by
  refine ⟨afterDispatch (declaredLen s.client.cWsHeader) sD, ?_, ?_⟩
  · rw [handleWebsocketCb_received h fuel s hr hmax hfit hp, hd]
  · apply newEvents_append
    rw [afterDispatch_trace, ht]
    unfold atDispatch
    simp only [List.append_assoc]

theorem atDispatch_connected (h : Host) (s : State) (hr : HeaderReady s)
    (hp : PayloadReceived h s) : (atDispatch h s).tcp.connected = true := by
  unfold atDispatch
  by_cases hl : 0 < declaredLen s.client.cWsHeader
  · simp only [if_pos hl]
    exact readLoop_connected _ _ _ _ _ _ _ _ hl (hp hl).2
  · simp only [if_neg hl]
    exact hr.connected

/-- The bytes of the payload the dispatcher gets: `len + 1` bytes, byte `i < len` is the
received byte, XOR-ed with `maskKey[i % 4]` for a masked frame, and byte `len` is `0x00`. -/
theorem deliveredPayload_spec (h : Host) (s : State)
    (hfit : declaredLen s.client.cWsHeader + 1 < 2 ^ 32)
    (hl : 0 < declaredLen s.client.cWsHeader) :
    ∃ buf, deliveredPayload h s = some buf
      ∧ buf.length = declaredLen s.client.cWsHeader + 1
      ∧ buf.getD (declaredLen s.client.cWsHeader) 1 = 0
      ∧ ∀ i, i < declaredLen s.client.cWsHeader →
          buf.getD i 0
            = if (decodeLength s.client).cWsHeaderDecode.mask then
                (payloadRead h s (declaredLen s.client.cWsHeader)).2.1.getD i 0
                  ^^^ s.client.cWsHeader.getD (lengthEnd s.client.cWsHeader + i % 4) 0
              else (payloadRead h s (declaredLen s.client.cWsHeader)).2.1.getD i 0 := by
  have hlen : (payloadRead h s (declaredLen s.client.cWsHeader)).2.1.length
      = declaredLen s.client.cWsHeader + 1 := by
    rw [payloadRead_length, Nat.mod_eq_of_lt hfit]
  unfold deliveredPayload
  generalize declaredLen s.client.cWsHeader = len at hlen hl
  generalize (payloadRead h s len).2.1 = recv at hlen
  have hterm : (recv.set len 0)[len]? = some 0 := by
    rw [List.getElem?_set, if_pos rfl, if_pos (by omega)]
  have hget : ∀ i, i < len → (recv.set len 0)[i]? = some (recv.getD i 0) := by
    intro i hi
    rw [List.getElem?_set_ne (by omega), List.getD_eq_getElem?_getD,
      List.getElem?_eq_getElem (by omega)]
    rfl
  rw [if_pos hl]
  by_cases hm : (decodeLength s.client).cWsHeaderDecode.mask = true
  · refine ⟨_, by rw [if_pos hm], ?_, ?_, ?_⟩
    · rw [xorMask_length, List.length_set, hlen]
    · rw [List.getD_eq_getElem?_getD, xorMask_getElem?, if_neg (by omega), hterm]; rfl
    · intro i hi
      rw [List.getD_eq_getElem?_getD, xorMask_getElem?, if_pos (by omega), hget i hi, if_pos hm]
      rfl
  · refine ⟨_, by rw [if_neg hm], ?_, ?_, ?_⟩
    · rw [List.length_set, hlen]
    · rw [List.getD_eq_getElem?_getD, hterm]; rfl
    · intro i hi
      rw [List.getD_eq_getElem?_getD, hget i hi, if_neg hm]
      rfl

theorem deliveredPayload_empty (h : Host) (s : State)
    (hl : declaredLen s.client.cWsHeader = 0) : deliveredPayload h s = none := by
  unfold deliveredPayload
  rw [if_neg (by omega)]

/-! ## The dispatcher, opcode by opcode -/

theorem dispatch_data (h : Host) (s : State) (p : Option (List Nat))
    (hop : s.client.cWsHeaderDecode.opCode = WSop_text
      ∨ s.client.cWsHeaderDecode.opCode = WSop_binary
      ∨ s.client.cWsHeaderDecode.opCode = WSop_continuation) :
    dispatch h s p
      = Except.ok (log s (Event.message s.client.cWsHeaderDecode.opCode p
          s.client.cWsHeaderDecode.payloadLen s.client.cWsHeaderDecode.fin)) := by
  unfold dispatch
  rcases hop with hop | hop | hop <;>
    simp [hop, WSop_text, WSop_binary, WSop_continuation]

theorem dispatch_ping (h : Host) (s : State) (p : Option (List Nat))
    (hop : s.client.cWsHeaderDecode.opCode = WSop_ping) :
    dispatch h s p
      = Except.ok (log (sendFrame h s WSop_pong p s.client.cWsHeaderDecode.payloadLen
            true false).2
          (Event.message WSop_ping p s.client.cWsHeaderDecode.payloadLen
            s.client.cWsHeaderDecode.fin)) := by
  unfold dispatch
  simp [hop, WSop_text, WSop_binary, WSop_continuation, WSop_ping]

theorem dispatch_close (h : Host) (s : State) (p : Option (List Nat)) (code : Nat)
    (hop : s.client.cWsHeaderDecode.opCode = WSop_close)
    (hc : closeReasonCode s.client.cWsHeaderDecode p = Except.ok code) :
    dispatch h s p = Except.ok (clientDisconnect h s 1000 none 0) := by
  unfold dispatch
  simp [hop, hc, WSop_text, WSop_binary, WSop_continuation, WSop_ping, WSop_pong, WSop_close]

theorem dispatch_unknown (h : Host) (s : State) (p : Option (List Nat))
    (h0 : s.client.cWsHeaderDecode.opCode ≠ WSop_continuation)
    (h1 : s.client.cWsHeaderDecode.opCode ≠ WSop_text)
    (h2 : s.client.cWsHeaderDecode.opCode ≠ WSop_binary)
    (h8 : s.client.cWsHeaderDecode.opCode ≠ WSop_close)
    (h9 : s.client.cWsHeaderDecode.opCode ≠ WSop_ping)
    (hA : s.client.cWsHeaderDecode.opCode ≠ WSop_pong) :
    dispatch h s p = Except.ok (clientDisconnect h s 1002 none 0) := by
  unfold dispatch
  simp [h0, h1, h2, h8, h9, hA]

/-! ## Data frames (text, binary, continuation) -/

/-- C6. A text, binary or continuation frame whose header is complete and whose payload
read succeeds: `handleWebsocketCb` returns, and what it adds to the trace is the decode
report, the acquisition of the payload, exactly one call of the message callback with the
decoded opcode, the declared length, the decoded fin flag and the delivered payload, and
the release of the payload; no frame is sent and the connection is not closed.  The
delivered payload is `NULL` for an empty frame; otherwise byte `i < len` is the received
byte `i`, XOR-ed with header byte `lengthEnd + i % 4` when the mask flag is set, where
`lengthEnd` (the end of the length field) is 2, 4 or 10.
`WEBSOCKETS_MAX_DATA_SIZE` is taken below the sentinel `0xFFFFFFFF`. -/
theorem data_frame_delivered (h : Host) (fuel : Nat) (s : State) (hr : HeaderReady s)
    (hcfg : h.maxDataSize < 0xFFFFFFFF)
    (hmax : declaredLen s.client.cWsHeader ≤ h.maxDataSize) (hp : PayloadReceived h s)
    (hop : (decodeLength s.client).cWsHeaderDecode.opCode = WSop_text
      ∨ (decodeLength s.client).cWsHeaderDecode.opCode = WSop_binary
      ∨ (decodeLength s.client).cWsHeaderDecode.opCode = WSop_continuation) :
    (∃ s', handleWebsocketCb h (fuel + 1) s = Except.ok s'
      ∧ newEvents s.trace s'
          = [decodedEvent s.client] ++ acquireEvents (declaredLen s.client.cWsHeader)
            ++ [Event.message (decodeLength s.client).cWsHeaderDecode.opCode
                  (deliveredPayload h s) (declaredLen s.client.cWsHeader)
                  (decodeLength s.client).cWsHeaderDecode.fin]
            ++ releaseEvents (declaredLen s.client.cWsHeader)
      ∧ (newEvents s.trace s').filter Event.isMessage
          = [Event.message (decodeLength s.client).cWsHeaderDecode.opCode
              (deliveredPayload h s) (declaredLen s.client.cWsHeader)
              (decodeLength s.client).cWsHeaderDecode.fin]
      ∧ (newEvents s.trace s').all (fun e => !e.isFrame && !e.isClose) = true)
    ∧ (declaredLen s.client.cWsHeader = 0 → deliveredPayload h s = none)
    ∧ (0 < declaredLen s.client.cWsHeader →
        ∃ buf, deliveredPayload h s = some buf
          ∧ buf.length = declaredLen s.client.cWsHeader + 1
          ∧ ∀ i, i < declaredLen s.client.cWsHeader →
              buf.getD i 0
                = if (decodeLength s.client).cWsHeaderDecode.mask then
                    (payloadRead h s (declaredLen s.client.cWsHeader)).2.1.getD i 0
                      ^^^ s.client.cWsHeader.getD (lengthEnd s.client.cWsHeader + i % 4) 0
                  else (payloadRead h s (declaredLen s.client.cWsHeader)).2.1.getD i 0)
    ∧ (lengthEnd s.client.cWsHeader = 2 ∨ lengthEnd s.client.cWsHeader = 4
        ∨ lengthEnd s.client.cWsHeader = 10) := by
  have hfit : declaredLen s.client.cWsHeader + 1 < 2 ^ 32 := by omega
  refine ⟨?_, deliveredPayload_empty h s, ?_, ?_⟩
  · obtain ⟨s', hrun, hev⟩ := received_trace h fuel s hr hmax hfit hp
      (log (atDispatch h s)
        (Event.message (decodeLength s.client).cWsHeaderDecode.opCode (deliveredPayload h s)
          (declaredLen s.client.cWsHeader) (decodeLength s.client).cWsHeaderDecode.fin))
      [Event.message (decodeLength s.client).cWsHeaderDecode.opCode (deliveredPayload h s)
          (declaredLen s.client.cWsHeader) (decodeLength s.client).cWsHeaderDecode.fin]
      (dispatch_data h (atDispatch h s) (deliveredPayload h s) hop) rfl
    refine ⟨s', hrun, hev, ?_, ?_⟩
    · rw [hev]
      unfold acquireEvents releaseEvents decodedEvent
      split_ifs <;> rfl
    · rw [hev]
      unfold acquireEvents releaseEvents decodedEvent
      split_ifs <;> rfl
  · intro hl
    obtain ⟨buf, hb, hlen, _, hbytes⟩ := deliveredPayload_spec h s hfit hl
    exact ⟨buf, hb, hlen, hbytes⟩
  · unfold lengthEnd
    split_ifs <;> simp

/-- C6, worked instance: the masked text frame "hi" is delivered once, unmasked, with its
terminator. -/
theorem data_frame_delivered_witness :
    HeaderReady maskedHi ∧ PayloadReceived demoHost maskedHi
      ∧ ∃ s', handleWebsocketCb demoHost 1 maskedHi = Except.ok s'
          ∧ newEvents [] s'
              = [Event.decoded true false false false WSop_text true 2, Event.malloc 3 true,
                  Event.read Dst.payload 2,
                  Event.message WSop_text (some [0x68, 0x69, 0x00]) 2 true, Event.free] := by
  have hr : HeaderReady maskedHi := ⟨by decide, by decide, by decide⟩
  have hp : PayloadReceived demoHost maskedHi := fun _ => ⟨by decide, by decide⟩
  obtain ⟨⟨s', hrun, hev, _⟩, _⟩ :=
    data_frame_delivered demoHost 0 maskedHi hr (by decide) (by decide) hp (by decide)
  exact ⟨hr, hp, s', hrun, hev.trans (by decide!)⟩

/-! ## Control frames and unknown opcodes -/

theorem atDispatch_canSend (h : Host) (s : State) (hr : HeaderReady s)
    (hp : PayloadReceived h s) (hst : s.client.status = WSclientsStatus_t.WSC_CONNECTED) :
    canSend (atDispatch h s) = true :=
  canSend_of_connected _ (atDispatch_connected h s hr hp) hst

/-- C8. A ping frame whose header is complete and whose payload read succeeds, on a client
in `WSC_CONNECTED` status with a connected transport: `handleWebsocketCb` returns; exactly
one frame is handed to the transport, a pong with fin set carrying the delivered (unmasked)
payload and the declared length, and after it the message callback is called exactly once,
with opcode ping and the same payload and length.  The delivered payload is as in C6.
`WEBSOCKETS_MAX_DATA_SIZE` is taken below the sentinel `0xFFFFFFFF`. -/
theorem ping_answered_with_pong (h : Host) (fuel : Nat) (s : State) (hr : HeaderReady s)
    (hcfg : h.maxDataSize < 0xFFFFFFFF)
    (hmax : declaredLen s.client.cWsHeader ≤ h.maxDataSize) (hp : PayloadReceived h s)
    (hst : s.client.status = WSclientsStatus_t.WSC_CONNECTED)
    (hop : (decodeLength s.client).cWsHeaderDecode.opCode = WSop_ping) :
    (∃ s', handleWebsocketCb h (fuel + 1) s = Except.ok s'
      ∧ newEvents s.trace s'
          = [decodedEvent s.client] ++ acquireEvents (declaredLen s.client.cWsHeader)
            ++ [Event.frame WSop_pong (deliveredPayload h s) (declaredLen s.client.cWsHeader)
                  true false,
                Event.message WSop_ping (deliveredPayload h s)
                  (declaredLen s.client.cWsHeader) (decodeLength s.client).cWsHeaderDecode.fin]
            ++ releaseEvents (declaredLen s.client.cWsHeader)
      ∧ (newEvents s.trace s').filter Event.isFrame
          = [Event.frame WSop_pong (deliveredPayload h s) (declaredLen s.client.cWsHeader)
              true false]
      ∧ (newEvents s.trace s').filter Event.isMessage
          = [Event.message WSop_ping (deliveredPayload h s)
              (declaredLen s.client.cWsHeader) (decodeLength s.client).cWsHeaderDecode.fin])
    ∧ (declaredLen s.client.cWsHeader = 0 → deliveredPayload h s = none)
    ∧ (0 < declaredLen s.client.cWsHeader →
        ∃ buf, deliveredPayload h s = some buf
          ∧ buf.length = declaredLen s.client.cWsHeader + 1
          ∧ ∀ i, i < declaredLen s.client.cWsHeader →
              buf.getD i 0
                = if (decodeLength s.client).cWsHeaderDecode.mask then
                    (payloadRead h s (declaredLen s.client.cWsHeader)).2.1.getD i 0
                      ^^^ s.client.cWsHeader.getD (lengthEnd s.client.cWsHeader + i % 4) 0
                  else (payloadRead h s (declaredLen s.client.cWsHeader)).2.1.getD i 0) := by
  have hfit : declaredLen s.client.cWsHeader + 1 < 2 ^ 32 := by omega
  refine ⟨?_, deliveredPayload_empty h s, ?_⟩
  · have hsend := sendFrame_trace h (atDispatch h s) WSop_pong (deliveredPayload h s)
      (declaredLen s.client.cWsHeader) true false
    rw [atDispatch_canSend h s hr hp hst, if_pos rfl] at hsend
    obtain ⟨s', hrun, hev⟩ := received_trace h fuel s hr hmax hfit hp _
      [Event.frame WSop_pong (deliveredPayload h s) (declaredLen s.client.cWsHeader)
          true false,
        Event.message WSop_ping (deliveredPayload h s)
          (declaredLen s.client.cWsHeader) (decodeLength s.client).cWsHeaderDecode.fin]
      (dispatch_ping h (atDispatch h s) (deliveredPayload h s) hop)
      (by
        rw [log_trace]
        exact (congrArg (fun l => l ++ [Event.message WSop_ping (deliveredPayload h s)
          (declaredLen s.client.cWsHeader) (decodeLength s.client).cWsHeaderDecode.fin])
            hsend).trans (List.append_assoc _ _ _))
    refine ⟨s', hrun, hev, ?_, ?_⟩
    · rw [hev]
      unfold acquireEvents releaseEvents decodedEvent
      split_ifs <;> rfl
    · rw [hev]
      unfold acquireEvents releaseEvents decodedEvent
      split_ifs <;> rfl
  · intro hl
    obtain ⟨buf, hb, hlen, _, hbytes⟩ := deliveredPayload_spec h s hfit hl
    exact ⟨buf, hb, hlen, hbytes⟩

/-- C8, worked instance: the ping "hi" is answered by one pong "hi" and then delivered. -/
theorem ping_answered_with_pong_witness :
    HeaderReady pingHi ∧ PayloadReceived demoHost pingHi
      ∧ ∃ s', handleWebsocketCb demoHost 1 pingHi = Except.ok s'
          ∧ newEvents [] s'
              = [Event.decoded true false false false WSop_ping false 2, Event.malloc 3 true,
                  Event.read Dst.payload 2,
                  Event.frame WSop_pong (some [0x68, 0x69, 0x00]) 2 true false,
                  Event.message WSop_ping (some [0x68, 0x69, 0x00]) 2 true, Event.free] := by
  have hr : HeaderReady pingHi := ⟨by decide, by decide, by decide⟩
  have hp : PayloadReceived demoHost pingHi := fun _ => ⟨by decide, by decide⟩
  obtain ⟨⟨s', hrun, hev, _⟩, _⟩ :=
    ping_answered_with_pong demoHost 0 pingHi hr (by decide) (by decide) hp (by decide)
      (by decide)
  exact ⟨hr, hp, s', hrun, hev.trans (by decide!)⟩

theorem clientDisconnect_closeEvents (h : Host) (s : State) (code : Nat) (hc : code ≠ 0) :
    (clientDisconnect h s code none 0).trace = s.trace ++ closeEvents (canSend s) code := by
  rw [clientDisconnect_trace]
  unfold closeEvents closeFrame
  by_cases hs : canSend s = true
  · rw [if_pos ⟨hs, hc⟩, if_pos hs]
    simp only [List.append_assoc]
  · rw [if_neg (fun hh => hs hh.1), if_neg hs]
    simp only [List.append_assoc]

theorem closeReasonCode_short (hd : WSMessageHeader_t) (p : Option (List Nat))
    (hl : hd.payloadLen < 2) : closeReasonCode hd p = Except.ok 1000 := by
  unfold closeReasonCode
  rw [if_neg (by omega)]

theorem closeReasonCode_read (hd : WSMessageHeader_t) (buf : List Nat)
    (hl : 2 ≤ hd.payloadLen) (hb : 2 ≤ buf.length) :
    closeReasonCode hd (some buf)
      = Except.ok ((buf.getD 0 0 <<< 8 ||| buf.getD 1 0) % 2 ^ 16) := by
  unfold closeReasonCode
  rw [if_pos hl]
  match buf, hb with
  | a :: b :: rest, _ => rfl

/-- C9. A close frame whose header is complete and whose payload read succeeds, whatever
its payload: `handleWebsocketCb` returns without touching memory outside the payload
buffer; it closes the connection with local code 1000 (`clientDisconnect(client, 1000)`:
the call, the close frame 03 E8 when `sendFrame` gets past its guards, the local
disconnect) and never calls the message callback.  The peer's code is not read at all
when the declared length is below 2 (whatever the payload pointer, `NULL` included), and
is read from bytes 0 and 1, most significant first, of a buffer of `len + 1` bytes
otherwise.  `WEBSOCKETS_MAX_DATA_SIZE` is taken below the sentinel `0xFFFFFFFF`. -/
theorem close_frame_closes_1000 (h : Host) (fuel : Nat) (s : State) (hr : HeaderReady s)
    (hcfg : h.maxDataSize < 0xFFFFFFFF)
    (hmax : declaredLen s.client.cWsHeader ≤ h.maxDataSize) (hp : PayloadReceived h s)
    (hop : (decodeLength s.client).cWsHeaderDecode.opCode = WSop_close) :
    (∃ s', handleWebsocketCb h (fuel + 1) s = Except.ok s'
      ∧ newEvents s.trace s'
          = [decodedEvent s.client] ++ acquireEvents (declaredLen s.client.cWsHeader)
            ++ closeEvents (canSend (atDispatch h s)) 1000
            ++ releaseEvents (declaredLen s.client.cWsHeader)
      ∧ (newEvents s.trace s').filter Event.isMessage = []
      ∧ (newEvents s.trace s').filter Event.isClose
          = [Event.closeReq 1000, Event.disconnected])
    ∧ (declaredLen s.client.cWsHeader < 2 →
        ∀ p, closeReasonCode (atDispatch h s).client.cWsHeaderDecode p = Except.ok 1000)
    ∧ (2 ≤ declaredLen s.client.cWsHeader →
        ∃ buf, deliveredPayload h s = some buf
          ∧ buf.length = declaredLen s.client.cWsHeader + 1
          ∧ closeReasonCode (atDispatch h s).client.cWsHeaderDecode (some buf)
              = Except.ok ((buf.getD 0 0 <<< 8 ||| buf.getD 1 0) % 2 ^ 16)) := by
  have hfit : declaredLen s.client.cWsHeader + 1 < 2 ^ 32 := by omega
  have hshort : declaredLen s.client.cWsHeader < 2 →
      ∀ p, closeReasonCode (atDispatch h s).client.cWsHeaderDecode p = Except.ok 1000 :=
    fun hl p => closeReasonCode_short _ p hl
  have hlong : 2 ≤ declaredLen s.client.cWsHeader →
      ∃ buf, deliveredPayload h s = some buf
        ∧ buf.length = declaredLen s.client.cWsHeader + 1
        ∧ closeReasonCode (atDispatch h s).client.cWsHeaderDecode (some buf)
            = Except.ok ((buf.getD 0 0 <<< 8 ||| buf.getD 1 0) % 2 ^ 16) := by
    intro hl
    obtain ⟨buf, hb, hlen, _, _⟩ := deliveredPayload_spec h s hfit (by omega)
    exact ⟨buf, hb, hlen, closeReasonCode_read _ buf hl (by omega)⟩
  have hcode : ∃ code, closeReasonCode (atDispatch h s).client.cWsHeaderDecode
      (deliveredPayload h s) = Except.ok code := by
    by_cases hl : declaredLen s.client.cWsHeader < 2
    · exact ⟨_, hshort hl _⟩
    · obtain ⟨buf, hb, _, hc⟩ := hlong (by omega)
      exact ⟨_, hb ▸ hc⟩
  obtain ⟨code, hcode⟩ := hcode
  refine ⟨?_, hshort, hlong⟩
  obtain ⟨s', hrun, hev⟩ := received_trace h fuel s hr hmax hfit hp _
    (closeEvents (canSend (atDispatch h s)) 1000)
    (dispatch_close h (atDispatch h s) (deliveredPayload h s) code hop hcode)
    (clientDisconnect_closeEvents h (atDispatch h s) 1000 (by decide))
  refine ⟨s', hrun, hev, ?_, ?_⟩
  · rw [hev]
    unfold acquireEvents releaseEvents decodedEvent closeEvents closeFrame
    split_ifs <;> rfl
  · rw [hev]
    unfold acquireEvents releaseEvents decodedEvent closeEvents closeFrame
    split_ifs <;> rfl

/-- C9, worked instance: the close frame with payload 03 E8 is answered by the close frame
03 E8 and a local close with code 1000; nothing is delivered. -/
theorem close_frame_closes_1000_witness :
    HeaderReady close1000 ∧ PayloadReceived demoHost close1000
      ∧ ∃ s', handleWebsocketCb demoHost 1 close1000 = Except.ok s'
          ∧ newEvents [] s'
              = [Event.decoded true false false false WSop_close false 2, Event.malloc 3 true,
                  Event.read Dst.payload 2, Event.closeReq 1000,
                  Event.frame WSop_close (some [0x03, 0xE8]) 2 true false,
                  Event.disconnected, Event.free] := by
  have hr : HeaderReady close1000 := ⟨by decide, by decide, by decide⟩
  have hp : PayloadReceived demoHost close1000 := fun _ => ⟨by decide, by decide⟩
  obtain ⟨⟨s', hrun, hev, _⟩, _⟩ :=
    close_frame_closes_1000 demoHost 0 close1000 hr (by decide) (by decide) hp (by decide)
  exact ⟨hr, hp, s', hrun, hev.trans (by decide!)⟩

/-- C10. A frame whose header is complete, whose payload read succeeds and whose 4-bit
opcode is none of 0x0, 0x1, 0x2, 0x8, 0x9, 0xA: `handleWebsocketCb` returns; it closes the
connection with code 1002 (`clientDisconnect(client, 1002)`: the call, the close frame
03 EA when `sendFrame` gets past its guards, the local disconnect), never calls the
message callback and sends no pong (the only frame that can leave is that close frame).
`WEBSOCKETS_MAX_DATA_SIZE` is taken below the sentinel `0xFFFFFFFF`. -/
theorem unknown_opcode_closes_1002 (h : Host) (fuel : Nat) (s : State) (hr : HeaderReady s)
    (hcfg : h.maxDataSize < 0xFFFFFFFF)
    (hmax : declaredLen s.client.cWsHeader ≤ h.maxDataSize) (hp : PayloadReceived h s)
    (h0 : (decodeLength s.client).cWsHeaderDecode.opCode ≠ 0x0)
    (h1 : (decodeLength s.client).cWsHeaderDecode.opCode ≠ 0x1)
    (h2 : (decodeLength s.client).cWsHeaderDecode.opCode ≠ 0x2)
    (h8 : (decodeLength s.client).cWsHeaderDecode.opCode ≠ 0x8)
    (h9 : (decodeLength s.client).cWsHeaderDecode.opCode ≠ 0x9)
    (hA : (decodeLength s.client).cWsHeaderDecode.opCode ≠ 0xA) :
    ∃ s', handleWebsocketCb h (fuel + 1) s = Except.ok s'
      ∧ newEvents s.trace s'
          = [decodedEvent s.client] ++ acquireEvents (declaredLen s.client.cWsHeader)
            ++ closeEvents (canSend (atDispatch h s)) 1002
            ++ releaseEvents (declaredLen s.client.cWsHeader)
      ∧ (newEvents s.trace s').filter Event.isMessage = []
      ∧ (newEvents s.trace s').filter Event.isClose
          = [Event.closeReq 1002, Event.disconnected]
      ∧ (newEvents s.trace s').filter Event.isFrame
          = if canSend (atDispatch h s) then [closeFrame 1002] else [] := by
  have hfit : declaredLen s.client.cWsHeader + 1 < 2 ^ 32 := by omega
  obtain ⟨s', hrun, hev⟩ := received_trace h fuel s hr hmax hfit hp _
    (closeEvents (canSend (atDispatch h s)) 1002)
    (dispatch_unknown h (atDispatch h s) (deliveredPayload h s) h0 h1 h2 h8 h9 hA)
    (clientDisconnect_closeEvents h (atDispatch h s) 1002 (by decide))
  refine ⟨s', hrun, hev, ?_, ?_, ?_⟩
  · rw [hev]
    unfold acquireEvents releaseEvents decodedEvent closeEvents closeFrame
    split_ifs <;> rfl
  · rw [hev]
    unfold acquireEvents releaseEvents decodedEvent closeEvents closeFrame
    split_ifs <;> rfl
  · rw [hev]
    unfold acquireEvents releaseEvents decodedEvent closeEvents closeFrame
    split_ifs <;> rfl

/-- C10, worked instance: an empty frame with opcode 0x3 is answered by the close frame
03 EA and a local close with code 1002; nothing is delivered. -/
theorem unknown_opcode_closes_1002_witness :
    HeaderReady reserved3 ∧ PayloadReceived demoHost reserved3
      ∧ ∃ s', handleWebsocketCb demoHost 1 reserved3 = Except.ok s'
          ∧ newEvents [] s'
              = [Event.decoded true false false false 0x3 false 0, Event.closeReq 1002,
                  Event.frame WSop_close (some [0x03, 0xEA]) 2 true false,
                  Event.disconnected] := by
  have hr : HeaderReady reserved3 := ⟨by decide, by decide, by decide⟩
  have hp : PayloadReceived demoHost reserved3 := fun hl => absurd hl (by decide)
  obtain ⟨s', hrun, hev, _⟩ :=
    unknown_opcode_closes_1002 demoHost 0 reserved3 hr (by decide) (by decide) hp
      (by decide) (by decide) (by decide) (by decide) (by decide) (by decide)
  exact ⟨hr, hp, s', hrun, hev.trans (by decide!)⟩

/-! ## Masking -/

/-- C7. The XOR loop `ptr[x] = ptr[x] ^ key[x % 4]` for `x < len` is its own inverse, for
every buffer, start offset, length (multiple of 4 or not) and key; and the unmasking loop of
`handleWebsocketPayloadCb` (key read from the header at `off`, payload at offset 0) undoes
the masking loop of `sendFrame` (key in `maskKey`, payload behind the 14 reserved header
bytes `pre`) when both use the same 4 key bytes. -/
theorem xorMask_twice :
    (∀ (key : Nat → Nat) (base len : Nat) (buf : List Nat),
        xorMask key base len (xorMask key base len buf) = buf)
    ∧ (∀ (maskKey hdr pre payload : List Nat) (off len : Nat),
        pre.length = WEBSOCKETS_MAX_HEADER_SIZE →
        (∀ j, j < 4 → hdr.getD (off + j) 0 = maskKey.getD j 0) →
        xorMask (fun j => hdr.getD (off + j) 0) 0 len
            ((xorMask (fun i => maskKey.getD i 0) WEBSOCKETS_MAX_HEADER_SIZE len
              (pre ++ payload)).drop WEBSOCKETS_MAX_HEADER_SIZE)
          = payload) := by
  refine ⟨xorMask_involutive, ?_⟩
  intro maskKey hdr pre payload off len hpre hkey
  apply List.ext_getElem?
  intro j
  have hj4 : j % 4 < 4 := Nat.mod_lt _ (by decide)
  rw [xorMask_getElem?, List.getElem?_drop, xorMask_getElem?,
    List.getElem?_append_right (by omega), hpre]
  have e1 : WEBSOCKETS_MAX_HEADER_SIZE + j - WEBSOCKETS_MAX_HEADER_SIZE = j := by omega
  rw [e1]
  by_cases hc : j < len
  · rw [if_pos ⟨Nat.zero_le _, by omega⟩, if_pos ⟨by omega, by omega⟩]
    simp only [Nat.sub_zero, hkey (j % 4) hj4]
    cases payload[j]? with
    | none => rfl
    | some b => simp only [Option.map_some', Nat.xor_assoc, Nat.xor_self, Nat.xor_zero]
  · rw [if_neg (by omega), if_neg (by omega)]

/-- C7, worked instance: masking "hello" (5 bytes, not a multiple of 4) with the key
37 FA 21 3D behind 14 header bytes and unmasking it with the same key read from a header at
offset 2 gives "hello" back. -/
theorem xorMask_twice_witness :
    xorMask (fun j => [0x81, 0x85, 0x37, 0xFA, 0x21, 0x3D].getD (2 + j) 0) 0 5
        ((xorMask (fun i => [0x37, 0xFA, 0x21, 0x3D].getD i 0) WEBSOCKETS_MAX_HEADER_SIZE 5
          (List.replicate 14 0 ++ [0x68, 0x65, 0x6C, 0x6C, 0x6F])).drop
            WEBSOCKETS_MAX_HEADER_SIZE)
      = [0x68, 0x65, 0x6C, 0x6C, 0x6F] :=
  xorMask_twice.2 [0x37, 0xFA, 0x21, 0x3D] [0x81, 0x85, 0x37, 0xFA, 0x21, 0x3D]
    (List.replicate 14 0) [0x68, 0x65, 0x6C, 0x6C, 0x6F] 2 5 (by decide) (by decide)

/-! ## Bit arithmetic of the header codec -/

theorem and_0xFF (x : Nat) : x &&& 0xFF = x % 256 := Nat.and_pow_two_sub_one_eq_mod x 8

theorem and_0x7F (x : Nat) : x &&& 0x7F = x % 128 := Nat.and_pow_two_sub_one_eq_mod x 7

theorem and_0x0F (x : Nat) : x &&& 0x0F = x % 16 := Nat.and_pow_two_sub_one_eq_mod x 4

theorem or_eq_add_of_dvd (x b i : Nat) (hx : 2 ^ i ∣ x) (hb : b < 2 ^ i) : x ||| b = x + b := by
  obtain ⟨a, rfl⟩ := hx
  exact (Nat.mul_add_lt_is_or hb a).symm

/-- Big-endian assembly of two bytes, as line 559 does it. -/
theorem shl8_or (a b : Nat) (hb : b < 256) : a <<< 8 ||| b = a * 256 + b := by
  rw [Nat.shiftLeft_eq]
  exact or_eq_add_of_dvd (a * 2 ^ 8) b 8 ⟨a, Nat.mul_comm _ _⟩ hb

/-- Big-endian assembly of four bytes, as line 579 does it. -/
theorem shl24_or (a b c d : Nat) (hb : b < 256) (hc : c < 256) (hd : d < 256) :
    a <<< 24 ||| b <<< 16 ||| c <<< 8 ||| d = a * 2 ^ 24 + b * 2 ^ 16 + c * 2 ^ 8 + d := by
  simp only [Nat.shiftLeft_eq]
  rw [or_eq_add_of_dvd (a * 2 ^ 24) (b * 2 ^ 16) 24 ⟨a, Nat.mul_comm _ _⟩ (by omega),
    or_eq_add_of_dvd (a * 2 ^ 24 + b * 2 ^ 16) (c * 2 ^ 8) 16 ⟨a * 2 ^ 8 + b, by ring⟩ (by omega),
    or_eq_add_of_dvd (a * 2 ^ 24 + b * 2 ^ 16 + c * 2 ^ 8) d 8
      ⟨a * 2 ^ 16 + b * 2 ^ 8 + c, by ring⟩ (by omega)]

/-- The 16 bit length field decodes to the length it was made from. -/
theorem length16_roundtrip (length : Nat) (hl : length < 65536) (rest : List Nat) :
    length16 ([(length >>> 8) &&& 0xFF, length &&& 0xFF] ++ rest) = length := by
  unfold length16
  simp only [List.cons_append, List.nil_append, List.getD_cons_zero, List.getD_cons_succ,
    and_0xFF, Nat.shiftRight_eq_div_pow]
  rw [shl8_or _ _ (Nat.mod_lt _ (by decide))]
  omega

/-- The 64 bit length field decodes to the length it was made from. -/
theorem length64_roundtrip (length : Nat) (hl : length < 2 ^ 32) (rest : List Nat) :
    length64 ([0x00, 0x00, 0x00, 0x00, (length >>> 24) &&& 0xFF, (length >>> 16) &&& 0xFF,
      (length >>> 8) &&& 0xFF, length &&& 0xFF] ++ rest) = length := by
  unfold length64
  simp only [List.cons_append, List.nil_append, List.getD_cons_zero, List.getD_cons_succ,
    and_0xFF, Nat.shiftRight_eq_div_pow,
    ne_eq, not_true_eq_false, or_self, if_false]
  rw [shl24_or _ _ _ _ (Nat.mod_lt _ (by decide)) (Nat.mod_lt _ (by decide))
    (Nat.mod_lt _ (by decide))]
  omega

/-- Byte 0 as `createHeader` builds it, for a 4-bit opcode. -/
theorem byte0_spec : ∀ opcode, opcode < 16 → ∀ fin : Bool,
    ((if fin then 0x00 ||| bit 7 else 0x00) ||| opcode) % 256
        = (if fin then 0x80 else 0) ||| opcode
    ∧ (((if fin then 0x00 ||| bit 7 else 0x00) ||| opcode) % 256) &&& 0x70 = 0
    ∧ ((((((if fin then 0x00 ||| bit 7 else 0x00) ||| opcode) % 256) >>> 7) &&& 0x01) != 0) = fin
    ∧ ((((((if fin then 0x00 ||| bit 7 else 0x00) ||| opcode) % 256) >>> 6) &&& 0x01) != 0)
        = false
    ∧ ((((((if fin then 0x00 ||| bit 7 else 0x00) ||| opcode) % 256) >>> 5) &&& 0x01) != 0)
        = false
    ∧ ((((((if fin then 0x00 ||| bit 7 else 0x00) ||| opcode) % 256) >>> 4) &&& 0x01) != 0)
        = false
    ∧ (((if fin then 0x00 ||| bit 7 else 0x00) ||| opcode) % 256) &&& 0x0F = opcode := by
  decide

/-- Byte 1 as `createHeader` builds it for a length below 126. -/
theorem byte1_short_spec : ∀ length, length < 126 → ∀ mask : Bool,
    (((if mask then 0x00 ||| bit 7 else 0x00) ||| length) % 256) >>> 7 = (if mask then 1 else 0)
    ∧ (((if mask then 0x00 ||| bit 7 else 0x00) ||| length) % 256) &&& 0x7F = length
    ∧ ((((((if mask then 0x00 ||| bit 7 else 0x00) ||| length) % 256) >>> 7) &&& 0x01) != 0)
        = mask := by
  decide

/-! ## `createHeader`: size and wire layout -/

theorem maskKey_bytes (maskKey : List Nat) (hkey : maskKey.length = 4) :
    [maskKey.getD 0 0, maskKey.getD 1 0, maskKey.getD 2 0, maskKey.getD 3 0] = maskKey := by
  match maskKey, hkey with
  | [a, b, c, d], _ => rfl

/-- What `createHeader` writes and returns, branch by branch. -/
theorem createHeader_eq (opcode length : Nat) (mask fin : Bool) (maskKey : List Nat)
    (hkey : maskKey.length = 4) :
    createHeader opcode length mask maskKey fin
      = ([((if fin then 0x00 ||| bit 7 else 0x00) ||| opcode) % 256]
          ++ (if length < 126 then
                [((if mask then 0x00 ||| bit 7 else 0x00) ||| length) % 256]
              else if length < 0xFFFF then
                [(if mask then 0x00 ||| bit 7 else 0x00) ||| 126, (length >>> 8) &&& 0xFF,
                  length &&& 0xFF]
              else
                [(if mask then 0x00 ||| bit 7 else 0x00) ||| 127, 0x00, 0x00, 0x00, 0x00,
                  (length >>> 24) &&& 0xFF, (length >>> 16) &&& 0xFF,
                  (length >>> 8) &&& 0xFF, length &&& 0xFF])
          ++ (if mask then maskKey else []),
        (if length < 126 then 2 else if length < 0xFFFF then 4 else 10)
          + (if mask then 4 else 0)) := by
  unfold createHeader
  simp only [maskKey_bytes maskKey hkey]
  cases mask <;> simp

/-- C3. The bytes `createHeader` writes, for a 4-bit opcode and a length below 2^32, are
`b0`, `b1`, the extended length field `ext` and, when masked, the 4 mask-key bytes in order
as the last 4 bytes: `b0` is `(fin ? 0x80 : 0) | opcode` with bits 6-4 zero; bit 7 of `b1`
is the mask flag; bits 6-0 of `b1` are the length itself (no extended field), or 126 with
the length in 2 bytes big-endian, or 127 with 4 zero bytes followed by the low 32 bits of
the length, most significant byte first.  The returned size is the number of bytes
written. -/
theorem createHeader_wire_layout (opcode length : Nat) (mask fin : Bool) (maskKey : List Nat)
    (hop : opcode < 16) (hlen : length < 2 ^ 32) (hkey : maskKey.length = 4) :
    ∃ b0 b1 ext,
      (createHeader opcode length mask maskKey fin).1
          = [b0, b1] ++ ext ++ (if mask then maskKey else [])
      ∧ b0 = (if fin then 0x80 else 0) ||| opcode
      ∧ b0 &&& 0x70 = 0
      ∧ b1 < 256
      ∧ b1 >>> 7 = (if mask then 1 else 0)
      ∧ ((b1 &&& 0x7F = length ∧ length < 126 ∧ ext = [])
          ∨ (b1 &&& 0x7F = 126 ∧ length < 65536 ∧ ext = [length / 256, length % 256])
          ∨ (b1 &&& 0x7F = 127
              ∧ ext = [0, 0, 0, 0, length / 2 ^ 24 % 256, length / 2 ^ 16 % 256,
                  length / 2 ^ 8 % 256, length % 256]))
      ∧ (createHeader opcode length mask maskKey fin).2
          = 2 + ext.length + (if mask then 4 else 0)
      ∧ (createHeader opcode length mask maskKey fin).1.length
          = (createHeader opcode length mask maskKey fin).2 := by
  obtain ⟨e0, z0, -, -, -, -, -⟩ := byte0_spec opcode hop fin
  rw [createHeader_eq opcode length mask fin maskKey hkey]
  by_cases h1 : length < 126
  · obtain ⟨s1, m1, -⟩ := byte1_short_spec length h1 mask
    refine ⟨_, _, [], ?_, e0, z0, Nat.mod_lt _ (by decide), s1, Or.inl ⟨m1, h1, rfl⟩, ?_, ?_⟩
    · simp only [if_pos h1, List.append_nil, List.cons_append, List.nil_append]
    · simp only [if_pos h1, List.length_nil]
    · cases mask <;> simp [if_pos h1, hkey]
  · by_cases h2 : length < 0xFFFF
    · refine ⟨_, (if mask then 0x00 ||| bit 7 else 0x00) ||| 126,
        [length / 256, length % 256], ?_, e0, z0, ?_, ?_, Or.inr (Or.inl ⟨?_, by omega, rfl⟩),
        ?_, ?_⟩
      · have e2 : (length >>> 8) &&& 0xFF = length / 256 := by
          rw [and_0xFF, Nat.shiftRight_eq_div_pow]; omega
        simp only [if_neg h1, if_pos h2, e2, and_0xFF, List.cons_append, List.nil_append]
      · cases mask <;> decide
      · cases mask <;> decide
      · cases mask <;> decide
      · simp only [if_neg h1, if_pos h2, List.length_cons, List.length_nil]
      · cases mask <;> simp [if_neg h1, if_pos h2, hkey]
    · refine ⟨_, (if mask then 0x00 ||| bit 7 else 0x00) ||| 127,
        [0, 0, 0, 0, length / 2 ^ 24 % 256, length / 2 ^ 16 % 256, length / 2 ^ 8 % 256,
          length % 256], ?_, e0, z0, ?_, ?_, Or.inr (Or.inr ⟨?_, rfl⟩), ?_, ?_⟩
      · simp only [if_neg h1, if_neg h2, and_0xFF, Nat.shiftRight_eq_div_pow,
          List.cons_append, List.nil_append]
      · cases mask <;> decide
      · cases mask <;> decide
      · cases mask <;> decide
      · simp only [if_neg h1, if_neg h2, List.length_cons, List.length_nil]
      · cases mask <;> simp [if_neg h1, if_neg h2, hkey]

/-- C3, worked instance: the masked final text header for 300 payload bytes is
81 FE 01 2C followed by the key. -/
theorem createHeader_wire_layout_witness :
    ∃ b0 b1 ext,
      (createHeader WSop_text 300 true [0x37, 0xFA, 0x21, 0x3D] true).1
          = [b0, b1] ++ ext ++ (if true then [0x37, 0xFA, 0x21, 0x3D] else [])
      ∧ b0 = (if true then 0x80 else 0) ||| WSop_text
      ∧ b0 &&& 0x70 = 0
      ∧ b1 < 256
      ∧ b1 >>> 7 = (if true then 1 else 0)
      ∧ ((b1 &&& 0x7F = 300 ∧ 300 < 126 ∧ ext = [])
          ∨ (b1 &&& 0x7F = 126 ∧ 300 < 65536 ∧ ext = [300 / 256, 300 % 256])
          ∨ (b1 &&& 0x7F = 127
              ∧ ext = [0, 0, 0, 0, 300 / 2 ^ 24 % 256, 300 / 2 ^ 16 % 256,
                  300 / 2 ^ 8 % 256, 300 % 256]))
      ∧ (createHeader WSop_text 300 true [0x37, 0xFA, 0x21, 0x3D] true).2
          = 2 + ext.length + (if true then 4 else 0)
      ∧ (createHeader WSop_text 300 true [0x37, 0xFA, 0x21, 0x3D] true).1.length
          = (createHeader WSop_text 300 true [0x37, 0xFA, 0x21, 0x3D] true).2 :=
  createHeader_wire_layout WSop_text 300 true true [0x37, 0xFA, 0x21, 0x3D] (by decide)
    (by decide) (by decide)

/-- C2, the code at the boundary: for a length of 65535 `createHeader` returns 10 (14 when
masked) and writes the marker 127 with an 8 byte length, where the 16 bit form
(marker 126, FF FF, size 4) would do; line 151 tests `length < 0xFFFF`.  The lengths 125,
126, 65534 and 65536 get the sizes 2, 4, 4 and 10. -/
theorem createHeader_size_at_65535 :
    createHeader WSop_binary 65535 false [0, 0, 0, 0] true
        = ([0x82, 127, 0, 0, 0, 0, 0, 0, 0xFF, 0xFF], 10)
      ∧ (createHeader WSop_binary 65535 true [0, 0, 0, 0] true).2 = 14
      ∧ (createHeader WSop_binary 125 false [0, 0, 0, 0] true).2 = 2
      ∧ (createHeader WSop_binary 126 false [0, 0, 0, 0] true).2 = 4
      ∧ (createHeader WSop_binary 65534 false [0, 0, 0, 0] true).2 = 4
      ∧ (createHeader WSop_binary 65536 false [0, 0, 0, 0] true).2 = 10 := by
  decide

/-! ## How the trace grows -/

theorem Grows.refl (P : Event → Bool) (s : State) : Grows P s s :=
  ⟨[], (List.append_nil _).symm, rfl⟩

theorem Grows.of_trace (P : Event → Bool) (s s' : State) (evs : List Event)
    (ht : s'.trace = s.trace ++ evs) (hP : evs.all P = true) : Grows P s s' :=
  ⟨evs, ht, hP⟩

theorem Grows.trans {P : Event → Bool} {a b c : State} (h12 : Grows P a b)
    (h23 : Grows P b c) : Grows P a c := by
  obtain ⟨e1, t1, p1⟩ := h12
  obtain ⟨e2, t2, p2⟩ := h23
  refine ⟨e1 ++ e2, ?_, ?_⟩
  · rw [t2, t1, List.append_assoc]
  · rw [List.all_append, p1, p2]; rfl

theorem Grows.mono {P Q : Event → Bool} {s s' : State} (hPQ : ∀ e, P e = true → Q e = true)
    (hg : Grows P s s') : Grows Q s s' := by
  obtain ⟨evs, ht, hp⟩ := hg
  refine ⟨evs, ht, ?_⟩
  rw [List.all_eq_true] at hp ⊢
  exact fun e he => hPQ e (hp e he)

theorem Grows.of_trace_eq {P : Event → Bool} {a b c : State} (ht : c.trace = b.trace)
    (hg : Grows P a b) : Grows P a c := by
  obtain ⟨evs, t, hp⟩ := hg
  exact ⟨evs, ht.trans t, hp⟩

theorem Grows.of_trace_eq_left {P : Event → Bool} {a b c : State}
    (ht : b.trace = a.trace) (hg : Grows P b c) : Grows P a c := by
  obtain ⟨evs, t, hp⟩ := hg
  exact ⟨evs, ht ▸ t, hp⟩

theorem Grows.newEvents_all {P : Event → Bool} {s s' : State} (hg : Grows P s s') :
    (newEvents s.trace s').all P = true := by
  obtain ⟨evs, t, hp⟩ := hg
  rw [newEvents_append _ _ _ t]; exact hp

theorem Grows.log {P : Event → Bool} (s : State) (e : Event) (he : P e = true) :
    Grows P s (log s e) :=
  ⟨[e], rfl, by rw [List.all_cons, he]; rfl⟩

theorem sendFrame_grows (P : Event → Bool) (h : Host) (s : State) (opcode : Nat)
    (payload : Option (List Nat)) (length : Nat) (fin headerToPayload : Bool)
    (hP : P (Event.frame opcode payload length fin headerToPayload) = true) :
    Grows P s (sendFrame h s opcode payload length fin headerToPayload).2 := by
  refine ⟨_, sendFrame_trace h s opcode payload length fin headerToPayload, ?_⟩
  split_ifs
  · rw [List.all_cons, hP]; rfl
  · rfl

theorem clientDisconnect_grows (P : Event → Bool) (h : Host) (s : State) (code : Nat)
    (hc : code ≠ 0) (hP : (closeEvents true code).all P = true) :
    Grows P s (clientDisconnect h s code none 0) := by
  refine ⟨_, clientDisconnect_closeEvents h s code hc, ?_⟩
  cases hs : canSend s
  · unfold closeEvents closeFrame at hP ⊢
    simp only [List.all_append, List.all_cons, List.all_nil, Bool.and_true, if_true,
      Bool.and_eq_true, Bool.false_eq_true, if_false] at hP ⊢
    exact ⟨hP.1.1, hP.2⟩
  · exact hP

theorem closeReasonCode_outcome (hd : WSMessageHeader_t) (p : Option (List Nat)) :
    (∃ code, closeReasonCode hd p = Except.ok code)
      ∨ (closeReasonCode hd p = Except.error Fault.bounds ∧ 2 ≤ hd.payloadLen
          ∧ ∀ buf, p = some buf → buf.length < 2) := by
  by_cases hl : 2 ≤ hd.payloadLen
  · cases p with
    | none =>
      right
      refine ⟨?_, hl, fun buf hb => Option.noConfusion hb⟩
      unfold closeReasonCode; rw [if_pos hl]
    | some buf =>
      by_cases hb : 2 ≤ buf.length
      · exact Or.inl ⟨_, closeReasonCode_read hd buf hl hb⟩
      · right
        refine ⟨?_, hl, fun b hb' => by cases hb'; omega⟩
        unfold closeReasonCode; rw [if_pos hl]
        match buf, hb with
        | [], _ => rfl
        | [a], _ => rfl
        | a :: b :: rest, hb => exact absurd (by simp) hb
  · exact Or.inl ⟨_, closeReasonCode_short hd p (by omega)⟩

/-- The dispatcher either returns, having added only payload-stage events, or stops at an
out-of-bounds load of the close code. -/
theorem dispatch_outcome (h : Host) (s : State) (p : Option (List Nat)) :
    (∃ sD, dispatch h s p = Except.ok sD ∧ Grows Event.isPayloadStage s sD)
      ∨ (dispatch h s p = Except.error Fault.bounds ∧ 2 ≤ s.client.cWsHeaderDecode.payloadLen
          ∧ ∀ buf, p = some buf → buf.length < 2) := by
  by_cases h1 : s.client.cWsHeaderDecode.opCode = WSop_text
  · exact Or.inl ⟨_, dispatch_data h s p (Or.inl h1), Grows.log _ _ rfl⟩
  by_cases h2 : s.client.cWsHeaderDecode.opCode = WSop_binary
  · exact Or.inl ⟨_, dispatch_data h s p (Or.inr (Or.inl h2)), Grows.log _ _ rfl⟩
  by_cases h0 : s.client.cWsHeaderDecode.opCode = WSop_continuation
  · exact Or.inl ⟨_, dispatch_data h s p (Or.inr (Or.inr h0)), Grows.log _ _ rfl⟩
  by_cases h9 : s.client.cWsHeaderDecode.opCode = WSop_ping
  · exact Or.inl ⟨_, dispatch_ping h s p h9,
      (sendFrame_grows _ h s _ _ _ _ _ rfl).trans (Grows.log _ _ rfl)⟩
  by_cases hA : s.client.cWsHeaderDecode.opCode = WSop_pong
  · left
    refine ⟨log { s with client := { s.client with pongReceived := true } }
      (Event.message s.client.cWsHeaderDecode.opCode p s.client.cWsHeaderDecode.payloadLen
        s.client.cWsHeaderDecode.fin), ?_, ⟨_, rfl, rfl⟩⟩
    unfold dispatch
    simp [hA, WSop_text, WSop_binary, WSop_continuation, WSop_ping, WSop_pong]
  by_cases h8 : s.client.cWsHeaderDecode.opCode = WSop_close
  · rcases closeReasonCode_outcome s.client.cWsHeaderDecode p with ⟨code, hc⟩ | ⟨hc, hl, hb⟩
    · exact Or.inl ⟨_, dispatch_close h s p code h8 hc,
        clientDisconnect_grows _ h s 1000 (by decide) (by decide)⟩
    · right
      refine ⟨?_, hl, hb⟩
      unfold dispatch
      simp [h8, hc, WSop_text, WSop_binary, WSop_continuation, WSop_ping, WSop_pong,
        WSop_close]
  · exact Or.inl ⟨_, dispatch_unknown h s p h0 h1 h2 h8 h9 hA,
      clientDisconnect_grows _ h s 1002 (by decide) (by decide)⟩

theorem unmaskPayload_zero (c : WSclient_t) (payload : Option (List Nat))
    (hl : c.cWsHeaderDecode.payloadLen = 0) : unmaskPayload c payload = Except.ok payload := by
  unfold unmaskPayload
  simp only [hl, gt_iff_lt, Nat.lt_irrefl, if_false]

theorem unmaskPayload_none (c : WSclient_t) (hl : 0 < c.cWsHeaderDecode.payloadLen) :
    unmaskPayload c none = Except.error Fault.bounds := by
  unfold unmaskPayload
  simp only [gt_iff_lt, hl, if_true]

theorem unmaskPayload_short (c : WSclient_t) (b : List Nat)
    (hl : 0 < c.cWsHeaderDecode.payloadLen) (hb : ¬ c.cWsHeaderDecode.payloadLen < b.length) :
    unmaskPayload c (some b) = Except.error Fault.bounds := by
  unfold unmaskPayload
  simp only [gt_iff_lt, hl, if_true, hb, if_false]

theorem unmaskPayload_some (c : WSclient_t) (b : List Nat)
    (hl : 0 < c.cWsHeaderDecode.payloadLen) (hb : c.cWsHeaderDecode.payloadLen < b.length) :
    ∃ buf, unmaskPayload c (some b) = Except.ok (some buf) ∧ buf.length = b.length := by
  unfold unmaskPayload
  simp only [gt_iff_lt, hl, if_true, hb]
  split_ifs
  · exact ⟨_, rfl, by rw [xorMask_length, List.length_set]⟩
  · exact ⟨_, rfl, by rw [List.length_set]⟩

theorem unmaskPayload_outcome (c : WSclient_t) (payload : Option (List Nat)) :
    (∃ p, unmaskPayload c payload = Except.ok p
        ∧ (∀ buf, p = some buf → ∃ b, payload = some b ∧ b.length = buf.length))
      ∨ (unmaskPayload c payload = Except.error Fault.bounds ∧ 0 < c.cWsHeaderDecode.payloadLen
          ∧ ∀ buf, payload = some buf → buf.length ≤ c.cWsHeaderDecode.payloadLen) := by
  by_cases hl : 0 < c.cWsHeaderDecode.payloadLen
  · cases payload with
    | none =>
      exact Or.inr ⟨unmaskPayload_none c hl, hl, fun buf hb => Option.noConfusion hb⟩
    | some b =>
      by_cases hb : c.cWsHeaderDecode.payloadLen < b.length
      · obtain ⟨buf, hu, hlen⟩ := unmaskPayload_some c b hl hb
        exact Or.inl ⟨_, hu, fun buf' hbuf => ⟨b, rfl, by cases hbuf; exact hlen.symm⟩⟩
      · exact Or.inr ⟨unmaskPayload_short c b hl hb, hl, fun buf hbuf => by cases hbuf; omega⟩
  · exact Or.inl ⟨payload, unmaskPayload_zero c payload (by omega),
      fun buf hbuf => ⟨buf, hbuf, rfl⟩⟩

/-- `handleWebsocketPayloadCb` either returns, having added only payload-stage events, or
stops at an access outside a payload buffer that is not longer than the declared length. -/
theorem handleWebsocketPayloadCb_outcome (h : Host) (s : State) (ok : Bool)
    (payload : Option (List Nat)) :
    (∃ s', handleWebsocketPayloadCb h s ok payload = Except.ok s'
        ∧ Grows Event.isPayloadStage s s')
      ∨ ((∃ e, handleWebsocketPayloadCb h s ok payload = Except.error e)
          ∧ 0 < s.client.cWsHeaderDecode.payloadLen
          ∧ ∀ buf, payload = some buf → buf.length ≤ s.client.cWsHeaderDecode.payloadLen) := by
  cases ok with
  | false =>
    left
    refine ⟨clientDisconnect h (if payload.isSome then log s Event.free else s) 1002 none 0,
      by unfold handleWebsocketPayloadCb; simp only [Bool.false_eq_true, if_false], ?_⟩
    refine Grows.trans (b := if payload.isSome then log s Event.free else s) ?_
      (clientDisconnect_grows _ h _ 1002 (by decide) (by decide))
    split_ifs
    · exact Grows.log _ _ rfl
    · exact Grows.refl _ _
  | true =>
    rcases unmaskPayload_outcome s.client payload with ⟨p, hu, hp⟩ | ⟨hu, hl, hb⟩
    · rw [handleWebsocketPayloadCb_ok h s payload p hu]
      rcases dispatch_outcome h s p with ⟨sD, hd, hg⟩ | ⟨hd, hl, hb⟩
      · left
        rw [hd]
        refine ⟨_, rfl, ?_⟩
        refine Grows.of_trace_eq (b := if p.isSome then log sD Event.free else sD) rfl
          (hg.trans ?_)
        split_ifs
        · exact Grows.log _ _ rfl
        · exact Grows.refl _ _
      · right
        rw [hd]
        refine ⟨⟨_, rfl⟩, by omega, ?_⟩
        intro buf hbuf
        have hpl : 0 < s.client.cWsHeaderDecode.payloadLen := by omega
        -- the buffer the dispatcher saw has the length of the one passed in
        have : ∃ b, p = some b ∧ b.length = buf.length := by
          subst hbuf
          by_cases hlt : s.client.cWsHeaderDecode.payloadLen < buf.length
          · obtain ⟨b, hu', hlen⟩ := unmaskPayload_some s.client buf hpl hlt
            rw [hu'] at hu
            cases hu
            exact ⟨b, rfl, hlen⟩
          · rw [unmaskPayload_short s.client buf hpl hlt] at hu
            cases hu
        obtain ⟨b, hb1, hb2⟩ := this
        have := hb b hb1
        omega
    · right
      refine ⟨⟨Fault.bounds, ?_⟩, hl, hb⟩
      unfold handleWebsocketPayloadCb
      simp only [if_true, hu]

/-- The payload stage either returns, having added only payload-stage events, or stops at an
access outside the payload buffer, which needs `payloadLen + 1` to wrap around. -/
theorem receivePayload_outcome (h : Host) (s : State) :
    (∃ s', receivePayload h s = Except.ok s' ∧ Grows Event.isPayloadStage s s')
      ∨ ((∃ e, receivePayload h s = Except.error e)
          ∧ ¬ s.client.cWsHeaderDecode.payloadLen + 1 < 2 ^ 32) := by
  by_cases hl : 0 < s.client.cWsHeaderDecode.payloadLen
  · by_cases hm : h.mallocOk ((s.client.cWsHeaderDecode.payloadLen + 1) % 2 ^ 32) = true
    · -- the state in which the callback of the payload read runs
      have hcb := handleWebsocketPayloadCb_outcome h
        { client := s.client
          tcp := (payloadRead h s s.client.cWsHeaderDecode.payloadLen).2.2.1
          polls := (payloadRead h s s.client.cWsHeaderDecode.payloadLen).2.2.2
          trace := s.trace
            ++ [Event.malloc ((s.client.cWsHeaderDecode.payloadLen + 1) % 2 ^ 32) true]
            ++ [Event.read Dst.payload s.client.cWsHeaderDecode.payloadLen]
          rngCalls := s.rngCalls }
        (payloadRead h s s.client.cWsHeaderDecode.payloadLen).1
        (some (payloadRead h s s.client.cWsHeaderDecode.payloadLen).2.1)
      have hrun : receivePayload h s
          = match handleWebsocketPayloadCb h
              { client := s.client
                tcp := (payloadRead h s s.client.cWsHeaderDecode.payloadLen).2.2.1
                polls := (payloadRead h s s.client.cWsHeaderDecode.payloadLen).2.2.2
                trace := s.trace
                  ++ [Event.malloc ((s.client.cWsHeaderDecode.payloadLen + 1) % 2 ^ 32) true]
                  ++ [Event.read Dst.payload s.client.cWsHeaderDecode.payloadLen]
                rngCalls := s.rngCalls }
              (payloadRead h s s.client.cWsHeaderDecode.payloadLen).1
              (some (payloadRead h s s.client.cWsHeaderDecode.payloadLen).2.1) with
            | Except.error e => Except.error e
            | Except.ok s1 =>
              Except.ok (if (payloadRead h s s.client.cWsHeaderDecode.payloadLen).1
                then yield s1 else s1) := by
        unfold receivePayload
        simp only [gt_iff_lt, hl, if_true, hm]
        cases hr : (payloadRead h s s.client.cWsHeaderDecode.payloadLen).1
        · rw [readCb_fail h (log s _) Dst.payload _ 0 _ _ hr]
          simp only [log_client, log_tcp, log_polls, log_trace, log_rngCalls]
          rw [show readLoop h.tcpTimeout s.client.tcp s.polls s.tcp
              (List.map h.junk (List.range ((s.client.cWsHeaderDecode.payloadLen + 1) % 2 ^ 32)))
              0 s.client.cWsHeaderDecode.payloadLen s.tcp.now
              = payloadRead h s s.client.cWsHeaderDecode.payloadLen from rfl]
          generalize handleWebsocketPayloadCb h _ _ _ = X
          cases X <;> rfl
        · rw [readCb_ok h (log s _) Dst.payload _ 0 _ _ hr]
          simp only [log_client, log_tcp, log_polls, log_trace, log_rngCalls]
          rw [show readLoop h.tcpTimeout s.client.tcp s.polls s.tcp
              (List.map h.junk (List.range ((s.client.cWsHeaderDecode.payloadLen + 1) % 2 ^ 32)))
              0 s.client.cWsHeaderDecode.payloadLen s.tcp.now
              = payloadRead h s s.client.cWsHeaderDecode.payloadLen from rfl]
          generalize handleWebsocketPayloadCb h _ _ _ = X
          cases X <;> rfl
      rcases hcb with ⟨s1, h1, hg⟩ | ⟨⟨e, he⟩, _, hb⟩
      · left
        rw [hrun, h1]
        refine ⟨_, rfl, ?_⟩
        have hg0 : Grows Event.isPayloadStage s
            { client := s.client
              tcp := (payloadRead h s s.client.cWsHeaderDecode.payloadLen).2.2.1
              polls := (payloadRead h s s.client.cWsHeaderDecode.payloadLen).2.2.2
              trace := s.trace
                ++ [Event.malloc ((s.client.cWsHeaderDecode.payloadLen + 1) % 2 ^ 32) true]
                ++ [Event.read Dst.payload s.client.cWsHeaderDecode.payloadLen]
              rngCalls := s.rngCalls } :=
          ⟨_, List.append_assoc _ _ _, rfl⟩
        refine Grows.of_trace_eq ?_ (hg0.trans hg)
        split_ifs
        · exact yield_trace _
        · rfl
      · right
        rw [hrun, he]
        refine ⟨⟨e, rfl⟩, ?_⟩
        have := hb _ rfl
        rw [payloadRead_length] at this
        intro hfit
        rw [Nat.mod_eq_of_lt hfit] at this
        exact absurd this (by simp)
    · left
      refine ⟨clientDisconnect h (log s (Event.malloc
          ((s.client.cWsHeaderDecode.payloadLen + 1) % 2 ^ 32) false)) 1011 none 0, ?_, ?_⟩
      · unfold receivePayload
        simp only [gt_iff_lt, hl, if_true, hm, Bool.false_eq_true, if_false]
      · exact (Grows.log _ _ rfl).trans
          (clientDisconnect_grows _ h _ 1011 (by decide) (by decide))
  · have hrun : receivePayload h s = handleWebsocketPayloadCb h s true none := by
      unfold receivePayload
      simp only [gt_iff_lt, hl, if_false]
    rcases handleWebsocketPayloadCb_outcome h s true none with ⟨s1, h1, hg⟩ | ⟨_, hpos, _⟩
    · exact Or.inl ⟨s1, hrun.trans h1, hg⟩
    · exact absurd hpos hl

/-! ## Waiting for header bytes -/

/-- `handleWebsocketWaitFor` when the accumulator holds fewer than `size` bytes: one read
of the missing bytes; on success `cWsRXsize` becomes `size` and `handleWebsocketCb` is
re-entered, on failure `cWsRXsize` becomes 0 and the connection is closed with 1002. -/
theorem handleWebsocketWaitFor_read (h : Host) (k : State → Except Fault State) (s : State)
    (size : Nat) (htcp : s.client.tcp = true) (hconn : s.tcp.connected = true)
    (hsize : size ≤ 14) (hrx : s.client.cWsRXsize < size) :
    handleWebsocketWaitFor h k s size
      = if (headerRead h s size).1 then
          match k (setRXsize (afterHeaderRead h s size) size) with
          | Except.error e => Except.error e
          | Except.ok s2 => Except.ok (false, yield s2)
        else
          Except.ok (false,
            clientDisconnect h (setRXsize (afterHeaderRead h s size) 0) 1002 none 0) := by
  unfold handleWebsocketWaitFor
  have h1 : ¬ size > WEBSOCKETS_MAX_HEADER_SIZE := by
    unfold WEBSOCKETS_MAX_HEADER_SIZE; omega
  have h2 : ¬ s.client.cWsRXsize ≥ size := by omega
  simp only [htcp, hconn, h1, h2, Bool.not_true, Bool.or_self, Bool.false_eq_true, if_false]
  cases hr : (headerRead h s size).1
  · rw [readCb_fail h s _ _ _ _ _ hr]
    simp only [Bool.false_eq_true, if_false]
    rfl
  · rw [readCb_ok h s _ _ _ _ _ hr]
    simp only [if_true]
    change (match (match k (setRXsize (afterHeaderRead h s size) size) with
        | Except.error e => Except.error e
        | Except.ok s1 => Except.ok (true, yield s1)) with
      | Except.error e => Except.error e
      | Except.ok r => Except.ok (false, r.2)) = _
    cases k (setRXsize (afterHeaderRead h s size) size) <;> rfl

theorem handleWebsocketWaitFor_grows (h : Host) (k : State → Except Fault State)
    (hk : ∀ s s', k s = Except.ok s' → Grows Event.any s s') (s : State) (size : Nat)
    (b : Bool) (s' : State) (hw : handleWebsocketWaitFor h k s size = Except.ok (b, s')) :
    Grows Event.any s s' := by
  by_cases hg : s.client.tcp = true ∧ s.tcp.connected = true ∧ size ≤ 14
  · obtain ⟨htcp, hconn, hsize⟩ := hg
    by_cases hrx : size ≤ s.client.cWsRXsize
    · rw [handleWebsocketWaitFor_ready h k s size htcp hconn hsize hrx] at hw
      cases hw
      exact Grows.refl _ _
    · rw [handleWebsocketWaitFor_read h k s size htcp hconn hsize (by omega)] at hw
      have g0 : Grows Event.any s (afterHeaderRead h s size) := ⟨_, rfl, rfl⟩
      split_ifs at hw
      · cases hk2 : k (setRXsize (afterHeaderRead h s size) size) with
        | error e => rw [hk2] at hw; cases hw
        | ok s2 =>
          rw [hk2] at hw
          cases hw
          exact Grows.of_trace_eq (yield_trace _)
            (g0.trans (Grows.of_trace_eq_left (b := setRXsize (afterHeaderRead h s size) size)
              rfl (hk _ _ hk2)))
      · cases hw
        exact g0.trans (Grows.of_trace_eq_left (b := setRXsize (afterHeaderRead h s size) 0)
          rfl (clientDisconnect_grows _ h _ 1002 (by decide) rfl))
  · unfold handleWebsocketWaitFor at hw
    have : (!s.client.tcp || !s.tcp.connected) = true ∨ size > WEBSOCKETS_MAX_HEADER_SIZE := by
      unfold WEBSOCKETS_MAX_HEADER_SIZE
      by_cases h1 : s.client.tcp = true
      · by_cases h2 : s.tcp.connected = true
        · right
          by_cases h3 : size ≤ 14
          · exact absurd ⟨h1, h2, h3⟩ hg
          · omega
        · left; simp [h2]
      · left; simp [h1]
    rcases this with h1 | h1
    · rw [if_pos h1] at hw; cases hw; exact Grows.refl _ _
    · split_ifs at hw <;> first | (cases hw; exact Grows.refl _ _)

theorem receivePayload_grows (h : Host) (s s' : State)
    (hrun : receivePayload h s = Except.ok s') : Grows Event.isPayloadStage s s' := by
  rcases receivePayload_outcome h s with ⟨s1, h1, hg⟩ | ⟨⟨e, he⟩, _⟩
  · rw [h1] at hrun; cases hrun; exact hg
  · rw [he] at hrun; cases hrun

theorem afterLength_grows (h : Host) (k : State → Except Fault State)
    (hk : ∀ s s', k s = Except.ok s' → Grows Event.any s s') (s : State) (off headerLen : Nat)
    (s' : State) (hrun : afterLength h k s off headerLen = Except.ok s') :
    Grows Event.any s s' := by
  unfold afterLength at hrun
  simp only [log_client] at hrun
  have g0 : Grows Event.any s (log s (Event.decoded s.client.cWsHeaderDecode.fin
      s.client.cWsHeaderDecode.rsv1 s.client.cWsHeaderDecode.rsv2 s.client.cWsHeaderDecode.rsv3
      s.client.cWsHeaderDecode.opCode s.client.cWsHeaderDecode.mask
      s.client.cWsHeaderDecode.payloadLen)) := Grows.log _ _ rfl
  split_ifs at hrun with hbig hm
  · cases hrun
    exact g0.trans (clientDisconnect_grows _ h _ 1009 (by decide) rfl)
  · cases hw : handleWebsocketWaitFor h k (log s (Event.decoded s.client.cWsHeaderDecode.fin
        s.client.cWsHeaderDecode.rsv1 s.client.cWsHeaderDecode.rsv2
        s.client.cWsHeaderDecode.rsv3 s.client.cWsHeaderDecode.opCode
        s.client.cWsHeaderDecode.mask s.client.cWsHeaderDecode.payloadLen))
        (headerLen + 4) with
    | error e => rw [hw] at hrun; cases hrun
    | ok r =>
      obtain ⟨b, s1⟩ := r
      have g1 := handleWebsocketWaitFor_grows h k hk _ _ b s1 hw
      rw [hw] at hrun
      cases b
      · cases hrun; exact g0.trans g1
      · exact g0.trans (g1.trans (Grows.of_trace_eq_left rfl
          ((receivePayload_grows h _ s' hrun).mono (fun _ _ => rfl))))
  · exact g0.trans ((receivePayload_grows h _ s' hrun).mono (fun _ _ => rfl))

/-- A run of `handleWebsocketCb` that returns has only appended to the trace. -/
theorem handleWebsocketCb_grows (h : Host) : ∀ (fuel : Nat) (s s' : State),
    handleWebsocketCb h fuel s = Except.ok s' → Grows Event.any s s' := by
  intro fuel
  induction fuel with
  | zero => intro s s' hrun; rw [handleWebsocketCb] at hrun; cases hrun
  | succ n ih =>
    intro s s' hrun
    rw [handleWebsocketCb] at hrun
    split_ifs at hrun with hg
    · cases hrun; exact Grows.refl _ _
    · dsimp only at hrun
      cases hw : handleWebsocketWaitFor h (handleWebsocketCb h n) s 2 with
      | error e => rw [hw] at hrun; cases hrun
      | ok r =>
        obtain ⟨b, s1⟩ := r
        have g1 := handleWebsocketWaitFor_grows h _ ih _ _ b s1 hw
        rw [hw] at hrun
        cases b
        · cases hrun; exact g1
        · simp only [] at hrun
          split_ifs at hrun
          · cases hw2 : handleWebsocketWaitFor h (handleWebsocketCb h n)
                { s1 with client := splitFirstBytes s1.client } (2 + 2) with
            | error e => rw [hw2] at hrun; cases hrun
            | ok r2 =>
              obtain ⟨b2, s2⟩ := r2
              have g2 := handleWebsocketWaitFor_grows h _ ih _ _ b2 s2 hw2
              rw [hw2] at hrun
              cases b2
              · cases hrun
                exact g1.trans (Grows.of_trace_eq_left
                  (b := { s1 with client := splitFirstBytes s1.client }) rfl g2)
              · dsimp only at hrun
                exact g1.trans (Grows.of_trace_eq_left
                  (b := { s1 with client := splitFirstBytes s1.client }) rfl
                  (g2.trans (Grows.of_trace_eq_left (b := setPayloadLen s2 (length16 (s2.client.cWsHeader.drop 2))) rfl
                    (afterLength_grows h _ ih _ _ _ s' hrun))))
          · cases hw2 : handleWebsocketWaitFor h (handleWebsocketCb h n)
                { s1 with client := splitFirstBytes s1.client } (2 + 8) with
            | error e => rw [hw2] at hrun; cases hrun
            | ok r2 =>
              obtain ⟨b2, s2⟩ := r2
              have g2 := handleWebsocketWaitFor_grows h _ ih _ _ b2 s2 hw2
              rw [hw2] at hrun
              cases b2
              · cases hrun
                exact g1.trans (Grows.of_trace_eq_left
                  (b := { s1 with client := splitFirstBytes s1.client }) rfl g2)
              · dsimp only at hrun
                exact g1.trans (Grows.of_trace_eq_left
                  (b := { s1 with client := splitFirstBytes s1.client }) rfl
                  (g2.trans (Grows.of_trace_eq_left (b := setPayloadLen s2 (length64 (s2.client.cWsHeader.drop 2))) rfl
                    (afterLength_grows h _ ih _ _ _ s' hrun))))
          · exact g1.trans (Grows.of_trace_eq_left
              (b := { s1 with client := splitFirstBytes s1.client }) rfl
              (afterLength_grows h _ ih _ _ _ s' hrun))

/-! ## The decoded header depends on the accumulated bytes only -/

theorem getD_drop (l : List Nat) (k i : Nat) : (l.drop k).getD i 0 = l.getD (k + i) 0 := by
  simp only [List.getD_eq_getElem?_getD, List.getElem?_drop]

theorem getD_congr (a b : List Nat) (i : Nat) (hi : b[i]? = a[i]?) : b.getD i 0 = a.getD i 0 := by
  simp only [List.getD_eq_getElem?_getD, hi]

theorem lengthEnd_congr (a b : List Nat) (hab : ∀ i, i < lengthEnd a → b[i]? = a[i]?) :
    lengthEnd b = lengthEnd a := by
  have h1 : b.getD 1 0 = a.getD 1 0 :=
    getD_congr a b 1 (hab 1 (by have := two_le_lengthEnd a; omega))
  unfold lengthEnd
  rw [h1]

theorem declaredLen_congr (a b : List Nat) (hab : ∀ i, i < lengthEnd a → b[i]? = a[i]?) :
    declaredLen b = declaredLen a := by
  have h1 : b.getD 1 0 = a.getD 1 0 :=
    getD_congr a b 1 (hab 1 (by have := two_le_lengthEnd a; omega))
  unfold declaredLen
  rw [h1]
  by_cases m126 : a.getD 1 0 &&& 0x7F = 126
  · have hE : lengthEnd a = 2 + 2 := by unfold lengthEnd; rw [if_pos m126]
    rw [if_pos m126, if_pos m126]
    unfold length16
    simp only [getD_drop]
    rw [getD_congr a b (2 + 0) (hab _ (by omega)), getD_congr a b (2 + 1) (hab _ (by omega))]
  · by_cases m127 : a.getD 1 0 &&& 0x7F = 127
    · have hE : lengthEnd a = 2 + 8 := by unfold lengthEnd; rw [if_neg m126, if_pos m127]
      rw [if_neg m126, if_neg m126, if_pos m127, if_pos m127]
      unfold length64
      simp only [getD_drop]
      rw [getD_congr a b (2 + 0) (hab _ (by omega)), getD_congr a b (2 + 1) (hab _ (by omega)),
        getD_congr a b (2 + 2) (hab _ (by omega)), getD_congr a b (2 + 3) (hab _ (by omega)),
        getD_congr a b (2 + 4) (hab _ (by omega)), getD_congr a b (2 + 5) (hab _ (by omega)),
        getD_congr a b (2 + 6) (hab _ (by omega)), getD_congr a b (2 + 7) (hab _ (by omega))]
    · rw [if_neg m126, if_neg m126, if_neg m127, if_neg m127]

theorem headerEnd_congr (a b : List Nat) (hab : ∀ i, i < lengthEnd a → b[i]? = a[i]?) :
    headerEnd b = headerEnd a := by
  have h1 : b.getD 1 0 = a.getD 1 0 :=
    getD_congr a b 1 (hab 1 (by have := two_le_lengthEnd a; omega))
  unfold headerEnd
  rw [h1, lengthEnd_congr a b hab]

/-- A header read leaves the bytes already accumulated as they are. -/
theorem headerRead_kept (h : Host) (s : State) (size i : Nat) (hi : i < s.client.cWsRXsize) :
    (headerRead h s size).2.1[i]? = s.client.cWsHeader[i]? :=
  readLoop_getElem?_lt _ _ _ _ _ _ _ _ i hi

/-! ## Size check -/

theorem isPayloadStage_notTooBig (e : Event) (he : e.isPayloadStage = true) :
    e.notTooBig = true := by
  cases e <;> first | rfl | exact he

theorem canSend_decodeLength (s : State) (e : Event) :
    canSend (log { s with client := decodeLength s.client } e) = canSend s := rfl

/-- A header whose length field is complete and declares more than
`WEBSOCKETS_MAX_DATA_SIZE`: the run reports the header and calls
`clientDisconnect(client, 1009)`, nothing else. -/
theorem handleWebsocketCb_tooBig (h : Host) (fuel : Nat) (s : State)
    (htcp : s.client.tcp = true) (hconn : s.tcp.connected = true)
    (hle : lengthEnd s.client.cWsHeader ≤ s.client.cWsRXsize)
    (hbig : h.maxDataSize < declaredLen s.client.cWsHeader) :
    ∃ s', handleWebsocketCb h (fuel + 1) s = Except.ok s'
      ∧ newEvents s.trace s' = [decodedEvent s.client] ++ closeEvents (canSend s) 1009 := by
  refine ⟨clientDisconnect h (log { s with client := decodeLength s.client }
    (decodedEvent s.client)) 1009 none 0, ?_, ?_⟩
  · rw [handleWebsocketCb_lengthReady h fuel s htcp hconn hle]
    unfold afterLength
    simp only [log_client, decodeLength_payloadLen, gt_iff_lt, if_pos hbig]
    rfl
  · apply newEvents_append
    rw [clientDisconnect_closeEvents h _ 1009 (by decide), canSend_decodeLength, log_trace,
      List.append_assoc]

/-- A complete header that declares at most `WEBSOCKETS_MAX_DATA_SIZE`: the run either
returns without a close 1009, or stops at an access outside the payload buffer, which
needs the declared length plus one to wrap around. -/
theorem complete_outcome (h : Host) (fuel : Nat) (s : State) (hr : HeaderReady s)
    (hmax : declaredLen s.client.cWsHeader ≤ h.maxDataSize) :
    (∃ s', handleWebsocketCb h (fuel + 1) s = Except.ok s' ∧ Grows Event.notTooBig s s')
      ∨ ((∃ e, handleWebsocketCb h (fuel + 1) s = Except.error e)
          ∧ ¬ declaredLen s.client.cWsHeader + 1 < 2 ^ 32) := by
  have hle : lengthEnd s.client.cWsHeader ≤ s.client.cWsRXsize :=
    Nat.le_trans (lengthEnd_le_headerEnd _) hr.complete
  have h10 := lengthEnd_le s.client.cWsHeader
  have g0 : Grows Event.notTooBig s
      (log { s with client := decodeLength s.client } (decodedEvent s.client)) :=
    ⟨[decodedEvent s.client], rfl, rfl⟩
  rw [handleWebsocketCb_lengthReady h fuel s hr.tcp hr.connected hle]
  unfold afterLength
  simp only [log_client, decodeLength_payloadLen, gt_iff_lt, if_neg (Nat.not_lt.mpr hmax)]
  by_cases hm : (decodeLength s.client).cWsHeaderDecode.mask = true
  · have hend : lengthEnd s.client.cWsHeader + 4 ≤ s.client.cWsRXsize := by
      have := hr.complete
      have hm' : (((s.client.cWsHeader.getD 1 0 >>> 7) &&& 0x01) != 0) = true := hm
      unfold headerEnd at this
      rw [if_pos hm'] at this
      exact this
    rw [if_pos hm, handleWebsocketWaitFor_ready]
    · simp only []
      rcases receivePayload_outcome h _ with ⟨s', h1, hg⟩ | ⟨he, hfit⟩
      · exact Or.inl ⟨s', h1, g0.trans (Grows.of_trace_eq_left rfl
          (hg.mono isPayloadStage_notTooBig))⟩
      · exact Or.inr ⟨he, hfit⟩
    · exact hr.tcp
    · exact hr.connected
    · omega
    · exact hend
  · rw [if_neg hm]
    rcases receivePayload_outcome h _ with ⟨s', h1, hg⟩ | ⟨he, hfit⟩
    · exact Or.inl ⟨s', h1, g0.trans (hg.mono isPayloadStage_notTooBig)⟩
    · exact Or.inr ⟨he, hfit⟩

theorem afterLength_reported (h : Host) (k : State → Except Fault State) (s : State)
    (off headerLen : Nat) :
    afterLength h k { s with client := decodeLength s.client } off headerLen
      = if h.maxDataSize < declaredLen s.client.cWsHeader then
          Except.ok (clientDisconnect h (reported s) 1009 none 0)
        else if (decodeLength s.client).cWsHeaderDecode.mask then
          match handleWebsocketWaitFor h k (reported s) (headerLen + 4) with
          | Except.error e => Except.error e
          | Except.ok (false, s1) => Except.ok s1
          | Except.ok (true, s1) =>
            receivePayload h
              { s1 with client := { s1.client with
                  cWsHeaderDecode := { s1.client.cWsHeaderDecode with maskKey := off } } }
        else receivePayload h (reported s) := rfl

/-- A header whose length field is complete and declares at most
`WEBSOCKETS_MAX_DATA_SIZE`, the mask key possibly still missing: with two levels of
re-entry the run either returns without a close 1009, or stops at an access outside the
payload buffer, which needs the declared length plus one to wrap around. -/
theorem lengthReady_outcome (h : Host) (fuel : Nat) (s : State)
    (htcp : s.client.tcp = true) (hconn : s.tcp.connected = true)
    (hle : lengthEnd s.client.cWsHeader ≤ s.client.cWsRXsize)
    (hmax : declaredLen s.client.cWsHeader ≤ h.maxDataSize) :
    (∃ s', handleWebsocketCb h (fuel + 2) s = Except.ok s' ∧ Grows Event.notTooBig s s')
      ∨ ((∃ e, handleWebsocketCb h (fuel + 2) s = Except.error e)
          ∧ ¬ declaredLen s.client.cWsHeader + 1 < 2 ^ 32) := by
  by_cases hc : headerEnd s.client.cWsHeader ≤ s.client.cWsRXsize
  · exact complete_outcome h (fuel + 1) s ⟨htcp, hconn, hc⟩ hmax
  · have h10 := lengthEnd_le s.client.cWsHeader
    have hm : (decodeLength s.client).cWsHeaderDecode.mask = true := by
      by_contra hm
      have hm' : ¬ (((s.client.cWsHeader.getD 1 0 >>> 7) &&& 0x01) != 0) = true := hm
      apply hc
      unfold headerEnd
      rw [if_neg hm']
      exact hle
    have hE : headerEnd s.client.cWsHeader = lengthEnd s.client.cWsHeader + 4 := by
      have hm' : (((s.client.cWsHeader.getD 1 0 >>> 7) &&& 0x01) != 0) = true := hm
      unfold headerEnd
      rw [if_pos hm']
    have hrx : (reported s).client.cWsRXsize < lengthEnd s.client.cWsHeader + 4 := by
      show s.client.cWsRXsize < _
      omega
    have g0 : Grows Event.notTooBig s (reported s) := ⟨[decodedEvent s.client], rfl, rfl⟩
    have g1 : Grows Event.notTooBig (reported s)
        (afterHeaderRead h (reported s) (lengthEnd s.client.cWsHeader + 4)) := ⟨_, rfl, rfl⟩
    rw [show fuel + 2 = (fuel + 1) + 1 from rfl,
      handleWebsocketCb_lengthReady h (fuel + 1) s htcp hconn hle, afterLength_reported,
      if_neg (Nat.not_lt.mpr hmax), if_pos hm,
      handleWebsocketWaitFor_read h _ (reported s) (lengthEnd s.client.cWsHeader + 4) htcp hconn
        (by omega) hrx]
    cases hread : (headerRead h (reported s) (lengthEnd s.client.cWsHeader + 4)).1
    · simp only [Bool.false_eq_true, if_false]
      exact Or.inl ⟨_, rfl, g0.trans (g1.trans (Grows.of_trace_eq_left
        (b := setRXsize (afterHeaderRead h (reported s) (lengthEnd s.client.cWsHeader + 4)) 0)
        rfl (clientDisconnect_grows _ h _ 1002 (by decide) rfl)))⟩
    · simp only [if_true]
      -- the re-entered call finds the header complete
      have hpre : ∀ i, i < lengthEnd s.client.cWsHeader →
          (headerRead h (reported s) (lengthEnd s.client.cWsHeader + 4)).2.1[i]?
            = s.client.cWsHeader[i]? :=
        fun i hi => headerRead_kept h (reported s) _ i (Nat.lt_of_lt_of_le hi hle)
      have hready : HeaderReady (setRXsize (afterHeaderRead h (reported s)
          (lengthEnd s.client.cWsHeader + 4)) (lengthEnd s.client.cWsHeader + 4)) := by
        refine ⟨htcp, ?_, ?_⟩
        · exact readLoop_connected _ _ _ _ _ _ _ _ (by
            show 0 < lengthEnd s.client.cWsHeader + 4 - s.client.cWsRXsize
            have : s.client.cWsRXsize < lengthEnd s.client.cWsHeader + 4 := hrx
            omega) hread
        · show headerEnd (headerRead h _ _).2.1 ≤ lengthEnd s.client.cWsHeader + 4
          rw [headerEnd_congr _ _ hpre, hE]
      have hdl : declaredLen (setRXsize (afterHeaderRead h (reported s)
          (lengthEnd s.client.cWsHeader + 4)) (lengthEnd s.client.cWsHeader + 4)).client.cWsHeader
          = declaredLen s.client.cWsHeader := declaredLen_congr _ _ hpre
      rcases complete_outcome h fuel _ hready (hdl ▸ hmax) with ⟨s3, h3, hg⟩ | ⟨⟨e, he⟩, hfit⟩
      · rw [h3]
        exact Or.inl ⟨yield s3, rfl, Grows.of_trace_eq (yield_trace _)
          (g0.trans (g1.trans (Grows.of_trace_eq_left
            (b := setRXsize (afterHeaderRead h (reported s)
              (lengthEnd s.client.cWsHeader + 4)) (lengthEnd s.client.cWsHeader + 4)) rfl hg)))⟩
      · rw [he]
        exact Or.inr ⟨⟨e, rfl⟩, hdl ▸ hfit⟩

theorem not_mem_of_all_notTooBig (evs : List Event) (hall : evs.all Event.notTooBig = true) :
    Event.closeReq 1009 ∉ evs := by
  intro hmem
  rw [List.all_eq_true] at hall
  exact absurd (hall _ hmem) (by decide)

/-- C5. A header whose length field is complete in the accumulator of a connected client.
If the decoded payload length exceeds `WEBSOCKETS_MAX_DATA_SIZE`, `handleWebsocketCb`
returns after reporting the header and calling `clientDisconnect(client, 1009)`: it reads no
further header byte (so does not wait for a mask key), acquires no payload buffer, issues
no payload read and calls no message callback.  If the decoded length is at most
`WEBSOCKETS_MAX_DATA_SIZE`, no run that returns has closed with 1009, and the run does
return when `WEBSOCKETS_MAX_DATA_SIZE` is below `0xFFFFFFFF`. -/
theorem oversize_closes_1009 (h : Host) (fuel : Nat) (s : State)
    (htcp : s.client.tcp = true) (hconn : s.tcp.connected = true)
    (hle : lengthEnd s.client.cWsHeader ≤ s.client.cWsRXsize) :
    (h.maxDataSize < declaredLen s.client.cWsHeader →
      ∃ s', handleWebsocketCb h (fuel + 1) s = Except.ok s'
        ∧ newEvents s.trace s' = [decodedEvent s.client] ++ closeEvents (canSend s) 1009
        ∧ (newEvents s.trace s').all
            (fun e => !e.isHeaderRead && !e.isPayloadIO && !e.isMessage) = true)
    ∧ (declaredLen s.client.cWsHeader ≤ h.maxDataSize →
        (∀ s', handleWebsocketCb h (fuel + 2) s = Except.ok s' →
          Event.closeReq 1009 ∉ newEvents s.trace s')
        ∧ (h.maxDataSize < 0xFFFFFFFF → ∃ s', handleWebsocketCb h (fuel + 2) s = Except.ok s'))
    := by
  refine ⟨fun hbig => ?_, fun hmax => ⟨fun s' hrun => ?_, fun hcfg => ?_⟩⟩
  · obtain ⟨s', hrun, hev⟩ := handleWebsocketCb_tooBig h fuel s htcp hconn hle hbig
    refine ⟨s', hrun, hev, ?_⟩
    rw [hev]
    unfold closeEvents closeFrame decodedEvent
    split_ifs <;> rfl
  · rcases lengthReady_outcome h fuel s htcp hconn hle hmax with ⟨s1, h1, hg⟩ | ⟨⟨e, he⟩, _⟩
    · rw [h1] at hrun
      cases hrun
      exact not_mem_of_all_notTooBig _ hg.newEvents_all
    · rw [he] at hrun; cases hrun
  · rcases lengthReady_outcome h fuel s htcp hconn hle hmax with ⟨s1, h1, _⟩ | ⟨_, hfit⟩
    · exact ⟨s1, h1⟩
    · exact absurd (by omega) hfit

/-- C5, worked instance: a masked header declaring 16384 bytes is answered with the close
frame 03 F1 and a local close with code 1009 while its mask key is still missing. -/
theorem oversize_closes_1009_witness :
    lengthEnd oversizeMasked.client.cWsHeader ≤ oversizeMasked.client.cWsRXsize
      ∧ oversizeMasked.client.cWsRXsize < headerEnd oversizeMasked.client.cWsHeader
      ∧ demoHost.maxDataSize < declaredLen oversizeMasked.client.cWsHeader
      ∧ ∃ s', handleWebsocketCb demoHost 1 oversizeMasked = Except.ok s'
          ∧ newEvents [] s'
              = [Event.decoded true false false false WSop_binary true 16384,
                  Event.closeReq 1009, Event.frame WSop_close (some [0x03, 0xF1]) 2 true false,
                  Event.disconnected] := by
  obtain ⟨s', hrun, hev, _⟩ :=
    (oversize_closes_1009 demoHost 0 oversizeMasked (by decide) (by decide) (by decide)).1
      (by decide)
  exact ⟨by decide, by decide, by decide, s', hrun, hev.trans (by decide!)⟩

/-! ## The 64 bit length -/

/-- C4 as amended. For every `WEBSOCKETS_MAX_DATA_SIZE` below `0xFFFFFFFF`, a header with
the length marker 127 whose first four extended-length bytes are not all zero decodes to
the length `0xFFFFFFFF` and is rejected: `handleWebsocketCb` returns after reporting the
header and calling `clientDisconnect(client, 1009)`; it acquires no payload buffer, issues
no payload read and calls no message callback. -/
theorem upper_length_rejected (h : Host) (fuel : Nat) (s : State)
    (htcp : s.client.tcp = true) (hconn : s.tcp.connected = true)
    (hcfg : h.maxDataSize < 0xFFFFFFFF)
    (hm127 : s.client.cWsHeader.getD 1 0 &&& 0x7F = 127) (hrx : 10 ≤ s.client.cWsRXsize)
    (hupper : s.client.cWsHeader.getD 2 0 ≠ 0 ∨ s.client.cWsHeader.getD 3 0 ≠ 0
      ∨ s.client.cWsHeader.getD 4 0 ≠ 0 ∨ s.client.cWsHeader.getD 5 0 ≠ 0) :
    declaredLen s.client.cWsHeader = 0xFFFFFFFF
      ∧ ∃ s', handleWebsocketCb h (fuel + 1) s = Except.ok s'
          ∧ newEvents s.trace s' = [decodedEvent s.client] ++ closeEvents (canSend s) 1009
          ∧ (newEvents s.trace s').filter Event.isClose
              = [Event.closeReq 1009, Event.disconnected]
          ∧ (newEvents s.trace s').all (fun e => !e.isPayloadIO && !e.isMessage) = true := by
  have hE : lengthEnd s.client.cWsHeader = 2 + 8 := by
    unfold lengthEnd
    rw [if_neg (by rw [hm127]; decide), if_pos hm127]
  have hD : declaredLen s.client.cWsHeader = 0xFFFFFFFF := by
    unfold declaredLen
    rw [if_neg (by rw [hm127]; decide), if_pos hm127]
    unfold length64
    simp only [getD_drop]
    rw [if_pos hupper]
  refine ⟨hD, ?_⟩
  obtain ⟨s', hrun, hev⟩ := handleWebsocketCb_tooBig h fuel s htcp hconn (by omega)
    (by rw [hD]; exact hcfg)
  refine ⟨s', hrun, hev, ?_, ?_⟩
  · rw [hev]
    unfold closeEvents closeFrame decodedEvent
    split_ifs <;> rfl
  · rw [hev]
    unfold closeEvents closeFrame decodedEvent
    split_ifs <;> rfl

/-- C4 as amended, worked instance: with the 15 KiB maximum a header declaring 2^32 bytes
is answered with the close frame 03 F1 and a local close with code 1009. -/
theorem upper_length_rejected_witness :
    demoHost.maxDataSize < 0xFFFFFFFF
      ∧ ∃ s', handleWebsocketCb demoHost 1 upperLength = Except.ok s'
          ∧ newEvents [] s'
              = [Event.decoded true false false false WSop_binary false 0xFFFFFFFF,
                  Event.closeReq 1009, Event.frame WSop_close (some [0x03, 0xF1]) 2 true false,
                  Event.disconnected] := by
  obtain ⟨_, s', hrun, hev, _⟩ :=
    upper_length_rejected demoHost 0 upperLength (by decide) (by decide) (by decide)
      (by decide) (by decide) (by decide)
  exact ⟨by decide, s', hrun, hev.trans (by decide!)⟩

/-- C4 as stated fails when `WEBSOCKETS_MAX_DATA_SIZE` is `0xFFFFFFFF`: the header declaring
2^32 bytes decodes to the length `0xFFFFFFFF`, which is not above the maximum, so a payload
buffer of `(0xFFFFFFFF + 1) mod 2^32 = 0` bytes is acquired and a payload read of
`0xFFFFFFFF` bytes is issued; no close with code 1009 happens. -/
theorem upper_length_not_rejected_at_max :
    maxHost.maxDataSize = 0xFFFFFFFF
      ∧ upperLength.client.cWsHeader.getD 1 0 &&& 0x7F = 127
      ∧ upperLength.client.cWsHeader.getD 5 0 ≠ 0
      ∧ runEvents maxHost 1 upperLength
          = some [Event.decoded true false false false WSop_binary false 0xFFFFFFFF,
              Event.malloc 0 true, Event.read Dst.payload 0xFFFFFFFF, Event.free,
              Event.closeReq 1002, Event.frame WSop_close (some [0x03, 0xEA]) 2 true false,
              Event.disconnected] := by
  refine ⟨by decide, by decide, by decide, ?_⟩
  decide!

/-! ## Round trip of the header -/

theorem decodedEvent_eq (c : WSclient_t) :
    decodedEvent c
      = Event.decoded (((c.cWsHeader.getD 0 0 >>> 7) &&& 0x01) != 0)
          (((c.cWsHeader.getD 0 0 >>> 6) &&& 0x01) != 0)
          (((c.cWsHeader.getD 0 0 >>> 5) &&& 0x01) != 0)
          (((c.cWsHeader.getD 0 0 >>> 4) &&& 0x01) != 0)
          (c.cWsHeader.getD 0 0 &&& 0x0F)
          (((c.cWsHeader.getD 1 0 >>> 7) &&& 0x01) != 0)
          (declaredLen c.cWsHeader) := rfl

theorem marker_spec : ∀ mask : Bool,
    ((if mask then 0x00 ||| bit 7 else 0x00) ||| 126) &&& 0x7F = 126
    ∧ (((((if mask then 0x00 ||| bit 7 else 0x00) ||| 126) >>> 7) &&& 0x01) != 0) = mask
    ∧ ((if mask then 0x00 ||| bit 7 else 0x00) ||| 127) &&& 0x7F = 127
    ∧ (((((if mask then 0x00 ||| bit 7 else 0x00) ||| 127) >>> 7) &&& 0x01) != 0) = mask := by
  decide

/-- The header `createHeader` writes, read back field by field as lines 538-583 do. -/
theorem createHeader_decoded (opcode length : Nat) (mask fin : Bool) (maskKey : List Nat)
    (hop : opcode < 16) (hlen : length < 2 ^ 32) (hkey : maskKey.length = 4) :
    ((((createHeader opcode length mask maskKey fin).1.getD 0 0 >>> 7) &&& 0x01) != 0) = fin
    ∧ ((((createHeader opcode length mask maskKey fin).1.getD 0 0 >>> 6) &&& 0x01) != 0) = false
    ∧ ((((createHeader opcode length mask maskKey fin).1.getD 0 0 >>> 5) &&& 0x01) != 0) = false
    ∧ ((((createHeader opcode length mask maskKey fin).1.getD 0 0 >>> 4) &&& 0x01) != 0) = false
    ∧ (createHeader opcode length mask maskKey fin).1.getD 0 0 &&& 0x0F = opcode
    ∧ ((((createHeader opcode length mask maskKey fin).1.getD 1 0 >>> 7) &&& 0x01) != 0) = mask
    ∧ declaredLen (createHeader opcode length mask maskKey fin).1 = length
    ∧ lengthEnd (createHeader opcode length mask maskKey fin).1 + (if mask then 4 else 0)
        = (createHeader opcode length mask maskKey fin).2
    ∧ (createHeader opcode length mask maskKey fin).1.length
        = (createHeader opcode length mask maskKey fin).2 := by
  obtain ⟨-, -, b7, b6, b5, b4, bop⟩ := byte0_spec opcode hop fin
  obtain ⟨m126, k126, m127, k127⟩ := marker_spec mask
  rw [createHeader_eq opcode length mask fin maskKey hkey]
  refine ⟨b7, b6, b5, b4, bop, ?_⟩
  have hget : ∀ (b0 b1 : Nat) (l1 l2 : List Nat),
      ([b0] ++ (b1 :: l1) ++ l2).getD 1 0 = b1 := fun _ _ _ _ => rfl
  have hdrop : ∀ (b0 b1 : Nat) (l1 l2 : List Nat),
      ([b0] ++ (b1 :: l1) ++ l2).drop 2 = l1 ++ l2 := fun _ _ _ _ => rfl
  have hlenl : ∀ (b0 : Nat) (l1 l2 : List Nat),
      ([b0] ++ l1 ++ l2).length = 1 + l1.length + l2.length := fun _ _ _ => by
    simp only [List.length_append, List.length_cons, List.length_nil]
  have hkl : (if mask = true then maskKey else []).length = if mask = true then 4 else 0 := by
    cases mask
    · rfl
    · simpa using hkey
  by_cases h1 : length < 126
  · obtain ⟨-, s1, s2⟩ := byte1_short_spec length h1 mask
    have n126 : ¬ length = 126 := by omega
    have n127 : ¬ length = 127 := by omega
    simp only [if_pos h1]
    refine ⟨?_, ?_, ?_, ?_⟩
    · rw [hget]; exact s2
    · unfold declaredLen
      rw [hget, s1, if_neg n126, if_neg n127]
    · unfold lengthEnd
      rw [hget, s1, if_neg n126, if_neg n127]
    · rw [hlenl, hkl]; rfl
  · by_cases h2 : length < 0xFFFF
    · simp only [if_neg h1, if_pos h2]
      refine ⟨?_, ?_, ?_, ?_⟩
      · rw [hget]; exact k126
      · unfold declaredLen
        rw [hget, if_pos m126, hdrop]
        exact length16_roundtrip length (by omega) _
      · unfold lengthEnd
        rw [hget, if_pos m126]
      · rw [hlenl, hkl]; rfl
    · simp only [if_neg h1, if_neg h2]
      refine ⟨?_, ?_, ?_, ?_⟩
      · rw [hget]; exact k127
      · unfold declaredLen
        rw [hget, if_neg (by rw [m127]; decide), if_pos m127, hdrop]
        exact length64_roundtrip length hlen _
      · unfold lengthEnd
        rw [hget, if_neg (by rw [m127]; decide), if_pos m127]
      · rw [hlenl, hkl]; rfl

/-! ## The header bytes the decoder asks for -/

theorem afterWait_trace (h : Host) (k : State → Except Fault State)
    (hk : ∀ a b, k a = Except.ok b → Grows Event.any a b) (s s' : State) (size : Nat)
    (hrun : afterWait h k s size = Except.ok s') :
    ∃ evs, s'.trace
      = s.trace ++ [Event.read (Dst.header s.client.cWsRXsize) (size - s.client.cWsRXsize)]
          ++ evs := by
  unfold afterWait at hrun
  split_ifs at hrun
  · cases hk2 : k (setRXsize (afterHeaderRead h s size) size) with
    | error e => rw [hk2] at hrun; cases hrun
    | ok s2 =>
      rw [hk2] at hrun
      cases hrun
      obtain ⟨evs, he, _⟩ := hk _ _ hk2
      exact ⟨evs, by rw [yield_trace, he]; rfl⟩
  · cases hrun
    obtain ⟨evs, he, _⟩ := clientDisconnect_grows Event.any h
      (setRXsize (afterHeaderRead h s size) 0) 1002 (by decide) rfl
    exact ⟨evs, by rw [he]; rfl⟩

theorem afterWait_returns (h : Host) (k : State → Except Fault State) (s : State) (size : Nat)
    (hk : (headerRead h s size).1 = true →
      ∃ s2, k (setRXsize (afterHeaderRead h s size) size) = Except.ok s2) :
    ∃ s', afterWait h k s size = Except.ok s' := by
  unfold afterWait
  cases hread : (headerRead h s size).1
  · exact ⟨_, rfl⟩
  · obtain ⟨s2, h2⟩ := hk hread
    simp only [if_true, h2]
    exact ⟨_, rfl⟩

theorem handleWebsocketCb_stage1 (h : Host) (fuel : Nat) (s : State)
    (htcp : s.client.tcp = true) (hconn : s.tcp.connected = true)
    (hrx : s.client.cWsRXsize < 2) :
    handleWebsocketCb h (fuel + 1) s = afterWait h (handleWebsocketCb h fuel) s 2 := by
  rw [handleWebsocketCb]
  simp only [htcp, hconn, Bool.not_true, Bool.or_self, Bool.false_eq_true, if_false]
  rw [handleWebsocketWaitFor_read h _ s 2 htcp hconn (by omega) hrx]
  unfold afterWait
  cases hread : (headerRead h s 2).1
  · simp only [Bool.false_eq_true, if_false]
  · simp only [if_true]
    cases handleWebsocketCb h fuel (setRXsize (afterHeaderRead h s 2) 2) <;> rfl

theorem handleWebsocketCb_stage2 (h : Host) (fuel : Nat) (s : State)
    (htcp : s.client.tcp = true) (hconn : s.tcp.connected = true)
    (h2 : 2 ≤ s.client.cWsRXsize) (hrx : s.client.cWsRXsize < lengthEnd s.client.cWsHeader) :
    handleWebsocketCb h (fuel + 1) s
      = afterWait h (handleWebsocketCb h fuel) { s with client := splitFirstBytes s.client }
          (lengthEnd s.client.cWsHeader) := by
  rw [handleWebsocketCb]
  simp only [htcp, hconn, Bool.not_true, Bool.or_self, Bool.false_eq_true, if_false]
  rw [handleWebsocketWaitFor_ready h _ s 2 htcp hconn (by omega) h2]
  simp only []
  by_cases m126 : s.client.cWsHeader.getD 1 0 &&& 0x7F = 126
  · have e1 : (splitFirstBytes s.client).cWsHeaderDecode.payloadLen = 126 := m126
    have e2 : lengthEnd s.client.cWsHeader = 2 + 2 := by unfold lengthEnd; rw [if_pos m126]
    simp only [e1, if_true]
    rw [e2] at hrx ⊢
    rw [handleWebsocketWaitFor_read h _ { s with client := splitFirstBytes s.client } (2 + 2)
      htcp hconn (by omega) hrx]
    unfold afterWait
    cases hread : (headerRead h { s with client := splitFirstBytes s.client } (2 + 2)).1
    · simp only [Bool.false_eq_true, if_false]
    · simp only [if_true]
      cases handleWebsocketCb h fuel (setRXsize
        (afterHeaderRead h { s with client := splitFirstBytes s.client } (2 + 2)) (2 + 2)) <;> rfl
  · have e1 : ¬ (splitFirstBytes s.client).cWsHeaderDecode.payloadLen = 126 := m126
    by_cases m127 : s.client.cWsHeader.getD 1 0 &&& 0x7F = 127
    · have e1b : (splitFirstBytes s.client).cWsHeaderDecode.payloadLen = 127 := m127
      have e2 : lengthEnd s.client.cWsHeader = 2 + 8 := by
        unfold lengthEnd; rw [if_neg m126, if_pos m127]
      simp only [e1b, show ¬ ((127 : Nat) = 126) by decide, if_false, if_true]
      rw [e2] at hrx ⊢
      rw [handleWebsocketWaitFor_read h _ { s with client := splitFirstBytes s.client } (2 + 8)
        htcp hconn (by omega) hrx]
      unfold afterWait
      cases hread : (headerRead h { s with client := splitFirstBytes s.client } (2 + 8)).1
      · simp only [Bool.false_eq_true, if_false]
      · simp only [if_true]
        cases handleWebsocketCb h fuel (setRXsize
          (afterHeaderRead h { s with client := splitFirstBytes s.client } (2 + 8)) (2 + 8))
          <;> rfl
    · have e2 : lengthEnd s.client.cWsHeader = 2 := by
        unfold lengthEnd; rw [if_neg m126, if_neg m127]
      omega

theorem handleWebsocketCb_stage3 (h : Host) (fuel : Nat) (s : State)
    (htcp : s.client.tcp = true) (hconn : s.tcp.connected = true)
    (hle : lengthEnd s.client.cWsHeader ≤ s.client.cWsRXsize)
    (hrx : s.client.cWsRXsize < headerEnd s.client.cWsHeader)
    (hmax : declaredLen s.client.cWsHeader ≤ h.maxDataSize) :
    handleWebsocketCb h (fuel + 1) s
      = afterWait h (handleWebsocketCb h fuel) (reported s) (headerEnd s.client.cWsHeader) := by
  have h10 := lengthEnd_le s.client.cWsHeader
  have hm : (decodeLength s.client).cWsHeaderDecode.mask = true := by
    by_contra hm
    have hm' : ¬ (((s.client.cWsHeader.getD 1 0 >>> 7) &&& 0x01) != 0) = true := hm
    unfold headerEnd at hrx
    rw [if_neg hm'] at hrx
    omega
  have hE : headerEnd s.client.cWsHeader = lengthEnd s.client.cWsHeader + 4 := by
    have hm' : (((s.client.cWsHeader.getD 1 0 >>> 7) &&& 0x01) != 0) = true := hm
    unfold headerEnd
    rw [if_pos hm']
  have hrx' : (reported s).client.cWsRXsize < lengthEnd s.client.cWsHeader + 4 := by
    show s.client.cWsRXsize < _
    omega
  rw [handleWebsocketCb_lengthReady h fuel s htcp hconn hle, afterLength_reported,
    if_neg (Nat.not_lt.mpr hmax), if_pos hm,
    handleWebsocketWaitFor_read h _ (reported s) (lengthEnd s.client.cWsHeader + 4) htcp hconn
      (by omega) hrx', hE]
  unfold afterWait
  cases hread : (headerRead h (reported s) (lengthEnd s.client.cWsHeader + 4)).1
  · simp only [Bool.false_eq_true, if_false]
  · simp only [if_true]
    cases handleWebsocketCb h fuel (setRXsize
      (afterHeaderRead h (reported s) (lengthEnd s.client.cWsHeader + 4))
      (lengthEnd s.client.cWsHeader + 4)) <;> rfl

theorem isPayloadStage_notHeaderRead (e : Event) (he : e.isPayloadStage = true) :
    (!e.isHeaderRead) = true := by
  cases e with
  | read d n =>
    cases d with
    | header off => exact absurd he Bool.false_ne_true
    | payload => rfl
  | _ => rfl

/-- With the header bytes it asks for all accumulated, a run that returns has reported the
decoded header first and has read no further header byte. -/
theorem enough_events (h : Host) (fuel : Nat) (s s' : State)
    (htcp : s.client.tcp = true) (hconn : s.tcp.connected = true)
    (hle : lengthEnd s.client.cWsHeader ≤ s.client.cWsRXsize)
    (hneed : headerEnd s.client.cWsHeader ≤ s.client.cWsRXsize
      ∨ h.maxDataSize < declaredLen s.client.cWsHeader)
    (hrun : handleWebsocketCb h (fuel + 1) s = Except.ok s') :
    ∃ evs, newEvents s.trace s' = decodedEvent s.client :: evs
      ∧ evs.all (fun e => !e.isHeaderRead) = true := by
  by_cases hbig : h.maxDataSize < declaredLen s.client.cWsHeader
  · obtain ⟨s1, h1, hev⟩ := handleWebsocketCb_tooBig h fuel s htcp hconn hle hbig
    rw [h1] at hrun
    cases hrun
    refine ⟨closeEvents (canSend s) 1009, hev, ?_⟩
    unfold closeEvents closeFrame
    split_ifs <;> rfl
  · have hc : headerEnd s.client.cWsHeader ≤ s.client.cWsRXsize := by
      rcases hneed with hc | hc
      · exact hc
      · exact absurd hc hbig
    have h10 := lengthEnd_le s.client.cWsHeader
    rw [handleWebsocketCb_lengthReady h fuel s htcp hconn hle, afterLength_reported,
      if_neg hbig] at hrun
    have key : ∀ x : State, x.trace = (reported s).trace → receivePayload h x = Except.ok s' →
        ∃ evs, newEvents s.trace s' = decodedEvent s.client :: evs
          ∧ evs.all (fun e => !e.isHeaderRead) = true := by
      intro x hx hp
      obtain ⟨evs, he, hall⟩ := receivePayload_grows h x s' hp
      refine ⟨evs, ?_, ?_⟩
      · apply newEvents_append
        rw [he, hx]
        show s.trace ++ [decodedEvent s.client] ++ evs = _
        rw [List.append_assoc]; rfl
      · rw [List.all_eq_true] at hall ⊢
        exact fun e he => isPayloadStage_notHeaderRead e (hall e he)
    by_cases hm : (decodeLength s.client).cWsHeaderDecode.mask = true
    · have hend : lengthEnd s.client.cWsHeader + 4 ≤ s.client.cWsRXsize := by
        have hm' : (((s.client.cWsHeader.getD 1 0 >>> 7) &&& 0x01) != 0) = true := hm
        unfold headerEnd at hc
        rw [if_pos hm'] at hc
        exact hc
      rw [if_pos hm, handleWebsocketWaitFor_ready h _ (reported s) _ htcp hconn (by omega)
        hend] at hrun
      refine key _ ?_ hrun
      rfl
    · rw [if_neg hm] at hrun
      refine key _ ?_ hrun
      rfl

theorem lengthEnd_of_byte1 (a b : List Nat) (h1 : b[1]? = a[1]?) : lengthEnd b = lengthEnd a := by
  unfold lengthEnd
  rw [getD_congr a b 1 h1]

theorem lengthReady_returns (h : Host) (hcfg : h.maxDataSize < 0xFFFFFFFF) (fuel : Nat)
    (s : State) (htcp : s.client.tcp = true) (hconn : s.tcp.connected = true)
    (hle : lengthEnd s.client.cWsHeader ≤ s.client.cWsRXsize) :
    ∃ s', handleWebsocketCb h (fuel + 2) s = Except.ok s' := by
  by_cases hbig : h.maxDataSize < declaredLen s.client.cWsHeader
  · obtain ⟨s', hrun, _⟩ := handleWebsocketCb_tooBig h (fuel + 1) s htcp hconn hle hbig
    exact ⟨s', hrun⟩
  · rcases lengthReady_outcome h fuel s htcp hconn hle (Nat.le_of_not_lt hbig) with
      ⟨s', hrun, _⟩ | ⟨_, hfit⟩
    · exact ⟨s', hrun⟩
    · exact absurd (by omega) hfit

theorem lengthWait_returns (h : Host) (hcfg : h.maxDataSize < 0xFFFFFFFF) (fuel : Nat)
    (s : State) (htcp : s.client.tcp = true) (hconn : s.tcp.connected = true)
    (h2 : 2 ≤ s.client.cWsRXsize) :
    ∃ s', handleWebsocketCb h (fuel + 3) s = Except.ok s' := by
  by_cases hle : lengthEnd s.client.cWsHeader ≤ s.client.cWsRXsize
  · exact lengthReady_returns h hcfg (fuel + 1) s htcp hconn hle
  · rw [show fuel + 3 = (fuel + 2) + 1 from rfl,
      handleWebsocketCb_stage2 h (fuel + 2) s htcp hconn h2 (by omega)]
    apply afterWait_returns
    intro hread
    refine lengthReady_returns h hcfg fuel _ ?_ ?_ ?_
    · exact htcp
    · exact readLoop_connected _ _ _ _ _ _ _ _ (by
        show 0 < lengthEnd s.client.cWsHeader - s.client.cWsRXsize
        omega) hread
    · show lengthEnd (headerRead h _ _).2.1 ≤ lengthEnd s.client.cWsHeader
      rw [lengthEnd_of_byte1 s.client.cWsHeader _
        (headerRead_kept h { s with client := splitFirstBytes s.client } _ 1
          (by show 1 < s.client.cWsRXsize; omega))]

/-- The decoder returns: four levels of re-entry suffice for one call of
`handleWebsocketCb`, whatever the accumulator holds and whatever the transport does, when
`WEBSOCKETS_MAX_DATA_SIZE` is below `0xFFFFFFFF`. -/
theorem handleWebsocketCb_returns (h : Host) (hcfg : h.maxDataSize < 0xFFFFFFFF) (fuel : Nat)
    (s : State) : ∃ s', handleWebsocketCb h (fuel + 4) s = Except.ok s' := by
  by_cases hg : (!s.client.tcp || !s.tcp.connected) = true
  · rw [handleWebsocketCb, if_pos hg]
    exact ⟨s, rfl⟩
  · have htcp : s.client.tcp = true := by
      cases ht : s.client.tcp
      · rw [ht] at hg; exact absurd rfl hg
      · rfl
    have hconn : s.tcp.connected = true := by
      cases hc : s.tcp.connected
      · rw [htcp, hc] at hg; exact absurd rfl hg
      · rfl
    by_cases h2 : 2 ≤ s.client.cWsRXsize
    · exact lengthWait_returns h hcfg (fuel + 1) s htcp hconn h2
    · rw [show fuel + 4 = (fuel + 3) + 1 from rfl,
        handleWebsocketCb_stage1 h (fuel + 3) s htcp hconn (by omega)]
      apply afterWait_returns
      intro hread
      refine lengthWait_returns h hcfg fuel _ ?_ ?_ ?_
      · exact htcp
      · exact readLoop_connected _ _ _ _ _ _ _ _ (by
          show 0 < 2 - s.client.cWsRXsize
          omega) hread
      · exact Nat.le_refl 2

theorem mem_newEvents (s s' : State) (pre evs : List Event) (e : Event)
    (ht : s'.trace = s.trace ++ pre ++ [e] ++ evs) : e ∈ newEvents s.trace s' := by
  rw [newEvents_append s.trace (pre ++ [e] ++ evs) s' (by
    rw [ht]; simp only [List.append_assoc])]
  simp only [List.mem_append, List.mem_singleton, or_true, true_or]

/-- C1 as amended. A connected client whose accumulator holds, in its first `cWsRXsize`
bytes, the header `createHeader` wrote for a 4-bit opcode (the six defined opcodes
included), any fin flag, any mask flag with a 4-byte key and a length below 2^32.  Let
`n` be the size `createHeader` returned and `r = requiredHeaderBytes` be `n`, or `n - 4`
when the frame is masked and its length exceeds `WEBSOCKETS_MAX_DATA_SIZE`.
With at least `r` bytes accumulated, a run of `handleWebsocketCb` that returns has first
reported the decoded header, which carries exactly the opcode, fin, mask flag and length
given to `createHeader` and `rsv1 = rsv2 = rsv3 = 0`, and has read no further header byte.
With fewer than `r` bytes accumulated, a run that returns has read header bytes, at the
offset `cWsRXsize` and up to offset `r` at most.  The run does return when
`WEBSOCKETS_MAX_DATA_SIZE` is below `0xFFFFFFFF`. -/
theorem header_roundtrip (h : Host) (fuel : Nat) (s : State) (opcode length : Nat)
    (mask fin : Bool) (maskKey : List Nat)
    (hop : opcode < 16) (hlen : length < 2 ^ 32) (hkey : maskKey.length = 4)
    (htcp : s.client.tcp = true) (hconn : s.tcp.connected = true)
    (hacc : ∀ i, i < s.client.cWsRXsize → i < (createHeader opcode length mask maskKey fin).2 →
      s.client.cWsHeader[i]? = (createHeader opcode length mask maskKey fin).1[i]?) :
    (requiredHeaderBytes h length mask (createHeader opcode length mask maskKey fin).2
          ≤ s.client.cWsRXsize →
        ∀ s', handleWebsocketCb h (fuel + 1) s = Except.ok s' →
          ∃ evs, newEvents s.trace s'
              = Event.decoded fin false false false opcode mask length :: evs
            ∧ evs.all (fun e => !e.isHeaderRead) = true)
    ∧ (s.client.cWsRXsize
          < requiredHeaderBytes h length mask (createHeader opcode length mask maskKey fin).2 →
        ∀ s', handleWebsocketCb h (fuel + 1) s = Except.ok s' →
          ∃ m, Event.read (Dst.header s.client.cWsRXsize) m ∈ newEvents s.trace s'
            ∧ s.client.cWsRXsize + m
                ≤ requiredHeaderBytes h length mask
                    (createHeader opcode length mask maskKey fin).2)
    ∧ (h.maxDataSize < 0xFFFFFFFF → ∃ s', handleWebsocketCb h (fuel + 4) s = Except.ok s') := by
  obtain ⟨f7, f6, f5, f4, fop, fmask, fdl, fle, -⟩ :=
    createHeader_decoded opcode length mask fin maskKey hop hlen hkey
  generalize (createHeader opcode length mask maskKey fin).1 = bytes at *
  generalize (createHeader opcode length mask maskKey fin).2 = n at *
  have hL2 := two_le_lengthEnd bytes
  have hL10 := lengthEnd_le bytes
  have hHE : headerEnd bytes = n := by
    unfold headerEnd
    rw [fmask, ← fle]
    cases mask <;> rfl
  have hreq : lengthEnd bytes ≤ requiredHeaderBytes h length mask n
      ∧ requiredHeaderBytes h length mask n ≤ n
      ∧ (lengthEnd bytes < requiredHeaderBytes h length mask n →
          requiredHeaderBytes h length mask n = n ∧ mask = true ∧ length ≤ h.maxDataSize)
      ∧ (requiredHeaderBytes h length mask n < n → h.maxDataSize < length) := by
    unfold requiredHeaderBytes
    by_cases hc : mask = true ∧ h.maxDataSize < length
    · rw [if_pos hc]
      rw [hc.1] at fle
      simp only [if_true] at fle
      exact ⟨by omega, by omega, fun hh => absurd hh (by omega), fun _ => hc.2⟩
    · rw [if_neg hc]
      refine ⟨by omega, Nat.le_refl _, fun hh => ⟨rfl, ?_⟩, fun hh => absurd hh (by omega)⟩
      cases mask
      · simp only [Bool.false_eq_true, if_false] at fle; omega
      · exact ⟨rfl, Nat.le_of_not_lt (fun hh => hc ⟨rfl, hh⟩)⟩
  obtain ⟨hr1, hr2, hr3, hr4⟩ := hreq
  refine ⟨fun hrx s' hrun => ?_, fun hrx s' hrun => ?_, fun hcfg =>
    handleWebsocketCb_returns h hcfg fuel s⟩
  · have hpre : ∀ i, i < lengthEnd bytes → s.client.cWsHeader[i]? = bytes[i]? :=
      fun i hi => hacc i (by omega) (by omega)
    have e0 : s.client.cWsHeader.getD 0 0 = bytes.getD 0 0 :=
      getD_congr _ _ 0 (hpre 0 (by omega))
    have e1 : s.client.cWsHeader.getD 1 0 = bytes.getD 1 0 :=
      getD_congr _ _ 1 (hpre 1 (by omega))
    have eL : lengthEnd s.client.cWsHeader = lengthEnd bytes := lengthEnd_congr _ _ hpre
    have eD : declaredLen s.client.cWsHeader = length := by
      rw [declaredLen_congr _ _ hpre, fdl]
    have eH : headerEnd s.client.cWsHeader = n := by rw [headerEnd_congr _ _ hpre, hHE]
    have eE : decodedEvent s.client = Event.decoded fin false false false opcode mask length := by
      rw [decodedEvent_eq, e0, e1, f7, f6, f5, f4, fop, fmask, eD]
    rw [← eE]
    refine enough_events h fuel s s' htcp hconn (by omega) ?_ hrun
    by_cases hbig : h.maxDataSize < length
    · right; rw [eD]; exact hbig
    · left
      rw [eH]
      by_cases hlt : requiredHeaderBytes h length mask n < n
      · exact absurd (hr4 hlt) hbig
      · omega
  · have hk := handleWebsocketCb_grows h fuel
    by_cases h2 : s.client.cWsRXsize < 2
    · rw [handleWebsocketCb_stage1 h fuel s htcp hconn h2] at hrun
      obtain ⟨evs, he⟩ := afterWait_trace h _ hk s s' 2 hrun
      exact ⟨2 - s.client.cWsRXsize,
        mem_newEvents s s' [] evs _ (by rw [List.append_nil]; exact he), by omega⟩
    · have e1 : s.client.cWsHeader[1]? = bytes[1]? := hacc 1 (by omega) (by omega)
      have eL : lengthEnd s.client.cWsHeader = lengthEnd bytes := lengthEnd_of_byte1 _ _ e1
      by_cases h3 : s.client.cWsRXsize < lengthEnd bytes
      · rw [handleWebsocketCb_stage2 h fuel s htcp hconn (by omega) (by omega)] at hrun
        obtain ⟨evs, he⟩ := afterWait_trace h _ hk _ s' _ hrun
        refine ⟨lengthEnd bytes - s.client.cWsRXsize, ?_, by omega⟩
        rw [eL] at he
        exact mem_newEvents s s' [] evs _ (by rw [List.append_nil]; exact he)
      · obtain ⟨hn, hm, hmax⟩ := hr3 (by omega)
        have hpre : ∀ i, i < lengthEnd bytes → s.client.cWsHeader[i]? = bytes[i]? :=
          fun i hi => hacc i (by omega) (by omega)
        have eD : declaredLen s.client.cWsHeader = length := by
          rw [declaredLen_congr _ _ hpre, fdl]
        have eH : headerEnd s.client.cWsHeader = n := by rw [headerEnd_congr _ _ hpre, hHE]
        rw [handleWebsocketCb_stage3 h fuel s htcp hconn (by omega) (by omega)
          (by rw [eD]; exact hmax)] at hrun
        obtain ⟨evs, he⟩ := afterWait_trace h _ hk _ s' _ hrun
        refine ⟨n - s.client.cWsRXsize, ?_, by omega⟩
        rw [eH] at he
        exact mem_newEvents s s' [decodedEvent s.client] evs _ he

/-- C1 as amended, worked instance: the 8 header bytes of a masked text frame of 126 bytes
are all the decoder asks for, and it reports the fields `createHeader` was given. -/
theorem header_roundtrip_witness :
    requiredHeaderBytes demoHost 126 true (createHeader WSop_text 126 true [1, 2, 3, 4] true).2
        = masked126.client.cWsRXsize
      ∧ ∃ s', handleWebsocketCb demoHost 4 masked126 = Except.ok s'
          ∧ ∃ evs, newEvents [] s'
              = Event.decoded true false false false WSop_text true 126 :: evs
            ∧ evs.all (fun e => !e.isHeaderRead) = true := by
  have hacc : ∀ i, i < masked126.client.cWsRXsize →
      i < (createHeader WSop_text 126 true [1, 2, 3, 4] true).2 →
      masked126.client.cWsHeader[i]? = (createHeader WSop_text 126 true [1, 2, 3, 4] true).1[i]? :=
    by decide
  obtain ⟨s', hrun⟩ :=
    (header_roundtrip demoHost 0 masked126 WSop_text 126 true true [1, 2, 3, 4] (by decide)
      (by decide) rfl rfl rfl hacc).2.2 (by decide)
  exact ⟨by decide, s', hrun,
    (header_roundtrip demoHost 3 masked126 WSop_text 126 true true [1, 2, 3, 4] (by decide)
      (by decide) rfl rfl rfl hacc).1 (by decide) s' hrun⟩

/-- C1 as stated fails for a masked frame longer than `WEBSOCKETS_MAX_DATA_SIZE`:
`createHeader` returns 14 for a masked text frame of 65536 bytes, but with the first 10 of
those bytes accumulated `handleWebsocketCb` reads no further header byte: it reports the
header and closes with code 1009, the 4 bytes of the mask key never asked for. -/
theorem header_roundtrip_stops_before_mask_key :
    (createHeader WSop_text 65536 true [1, 2, 3, 4] true).2 = 14
      ∧ masked65536.client.cWsHeader = (createHeader WSop_text 65536 true [1, 2, 3, 4] true).1
      ∧ masked65536.client.cWsRXsize = 10
      ∧ runEvents demoHost 1 masked65536
          = some [Event.decoded true false false false WSop_text true 65536,
              Event.closeReq 1009, Event.frame WSop_close (some [0x03, 0xF1]) 2 true false,
              Event.disconnected] := by
  refine ⟨by decide, rfl, rfl, ?_⟩
  decide!

/-! ## Heartbeat -/

theorem countTimeout_count (w now : Nat) (c : WSclient_t) :
    (countTimeout w now c).pongTimeoutCount = (c.pongTimeoutCount + 1) % 2 ^ w := by
  unfold countTimeout
  rfl

theorem countTimeout_threshold (w now : Nat) (c : WSclient_t) :
    (countTimeout w now c).disconnectTimeoutCount = c.disconnectTimeoutCount := by
  unfold countTimeout
  rfl

theorem countTimeout_lastPing (w now : Nat) (c : WSclient_t) :
    (countTimeout w now c).lastPing = elapsed (elapsed now c.pingInterval) 500 := by
  unfold countTimeout
  rfl

theorem evictOnThreshold_pos (h : Host) (s : State)
    (hd : s.client.disconnectTimeoutCount ≠ 0
      ∧ s.client.disconnectTimeoutCount ≤ s.client.pongTimeoutCount) :
    evictOnThreshold h s = localDisconnect h s := by
  unfold evictOnThreshold
  rw [if_pos hd]

theorem evictOnThreshold_neg (h : Host) (s : State)
    (hd : ¬ (s.client.disconnectTimeoutCount ≠ 0
      ∧ s.client.disconnectTimeoutCount ≤ s.client.pongTimeoutCount)) :
    evictOnThreshold h s = s := by
  unfold evictOnThreshold
  rw [if_neg hd]

/-- C16. `handleHBTimeout` as a function of the heartbeat fields and the clock.  With
`pingInterval = 0` it changes nothing.  With `pongReceived` set it sets `pongTimeoutCount`
to 0 and changes nothing else.  Otherwise, when `millis() - lastPing` (modulo 2^32) is
strictly greater than `pongTimeout`, it increments `pongTimeoutCount` (modulo the width
`w` of that field) and sets `lastPing` to `millis() - pingInterval - 500` (modulo 2^32);
it then calls the local disconnect, and nothing else (no close request, no frame), exactly
when `disconnectTimeoutCount` is non-zero and the incremented counter has reached it.  In
the remaining case it changes nothing. -/
theorem handleHBTimeout_cases (h : Host) (w : Nat) (s : State) :
    (s.client.pingInterval = 0 → handleHBTimeout h w s = s)
    ∧ (s.client.pingInterval ≠ 0 → s.client.pongReceived = true →
        handleHBTimeout h w s = { s with client := { s.client with pongTimeoutCount := 0 } })
    ∧ (s.client.pingInterval ≠ 0 → s.client.pongReceived = false →
        elapsed s.tcp.now s.client.lastPing > s.client.pongTimeout →
          (countTimeout w s.tcp.now s.client).pongTimeoutCount
              = (s.client.pongTimeoutCount + 1) % 2 ^ w
          ∧ (s.tcp.now < 2 ^ 32 → s.client.pingInterval < 2 ^ 32 →
              (countTimeout w s.tcp.now s.client).lastPing
                = (s.tcp.now + 2 * 2 ^ 32 - s.client.pingInterval - 500) % 2 ^ 32)
          ∧ (s.client.disconnectTimeoutCount ≠ 0
              ∧ s.client.disconnectTimeoutCount ≤ (s.client.pongTimeoutCount + 1) % 2 ^ w →
                handleHBTimeout h w s
                  = { client := h.disconnect (countTimeout w s.tcp.now s.client)
                      tcp := s.tcp, polls := s.polls
                      trace := s.trace ++ [Event.disconnected], rngCalls := s.rngCalls })
          ∧ (¬ (s.client.disconnectTimeoutCount ≠ 0
              ∧ s.client.disconnectTimeoutCount ≤ (s.client.pongTimeoutCount + 1) % 2 ^ w) →
                handleHBTimeout h w s = { s with client := countTimeout w s.tcp.now s.client }))
    ∧ (s.client.pingInterval ≠ 0 → s.client.pongReceived = false →
        elapsed s.tcp.now s.client.lastPing ≤ s.client.pongTimeout →
          handleHBTimeout h w s = s) := by
  refine ⟨fun h0 => ?_, fun h0 hp => ?_, fun h0 hp ht => ?_, fun h0 hp ht => ?_⟩
  · unfold handleHBTimeout
    rw [if_neg (fun hh => hh h0)]
  · unfold handleHBTimeout
    rw [if_pos h0, if_pos hp]
  · have hp' : ¬ s.client.pongReceived = true := by rw [hp]; exact Bool.false_ne_true
    refine ⟨countTimeout_count _ _ _, fun hn hi => ?_, fun hd => ?_, fun hd => ?_⟩
    · rw [countTimeout_lastPing]
      unfold elapsed
      omega
    · unfold handleHBTimeout
      rw [if_pos h0, if_neg hp', if_pos ht, evictOnThreshold_pos]
      · rfl
      · show (countTimeout w s.tcp.now s.client).disconnectTimeoutCount ≠ 0
          ∧ (countTimeout w s.tcp.now s.client).disconnectTimeoutCount
            ≤ (countTimeout w s.tcp.now s.client).pongTimeoutCount
        rw [countTimeout_count, countTimeout_threshold]
        exact hd
    · unfold handleHBTimeout
      rw [if_pos h0, if_neg hp', if_pos ht, evictOnThreshold_neg]
      show ¬ ((countTimeout w s.tcp.now s.client).disconnectTimeoutCount ≠ 0
          ∧ (countTimeout w s.tcp.now s.client).disconnectTimeoutCount
            ≤ (countTimeout w s.tcp.now s.client).pongTimeoutCount)
      rw [countTimeout_count, countTimeout_threshold]
      exact hd
  · have hp' : ¬ s.client.pongReceived = true := by rw [hp]; exact Bool.false_ne_true
    unfold handleHBTimeout
    rw [if_pos h0, if_neg hp', if_neg (Nat.not_lt.mpr ht)]

/-- C16, worked instance: heartbeat enabled with a pong timeout of 300 ms and a threshold
of 1; at time 1000, 1000 ms after the last ping and without a pong, the check counts one
timeout, rewinds `lastPing` to 1000 - 200 - 500 = 300 and disconnects locally. -/
theorem handleHBTimeout_cases_witness :
    (countTimeout 8 1000 (enableHeartbeat hbStart 200 300 1).client).pongTimeoutCount = 1
      ∧ (countTimeout 8 1000 (enableHeartbeat hbStart 200 300 1).client).lastPing = 300
      ∧ (handleHBTimeout demoHost 8 (enableHeartbeat hbStart 200 300 1)).trace
          = [Event.disconnected] := by
  obtain ⟨hc, hl, hpos, -⟩ :=
    (handleHBTimeout_cases demoHost 8 (enableHeartbeat hbStart 200 300 1)).2.2.1
      (by decide) rfl (by decide)
  refine ⟨hc.trans (by decide), (hl (by decide) (by decide)).trans (by decide), ?_⟩
  rw [hpos (by decide)]
  rfl

theorem countTimeout_pingInterval (w now : Nat) (c : WSclient_t) :
    (countTimeout w now c).pingInterval = c.pingInterval := by
  unfold countTimeout
  rfl

theorem countTimeout_pongReceived (w now : Nat) (c : WSclient_t) :
    (countTimeout w now c).pongReceived = c.pongReceived := by
  unfold countTimeout
  rfl

theorem countTimeout_pongTimeout (w now : Nat) (c : WSclient_t) :
    (countTimeout w now c).pongTimeout = c.pongTimeout := by
  unfold countTimeout
  rfl

theorem handleHBTimeout_of_pong (h : Host) (w : Nat) (s : State)
    (h0 : s.client.pingInterval ≠ 0) (hp : s.client.pongReceived = true) :
    handleHBTimeout h w s = { s with client := { s.client with pongTimeoutCount := 0 } } := by
  unfold handleHBTimeout
  rw [if_pos h0, if_pos hp]

theorem handleHBTimeout_of_timeout (h : Host) (w : Nat) (s : State)
    (h0 : s.client.pingInterval ≠ 0) (hp : s.client.pongReceived = false)
    (ht : s.client.pongTimeout < elapsed s.tcp.now s.client.lastPing) :
    handleHBTimeout h w s
      = evictOnThreshold h { s with client := countTimeout w s.tcp.now s.client } := by
  have hp' : ¬ s.client.pongReceived = true := by rw [hp]; exact Bool.false_ne_true
  unfold handleHBTimeout
  rw [if_pos h0, if_neg hp', if_pos ht]

theorem dispatch_pong (h : Host) (s : State) (p : Option (List Nat))
    (hop : s.client.cWsHeaderDecode.opCode = WSop_pong) :
    dispatch h s p
      = Except.ok (log { s with client := { s.client with pongReceived := true } }
          (Event.message WSop_pong p s.client.cWsHeaderDecode.payloadLen
            s.client.cWsHeaderDecode.fin)) := by
  unfold dispatch
  simp [hop, WSop_text, WSop_binary, WSop_continuation, WSop_ping, WSop_pong]

/-- C17. A connection whose timeout counter is 0 gets `enableHeartbeat(T, P, 2)` with
`T > 0` (the counter field is at least 2 bits wide).  A first `handleHBTimeout` that finds
more than `P` elapsed since the last ping does not close the connection: it adds nothing to
the trace and counts one timeout.  A second one, whenever it runs, that again finds more
than `P` elapsed and no pong, calls the local disconnect (the only new event).  If instead
a pong frame is dispatched between the two checks, the second check closes nothing either,
whenever it runs: the only new event is the message callback of the pong, and the counter
is back to 0. -/
theorem heartbeat_eviction (h : Host) (w : Nat) (s : State) (T P : Nat)
    (tcp1 : Tcp) (polls1 : List Poll)
    (hw : 2 ≤ w) (hT : 0 < T) (hc : s.client.pongTimeoutCount = 0)
    (h1 : P < elapsed tcp1.now s.client.lastPing) :
    (handleHBTimeout h w (firstCheck s T P tcp1 polls1)).trace = s.trace
    ∧ (handleHBTimeout h w (firstCheck s T P tcp1 polls1)).client.pongTimeoutCount = 1
    ∧ (∀ (tcp2 : Tcp) (polls2 : List Poll),
        P < elapsed tcp2.now
            (handleHBTimeout h w (firstCheck s T P tcp1 polls1)).client.lastPing →
        newEvents s.trace
            (handleHBTimeout h w
              (later (handleHBTimeout h w (firstCheck s T P tcp1 polls1)) tcp2 polls2))
          = [Event.disconnected])
    ∧ (∀ (tcp2 : Tcp) (polls2 : List Poll) (hd : WSMessageHeader_t)
        (payload : Option (List Nat)), hd.opCode = WSop_pong →
        ∃ sD, dispatch h
            (withHeader (later (handleHBTimeout h w (firstCheck s T P tcp1 polls1)) tcp2 polls2)
              hd) payload = Except.ok sD
          ∧ sD.client.pongReceived = true
          ∧ ∀ (tcp3 : Tcp) (polls3 : List Poll),
              newEvents s.trace (handleHBTimeout h w (later sD tcp3 polls3))
                  = [Event.message WSop_pong payload hd.payloadLen hd.fin]
                ∧ (handleHBTimeout h w (later sD tcp3 polls3)).client.pongTimeoutCount = 0) := by
  have hT0 : T ≠ 0 := by omega
  have h2w : (2 : Nat) ^ 2 ≤ 2 ^ w := Nat.pow_le_pow_right (by decide) hw
  have hone : (0 + 1) % 2 ^ w = 1 := Nat.mod_eq_of_lt (by omega)
  have htwo : (1 + 1) % 2 ^ w = 2 := Nat.mod_eq_of_lt (by omega)
  -- the first check
  have hcount : (countTimeout w tcp1.now (firstCheck s T P tcp1 polls1).client).pongTimeoutCount
      = 1 := by
    rw [countTimeout_count]
    show (s.client.pongTimeoutCount + 1) % 2 ^ w = 1
    rw [hc, hone]
  have hfirst : handleHBTimeout h w (firstCheck s T P tcp1 polls1)
      = { firstCheck s T P tcp1 polls1 with
          client := countTimeout w tcp1.now (firstCheck s T P tcp1 polls1).client } := by
    rw [handleHBTimeout_of_timeout h w _ hT0 rfl h1, evictOnThreshold_neg]
    · rfl
    · intro hh
      have h3 : (countTimeout w tcp1.now
            (firstCheck s T P tcp1 polls1).client).disconnectTimeoutCount
          ≤ (countTimeout w tcp1.now (firstCheck s T P tcp1 polls1).client).pongTimeoutCount :=
        hh.2
      rw [hcount, countTimeout_threshold] at h3
      have h4 : (firstCheck s T P tcp1 polls1).client.disconnectTimeoutCount = 2 := rfl
      omega
  rw [hfirst]
  refine ⟨rfl, hcount, fun tcp2 polls2 h2 => ?_, fun tcp2 polls2 hd payload hop => ?_⟩
  · apply newEvents_append
    rw [handleHBTimeout_of_timeout h w _
        (by show (countTimeout w tcp1.now (firstCheck s T P tcp1 polls1).client).pingInterval ≠ 0
            rw [countTimeout_pingInterval]; exact hT0)
        (by show (countTimeout w tcp1.now (firstCheck s T P tcp1 polls1).client).pongReceived
              = false
            rw [countTimeout_pongReceived]; rfl)
        (by show (countTimeout w tcp1.now (firstCheck s T P tcp1 polls1).client).pongTimeout
              < elapsed tcp2.now
                  (countTimeout w tcp1.now (firstCheck s T P tcp1 polls1).client).lastPing
            rw [countTimeout_pongTimeout]; exact h2),
      evictOnThreshold_pos]
    · rfl
    · show (countTimeout w tcp2.now
            (countTimeout w tcp1.now (firstCheck s T P tcp1 polls1).client)).disconnectTimeoutCount
            ≠ 0
          ∧ (countTimeout w tcp2.now
              (countTimeout w tcp1.now
                (firstCheck s T P tcp1 polls1).client)).disconnectTimeoutCount
            ≤ (countTimeout w tcp2.now
              (countTimeout w tcp1.now (firstCheck s T P tcp1 polls1).client)).pongTimeoutCount
      rw [countTimeout_count, hcount, htwo, countTimeout_threshold, countTimeout_threshold]
      exact ⟨by show (2 : Nat) ≠ 0; decide, Nat.le_refl 2⟩
  · refine ⟨_, dispatch_pong h _ payload hop, rfl, fun tcp3 polls3 => ?_⟩
    rw [handleHBTimeout_of_pong h w _
        (by show (countTimeout w tcp1.now (firstCheck s T P tcp1 polls1).client).pingInterval ≠ 0
            rw [countTimeout_pingInterval]; exact hT0)
        rfl]
    refine ⟨?_, rfl⟩
    apply newEvents_append
    rfl

/-- C17, worked instance: interval 200 ms, pong timeout 300 ms, threshold 2, last ping at
time 0; checks at times 1000 and 2000 without a pong: nothing at the first, the local
disconnect at the second. -/
theorem heartbeat_eviction_witness :
    (handleHBTimeout demoHost 8 (firstCheck hbStart 200 300 (idleAt 1000) [])).trace = []
      ∧ newEvents []
          (handleHBTimeout demoHost 8
            (later (handleHBTimeout demoHost 8 (firstCheck hbStart 200 300 (idleAt 1000) []))
              (idleAt 2000) []))
        = [Event.disconnected] := by
  obtain ⟨e1, -, e2, -⟩ :=
    heartbeat_eviction demoHost 8 hbStart 200 300 (idleAt 1000) [] (by decide) (by decide) rfl
      (by decide)
  exact ⟨e1, e2 (idleAt 2000) [] (by decide!)⟩

/-! ## `clientDisconnect` -/

theorem canSend_iff (s : State) :
    canSend s = true
      ↔ s.client.status = WSclientsStatus_t.WSC_CONNECTED
          ∧ (s.client.tcp = false ∨ s.tcp.connected = true) := by
  unfold canSend
  cases s.client.tcp <;> cases s.tcp.connected <;> simp

theorem closeCode_roundtrip (code : Nat) (hc : code < 2 ^ 16) :
    (((code >>> 8) &&& 0xFF) <<< 8 ||| (code &&& 0xFF)) % 2 ^ 16 = code := by
  rw [and_0xFF, and_0xFF, Nat.shiftRight_eq_div_pow, shl8_or _ _ (Nat.mod_lt _ (by decide))]
  omega

/-- C19 as amended. `clientDisconnect(client, code, reason, reasonLen)` records the request,
then hands a close frame to `write` exactly when the status is `WSC_CONNECTED`, `code` is
non-zero and the first guard of `sendFrame` lets it through (`client->tcp` is null or
connected), and in every case performs the local disconnect last, on the connection record
as it was.  The frame carries the reason when one is given, else exactly the two bytes
`code >> 8`, `code & 0xFF`, which the close handler (lines 688-693) reads back as `code`. -/
theorem clientDisconnect_effect (h : Host) (s : State) (code : Nat)
    (reason : Option (List Nat)) (reasonLen : Nat) :
    (clientDisconnect h s code reason reasonLen).trace
        = s.trace ++ [Event.closeReq code]
            ++ (if s.client.status = WSclientsStatus_t.WSC_CONNECTED ∧ code ≠ 0
                  ∧ (s.client.tcp = false ∨ s.tcp.connected = true) then
                [match reason with
                  | some r => Event.frame WSop_close (some r) reasonLen true false
                  | none => Event.frame WSop_close
                      (some [(code >>> 8) &&& 0xFF, code &&& 0xFF]) 2 true false]
              else [])
            ++ [Event.disconnected]
      ∧ (clientDisconnect h s code reason reasonLen).client = h.disconnect s.client
      ∧ (code < 2 ^ 16 → ∀ (hd : WSMessageHeader_t) (rest : List Nat), 2 ≤ hd.payloadLen →
          closeReasonCode hd (some ([(code >>> 8) &&& 0xFF, code &&& 0xFF] ++ rest))
            = Except.ok code) := by
  refine ⟨?_, ?_, fun hc hd rest hl => ?_⟩
  · unfold clientDisconnect
    simp only [localDisconnect_trace, log_client]
    have hcs : canSend (log s (Event.closeReq code)) = canSend s := rfl
    by_cases hst : s.client.status = WSclientsStatus_t.WSC_CONNECTED ∧ code ≠ 0
    · rw [if_pos hst]
      by_cases hs : canSend s = true
      · have hs' := (canSend_iff s).1 hs
        rw [if_pos ⟨hst.1, hst.2, hs'.2⟩]
        cases reason with
        | none => simp only [sendFrame_trace, hcs, hs, if_true, log_trace]
        | some r => simp only [sendFrame_trace, hcs, hs, if_true, log_trace]
      · have hn : ¬ (s.client.status = WSclientsStatus_t.WSC_CONNECTED ∧ code ≠ 0
            ∧ (s.client.tcp = false ∨ s.tcp.connected = true)) :=
          fun hh => hs ((canSend_iff s).2 ⟨hh.1, hh.2.2⟩)
        rw [if_neg hn]
        cases reason with
        | none => simp only [sendFrame_trace, hcs, hs, Bool.false_eq_true, if_false, log_trace]
        | some r => simp only [sendFrame_trace, hcs, hs, Bool.false_eq_true, if_false, log_trace]
    · have hn : ¬ (s.client.status = WSclientsStatus_t.WSC_CONNECTED ∧ code ≠ 0
          ∧ (s.client.tcp = false ∨ s.tcp.connected = true)) :=
        fun hh => hst ⟨hh.1, hh.2.1⟩
      rw [if_neg hst, if_neg hn, log_trace, List.append_nil]
  · unfold clientDisconnect localDisconnect
    simp only [log_client]
    split_ifs
    · cases reason <;> simp only [sendFrame_client, log_client]
    · rfl
  · unfold closeReasonCode
    rw [if_pos hl]
    show Except.ok ((((code >>> 8) &&& 0xFF) <<< 8 ||| (code &&& 0xFF)) % 2 ^ 16) = _
    rw [closeCode_roundtrip code hc]

/-- C19 as amended, worked instance: on a connected server-side connection
`clientDisconnect(client, 1000)` hands the close frame with payload 03 E8 to `write`, then
disconnects locally; the two bytes read back as 1000. -/
theorem clientDisconnect_effect_witness :
    (clientDisconnect demoHost hbStart 1000 none 0).trace
        = [Event.closeReq 1000, Event.frame WSop_close (some [0x03, 0xE8]) 2 true false,
            Event.disconnected]
      ∧ closeReasonCode (decodeLength close1000.client).cWsHeaderDecode
            (some [0x03, 0xE8, 0x00])
          = Except.ok 1000 := by
  obtain ⟨e1, -, e3⟩ := clientDisconnect_effect demoHost hbStart 1000 none 0
  exact ⟨e1.trans (by decide),
    e3 (by decide) (decodeLength close1000.client).cWsHeaderDecode [0x00] (by decide)⟩

/-- C19 as stated fails when the transport object exists but is no longer connected: the
status is `WSC_CONNECTED` and the code is non-zero, yet `sendFrame` returns at its first
guard, no close frame is handed to `write` and no byte is sent; only the local disconnect
happens. -/
theorem clientDisconnect_dead_peer_sends_nothing :
    deadPeer.client.status = WSclientsStatus_t.WSC_CONNECTED
      ∧ (clientDisconnect demoHost deadPeer 1002 none 0).trace
          = [Event.closeReq 1002, Event.disconnected]
      ∧ (clientDisconnect demoHost deadPeer 1002 none 0).tcp.sent = [] := by
  decide

/-! ## `handleWebsocketWaitFor` -/

theorem writeAt_getElem?_ge (bs : List Nat) : ∀ (buf : List Nat) (off i : Nat),
    off + bs.length ≤ i → (writeAt buf off bs)[i]? = buf[i]? := by
  induction bs with
  | nil => intro buf off i _; rfl
  | cons b bs ih =>
    intro buf off i hi
    simp only [List.length_cons] at hi
    simp only [writeAt]
    rw [ih (buf.set off b) (off + 1) i (by omega), List.getElem?_set_ne (by omega)]

theorem readLoop_getElem?_ge (tmo : Nat) (hasTcp : Bool) : ∀ (polls : List Poll) (tcp : Tcp)
    (out : List Nat) (off n t i : Nat), off + n ≤ i →
    (readLoop tmo hasTcp polls tcp out off n t).2.1[i]? = out[i]? := by
  intro polls
  induction polls with
  | nil =>
    intro tcp out off n t i hi
    rw [readLoop]; dsimp only
    split_ifs
    all_goals first
      | rfl
      | exact writeAt_getElem?_ge _ _ _ _ (by
          simp only [List.length_take]; omega)
  | cons p ps ih =>
    intro tcp out off n t i hi
    rw [readLoop]; dsimp only
    split_ifs
    all_goals first
      | rfl
      | exact ih _ _ _ _ _ i hi
      | exact writeAt_getElem?_ge _ _ _ _ (by
          simp only [List.length_take]; omega)
      | (rw [ih _ _ _ _ _ i (by omega)]
         exact writeAt_getElem?_ge _ _ _ _ (by
          simp only [List.length_take]; omega))

/-- The bytes beyond the requested size are left as they are by a header read. -/
theorem headerRead_beyond (h : Host) (s : State) (size i : Nat)
    (hrx : s.client.cWsRXsize ≤ size) (hi : size ≤ i) :
    (headerRead h s size).2.1[i]? = s.client.cWsHeader[i]? :=
  readLoop_getElem?_ge _ _ _ _ _ _ _ _ i (by omega)

/-- C12. `handleWebsocketWaitFor(client, n)` on a connected client, for `n ≤ 14`.  With at
least `n` bytes accumulated it returns true and changes nothing (no read).  Otherwise it
returns false and issues one read (the one new event before the callback runs) of
`n - cWsRXsize` bytes at `cWsHeader[cWsRXsize]`; the read keeps the length of the
accumulator and every byte below `cWsRXsize` and from `n` on; when the read succeeds the
callback re-enters `handleWebsocketCb` (`k`) with `cWsRXsize = n`; when it fails the
callback sets `cWsRXsize = 0` and calls `clientDisconnect(client, 1002)`. -/
theorem handleWebsocketWaitFor_contract (h : Host) (k : State → Except Fault State)
    (s : State) (n : Nat) (htcp : s.client.tcp = true) (hconn : s.tcp.connected = true)
    (hn : n ≤ 14) :
    (n ≤ s.client.cWsRXsize → handleWebsocketWaitFor h k s n = Except.ok (true, s))
    ∧ (s.client.cWsRXsize < n →
        (afterHeaderRead h s n).trace
            = s.trace ++ [Event.read (Dst.header s.client.cWsRXsize) (n - s.client.cWsRXsize)]
        ∧ (afterHeaderRead h s n).client.cWsHeader.length = s.client.cWsHeader.length
        ∧ (∀ i, i < s.client.cWsRXsize ∨ n ≤ i →
            (afterHeaderRead h s n).client.cWsHeader[i]? = s.client.cWsHeader[i]?)
        ∧ ((headerRead h s n).1 = true →
            (setRXsize (afterHeaderRead h s n) n).client.cWsRXsize = n
            ∧ handleWebsocketWaitFor h k s n
                = match k (setRXsize (afterHeaderRead h s n) n) with
                  | Except.error e => Except.error e
                  | Except.ok s2 => Except.ok (false, yield s2))
        ∧ ((headerRead h s n).1 = false →
            (setRXsize (afterHeaderRead h s n) 0).client.cWsRXsize = 0
            ∧ handleWebsocketWaitFor h k s n
                = Except.ok (false,
                    clientDisconnect h (setRXsize (afterHeaderRead h s n) 0) 1002 none 0)
            ∧ (clientDisconnect h (setRXsize (afterHeaderRead h s n) 0) 1002 none 0).trace
                = s.trace
                  ++ [Event.read (Dst.header s.client.cWsRXsize) (n - s.client.cWsRXsize)]
                  ++ closeEvents (canSend (setRXsize (afterHeaderRead h s n) 0)) 1002)) := by
  refine ⟨fun hrx => handleWebsocketWaitFor_ready h k s n htcp hconn hn hrx, fun hrx => ?_⟩
  refine ⟨rfl, ?_, ?_, fun hr => ⟨rfl, ?_⟩, fun hr => ⟨rfl, ?_, ?_⟩⟩
  · exact readLoop_length _ _ _ _ _ _ _ _
  · intro i hi
    rcases hi with hi | hi
    · exact headerRead_kept h s n i hi
    · exact headerRead_beyond h s n i (by omega) hi
  · rw [handleWebsocketWaitFor_read h k s n htcp hconn hn hrx, if_pos hr]
  · rw [handleWebsocketWaitFor_read h k s n htcp hconn hn hrx,
      if_neg (by rw [hr]; exact Bool.false_ne_true)]
  · rw [clientDisconnect_closeEvents h _ 1002 (by decide)]
    rfl

/-- C12, worked instance: with 2 bytes accumulated and 4 wanted, the two bytes 00 7E that
wait in the transport are read to offsets 2 and 3 and the callback is entered with
`cWsRXsize = 4`. -/
theorem handleWebsocketWaitFor_contract_witness :
    (afterHeaderRead demoHost waitingForLength 4).client.cWsHeader
        = [0x82, 0x7E, 0x00, 0x7E, 0, 0, 0, 0, 0, 0, 0, 0, 0, 0]
      ∧ (afterHeaderRead demoHost waitingForLength 4).trace = [Event.read (Dst.header 2) 2]
      ∧ handleWebsocketWaitFor demoHost Except.ok waitingForLength 4
          = Except.ok (false, yield (setRXsize (afterHeaderRead demoHost waitingForLength 4) 4))
      := by
  obtain ⟨ht, -, -, hok, -⟩ :=
    (handleWebsocketWaitFor_contract demoHost Except.ok waitingForLength 4 rfl rfl
      (by decide)).2 (by decide)
  exact ⟨by decide, ht, (hok (by decide)).2⟩

/-! ## `handleWebsocket` without new data -/

theorem clientDisconnect_client (h : Host) (s : State) (code : Nat)
    (reason : Option (List Nat)) (reasonLen : Nat) :
    (clientDisconnect h s code reason reasonLen).client = h.disconnect s.client := by
  unfold clientDisconnect localDisconnect
  simp only [log_client]
  split_ifs
  · cases reason <;> simp only [sendFrame_client, log_client]
  · rfl

/-- A read of at least one byte fails, and stores nothing, when no byte is there and none
arrives. -/
theorem readLoop_no_data (tmo : Nat) (hasTcp : Bool) : ∀ (polls : List Poll) (tcp : Tcp)
    (out : List Nat) (off n t : Nat), tcp.inbuf = [] → (∀ p ∈ polls, p.arrive = []) → 0 < n →
    (readLoop tmo hasTcp polls tcp out off n t).1 = false
      ∧ (readLoop tmo hasTcp polls tcp out off n t).2.1 = out := by
  intro polls
  induction polls with
  | nil =>
    intro tcp out off n t hin _ hn
    have h0 : tcp.inbuf.length = 0 := by rw [hin]; rfl
    rw [readLoop]; dsimp only
    rw [if_neg (by omega)]
    split_ifs <;> exact ⟨rfl, rfl⟩
  | cons p ps ih =>
    intro tcp out off n t hin hp hn
    have h0 : tcp.inbuf.length = 0 := by rw [hin]; rfl
    rw [readLoop]; dsimp only
    rw [if_neg (by omega)]
    split_ifs
    · exact ⟨rfl, rfl⟩
    · exact ⟨rfl, rfl⟩
    · exact ⟨rfl, rfl⟩
    · exact ih (advance p tcp) out off n t
        (by
          show tcp.inbuf ++ p.arrive = []
          rw [hin, hp p (List.mem_cons_self _ _)]; rfl)
        (fun q hq => hp q (List.mem_cons_of_mem _ hq)) hn

/-- C15 as amended. `handleWebsocket` changes nothing when the accumulator is not empty,
and nothing when `client->tcp` is null or the transport is not connected.  On a connected
client with an empty accumulator and no byte available for the whole call it is not a
no-op: it issues the read of the first 2 header bytes, which fails, and then calls
`clientDisconnect(client, 1002)`: the close frame is sent when `sendFrame` gets past its
guards, and the local disconnect follows. -/
theorem handleWebsocket_without_data (h : Host) (fuel : Nat) (s : State) :
    (s.client.cWsRXsize ≠ 0 → handleWebsocket h fuel s = Except.ok s)
    ∧ (s.client.tcp = false ∨ s.tcp.connected = false →
        handleWebsocket h (fuel + 1) s = Except.ok s)
    ∧ (s.client.cWsRXsize = 0 → s.client.tcp = true → s.tcp.connected = true →
        s.tcp.inbuf = [] → (∀ p ∈ s.polls, p.arrive = []) →
        ∃ s', handleWebsocket h (fuel + 1) s = Except.ok s'
          ∧ s'.client = h.disconnect s.client
          ∧ newEvents s.trace s'
              = [Event.read (Dst.header 0) 2]
                ++ closeEvents (canSend (setRXsize (afterHeaderRead h s 2) 0)) 1002) := by
  refine ⟨fun hrx => ?_, fun hg => ?_, fun hrx htcp hconn hin hp => ?_⟩
  · unfold handleWebsocket
    rw [if_neg hrx]
  · have hg' : (!s.client.tcp || !s.tcp.connected) = true := by
      rcases hg with hg | hg <;> rw [hg] <;> simp
    unfold handleWebsocket
    rw [handleWebsocketCb, if_pos hg']
    split_ifs <;> rfl
  · obtain ⟨hfail, hout⟩ := readLoop_no_data h.tcpTimeout s.client.tcp s.polls s.tcp
      s.client.cWsHeader s.client.cWsRXsize (2 - s.client.cWsRXsize) s.tcp.now hin hp
      (by omega)
    have hfail' : ¬ (headerRead h s 2).1 = true := by
      unfold headerRead; rw [hfail]; exact Bool.false_ne_true
    refine ⟨clientDisconnect h (setRXsize (afterHeaderRead h s 2) 0) 1002 none 0, ?_, ?_, ?_⟩
    · unfold handleWebsocket
      rw [if_pos hrx, handleWebsocketCb_stage1 h fuel s htcp hconn (by omega)]
      unfold afterWait
      rw [if_neg hfail']
    · rw [clientDisconnect_client]
      congr 1
      show ({ s.client with cWsHeader := (headerRead h s 2).2.1, cWsRXsize := 0 } : WSclient_t)
        = s.client
      have hacc : (headerRead h s 2).2.1 = s.client.cWsHeader := hout
      rw [hacc, ← hrx]
    · apply newEvents_append
      rw [clientDisconnect_closeEvents h _ 1002 (by decide)]
      show s.trace ++ [Event.read (Dst.header s.client.cWsRXsize) (2 - s.client.cWsRXsize)] ++ _
        = _
      rw [hrx, List.append_assoc]

/-- C15 as amended, worked instance: the silent connection gets the read of 2 bytes, the
close request, the close frame 03 EA and the local disconnect. -/
theorem handleWebsocket_without_data_witness :
    ∃ s', handleWebsocket demoHost 1 silent = Except.ok s'
      ∧ newEvents [] s'
          = [Event.read (Dst.header 0) 2, Event.closeReq 1002,
              Event.frame WSop_close (some [0x03, 0xEA]) 2 true false, Event.disconnected] := by
  obtain ⟨s', hrun, -, hev⟩ :=
    (handleWebsocket_without_data demoHost 0 silent).2.2 rfl rfl rfl rfl (by decide)
  exact ⟨s', hrun, hev.trans (by decide!)⟩

/-- C15 as stated fails on the synchronous path: on a connected client with an empty
accumulator and no byte arriving, 6 seconds passing meanwhile, `handleWebsocket` ends with
the connection closed: the close frame 88 02 03 EA went to the transport and the local
disconnect left the status `WSC_NOT_CONNECTED`. -/
theorem handleWebsocket_silent_closes :
    silent.client.cWsRXsize = 0 ∧ silent.tcp.inbuf = []
      ∧ silent.polls.map Poll.arrive = [[]]
      ∧ silent.client.status = WSclientsStatus_t.WSC_CONNECTED
      ∧ seen (handleWebsocket demoHost 1 silent)
          = some ([Event.read (Dst.header 0) 2, Event.closeReq 1002,
              Event.frame WSop_close (some [0x03, 0xEA]) 2 true false, Event.disconnected],
            WSclientsStatus_t.WSC_NOT_CONNECTED, [0x88, 0x02, 0x03, 0xEA]) := by
  refine ⟨rfl, rfl, rfl, rfl, ?_⟩
  decide!

/-! ## Reset of the receive state -/

theorem handleWebsocketCb_tooBig_eq (h : Host) (fuel : Nat) (s : State)
    (htcp : s.client.tcp = true) (hconn : s.tcp.connected = true)
    (hle : lengthEnd s.client.cWsHeader ≤ s.client.cWsRXsize)
    (hbig : h.maxDataSize < declaredLen s.client.cWsHeader) :
    handleWebsocketCb h (fuel + 1) s
      = Except.ok (clientDisconnect h (reported s) 1009 none 0) := by
  rw [handleWebsocketCb_lengthReady h fuel s htcp hconn hle, afterLength_reported, if_pos hbig]

theorem handleWebsocketPayloadCb_reset (h : Host) (s s' : State) (p : Option (List Nat))
    (hrun : handleWebsocketPayloadCb h s true p = Except.ok s') : s'.client.cWsRXsize = 0 := by
  unfold handleWebsocketPayloadCb at hrun
  rw [if_pos rfl] at hrun
  cases hu : unmaskPayload s.client p with
  | error e => rw [hu] at hrun; cases hrun
  | ok q =>
    rw [hu] at hrun
    dsimp only at hrun
    cases hd : dispatch h s q with
    | error e => rw [hd] at hrun; cases hrun
    | ok sD =>
      rw [hd] at hrun
      cases hrun
      rfl

theorem afterDispatch_count (len : Nat) (sD : State) :
    (afterDispatch len sD).client.cWsRXsize = 0 := by
  unfold afterDispatch
  split_ifs
  · rw [yield_client]
  · rfl

/-- C14. The receive state is reset when the receive path is finished with a frame.
A call `handleWebsocketPayloadCb(client, true, payload)` that returns leaves
`cWsRXsize = 0`, whatever the opcode, and it does return when the payload is empty or the
buffer is longer than the payload.  A frame whose payload arrives is dispatched by
`handleWebsocketCb` and the count is 0 afterwards.  A frame that `handleWebsocketCb`
rejects with code 1009 leaves the count at 0 once the local disconnect has reset it.
From a count of 0 the next `handleWebsocket` on a connected client begins with the read
of 2 bytes at offset 0. -/
theorem receive_state_reset (h : Host) (fuel : Nat) (s : State) :
    (∀ (p : Option (List Nat)) (s' : State),
        handleWebsocketPayloadCb h s true p = Except.ok s' → s'.client.cWsRXsize = 0)
    ∧ (∀ p : Option (List Nat),
        (s.client.cWsHeaderDecode.payloadLen = 0
          ∨ ∃ buf, p = some buf ∧ s.client.cWsHeaderDecode.payloadLen < buf.length) →
        ∃ s', handleWebsocketPayloadCb h s true p = Except.ok s')
    ∧ (HeaderReady s → h.maxDataSize < 0xFFFFFFFF →
        declaredLen s.client.cWsHeader ≤ h.maxDataSize → PayloadReceived h s →
        ∃ s', handleWebsocketCb h (fuel + 1) s = Except.ok s' ∧ s'.client.cWsRXsize = 0)
    ∧ (ResetsOnClose h → s.client.tcp = true → s.tcp.connected = true →
        lengthEnd s.client.cWsHeader ≤ s.client.cWsRXsize →
        h.maxDataSize < declaredLen s.client.cWsHeader →
        ∃ s', handleWebsocketCb h (fuel + 1) s = Except.ok s'
          ∧ Event.closeReq 1009 ∈ newEvents s.trace s' ∧ s'.client.cWsRXsize = 0)
    ∧ (s.client.cWsRXsize = 0 → s.client.tcp = true → s.tcp.connected = true →
        ∀ s', handleWebsocket h (fuel + 1) s = Except.ok s' →
          ∃ evs, newEvents s.trace s' = Event.read (Dst.header 0) 2 :: evs) := by
  refine ⟨fun p s' hrun => handleWebsocketPayloadCb_reset h s s' p hrun, fun p hp => ?_,
    fun hr hcfg hmax hp => ?_, fun hreset htcp hconn hle hbig => ?_,
    fun hrx htcp hconn s' hrun => ?_⟩
  · rcases handleWebsocketPayloadCb_outcome h s true p with ⟨s', h1, -⟩ | ⟨-, hpos, hshort⟩
    · exact ⟨s', h1⟩
    · rcases hp with hp | ⟨buf, hb, hlen⟩
      · omega
      · have := hshort buf hb
        omega
  · have hfit : declaredLen s.client.cWsHeader + 1 < 2 ^ 32 := by omega
    rw [handleWebsocketCb_received h fuel s hr hmax hfit hp]
    rcases dispatch_outcome h (atDispatch h s) (deliveredPayload h s) with
      ⟨sD, hd, -⟩ | ⟨-, h2, hshort⟩
    · rw [hd]
      exact ⟨_, rfl, afterDispatch_count _ sD⟩
    · have h2' : 2 ≤ declaredLen s.client.cWsHeader := h2
      obtain ⟨buf, hb, hlen, -, -⟩ := deliveredPayload_spec h s hfit (by omega)
      have := hshort buf hb
      omega
  · refine ⟨_, handleWebsocketCb_tooBig_eq h fuel s htcp hconn hle hbig, ?_, ?_⟩
    · rw [newEvents_append s.trace ([decodedEvent s.client] ++ closeEvents (canSend s) 1009) _
        (by
          rw [clientDisconnect_closeEvents h _ 1009 (by decide)]
          show s.trace ++ [decodedEvent s.client] ++ closeEvents (canSend s) 1009 = _
          rw [List.append_assoc])]
      unfold closeEvents
      simp only [List.mem_append, List.mem_singleton, List.mem_cons, true_or, or_true]
    · rw [clientDisconnect_client]
      exact hreset _
  · unfold handleWebsocket at hrun
    rw [if_pos hrx, handleWebsocketCb_stage1 h fuel s htcp hconn (by omega)] at hrun
    obtain ⟨evs, he⟩ := afterWait_trace h _ (handleWebsocketCb_grows h fuel) s s' 2 hrun
    refine ⟨evs, ?_⟩
    apply newEvents_append
    rw [he, hrx, List.append_assoc]
    rfl

/-- C14, worked instance: the oversize header is rejected with code 1009 and the count,
4 before, is 0 afterwards; the host resets the count in its local disconnect. -/
theorem receive_state_reset_witness :
    ResetsOnClose demoHost ∧ oversizeMasked.client.cWsRXsize = 4
      ∧ ∃ s', handleWebsocketCb demoHost 1 oversizeMasked = Except.ok s'
          ∧ Event.closeReq 1009 ∈ newEvents oversizeMasked.trace s'
          ∧ s'.client.cWsRXsize = 0 :=
  ⟨fun _ => rfl, rfl,
    (receive_state_reset demoHost 0 oversizeMasked).2.2.2.1 (fun _ => rfl) rfl rfl
      (by decide) (by decide)⟩

/-! ## The accumulator count stays within the capacity -/

theorem Keeps.same (s : State) : Keeps s s := ⟨fun hx => hx, Grows.refl _ _⟩

theorem Keeps.chain {a b c : State} (h1 : Keeps a b) (h2 : Keeps b c) : Keeps a c :=
  ⟨fun hx => h2.1 (h1.1 hx), h1.2.trans h2.2⟩

/-- A change of the state that touches neither the count nor the trace. -/
theorem Keeps.of_eq {a b : State} (hc : b.client.cWsRXsize = a.client.cWsRXsize)
    (ht : b.trace = a.trace) : Keeps a b :=
  ⟨fun hx => by rw [hc]; exact hx, Grows.of_trace_eq ht (Grows.refl _ _)⟩

theorem isPayloadStage_insideHeader (e : Event) (he : e.isPayloadStage = true) :
    e.insideHeader = true := by
  cases e with
  | read d n =>
    cases d with
    | header off => exact absurd he Bool.false_ne_true
    | payload => rfl
  | _ => rfl

theorem clientDisconnect_keeps (h : Host) (hd : DisconnectKeepsCount h) (s : State) (code : Nat)
    (hc : code ≠ 0) : Keeps s (clientDisconnect h s code none 0) := by
  refine ⟨fun hx => ?_, clientDisconnect_grows _ h s code hc ?_⟩
  · rw [clientDisconnect_client]
    exact hd _ hx
  · unfold closeEvents closeFrame
    rfl

theorem handleWebsocketPayloadCb_keeps (h : Host) (hd : DisconnectKeepsCount h) (s s' : State)
    (ok : Bool) (p : Option (List Nat))
    (hrun : handleWebsocketPayloadCb h s ok p = Except.ok s') : Keeps s s' := by
  have hg : Grows Event.insideHeader s s' := by
    rcases handleWebsocketPayloadCb_outcome h s ok p with ⟨s1, h1, hg⟩ | ⟨⟨e, he⟩, _⟩
    · rw [h1] at hrun; cases hrun; exact hg.mono isPayloadStage_insideHeader
    · rw [he] at hrun; cases hrun
  refine ⟨fun hx => ?_, hg⟩
  cases ok with
  | true =>
    rw [handleWebsocketPayloadCb_reset h s s' p hrun]
    exact Nat.zero_le _
  | false =>
    unfold handleWebsocketPayloadCb at hrun
    rw [if_neg Bool.false_ne_true] at hrun
    cases hrun
    rw [clientDisconnect_client]
    apply hd
    split_ifs <;> exact hx

theorem receivePayload_keeps (h : Host) (hd : DisconnectKeepsCount h) (s s' : State)
    (hrun : receivePayload h s = Except.ok s') : Keeps s s' := by
  refine ⟨fun hx => ?_, (receivePayload_grows h s s' hrun).mono isPayloadStage_insideHeader⟩
  unfold receivePayload at hrun
  dsimp only at hrun
  split_ifs at hrun with hl hm
  · cases hr : (readLoop h.tcpTimeout
        (log s (Event.malloc ((s.client.cWsHeaderDecode.payloadLen + 1) % 2 ^ 32) true)).client.tcp
        (log s (Event.malloc ((s.client.cWsHeaderDecode.payloadLen + 1) % 2 ^ 32) true)).polls
        (log s (Event.malloc ((s.client.cWsHeaderDecode.payloadLen + 1) % 2 ^ 32) true)).tcp
        ((List.range ((s.client.cWsHeaderDecode.payloadLen + 1) % 2 ^ 32)).map h.junk) 0
        s.client.cWsHeaderDecode.payloadLen
        (log s (Event.malloc ((s.client.cWsHeaderDecode.payloadLen + 1) % 2 ^ 32) true)).tcp.now).1
    · rw [readCb_fail h _ _ _ _ _ _ hr] at hrun
      split at hrun
      · cases hrun
      · rename_i s1 hcb
        split at hcb
        · cases hcb
        · rename_i s2 hp
          cases hcb
          cases hrun
          exact (handleWebsocketPayloadCb_keeps h hd _ _ _ _ hp).1 hx
    · rw [readCb_ok h _ _ _ _ _ _ hr] at hrun
      split at hrun
      · cases hrun
      · rename_i s1 hcb
        split at hcb
        · cases hcb
        · rename_i s2 hp
          cases hcb
          cases hrun
          rw [yield_client]
          exact (handleWebsocketPayloadCb_keeps h hd _ _ _ _ hp).1 hx
  · cases hrun
    rw [clientDisconnect_client]
    exact hd _ hx
  · exact (handleWebsocketPayloadCb_keeps h hd _ _ _ _ hrun).1 hx

theorem Keeps.logged (s : State) (e : Event) (he : e.insideHeader = true) : Keeps s (log s e) :=
  ⟨fun hx => hx, Grows.log s e he⟩

theorem handleWebsocketWaitFor_keeps (h : Host) (hd : DisconnectKeepsCount h)
    (k : State → Except Fault State) (hk : ∀ a b, k a = Except.ok b → Keeps a b)
    (s : State) (size : Nat) (b : Bool) (s' : State)
    (hw : handleWebsocketWaitFor h k s size = Except.ok (b, s')) : Keeps s s' := by
  by_cases hg : s.client.tcp = true ∧ s.tcp.connected = true ∧ size ≤ 14
  · obtain ⟨htcp, hconn, hsize⟩ := hg
    by_cases hrx : size ≤ s.client.cWsRXsize
    · rw [handleWebsocketWaitFor_ready h k s size htcp hconn hsize hrx] at hw
      cases hw
      exact Keeps.same _
    · rw [handleWebsocketWaitFor_read h k s size htcp hconn hsize (by omega)] at hw
      have hin : (Event.read (Dst.header s.client.cWsRXsize)
          (size - s.client.cWsRXsize)).insideHeader = true :=
        decide_eq_true (by omega)
      have g0 : ∀ n, n ≤ 14 → Keeps s (setRXsize (afterHeaderRead h s size) n) := fun n hn =>
        ⟨fun _ => hn, ⟨_, rfl, by rw [List.all_cons, hin]; rfl⟩⟩
      split_ifs at hw
      · cases hk2 : k (setRXsize (afterHeaderRead h s size) size) with
        | error e => rw [hk2] at hw; cases hw
        | ok s2 =>
          rw [hk2] at hw
          cases hw
          exact ((g0 size hsize).chain (hk _ _ hk2)).chain
            (Keeps.of_eq (by rw [yield_client]) (yield_trace _))
      · cases hw
        exact (g0 0 (Nat.zero_le _)).chain (clientDisconnect_keeps h hd _ 1002 (by decide))
  · unfold handleWebsocketWaitFor at hw
    have : (!s.client.tcp || !s.tcp.connected) = true ∨ size > WEBSOCKETS_MAX_HEADER_SIZE := by
      unfold WEBSOCKETS_MAX_HEADER_SIZE
      by_cases h1 : s.client.tcp = true
      · by_cases h2 : s.tcp.connected = true
        · right
          by_cases h3 : size ≤ 14
          · exact absurd ⟨h1, h2, h3⟩ hg
          · omega
        · left; simp [h2]
      · left; simp [h1]
    rcases this with h1 | h1
    · rw [if_pos h1] at hw; cases hw; exact Keeps.same _
    · split_ifs at hw <;> first | (cases hw; exact Keeps.same _)

theorem afterLength_keeps (h : Host) (hd : DisconnectKeepsCount h)
    (k : State → Except Fault State) (hk : ∀ a b, k a = Except.ok b → Keeps a b)
    (s : State) (off headerLen : Nat) (s' : State)
    (hrun : afterLength h k s off headerLen = Except.ok s') : Keeps s s' := by
  unfold afterLength at hrun
  simp only [log_client] at hrun
  have g0 : Keeps s (log s (Event.decoded s.client.cWsHeaderDecode.fin
      s.client.cWsHeaderDecode.rsv1 s.client.cWsHeaderDecode.rsv2 s.client.cWsHeaderDecode.rsv3
      s.client.cWsHeaderDecode.opCode s.client.cWsHeaderDecode.mask
      s.client.cWsHeaderDecode.payloadLen)) := Keeps.logged _ _ rfl
  split_ifs at hrun with hbig hm
  · cases hrun
    exact g0.chain (clientDisconnect_keeps h hd _ 1009 (by decide))
  · cases hw : handleWebsocketWaitFor h k (log s (Event.decoded s.client.cWsHeaderDecode.fin
        s.client.cWsHeaderDecode.rsv1 s.client.cWsHeaderDecode.rsv2
        s.client.cWsHeaderDecode.rsv3 s.client.cWsHeaderDecode.opCode
        s.client.cWsHeaderDecode.mask s.client.cWsHeaderDecode.payloadLen))
        (headerLen + 4) with
    | error e => rw [hw] at hrun; cases hrun
    | ok r =>
      obtain ⟨b, s1⟩ := r
      have g1 := handleWebsocketWaitFor_keeps h hd k hk _ _ b s1 hw
      rw [hw] at hrun
      cases b
      · cases hrun; exact g0.chain g1
      · have gm : Keeps s1 { s1 with client := { s1.client with
            cWsHeaderDecode := { s1.client.cWsHeaderDecode with maskKey := off } } } :=
          Keeps.of_eq rfl rfl
        exact g0.chain (g1.chain (gm.chain (receivePayload_keeps h hd _ s' hrun)))
  · exact g0.chain (receivePayload_keeps h hd _ s' hrun)

/-- A run of `handleWebsocketCb` that returns keeps the count within 14 and has read into
the accumulator only inside its 14 bytes. -/
theorem handleWebsocketCb_keeps (h : Host) (hd : DisconnectKeepsCount h) :
    ∀ (fuel : Nat) (s s' : State), handleWebsocketCb h fuel s = Except.ok s' → Keeps s s' := by
  intro fuel
  induction fuel with
  | zero => intro s s' hrun; rw [handleWebsocketCb] at hrun; cases hrun
  | succ n ih =>
    intro s s' hrun
    rw [handleWebsocketCb] at hrun
    split_ifs at hrun with hg
    · cases hrun; exact Keeps.same _
    · dsimp only at hrun
      cases hw : handleWebsocketWaitFor h (handleWebsocketCb h n) s 2 with
      | error e => rw [hw] at hrun; cases hrun
      | ok r =>
        obtain ⟨b, s1⟩ := r
        have g1 := handleWebsocketWaitFor_keeps h hd _ ih _ _ b s1 hw
        rw [hw] at hrun
        cases b
        · cases hrun; exact g1
        · simp only [] at hrun
          have gs : Keeps s1 { s1 with client := splitFirstBytes s1.client } :=
            Keeps.of_eq rfl rfl
          split_ifs at hrun
          · cases hw2 : handleWebsocketWaitFor h (handleWebsocketCb h n)
                { s1 with client := splitFirstBytes s1.client } (2 + 2) with
            | error e => rw [hw2] at hrun; cases hrun
            | ok r2 =>
              obtain ⟨b2, s2⟩ := r2
              have g2 := handleWebsocketWaitFor_keeps h hd _ ih _ _ b2 s2 hw2
              rw [hw2] at hrun
              cases b2
              · cases hrun
                exact g1.chain (gs.chain g2)
              · dsimp only at hrun
                have gp : Keeps s2 (setPayloadLen s2 (length16 (s2.client.cWsHeader.drop 2))) :=
                  Keeps.of_eq rfl rfl
                exact g1.chain (gs.chain (g2.chain (gp.chain
                  (afterLength_keeps h hd _ ih _ _ _ s' hrun))))
          · cases hw2 : handleWebsocketWaitFor h (handleWebsocketCb h n)
                { s1 with client := splitFirstBytes s1.client } (2 + 8) with
            | error e => rw [hw2] at hrun; cases hrun
            | ok r2 =>
              obtain ⟨b2, s2⟩ := r2
              have g2 := handleWebsocketWaitFor_keeps h hd _ ih _ _ b2 s2 hw2
              rw [hw2] at hrun
              cases b2
              · cases hrun
                exact g1.chain (gs.chain g2)
              · dsimp only at hrun
                have gp : Keeps s2 (setPayloadLen s2 (length64 (s2.client.cWsHeader.drop 2))) :=
                  Keeps.of_eq rfl rfl
                exact g1.chain (gs.chain (g2.chain (gp.chain
                  (afterLength_keeps h hd _ ih _ _ _ s' hrun))))
          · exact g1.chain (gs.chain (afterLength_keeps h hd _ ih _ _ _ s' hrun))

/-- C13. The accumulator count stays within `WEBSOCKETS_MAX_HEADER_SIZE = 14`, the local
disconnect (outside this file) not raising it.  `headerDone` sets it to 0.  A wait for
more than 14 bytes returns false and changes nothing (no read).  `handleWebsocketWaitFor`
with a callback that keeps the bound, `handleWebsocketCb` and `handleWebsocketPayloadCb`
all keep a count of at most 14 at most 14, and every read into the accumulator they issue
is one of `n` bytes at an offset `off` with `off + n ≤ 14`. -/
theorem accumulator_count_bounded (h : Host) (hd : DisconnectKeepsCount h) :
    (∀ s : State, (headerDone s).client.cWsRXsize = 0)
    ∧ (∀ (k : State → Except Fault State) (s : State) (size : Nat), 14 < size →
        handleWebsocketWaitFor h k s size = Except.ok (false, s))
    ∧ (∀ (k : State → Except Fault State), (∀ a b, k a = Except.ok b → Keeps a b) →
        ∀ (s : State) (size : Nat) (b : Bool) (s' : State),
          handleWebsocketWaitFor h k s size = Except.ok (b, s') →
            (s.client.cWsRXsize ≤ 14 → s'.client.cWsRXsize ≤ 14)
              ∧ (newEvents s.trace s').all Event.insideHeader = true)
    ∧ (∀ (fuel : Nat) (s s' : State), handleWebsocketCb h fuel s = Except.ok s' →
        (s.client.cWsRXsize ≤ 14 → s'.client.cWsRXsize ≤ 14)
          ∧ (newEvents s.trace s').all Event.insideHeader = true)
    ∧ (∀ (s s' : State) (ok : Bool) (p : Option (List Nat)),
        handleWebsocketPayloadCb h s ok p = Except.ok s' →
        (s.client.cWsRXsize ≤ 14 → s'.client.cWsRXsize ≤ 14)
          ∧ (newEvents s.trace s').all Event.insideHeader = true) := by
  refine ⟨fun _ => rfl, fun k s size hsize => ?_, fun k hk s size b s' hw => ?_,
    fun fuel s s' hrun => ?_, fun s s' ok p hrun => ?_⟩
  · unfold handleWebsocketWaitFor
    have h1 : size > WEBSOCKETS_MAX_HEADER_SIZE := hsize
    split_ifs <;> rfl
  · have hk := handleWebsocketWaitFor_keeps h hd k hk s size b s' hw
    exact ⟨hk.1, hk.2.newEvents_all⟩
  · have hk := handleWebsocketCb_keeps h hd fuel s s' hrun
    exact ⟨hk.1, hk.2.newEvents_all⟩
  · have hk := handleWebsocketPayloadCb_keeps h hd s s' ok p hrun
    exact ⟨hk.1, hk.2.newEvents_all⟩

/-- C13, worked instance: the usual host resets the count in its local disconnect, and a
wait for 15 bytes is refused without a read. -/
theorem accumulator_count_bounded_witness :
    DisconnectKeepsCount demoHost
      ∧ handleWebsocketWaitFor demoHost Except.ok maskedHi 15 = Except.ok (false, maskedHi) :=
  ⟨fun _ _ => Nat.zero_le _,
    (accumulator_count_bounded demoHost (fun _ _ => Nat.zero_le _)).2.1 Except.ok maskedHi 15
      (by decide)⟩

/-! ## `write` -/

theorem sent_take_zero (sent l : List Nat) : sent = sent ++ l.take 0 := by
  rw [List.take_zero, List.append_nil]

theorem sent_take_add (sent l : List Nat) (off a b : Nat) :
    sent ++ (l.drop off).take a ++ (l.drop (off + a)).take b
      = sent ++ (l.drop off).take (a + b) := by
  rw [List.take_add, List.drop_drop, List.append_assoc]

theorem writeLoop_accepted (tmo : Nat) (hasTcp : Bool) (out : List Nat) :
    ∀ (polls : List Poll) (tcp : Tcp) (off n t total : Nat),
    total + n < 2 ^ 32 → writeHonest tmo hasTcp out polls tcp off n t = true →
    ∃ w, w ≤ n
      ∧ (writeLoop tmo hasTcp out polls tcp off n t total).1 = total + w
      ∧ (writeLoop tmo hasTcp out polls tcp off n t total).2.1.sent
          = tcp.sent ++ (out.drop off).take w := by
  intro polls
  induction polls with
  | nil =>
    intro tcp off n t total hfit hh
    rw [writeHonest] at hh
    rw [writeLoop]
    by_cases hn : n = 0
    · rw [if_pos hn]; exact ⟨0, Nat.zero_le _, rfl, sent_take_zero _ _⟩
    rw [if_neg hn] at hh ⊢
    by_cases h1 : (!hasTcp) = true
    · rw [if_pos h1]; exact ⟨0, Nat.zero_le _, rfl, sent_take_zero _ _⟩
    rw [if_neg h1] at hh ⊢
    by_cases h2 : (!tcp.connected) = true
    · rw [if_pos h2]; exact ⟨0, Nat.zero_le _, rfl, sent_take_zero _ _⟩
    rw [if_neg h2] at hh ⊢
    by_cases h3 : elapsed tcp.now t > tmo
    · rw [if_pos h3]; exact ⟨0, Nat.zero_le _, rfl, sent_take_zero _ _⟩
    rw [if_neg h3] at hh ⊢
    dsimp only at hh ⊢
    rw [Bool.and_eq_true, decide_eq_true_eq] at hh
    obtain ⟨hle, -⟩ := hh
    have hmin : min (tcp.accept % 2 ^ 32) n = tcp.accept % 2 ^ 32 := Nat.min_eq_left hle
    rw [hmin]
    by_cases hz : tcp.accept % 2 ^ 32 = 0
    · refine ⟨0, Nat.zero_le _, ?_, ?_⟩
      · simp only [hz, ne_eq, not_true_eq_false, if_false]
        split_ifs <;> rfl
      · simp only [hz, ne_eq, not_true_eq_false, if_false]
        split_ifs <;> rfl
    · have e1 : (n + 2 ^ 32 - tcp.accept % 2 ^ 32) % 2 ^ 32 = n - tcp.accept % 2 ^ 32 := by omega
      have e2 : (total + tcp.accept % 2 ^ 32) % 2 ^ 32 = total + tcp.accept % 2 ^ 32 := by omega
      refine ⟨tcp.accept % 2 ^ 32, hle, ?_, ?_⟩
      · simp only [ne_eq, hz, not_false_eq_true, if_true, e1, e2]
        split_ifs <;> rfl
      · simp only [ne_eq, hz, not_false_eq_true, if_true, e1, e2]
        split_ifs <;> rfl
  | cons p ps ih =>
    intro tcp off n t total hfit hh
    rw [writeHonest] at hh
    rw [writeLoop]
    by_cases hn : n = 0
    · rw [if_pos hn]; exact ⟨0, Nat.zero_le _, rfl, sent_take_zero _ _⟩
    rw [if_neg hn] at hh ⊢
    by_cases h1 : (!hasTcp) = true
    · rw [if_pos h1]; exact ⟨0, Nat.zero_le _, rfl, sent_take_zero _ _⟩
    rw [if_neg h1] at hh ⊢
    by_cases h2 : (!tcp.connected) = true
    · rw [if_pos h2]; exact ⟨0, Nat.zero_le _, rfl, sent_take_zero _ _⟩
    rw [if_neg h2] at hh ⊢
    by_cases h3 : elapsed tcp.now t > tmo
    · rw [if_pos h3]; exact ⟨0, Nat.zero_le _, rfl, sent_take_zero _ _⟩
    rw [if_neg h3] at hh ⊢
    dsimp only at hh ⊢
    rw [Bool.and_eq_true, decide_eq_true_eq] at hh
    obtain ⟨hle, hrest⟩ := hh
    have hmin : min (tcp.accept % 2 ^ 32) n = tcp.accept % 2 ^ 32 := Nat.min_eq_left hle
    rw [hmin] at hrest ⊢
    by_cases hz : tcp.accept % 2 ^ 32 = 0
    · simp only [hz, ne_eq, not_true_eq_false, if_false, if_pos (Nat.pos_of_ne_zero hn),
        gt_iff_lt] at hrest ⊢
      obtain ⟨w, hw, e1, e2⟩ := ih _ off n t total hfit hrest
      refine ⟨w, hw, e1, ?_⟩
      rw [e2]
      show tcp.sent ++ (out.drop off).take 0 ++ _ = _
      rw [List.take_zero, List.append_nil]
    · have e1 : (n + 2 ^ 32 - tcp.accept % 2 ^ 32) % 2 ^ 32 = n - tcp.accept % 2 ^ 32 := by omega
      have e2 : (total + tcp.accept % 2 ^ 32) % 2 ^ 32 = total + tcp.accept % 2 ^ 32 := by omega
      simp only [ne_eq, hz, not_false_eq_true, if_true, e1, e2, gt_iff_lt] at hrest ⊢
      by_cases hm : 0 < n - tcp.accept % 2 ^ 32
      · rw [if_pos hm] at hrest ⊢
        obtain ⟨w, hw, e3, e4⟩ := ih _ (off + tcp.accept % 2 ^ 32) (n - tcp.accept % 2 ^ 32)
          tcp.now (total + tcp.accept % 2 ^ 32) (by omega) hrest
        refine ⟨tcp.accept % 2 ^ 32 + w, by omega, by rw [e3, Nat.add_assoc], ?_⟩
        rw [e4]
        exact sent_take_add _ _ _ _ _
      · rw [if_neg hm]
        exact ⟨tcp.accept % 2 ^ 32, hle, rfl, rfl⟩

theorem yield_sent (s : State) : (yield s).tcp.sent = s.tcp.sent := by
  unfold yield; split <;> rfl

theorem write_fst (h : Host) (s : State) (buf : List Nat) (off n : Nat) :
    (write h s (some buf) off n).1
      = (writeLoop h.tcpTimeout s.client.tcp buf s.polls s.tcp off n s.tcp.now 0).1 := rfl

theorem write_sent (h : Host) (s : State) (buf : List Nat) (off n : Nat) :
    (write h s (some buf) off n).2.tcp.sent
      = (writeLoop h.tcpTimeout s.client.tcp buf s.polls s.tcp off n s.tcp.now 0).2.1.sent := by
  unfold write
  exact yield_sent _

theorem writeLoop_stopped (tmo : Nat) (hasTcp : Bool) (out : List Nat) (polls : List Poll)
    (tcp : Tcp) (off n t total : Nat)
    (hstop : hasTcp = false ∨ tcp.connected = false ∨ tmo < elapsed tcp.now t) :
    writeLoop tmo hasTcp out polls tcp off n t total = (total, tcp, polls) := by
  by_cases hn : n = 0
  · cases polls <;> rw [writeLoop, if_pos hn]
  by_cases h1 : (!hasTcp) = true
  · cases polls <;> rw [writeLoop, if_neg hn, if_pos h1]
  by_cases h2 : (!tcp.connected) = true
  · cases polls <;> rw [writeLoop, if_neg hn, if_neg h1, if_pos h2]
  rcases hstop with hs | hs | hs
  · rw [hs] at h1; exact absurd rfl h1
  · rw [hs] at h2; exact absurd rfl h2
  · cases polls <;> rw [writeLoop, if_neg hn, if_neg h1, if_neg h2, if_pos hs]

/-- C18. `write(client, out, n)` over a transport whose every `tcp->write` reports at most
the count it was offered (`n` a `size_t`, `out` holding the `n` bytes).  The result is the
number of bytes the transport accepted: it is at most `n`, the transport received exactly
the first `result` bytes of `out`, and the result is `n` exactly when it received all `n`.
The loop stops at once, with the count so far, when `client->tcp` is null, the transport is
not connected or more than `WEBSOCKETS_TCP_TIMEOUT` ms passed since `t`; a call that
accepts `len > 0` bytes and leaves bytes to write restarts `t` at the current time.
`write` returns 0 when `out` or `client` is null. -/
theorem write_returns_accepted (h : Host) (s : State) (buf : List Nat) (off n : Nat)
    (hn : n < 2 ^ 32) (hbuf : off + n ≤ buf.length)
    (hh : writeHonest h.tcpTimeout s.client.tcp buf s.polls s.tcp off n s.tcp.now = true) :
    (write h s (some buf) off n).1 ≤ n
    ∧ (write h s (some buf) off n).2.tcp.sent
        = s.tcp.sent ++ (buf.drop off).take (write h s (some buf) off n).1
    ∧ (write h s (some buf) off n).2.tcp.sent.length
        = s.tcp.sent.length + (write h s (some buf) off n).1
    ∧ ((write h s (some buf) off n).1 = n
        ↔ (write h s (some buf) off n).2.tcp.sent = s.tcp.sent ++ (buf.drop off).take n)
    ∧ (s.client.tcp = false ∨ s.tcp.connected = false → (write h s (some buf) off n).1 = 0)
    ∧ (∀ (polls : List Poll) (tcp : Tcp) (o m t total : Nat),
        s.client.tcp = false ∨ tcp.connected = false ∨ h.tcpTimeout < elapsed tcp.now t →
        writeLoop h.tcpTimeout s.client.tcp buf polls tcp o m t total = (total, tcp, polls))
    ∧ (∀ (p : Poll) (ps : List Poll) (tcp : Tcp) (o m t total : Nat),
        s.client.tcp = true → tcp.connected = true → elapsed tcp.now t ≤ h.tcpTimeout →
        0 < tcp.accept → tcp.accept < m → total + m < 2 ^ 32 →
        writeLoop h.tcpTimeout s.client.tcp buf (p :: ps) tcp o m t total
          = writeLoop h.tcpTimeout s.client.tcp buf ps
              (advance p { tcp with sent := tcp.sent ++ (buf.drop o).take tcp.accept })
              (o + tcp.accept) (m - tcp.accept) tcp.now (total + tcp.accept))
    ∧ (∀ (client : Bool) (o m : Nat), writeChecked h client s none o m = (0, s))
    ∧ (∀ (out : Option (List Nat)) (o m : Nat), writeChecked h false s out o m = (0, s)) := by
  obtain ⟨w, hw, e1, e2⟩ := writeLoop_accepted h.tcpTimeout s.client.tcp buf s.polls s.tcp off n
    s.tcp.now 0 (by omega) hh
  have hlen : ((buf.drop off).take w).length = w := by
    rw [List.length_take, List.length_drop]; omega
  have hlenn : ((buf.drop off).take n).length = n := by
    rw [List.length_take, List.length_drop]; omega
  rw [write_fst, write_sent, e1, e2, Nat.zero_add]
  refine ⟨hw, rfl, ?_, ⟨fun hwn => by rw [hwn], fun hs => ?_⟩, fun hstop => ?_,
    fun polls tcp o m t total hstop => writeLoop_stopped _ _ _ _ _ _ _ _ _ hstop,
    fun p ps tcp o m t total htcp hconn ht ha ham hfit => ?_, fun _ _ _ => rfl,
    fun out o m => ?_⟩
  · rw [List.length_append, hlen]
  · have := congrArg List.length hs
    rw [List.length_append, List.length_append, hlen, hlenn] at this
    omega
  · have hz := writeLoop_stopped h.tcpTimeout s.client.tcp buf s.polls s.tcp off n s.tcp.now 0
      (by rcases hstop with hs | hs
          · exact Or.inl hs
          · exact Or.inr (Or.inl hs))
    rw [hz] at e1
    omega
  · have hm : m ≠ 0 := by omega
    have hacc : tcp.accept % 2 ^ 32 = tcp.accept := Nat.mod_eq_of_lt (by omega)
    have e3 : (m + 2 ^ 32 - tcp.accept) % 2 ^ 32 = m - tcp.accept := by omega
    have e4 : (total + tcp.accept) % 2 ^ 32 = total + tcp.accept := by omega
    have hne : tcp.accept ≠ 0 := by omega
    rw [writeLoop, if_neg hm, htcp, hconn]
    rw [if_neg (by decide), if_neg (by decide), if_neg (Nat.not_lt.mpr ht)]
    dsimp only
    rw [hacc, Nat.min_eq_left (Nat.le_of_lt ham)]
    simp only [ne_eq, hne, not_false_eq_true, if_true, e3, e4, gt_iff_lt]
    rw [if_pos (by omega)]
  · unfold writeChecked
    cases out <;> rfl

/-- C18, worked instance: 4 bytes to write; the transport takes 3 and is then found
disconnected: `write` returns 3, and the transport holds exactly the first 3 bytes. -/
theorem write_returns_accepted_witness :
    (write demoHost halfSent (some [0x88, 0x02, 0x03, 0xE8]) 0 4).1 = 3
      ∧ (write demoHost halfSent (some [0x88, 0x02, 0x03, 0xE8]) 0 4).2.tcp.sent
          = [0x88, 0x02, 0x03] := by
  have h3 : (write demoHost halfSent (some [0x88, 0x02, 0x03, 0xE8]) 0 4).1 = 3 := by decide
  obtain ⟨-, hs, -⟩ := write_returns_accepted demoHost halfSent [0x88, 0x02, 0x03, 0xE8] 0 4
    (by decide) (by decide) (by decide)
  exact ⟨h3, hs.trans (by rw [h3]; rfl)⟩

/-! ## Handshake key -/

theorem sha1_length (msg : List Nat) : (sha1 msg).length = 20 := by
  unfold sha1 be32
  rfl

theorem take_of_length (l : List Nat) (n : Nat) (hl : l.length = n) : l.take n = l := by
  rw [← hl, List.take_length]

theorem base64Text_length_20 (l : List Nat) (hl : l.length = 20) :
    (base64Text l).length = 28 := by
  match l, hl with
  | [_, _, _, _, _, _, _, _, _, _, _, _, _, _, _, _, _, _, _, _], _ => rfl

theorem base64_encode_sha1 (h : Host) (msg : List Nat) (hm : h.mallocOk 33 = true) :
    base64_encode h (sha1 msg) 20 = some (base64Text (sha1 msg)) := by
  unfold base64_encode
  have hsize : 20 * 16 / 10 + 1 = 33 := rfl
  rw [hsize, if_pos hm]
  dsimp only
  rw [take_of_length _ 20 (sha1_length msg), base64Text_length_20 _ (sha1_length msg)]
  rfl

theorem acceptKey_fst (h : Host) (board : Board) (clientKey : List Nat) :
    (acceptKey h board clientKey).1
      = (base64_encode h (sha1 (clientKey ++ ascii "258EAFA5-E914-47DA-95CA-C5AB0DC85B11"))
          20).map trim := by
  cases board <;> rfl

/-- Without memory for its buffer `base64_encode` answers "-FAIL-", and so does `acceptKey`
(lines 772-797). -/
theorem acceptKey_no_buffer (h : Host) (board : Board) (clientKey : List Nat)
    (hm : h.mallocOk 33 = false) :
    (acceptKey h board clientKey).1 = some (ascii "-FAIL-") := by
  rw [acceptKey_fst]
  unfold base64_encode
  have hsize : 20 * 16 / 10 + 1 = 33 := rfl
  dsimp only
  rw [hsize, if_neg (by rw [hm]; exact Bool.false_ne_true)]
  rfl

/-- C20. Whenever `base64_encode` gets its buffer of 33 bytes, `acceptKey(clientKey)`
returns, on every board, the Base64 text of the SHA-1 digest of `clientKey` followed by
"258EAFA5-E914-47DA-95CA-C5AB0DC85B11", trimmed of surrounding white space; for the key
"dGhlIHNhbXBsZSBub25jZQ==" the result is "s3pPLMBiTxaQ9kYGzzhZRbK+xOo=". -/
theorem acceptKey_value (h : Host) (board : Board) (clientKey : List Nat)
    (hm : h.mallocOk 33 = true) :
    (acceptKey h board clientKey).1
        = some (trim (base64Text
            (sha1 (clientKey ++ ascii "258EAFA5-E914-47DA-95CA-C5AB0DC85B11"))))
      ∧ (acceptKey h board (ascii "dGhlIHNhbXBsZSBub25jZQ==")).1
        = some (ascii "s3pPLMBiTxaQ9kYGzzhZRbK+xOo=") := by
  have hval : trim (base64Text (sha1 (ascii "dGhlIHNhbXBsZSBub25jZQ=="
      ++ ascii "258EAFA5-E914-47DA-95CA-C5AB0DC85B11"))) = ascii "s3pPLMBiTxaQ9kYGzzhZRbK+xOo=" := by
    decide!
  refine ⟨?_, ?_⟩
  · rw [acceptKey_fst, base64_encode_sha1 h _ hm]
    rfl
  · rw [acceptKey_fst, base64_encode_sha1 h _ hm, Option.map_some', hval]

/-- C20, worked instance: the key of the RFC 6455 example on a host with memory. -/
theorem acceptKey_value_witness :
    demoHost.mallocOk 33 = true
      ∧ (acceptKey demoHost Board.esp8266 (ascii "dGhlIHNhbXBsZSBub25jZQ==")).1
        = some (ascii "s3pPLMBiTxaQ9kYGzzhZRbK+xOo=") :=
  ⟨rfl, (acceptKey_value demoHost Board.esp8266 (ascii "dGhlIHNhbXBsZSBub25jZQ==") rfl).2⟩

/-! ## Partial delivery of the header -/

theorem elapsed_self (t : Nat) : elapsed t t = 0 := by
  unfold elapsed
  omega

theorem readLoop_atOnce (tmo : Nat) (polls : List Poll) (tcp : Tcp) (out : List Nat)
    (off n : Nat) (hconn : tcp.connected = true) (hn : 0 < n) (hle : n ≤ tcp.inbuf.length) :
    readLoop tmo true polls tcp out off n tcp.now
      = (true, writeAt out off (tcp.inbuf.take n), { tcp with inbuf := tcp.inbuf.drop n },
          polls) := by
  have h1 : ¬ n = 0 := by omega
  have h2 : ¬ (elapsed tcp.now tcp.now > tmo) := by rw [elapsed_self]; omega
  have h3 : ¬ tcp.inbuf.length = 0 := by omega
  have h4 : min n tcp.inbuf.length = n := Nat.min_eq_left hle
  have h5 : ¬ (n - n > 0) := by omega
  rw [readLoop.eq_def]
  simp only [h1, hconn, h2, h3, h4, h5, if_false, Bool.not_true, Bool.false_eq_true]

theorem readLoop_trickle (tmo : Nat) (now : Nat) (sent : List Nat) (accept : Nat)
    (rest : List Poll) :
    ∀ (n : Nat) (bytes : List Nat) (b : Nat) (out : List Nat) (off : Nat), n ≤ bytes.length →
    readLoop tmo true
        (trickle { now := now, connected := true, inbuf := [], sent := sent, accept := accept }
          bytes ++ rest)
        { now := now, connected := true, inbuf := [b], sent := sent, accept := accept }
        out off (n + 1) now
      = (true, writeAt out off (b :: bytes.take n),
          { now := now, connected := true, inbuf := [], sent := sent, accept := accept },
          trickle { now := now, connected := true, inbuf := [], sent := sent, accept := accept }
            (bytes.drop n) ++ rest) := by
  intro n
  induction n with
  | zero =>
    intro bytes b out off _
    have h2 : ¬ (elapsed now now > tmo) := by rw [elapsed_self]; omega
    rw [readLoop.eq_def]
    simp only [h2, if_false, Bool.not_true, Bool.false_eq_true, List.length_singleton,
      Nat.zero_add, Nat.min_self, Nat.sub_self, gt_iff_lt, Nat.lt_irrefl, List.take_zero,
      List.drop_zero, Nat.one_ne_zero, List.take_succ_cons, List.drop_succ_cons]
  | succ n ih =>
    intro bytes b out off hle
    cases bytes with
    | nil => simp only [List.length_nil] at hle; omega
    | cons b1 bs =>
      have hle1 : n ≤ bs.length := by simp only [List.length_cons] at hle; omega
      have h2 : ¬ (elapsed now now > tmo) := by rw [elapsed_self]; omega
      have h1 : ¬ (n + 1 + 1 = 0) := by omega
      have h4 : min (n + 1 + 1) 1 = 1 := by omega
      have h5 : n + 1 + 1 - 1 > 0 := by omega
      have h6 : n + 1 + 1 - 1 = n + 1 := by omega
      rw [readLoop.eq_def]
      simp only [h1, h2, h4, h5, if_false, if_true, Bool.not_true, Bool.false_eq_true,
        List.length_singleton, Nat.one_ne_zero, trickle, List.map_cons, List.cons_append,
        advance, List.take_succ_cons, List.take_zero, List.drop_succ_cons, List.drop_zero,
        List.nil_append]
      rw [h6]
      have := ih bs b1 (writeAt out off [b]) (off + 1) hle1
      simp only [trickle] at this
      rw [this]
      rfl

theorem readLoop_trickle_start (tmo : Nat) (now : Nat) (sent : List Nat) (accept : Nat)
    (rest : List Poll) (n : Nat) (bytes : List Nat) (out : List Nat) (off : Nat)
    (hn : 0 < n) (hle : n ≤ bytes.length) :
    readLoop tmo true
        (trickle { now := now, connected := true, inbuf := [], sent := sent, accept := accept }
          bytes ++ rest)
        { now := now, connected := true, inbuf := [], sent := sent, accept := accept }
        out off n now
      = (true, writeAt out off (bytes.take n),
          { now := now, connected := true, inbuf := [], sent := sent, accept := accept },
          trickle { now := now, connected := true, inbuf := [], sent := sent, accept := accept }
            (bytes.drop n) ++ rest) := by
  obtain ⟨k, rfl⟩ : ∃ k, n = k + 1 := ⟨n - 1, by omega⟩
  cases bytes with
  | nil => simp only [List.length_nil] at hle; omega
  | cons b bs =>
    have hle1 : k ≤ bs.length := by simp only [List.length_cons] at hle; omega
    have h2 : ¬ (elapsed now now > tmo) := by rw [elapsed_self]; omega
    have h1 : ¬ (k + 1 = 0) := by omega
    rw [readLoop.eq_def]
    simp only [h1, h2, if_false, if_true, Bool.not_true, Bool.false_eq_true, List.length_nil,
      trickle, List.map_cons, List.cons_append, advance, List.nil_append,
      List.take_succ_cons, List.drop_succ_cons]
    have := readLoop_trickle tmo now sent accept rest k bs b out off hle1
    simp only [trickle] at this
    exact this

theorem delivered_client (m : Bool) (s : State) (bytes : List Nat) :
    (delivered m s bytes).client = s.client := by
  cases m <;> rfl

theorem delivered_trace (m : Bool) (s : State) (bytes : List Nat) :
    (delivered m s bytes).trace = s.trace := by
  cases m <;> rfl

theorem delivered_connected (m : Bool) (s : State) (bytes : List Nat) :
    (delivered m s bytes).tcp.connected = s.tcp.connected := by
  cases m <;> rfl

theorem delivered_nil (m : Bool) (s : State) : delivered m s [] = s := by
  cases m
  · rfl
  · show { s with tcp := { s.tcp with inbuf := s.tcp.inbuf ++ [] } } = s
    rw [List.append_nil]

theorem headerRead_delivered (h : Host) (m : Bool) (s : State) (bytes : List Nat) (size : Nat)
    (htcp : s.client.tcp = true) (hconn : s.tcp.connected = true) (hin : s.tcp.inbuf = [])
    (hrx : s.client.cWsRXsize < size) (hle : size - s.client.cWsRXsize ≤ bytes.length) :
    headerRead h (delivered m s bytes) size
      = (true, writeAt s.client.cWsHeader s.client.cWsRXsize
            (bytes.take (size - s.client.cWsRXsize)),
          (delivered m s (bytes.drop (size - s.client.cWsRXsize))).tcp,
          (delivered m s (bytes.drop (size - s.client.cWsRXsize))).polls) := by
  obtain ⟨c, ⟨now, conn, inbuf, sent, acc⟩, polls, tr, r⟩ := s
  simp only at htcp hconn hin hrx hle
  subst hconn hin
  have hn : 0 < size - c.cWsRXsize := by omega
  cases m
  · show readLoop h.tcpTimeout c.tcp
        (trickle { now := now, connected := true, inbuf := [], sent := sent, accept := acc }
          bytes ++ polls)
        { now := now, connected := true, inbuf := [], sent := sent, accept := acc }
        c.cWsHeader c.cWsRXsize (size - c.cWsRXsize) now = _
    rw [htcp, readLoop_trickle_start h.tcpTimeout now sent acc polls _ bytes _ _ hn hle]
    rfl
  · show readLoop h.tcpTimeout c.tcp polls
        { now := now, connected := true, inbuf := bytes, sent := sent, accept := acc }
        c.cWsHeader c.cWsRXsize (size - c.cWsRXsize) now = _
    rw [htcp]
    exact readLoop_atOnce h.tcpTimeout polls
      { now := now, connected := true, inbuf := bytes, sent := sent, accept := acc }
      c.cWsHeader c.cWsRXsize (size - c.cWsRXsize) rfl hn hle

theorem afterHeaderRead_delivered (h : Host) (m : Bool) (s : State) (bytes : List Nat)
    (size : Nat)
    (htcp : s.client.tcp = true) (hconn : s.tcp.connected = true) (hin : s.tcp.inbuf = [])
    (hrx : s.client.cWsRXsize < size) (hle : size - s.client.cWsRXsize ≤ bytes.length) :
    setRXsize (afterHeaderRead h (delivered m s bytes) size) size
      = delivered m (took s size (bytes.take (size - s.client.cWsRXsize)))
          (bytes.drop (size - s.client.cWsRXsize)) := by
  unfold afterHeaderRead setRXsize
  rw [headerRead_delivered h m s bytes size htcp hconn hin hrx hle]
  cases m <;> rfl

theorem outcome_yield (s : State) : outcome (Except.ok (yield s)) = outcome (Except.ok s) := by
  unfold outcome
  simp only [yield_client, yield_trace]

theorem outcome_afterWait (h : Host) (k : State → Except Fault State) (s : State) (size : Nat)
    (hread : (headerRead h s size).1 = true) :
    outcome (afterWait h k s size) = outcome (k (setRXsize (afterHeaderRead h s size) size)) := by
  unfold afterWait
  rw [if_pos hread]
  cases k (setRXsize (afterHeaderRead h s size) size) with
  | error e => rfl
  | ok s2 => exact outcome_yield s2

theorem wait_delivered (h : Host) (k : State → Except Fault State) (m : Bool) (s : State)
    (bytes : List Nat) (size : Nat)
    (htcp : s.client.tcp = true) (hconn : s.tcp.connected = true) (hin : s.tcp.inbuf = [])
    (hrx : s.client.cWsRXsize < size) (hle : size - s.client.cWsRXsize ≤ bytes.length) :
    outcome (afterWait h k (delivered m s bytes) size)
      = outcome (k (delivered m (took s size (bytes.take (size - s.client.cWsRXsize)))
          (bytes.drop (size - s.client.cWsRXsize)))) := by
  rw [outcome_afterWait h k _ size (by
      rw [headerRead_delivered h m s bytes size htcp hconn hin hrx hle]),
    afterHeaderRead_delivered h m s bytes size htcp hconn hin hrx hle]

theorem writeAt_getElem?_mid (bs : List Nat) : ∀ (buf : List Nat) (off i : Nat),
    off ≤ i → i < off + bs.length → off + bs.length ≤ buf.length →
    (writeAt buf off bs)[i]? = bs[i - off]? := by
  induction bs with
  | nil => intro buf off i h1 h2 _; simp only [List.length_nil] at h2; omega
  | cons b bs ih =>
    intro buf off i h1 h2 h3
    simp only [List.length_cons] at h2 h3
    simp only [writeAt]
    by_cases hi : i = off
    · subst hi
      rw [writeAt_getElem?_lt bs _ _ _ (by omega), Nat.sub_self,
        List.getElem?_set_self (by omega), List.getElem?_cons_zero]
    · rw [ih (buf.set off b) (off + 1) i (by omega) (by omega)
        (by rw [List.length_set]; omega)]
      obtain ⟨j, hj⟩ : ∃ j, i - off = j + 1 := ⟨i - off - 1, by omega⟩
      have hj2 : i - (off + 1) = j := by omega
      rw [hj, hj2, List.getElem?_cons_succ]

theorem took_accumulated (s : State) (hdr : List Nat) (size : Nat)
    (hacc : Accumulated s hdr) (hrx : s.client.cWsRXsize ≤ size)
    (hsize : size ≤ hdr.length) (hcap : size ≤ s.client.cWsHeader.length) :
    Accumulated
      (took s size ((hdr.drop s.client.cWsRXsize).take (size - s.client.cWsRXsize))) hdr := by
  intro i hi
  have hi : i < size := hi
  have hlen : ((hdr.drop s.client.cWsRXsize).take (size - s.client.cWsRXsize)).length
      = size - s.client.cWsRXsize := by
    rw [List.length_take, List.length_drop]
    omega
  show (writeAt s.client.cWsHeader s.client.cWsRXsize _)[i]? = hdr[i]?
  by_cases hlt : i < s.client.cWsRXsize
  · rw [writeAt_getElem?_lt _ _ _ _ hlt]
    exact hacc i hlt
  · rw [writeAt_getElem?_mid _ _ _ _ (by omega) (by rw [hlen]; omega) (by rw [hlen]; omega),
      List.getElem?_take_of_lt (by omega), List.getElem?_drop]
    congr 1
    omega

theorem wait_accumulated (h : Host) (k : State → Except Fault State) (m : Bool) (s : State)
    (hdr : List Nat) (size : Nat)
    (htcp : s.client.tcp = true) (hconn : s.tcp.connected = true) (hin : s.tcp.inbuf = [])
    (hrx : s.client.cWsRXsize < size) (hsize : size ≤ hdr.length) :
    outcome (afterWait h k (delivered m s (hdr.drop s.client.cWsRXsize)) size)
      = outcome (k (delivered m
          (took s size ((hdr.drop s.client.cWsRXsize).take (size - s.client.cWsRXsize)))
          (hdr.drop size))) := by
  have hle : size - s.client.cWsRXsize ≤ (hdr.drop s.client.cWsRXsize).length := by
    rw [List.length_drop]; omega
  have hdd : (hdr.drop s.client.cWsRXsize).drop (size - s.client.cWsRXsize) = hdr.drop size := by
    rw [List.drop_drop]
    congr 1
    omega
  rw [wait_delivered h k m s _ size htcp hconn hin hrx hle, hdd]

theorem outcome_clientDisconnect (h : Host) (m : Bool) (s : State) (bytes : List Nat)
    (code : Nat) :
    outcome (Except.ok (clientDisconnect h (reported (delivered m s bytes)) code none 0))
      = outcome (Except.ok (clientDisconnect h (reported s) code none 0)) := by
  show Except.ok (_, _) = Except.ok (_, _)
  simp only [clientDisconnect_client, clientDisconnect_trace]
  cases m <;> rfl

theorem reported_delivered (m : Bool) (s : State) (bytes : List Nat) :
    reported (delivered m s bytes) = delivered m (reported s) bytes := by
  cases m <;> rfl

theorem split_delivered (m : Bool) (s : State) (bytes : List Nat) :
    { delivered m s bytes with client := splitFirstBytes (delivered m s bytes).client }
      = delivered m { s with client := splitFirstBytes s.client } bytes := by
  cases m <;> rfl

/-- From the end of the length field on, the two deliveries of the rest of a complete header
lead to one and the same outcome. -/
theorem post_length (h : Host) (f : Nat) (s : State) (hdr : List Nat)
    (htcp : s.client.tcp = true) (hconn : s.tcp.connected = true) (hin : s.tcp.inbuf = [])
    (hacc : Accumulated s hdr) (hrx : s.client.cWsRXsize = lengthEnd hdr)
    (hcomplete : hdr.length = headerEnd hdr) :
    ∃ r, ∀ m, outcome (handleWebsocketCb h (f + 2) (delivered m s (hdr.drop (lengthEnd hdr))))
      = r := by
  have hpre : ∀ i, i < lengthEnd hdr → s.client.cWsHeader[i]? = hdr[i]? :=
    fun i hi => hacc i (by omega)
  have eL : lengthEnd s.client.cWsHeader = lengthEnd hdr := lengthEnd_congr _ _ hpre
  have eD : declaredLen s.client.cWsHeader = declaredLen hdr := declaredLen_congr _ _ hpre
  have eH : headerEnd s.client.cWsHeader = headerEnd hdr := headerEnd_congr _ _ hpre
  have hLE := lengthEnd_le_headerEnd hdr
  by_cases hbig : h.maxDataSize < declaredLen hdr
  · refine ⟨outcome (Except.ok (clientDisconnect h (reported s) 1009 none 0)), fun m => ?_⟩
    rw [handleWebsocketCb_tooBig_eq h (f + 1) (delivered m s _)
      (by rw [delivered_client]; exact htcp) (by rw [delivered_connected]; exact hconn)
      (by rw [delivered_client, eL, hrx]) (by rw [delivered_client, eD]; exact hbig)]
    exact outcome_clientDisconnect h m s _ 1009
  · by_cases hend : headerEnd hdr = lengthEnd hdr
    · refine ⟨outcome (handleWebsocketCb h (f + 2) s), fun m => ?_⟩
      have hnil : hdr.drop (lengthEnd hdr) = [] :=
        List.drop_eq_nil_of_le (by omega)
      rw [hnil, delivered_nil]
    · have hE4 : headerEnd hdr = lengthEnd hdr + 4 := by
        unfold headerEnd at hend ⊢
        split_ifs at hend ⊢
        · rfl
        · exact absurd rfl hend
      refine ⟨outcome (handleWebsocketCb h (f + 1)
        (took (reported s) (headerEnd hdr)
          ((hdr.drop s.client.cWsRXsize).take (headerEnd hdr - s.client.cWsRXsize)))),
        fun m => ?_⟩
      rw [handleWebsocketCb_stage3 h (f + 1) (delivered m s _)
        (by rw [delivered_client]; exact htcp) (by rw [delivered_connected]; exact hconn)
        (by rw [delivered_client, eL, hrx]) (by rw [delivered_client, eH, hrx]; omega)
        (by rw [delivered_client, eD]; omega),
        reported_delivered, delivered_client, eH, ← hrx]
      have hnil : hdr.drop (headerEnd hdr) = [] := List.drop_eq_nil_of_le (by omega)
      have := wait_accumulated h (handleWebsocketCb h (f + 1)) m (reported s) hdr
        (headerEnd hdr) htcp hconn hin (by show s.client.cWsRXsize < _; omega) (by omega)
      rw [hnil, delivered_nil] at this
      exact this

/-- With an empty accumulator, a complete header on its way and either delivery, the run
reaches the end of the length field with the same connection record and trace. -/
theorem to_length (h : Host) (fuel : Nat) (s : State) (hdr : List Nat)
    (htcp : s.client.tcp = true) (hconn : s.tcp.connected = true) (hin : s.tcp.inbuf = [])
    (hrx0 : s.client.cWsRXsize = 0) (hcap : s.client.cWsHeader.length = 14)
    (hcomplete : hdr.length = headerEnd hdr) :
    ∃ (f : Nat) (sL : State), sL.client.tcp = true ∧ sL.tcp.connected = true
      ∧ sL.tcp.inbuf = [] ∧ Accumulated sL hdr ∧ sL.client.cWsRXsize = lengthEnd hdr
      ∧ (∃ pre, sL.trace = s.trace ++ pre)
      ∧ ∀ m, outcome (handleWebsocketCb h (fuel + 4) (delivered m s hdr))
          = outcome (handleWebsocketCb h (f + 2)
              (delivered m sL (hdr.drop (lengthEnd hdr)))) := by
  have hL2 := two_le_lengthEnd hdr
  have hL10 := lengthEnd_le hdr
  have hLE := lengthEnd_le_headerEnd hdr
  have hE14 := headerEnd_le hdr
  have hacc0 : Accumulated s hdr := fun i hi => absurd hi (by rw [hrx0]; omega)
  have e0 : ∀ m, delivered m s hdr = delivered m s (hdr.drop s.client.cWsRXsize) := by
    intro m; rw [hrx0]; rfl
  have hacc2 := took_accumulated s hdr 2 hacc0 (by omega) (by omega) (by omega)
  have step1 : ∀ m, outcome (handleWebsocketCb h (fuel + 4) (delivered m s hdr))
      = outcome (handleWebsocketCb h (fuel + 3)
          (delivered m
            (took s 2 ((hdr.drop s.client.cWsRXsize).take (2 - s.client.cWsRXsize)))
            (hdr.drop 2))) := by
    intro m
    rw [handleWebsocketCb_stage1 h (fuel + 3) (delivered m s hdr)
      (by rw [delivered_client]; exact htcp) (by rw [delivered_connected]; exact hconn)
      (by rw [delivered_client]; omega), e0 m]
    exact wait_accumulated h _ m s hdr 2 htcp hconn hin (by omega) (by omega)
  by_cases hL : lengthEnd hdr = 2
  · refine ⟨fuel + 1, (took s 2 ((hdr.drop s.client.cWsRXsize).take (2 - s.client.cWsRXsize))),
      htcp, hconn, hin, hacc2, hL.symm, ⟨_, rfl⟩, fun m => ?_⟩
    rw [step1 m, hL]
  · have eL2 : lengthEnd
        (took s 2 ((hdr.drop s.client.cWsRXsize).take (2 - s.client.cWsRXsize))).client.cWsHeader
        = lengthEnd hdr :=
      lengthEnd_of_byte1 _ _ (hacc2 1 (by show 1 < 2; omega))
    have hacc3 := took_accumulated
      { took s 2 ((hdr.drop s.client.cWsRXsize).take (2 - s.client.cWsRXsize)) with
        client := splitFirstBytes
          (took s 2 ((hdr.drop s.client.cWsRXsize).take (2 - s.client.cWsRXsize))).client }
      hdr (lengthEnd hdr) hacc2 (by show 2 ≤ _; omega) (by omega)
      (by
        show lengthEnd hdr ≤ (writeAt s.client.cWsHeader _ _).length
        rw [writeAt_length]; omega)
    refine ⟨fuel, (took
      { took s 2 ((hdr.drop s.client.cWsRXsize).take (2 - s.client.cWsRXsize)) with
        client := splitFirstBytes
          (took s 2 ((hdr.drop s.client.cWsRXsize).take (2 - s.client.cWsRXsize))).client }
      (lengthEnd hdr) ((hdr.drop 2).take (lengthEnd hdr - 2))),
      htcp, hconn, hin, hacc3, rfl, ⟨_, List.append_assoc _ _ _⟩, fun m => ?_⟩
    rw [step1 m, handleWebsocketCb_stage2 h (fuel + 2) (delivered m _ _)
      (by rw [delivered_client]; exact htcp) (by rw [delivered_connected]; exact hconn)
      (by rw [delivered_client]; exact Nat.le_refl 2)
      (by rw [delivered_client, eL2]; show 2 < _; omega),
      split_delivered, delivered_client, eL2]
    exact wait_accumulated h _ m
      { took s 2 ((hdr.drop s.client.cWsRXsize).take (2 - s.client.cWsRXsize)) with
        client := splitFirstBytes
          (took s 2 ((hdr.drop s.client.cWsRXsize).take (2 - s.client.cWsRXsize))).client }
      hdr (lengthEnd hdr) htcp hconn hin (by show 2 < _; omega) (by omega)

theorem afterLength_reports (h : Host) (k : State → Except Fault State)
    (hk : ∀ s s', k s = Except.ok s' → Grows Event.any s s') (s : State) (off headerLen : Nat)
    (s' : State) (hrun : afterLength h k s off headerLen = Except.ok s') :
    ∃ evs, s'.trace = s.trace
      ++ Event.decoded s.client.cWsHeaderDecode.fin s.client.cWsHeaderDecode.rsv1
          s.client.cWsHeaderDecode.rsv2 s.client.cWsHeaderDecode.rsv3
          s.client.cWsHeaderDecode.opCode s.client.cWsHeaderDecode.mask
          s.client.cWsHeaderDecode.payloadLen :: evs := by
  have key : Grows Event.any (log s (Event.decoded s.client.cWsHeaderDecode.fin
      s.client.cWsHeaderDecode.rsv1 s.client.cWsHeaderDecode.rsv2 s.client.cWsHeaderDecode.rsv3
      s.client.cWsHeaderDecode.opCode s.client.cWsHeaderDecode.mask
      s.client.cWsHeaderDecode.payloadLen)) s' := by
    unfold afterLength at hrun
    simp only [log_client] at hrun
    split_ifs at hrun with hbig hm
    · cases hrun
      exact clientDisconnect_grows _ h _ 1009 (by decide) rfl
    · cases hw : handleWebsocketWaitFor h k (log s (Event.decoded s.client.cWsHeaderDecode.fin
          s.client.cWsHeaderDecode.rsv1 s.client.cWsHeaderDecode.rsv2
          s.client.cWsHeaderDecode.rsv3 s.client.cWsHeaderDecode.opCode
          s.client.cWsHeaderDecode.mask s.client.cWsHeaderDecode.payloadLen))
          (headerLen + 4) with
      | error e => rw [hw] at hrun; cases hrun
      | ok r =>
        obtain ⟨b, s1⟩ := r
        have g1 := handleWebsocketWaitFor_grows h k hk _ _ b s1 hw
        rw [hw] at hrun
        cases b
        · cases hrun; exact g1
        · exact g1.trans (Grows.of_trace_eq_left rfl
            ((receivePayload_grows h _ s' hrun).mono (fun _ _ => rfl)))
    · exact (receivePayload_grows h _ s' hrun).mono (fun _ _ => rfl)
  obtain ⟨evs, he, _⟩ := key
  exact ⟨evs, by rw [he, log_trace, List.append_assoc, List.singleton_append]⟩

/-- A run that starts with the length field complete reports the decoded header first. -/
theorem lengthReady_reports (h : Host) (fuel : Nat) (s s' : State)
    (htcp : s.client.tcp = true) (hconn : s.tcp.connected = true)
    (hle : lengthEnd s.client.cWsHeader ≤ s.client.cWsRXsize)
    (hrun : handleWebsocketCb h (fuel + 1) s = Except.ok s') :
    ∃ evs, s'.trace = s.trace ++ decodedEvent s.client :: evs := by
  rw [handleWebsocketCb_lengthReady h fuel s htcp hconn hle] at hrun
  obtain ⟨evs, he⟩ := afterLength_reports h _ (handleWebsocketCb_grows h fuel) _ _ _ s' hrun
  exact ⟨evs, he⟩

theorem decodedEvent_congr (a b : WSclient_t)
    (hab : ∀ i, i < lengthEnd a.cWsHeader → b.cWsHeader[i]? = a.cWsHeader[i]?) :
    decodedEvent b = decodedEvent a := by
  have h2 := two_le_lengthEnd a.cWsHeader
  rw [decodedEvent_eq, decodedEvent_eq, getD_congr _ _ 0 (hab 0 (by omega)),
    getD_congr _ _ 1 (hab 1 (by omega)), declaredLen_congr _ _ hab]

/-- C11. A connected connection with an empty accumulator and an idle transport, and a byte
sequence `hdr` that forms a complete frame header (its length is the header length its own
bytes announce, 2 to 14 bytes).  Whether the transport hands over those bytes one at a
time, one at every look the code takes at it, or all of them in the first read,
`handleWebsocketCb` leaves the same connection record (the accumulator with the mask key
and the decoded-header slot with fin, rsv1-rsv3, opcode, mask flag, payload length and the
place of the mask key) and the same trace (every read, the report of the decoded header,
every frame and every message with its unmasked payload).  In either case a run that
returns has reported the header decoded from `hdr`, and the run does return when
`WEBSOCKETS_MAX_DATA_SIZE` is below `0xFFFFFFFF`. -/
theorem partial_delivery (h : Host) (fuel : Nat) (s : State) (hdr : List Nat)
    (htcp : s.client.tcp = true) (hconn : s.tcp.connected = true) (hin : s.tcp.inbuf = [])
    (hrx : s.client.cWsRXsize = 0)
    (hcap : s.client.cWsHeader.length = WEBSOCKETS_MAX_HEADER_SIZE)
    (hcomplete : hdr.length = headerEnd hdr) :
    (2 ≤ hdr.length ∧ hdr.length ≤ 14)
      ∧ outcome (handleWebsocketCb h (fuel + 4) (delivered false s hdr))
          = outcome (handleWebsocketCb h (fuel + 4) (delivered true s hdr))
      ∧ (∀ m s', handleWebsocketCb h (fuel + 4) (delivered m s hdr) = Except.ok s' →
          decodedEvent { s.client with cWsHeader := hdr } ∈ newEvents s.trace s')
      ∧ (h.maxDataSize < 0xFFFFFFFF →
          ∀ m, ∃ s', handleWebsocketCb h (fuel + 4) (delivered m s hdr) = Except.ok s') := by
  have hL2 := two_le_lengthEnd hdr
  have hLE := lengthEnd_le_headerEnd hdr
  have hE14 := headerEnd_le hdr
  obtain ⟨f, sL, htL, hcL, hiL, haL, hrL, ⟨pre, hpre⟩, hch⟩ :=
    to_length h fuel s hdr htcp hconn hin hrx hcap hcomplete
  refine ⟨⟨by omega, by omega⟩, ?_, fun m s' hrun => ?_, fun hcfg m =>
    handleWebsocketCb_returns h hcfg fuel (delivered m s hdr)⟩
  · obtain ⟨r, hr⟩ := post_length h f sL hdr htL hcL hiL haL hrL hcomplete
    rw [hch false, hch true, hr false, hr true]
  · have hc := hch m
    rw [hrun] at hc
    have hagree : ∀ i, i < lengthEnd hdr → sL.client.cWsHeader[i]? = hdr[i]? :=
      fun i hi => haL i (by omega)
    cases hres : handleWebsocketCb h (f + 2) (delivered m sL (hdr.drop (lengthEnd hdr))) with
    | error e =>
      rw [hres] at hc
      simp only [outcome] at hc
      cases hc
    | ok s2 =>
      rw [hres] at hc
      simp only [outcome, Except.ok.injEq, Prod.mk.injEq] at hc
      obtain ⟨evs, he⟩ := lengthReady_reports h (f + 1) (delivered m sL _) s2
        (by rw [delivered_client]; exact htL) (by rw [delivered_connected]; exact hcL)
        (by rw [delivered_client, lengthEnd_congr _ _ hagree, hrL]) hres
      rw [delivered_trace, delivered_client, hpre, ← hc.2,
        decodedEvent_congr { s.client with cWsHeader := hdr } sL.client hagree] at he
      exact mem_newEvents s s' pre evs _ (by
        rw [he]; simp only [List.append_assoc, List.singleton_append])

/-- C11, worked instance: the 6 header bytes of the masked text frame "hi" (mask key
01 02 03 04), one byte at a time and all at once.  Both runs read 2 and then 4 header
bytes, report the same header and deliver the same message. -/
theorem partial_delivery_witness :
    [0x81, 0x82, 1, 2, 3, 4].length = headerEnd [0x81, 0x82, 1, 2, 3, 4]
      ∧ outcome (handleWebsocketCb demoHost 4 (delivered false idle [0x81, 0x82, 1, 2, 3, 4]))
          = outcome (handleWebsocketCb demoHost 4 (delivered true idle [0x81, 0x82, 1, 2, 3, 4]))
      ∧ runEvents demoHost 4 (delivered false idle [0x81, 0x82, 1, 2, 3, 4])
          = some [Event.read (Dst.header 0) 2,
              Event.decoded true false false false WSop_text true 2,
              Event.read (Dst.header 2) 4,
              Event.decoded true false false false WSop_text true 2,
              Event.malloc 3 true, Event.read Dst.payload 2,
              Event.message WSop_text (some [0x68, 0x69, 0]) 2 true, Event.free]
      ∧ runEvents demoHost 4 (delivered true idle [0x81, 0x82, 1, 2, 3, 4])
          = runEvents demoHost 4 (delivered false idle [0x81, 0x82, 1, 2, 3, 4]) :=
  ⟨by decide,
    (partial_delivery demoHost 0 idle [0x81, 0x82, 1, 2, 3, 4] rfl rfl rfl rfl rfl
      (by decide)).2.1,
    by decide!, by decide!⟩

/-! ## `acceptKey` and the caller's key -/

/-- C21. On the ESP8266 and on the ESP32 a call of `acceptKey` leaves the caller's
`clientKey` as it was, so that a second call on the same variable returns the same accept
key.  On every other board the call appends "258EAFA5-E914-47DA-95CA-C5AB0DC85B11" to the
caller's `clientKey` (line 749): for the key "dGhlIHNhbXBsZSBub25jZQ==" the first call
returns "s3pPLMBiTxaQ9kYGzzhZRbK+xOo=" and the second call on the same variable returns
"yiPSK9b70EZC+Wi2qnuH21nQIOE=". -/
theorem acceptKey_appends_to_clientKey :
    (∀ (h : Host) (clientKey : List Nat),
        ((acceptKey h Board.esp8266 clientKey).2 = clientKey
          ∧ (acceptKey h Board.esp8266 (acceptKey h Board.esp8266 clientKey).2).1
              = (acceptKey h Board.esp8266 clientKey).1)
        ∧ ((acceptKey h Board.esp32 clientKey).2 = clientKey
          ∧ (acceptKey h Board.esp32 (acceptKey h Board.esp32 clientKey).2).1
              = (acceptKey h Board.esp32 clientKey).1))
      ∧ (∀ (h : Host) (clientKey : List Nat),
          (acceptKey h Board.other clientKey).2
            = clientKey ++ ascii "258EAFA5-E914-47DA-95CA-C5AB0DC85B11")
      ∧ (acceptKey demoHost Board.other (ascii "dGhlIHNhbXBsZSBub25jZQ==")).1
          = some (ascii "s3pPLMBiTxaQ9kYGzzhZRbK+xOo=")
      ∧ (acceptKey demoHost Board.other
            (acceptKey demoHost Board.other (ascii "dGhlIHNhbXBsZSBub25jZQ==")).2).1
          = some (ascii "yiPSK9b70EZC+Wi2qnuH21nQIOE=") := by
  refine ⟨fun h clientKey => ⟨⟨rfl, rfl⟩, ⟨rfl, rfl⟩⟩, fun h clientKey => rfl, ?_, ?_⟩
  · decide!
  · decide!

/-! ## `sendFrame` without the internal buffer -/

theorem sendFrame_plain (h : Host) (s : State) (opcode : Nat) (payload : Option (List Nat))
    (length : Nat) (fin headerToPayload : Bool) (hsend : canSend s = true)
    (hbuf : useInternBuffer h length headerToPayload = false) :
    sendFrame h s opcode payload length fin headerToPayload
      = sendFrameWrite h (log s (Event.frame opcode payload length fin headerToPayload))
          headerToPayload
          (if headerToPayload then
            payload.map (fun p =>
              writeAt p (WEBSOCKETS_MAX_HEADER_SIZE - ownHeaderSize s.client.cIsClient length)
                (createHeader opcode length s.client.cIsClient [0x00, 0x00, 0x00, 0x00] fin).1)
          else payload)
          (if headerToPayload then List.replicate WEBSOCKETS_MAX_HEADER_SIZE 0
            else writeAt (List.replicate WEBSOCKETS_MAX_HEADER_SIZE 0) 0
              (createHeader opcode length s.client.cIsClient [0x00, 0x00, 0x00, 0x00] fin).1)
          (ownHeaderSize s.client.cIsClient length) length := by
  obtain ⟨hst, hconn⟩ := (canSend_iff s).1 hsend
  have g1 : ¬ (s.client.tcp && !s.tcp.connected) = true := by
    rcases hconn with hc | hc <;> simp [hc]
  unfold useInternBuffer at hbuf
  unfold sendFrame
  rw [if_neg g1, if_neg (not_not.mpr hst)]
  simp only [hbuf, Bool.and_false, Bool.or_false, Bool.false_eq_true, if_false]
  cases headerToPayload <;> rfl

theorem createHeader_snd (opcode length : Nat) (mask fin : Bool) (maskKey : List Nat) :
    (createHeader opcode length mask maskKey fin).2 = ownHeaderSize mask length := rfl

theorem ownHeaderSize_le (cIsClient : Bool) (length : Nat) :
    ownHeaderSize cIsClient length ≤ 14 := by
  unfold ownHeaderSize
  cases cIsClient <;> simp only [Bool.false_eq_true, if_false, if_true] <;> split_ifs <;> omega

theorem createHeader_length (opcode length : Nat) (mask fin : Bool) (maskKey : List Nat)
    (hkey : maskKey.length = 4) :
    (createHeader opcode length mask maskKey fin).1.length = ownHeaderSize mask length := by
  rw [← createHeader_snd opcode length mask fin maskKey,
    createHeader_eq opcode length mask fin maskKey hkey]
  cases mask <;> by_cases h1 : length < 126 <;> by_cases h2 : length < 0xFFFF <;>
    simp [h1, h2, hkey]

/-- The bytes from `off` on after `bs` was stored at `off`: `bs`, then what was there. -/
theorem writeAt_window (buf bs : List Nat) (off : Nat) (hfit : off + bs.length ≤ buf.length) :
    (writeAt buf off bs).drop off = bs ++ buf.drop (off + bs.length) := by
  apply List.ext_getElem?
  intro i
  rw [List.getElem?_drop]
  by_cases hi : i < bs.length
  · rw [writeAt_getElem?_mid bs buf off (off + i) (by omega) (by omega) hfit,
      List.getElem?_append_left hi]
    congr 1
    omega
  · rw [writeAt_getElem?_ge bs buf off (off + i) (by omega),
      List.getElem?_append_right (by omega), List.getElem?_drop]
    congr 1
    omega

theorem write_sent_accepted (h : Host) (s : State) (buf : List Nat) (off n : Nat)
    (hn : n < 2 ^ 32) (hh : honestWrite h s buf off n = true) :
    (write h s (some buf) off n).2.tcp.sent
      = s.tcp.sent ++ (buf.drop off).take (write h s (some buf) off n).1 := by
  obtain ⟨w, -, e1, e2⟩ := writeLoop_accepted h.tcpTimeout s.client.tcp buf s.polls s.tcp off n
    s.tcp.now 0 (by omega) hh
  rw [write_fst, write_sent, e1, e2, Nat.zero_add]

theorem useInternBuffer_reserved (h : Host) (length : Nat) :
    useInternBuffer h length true = false := by
  unfold useInternBuffer
  simp only [Bool.not_true, Bool.and_false, Bool.false_and]

/-- C25. For every opcode, payload length, fin flag and role (`mask = cIsClient`), the header
size `sendFrame` computes for itself (`ownHeaderSize`, lines 312-329) is the value
`createHeader` returns, it is at most 14, and it is the number of bytes `createHeader`
writes.  With `headerToPayload` set, on a connection that may send, for a payload buffer of
`14 + length` bytes (an object, so smaller than 2^32 bytes): `sendFrame` makes one `write`,
from offset `14 - headerSize` of the buffer and of `headerSize + length` bytes, and returns
whether it wrote them all; the buffer is as the caller left it below that offset, and from
that offset on it holds the header followed, from offset 14 on, by the payload: the bytes
offered to the `write` are exactly the header and the payload. -/
theorem sendFrame_header_in_front (h : Host) (s : State) (opcode length : Nat) (fin : Bool)
    (buf : List Nat) (hsend : canSend s = true)
    (hbuf : buf.length = WEBSOCKETS_MAX_HEADER_SIZE + length) (hfit : buf.length < 2 ^ 32) :
    (∀ (mask : Bool) (maskKey : List Nat),
        (createHeader opcode length mask maskKey fin).2 = ownHeaderSize mask length
          ∧ ownHeaderSize mask length ≤ 14
          ∧ (maskKey.length = 4 →
              (createHeader opcode length mask maskKey fin).1.length
                = (createHeader opcode length mask maskKey fin).2))
      ∧ ∃ out,
          sendFrame h s opcode (some buf) length fin true
              = (decide ((write h (log s (Event.frame opcode (some buf) length fin true))
                    (some out)
                    (WEBSOCKETS_MAX_HEADER_SIZE - ownHeaderSize s.client.cIsClient length)
                    (ownHeaderSize s.client.cIsClient length + length)).1
                  = ownHeaderSize s.client.cIsClient length + length),
                (write h (log s (Event.frame opcode (some buf) length fin true)) (some out)
                    (WEBSOCKETS_MAX_HEADER_SIZE - ownHeaderSize s.client.cIsClient length)
                    (ownHeaderSize s.client.cIsClient length + length)).2)
          ∧ out.length = buf.length
          ∧ (∀ i, i < WEBSOCKETS_MAX_HEADER_SIZE - ownHeaderSize s.client.cIsClient length →
              out[i]? = buf[i]?)
          ∧ out.drop (WEBSOCKETS_MAX_HEADER_SIZE - ownHeaderSize s.client.cIsClient length)
              = (createHeader opcode length s.client.cIsClient [0x00, 0x00, 0x00, 0x00] fin).1
                  ++ buf.drop WEBSOCKETS_MAX_HEADER_SIZE
          ∧ (out.drop (WEBSOCKETS_MAX_HEADER_SIZE - ownHeaderSize s.client.cIsClient length)).take
                (ownHeaderSize s.client.cIsClient length + length)
              = (createHeader opcode length s.client.cIsClient [0x00, 0x00, 0x00, 0x00] fin).1
                  ++ buf.drop WEBSOCKETS_MAX_HEADER_SIZE
          ∧ (buf.drop WEBSOCKETS_MAX_HEADER_SIZE).length = length := by
  have hs14 := ownHeaderSize_le s.client.cIsClient length
  have hlen := createHeader_length opcode length s.client.cIsClient fin [0x00, 0x00, 0x00, 0x00]
    rfl
  have h14 : WEBSOCKETS_MAX_HEADER_SIZE = 14 := rfl
  have hn : (length + ownHeaderSize s.client.cIsClient length) % 2 ^ 32
      = ownHeaderSize s.client.cIsClient length + length := by
    rw [Nat.mod_eq_of_lt (by omega), Nat.add_comm]
  have hwin := writeAt_window buf
    (createHeader opcode length s.client.cIsClient [0x00, 0x00, 0x00, 0x00] fin).1
    (WEBSOCKETS_MAX_HEADER_SIZE - ownHeaderSize s.client.cIsClient length) (by omega)
  rw [hlen, show WEBSOCKETS_MAX_HEADER_SIZE - ownHeaderSize s.client.cIsClient length
      + ownHeaderSize s.client.cIsClient length = WEBSOCKETS_MAX_HEADER_SIZE by omega] at hwin
  have hpl : (buf.drop WEBSOCKETS_MAX_HEADER_SIZE).length = length := by
    rw [List.length_drop]; omega
  refine ⟨fun mask maskKey => ⟨rfl, ownHeaderSize_le mask length, fun hkey => ?_⟩,
    writeAt buf (WEBSOCKETS_MAX_HEADER_SIZE - ownHeaderSize s.client.cIsClient length)
      (createHeader opcode length s.client.cIsClient [0x00, 0x00, 0x00, 0x00] fin).1,
    ?_, writeAt_length _ _ _, fun i hi => writeAt_getElem?_lt _ _ _ _ hi, hwin, ?_, hpl⟩
  · rw [createHeader_length opcode length mask fin maskKey hkey, createHeader_snd]
  · rw [sendFrame_plain h s opcode (some buf) length fin true hsend
      (useInternBuffer_reserved h length)]
    unfold sendFrameWrite
    simp only [if_true, Option.map_some']
    rw [hn]
  · rw [hwin]
    apply List.take_of_length_le
    rw [List.length_append, hlen, hpl]

/-- C25, worked instance: the text frame "hi" of a server, sent from a buffer with 14
reserved bytes: the header 81 02 goes to offsets 12 and 13, and the single write of 4
bytes puts 81 02 68 69 on the wire. -/
theorem sendFrame_header_in_front_witness :
    (createHeader WSop_text 2 false [0, 0, 0, 0] true).2 = ownHeaderSize false 2
      ∧ ownHeaderSize false 2 = 2
      ∧ sendFrame demoHost serverSide WSop_text
            (some [0, 0, 0, 0, 0, 0, 0, 0, 0, 0, 0, 0, 0, 0, 0x68, 0x69]) 2 true true
          = (true,
              { serverSide with
                tcp := { now := 1000, connected := true, inbuf := [],
                         sent := [0x81, 0x02, 0x68, 0x69], accept := 4 }
                trace := [Event.frame WSop_text
                  (some [0, 0, 0, 0, 0, 0, 0, 0, 0, 0, 0, 0, 0, 0, 0x68, 0x69]) 2 true true] }) :=
  ⟨((sendFrame_header_in_front demoHost serverSide WSop_text 2 true
      [0, 0, 0, 0, 0, 0, 0, 0, 0, 0, 0, 0, 0, 0, 0x68, 0x69] (by decide) rfl
      (by decide)).1 false [0, 0, 0, 0]).1, by decide, by decide!⟩

/-! ## Client frames without the internal buffer -/

theorem sendFrame_two_writes (h : Host) (s : State) (opcode : Nat) (p : List Nat)
    (length : Nat) (fin : Bool) (hsend : canSend s = true)
    (hbuf : useInternBuffer h length false = false) :
    sendFrame h s opcode (some p) length fin false
      = if 0 < length then
          (decide ((headerWrite h s opcode (some p) length fin).1
              = ownHeaderSize s.client.cIsClient length)
            && decide ((payloadWrite h s opcode (some p) length fin).1 = length),
            (payloadWrite h s opcode (some p) length fin).2)
        else
          (decide ((headerWrite h s opcode (some p) length fin).1
              = ownHeaderSize s.client.cIsClient length),
            (headerWrite h s opcode (some p) length fin).2) := by
  rw [sendFrame_plain h s opcode (some p) length fin false hsend hbuf]
  unfold sendFrameWrite payloadWrite headerWrite
  by_cases hl : 0 < length
  · simp only [Bool.false_eq_true, if_false, Option.isSome_some, Bool.true_and, gt_iff_lt, hl,
      decide_True, if_true]
  · simp only [Bool.false_eq_true, if_false, Option.isSome_some, Bool.true_and, gt_iff_lt, hl,
      decide_False]

theorem headerWrite_sent (h : Host) (s : State) (opcode : Nat) (payload : Option (List Nat))
    (length : Nat) (fin : Bool)
    (hh : honestWrite h (log s (Event.frame opcode payload length fin false))
      (writeAt (List.replicate WEBSOCKETS_MAX_HEADER_SIZE 0) 0
        (createHeader opcode length s.client.cIsClient [0x00, 0x00, 0x00, 0x00] fin).1)
      0 (ownHeaderSize s.client.cIsClient length) = true)
    (hw : (headerWrite h s opcode payload length fin).1
      = ownHeaderSize s.client.cIsClient length) :
    (headerWrite h s opcode payload length fin).2.tcp.sent
      = s.tcp.sent
          ++ (createHeader opcode length s.client.cIsClient [0x00, 0x00, 0x00, 0x00] fin).1 := by
  have hs14 := ownHeaderSize_le s.client.cIsClient length
  have hlen := createHeader_length opcode length s.client.cIsClient fin [0x00, 0x00, 0x00, 0x00]
    rfl
  have hwin := writeAt_window (List.replicate WEBSOCKETS_MAX_HEADER_SIZE 0)
    (createHeader opcode length s.client.cIsClient [0x00, 0x00, 0x00, 0x00] fin).1 0
    (by rw [List.length_replicate, hlen, Nat.zero_add]; exact hs14)
  have hsent := write_sent_accepted h (log s (Event.frame opcode payload length fin false))
    (writeAt (List.replicate WEBSOCKETS_MAX_HEADER_SIZE 0) 0
      (createHeader opcode length s.client.cIsClient [0x00, 0x00, 0x00, 0x00] fin).1)
    0 (ownHeaderSize s.client.cIsClient length) (by omega) hh
  unfold headerWrite at hw ⊢
  rw [hsent, hw, hwin, ← hlen, List.take_left']
  · rfl
  · rfl

/-- C24. `sendFrame` in the client role (`cIsClient`), without `headerToPayload` and without
the internal buffer, on a connection that may send, with a payload buffer that holds the
`length` bytes and a transport that reports at most what it is offered.  When the write of
the header and, for a non-empty payload, the write of the payload complete, `sendFrame`
returns true and the transport has received exactly the header `createHeader` produces
with `mask = true` and the mask key 00 00 00 00, followed by the first `length` payload
bytes unmodified.  That header ends with the key 00 00 00 00, its second byte carries the
mask flag, and unmasking with this key changes no byte. -/
theorem client_frame_in_clear (h : Host) (s : State) (opcode length : Nat) (fin : Bool)
    (p : List Nat) (hcl : s.client.cIsClient = true) (hsend : canSend s = true)
    (hbuf : useInternBuffer h length false = false)
    (hop : opcode < 16) (hlen : length < 2 ^ 32) (hp : length ≤ p.length)
    (hh1 : honestWrite h (log s (Event.frame opcode (some p) length fin false))
      (writeAt (List.replicate WEBSOCKETS_MAX_HEADER_SIZE 0) 0
        (createHeader opcode length s.client.cIsClient [0x00, 0x00, 0x00, 0x00] fin).1)
      0 (ownHeaderSize s.client.cIsClient length) = true)
    (hh2 : honestWrite h (headerWrite h s opcode (some p) length fin).2 p 0 length = true)
    (hw1 : (headerWrite h s opcode (some p) length fin).1
      = ownHeaderSize s.client.cIsClient length)
    (hw2 : 0 < length → (payloadWrite h s opcode (some p) length fin).1 = length) :
    (sendFrame h s opcode (some p) length fin false).1 = true
      ∧ (sendFrame h s opcode (some p) length fin false).2.tcp.sent
          = s.tcp.sent ++ (createHeader opcode length true [0x00, 0x00, 0x00, 0x00] fin).1
              ++ p.take length
      ∧ (∃ front, (createHeader opcode length true [0x00, 0x00, 0x00, 0x00] fin).1
          = front ++ [0x00, 0x00, 0x00, 0x00])
      ∧ ((((createHeader opcode length true [0x00, 0x00, 0x00, 0x00] fin).1.getD 1 0 >>> 7)
            &&& 0x01) != 0) = true
      ∧ xorMask (fun j => [0x00, 0x00, 0x00, 0x00].getD j 0) 0 length p = p
      ∧ (p.take length).length = length := by
  have hsent1 := headerWrite_sent h s opcode (some p) length fin hh1 hw1
  rw [hcl] at hsent1
  obtain ⟨-, -, -, -, -, fmask, -⟩ :=
    createHeader_decoded opcode length true fin [0x00, 0x00, 0x00, 0x00] hop hlen rfl
  refine ⟨?_, ?_, ?_, fmask, ?_, by rw [List.length_take]; omega⟩
  · rw [sendFrame_two_writes h s opcode p length fin hsend hbuf]
    by_cases hl : 0 < length
    · rw [if_pos hl, hw1, hw2 hl]
      simp only [decide_True, Bool.and_self]
    · rw [if_neg hl, hw1]
      simp only [decide_True]
  · rw [sendFrame_two_writes h s opcode p length fin hsend hbuf]
    by_cases hl : 0 < length
    · rw [if_pos hl]
      unfold payloadWrite
      rw [write_sent_accepted h _ p 0 length hlen hh2]
      have := hw2 hl
      unfold payloadWrite at this
      rw [this, hsent1]
      rfl
    · have hz : length = 0 := by omega
      rw [if_neg hl, hsent1, hz]
      simp only [List.take_zero, List.append_nil]
  · rw [createHeader_eq opcode length true fin [0x00, 0x00, 0x00, 0x00] rfl]
    exact ⟨_, rfl⟩
  · apply List.ext_getElem?
    intro j
    rw [xorMask_getElem?]
    split_ifs with hj
    · have h4 : (j - 0) % 4 < 4 := Nat.mod_lt _ (by decide)
      have hk : [0x00, 0x00, 0x00, 0x00].getD ((j - 0) % 4) 0 = 0 := by
        generalize (j - 0) % 4 = k at h4
        interval_cases k <;> rfl
      rw [hk]
      cases p[j]? <;> simp
    · rfl

/-- C24, worked instance: a client sends the text frame "hi"; the transport takes the 6
header bytes and then the 2 payload bytes.  On the wire: 81 82 00 00 00 00 68 69, the mask
flag set, the key zero, the payload in clear. -/
theorem client_frame_in_clear_witness :
    clientSide.client.cIsClient = true
      ∧ (sendFrame demoHost clientSide WSop_text (some [0x68, 0x69]) 2 true false).1 = true
      ∧ (sendFrame demoHost clientSide WSop_text (some [0x68, 0x69]) 2 true false).2.tcp.sent
          = [0x81, 0x82, 0x00, 0x00, 0x00, 0x00, 0x68, 0x69] := by
  have key := client_frame_in_clear demoHost clientSide WSop_text 2 true [0x68, 0x69] rfl
    (by decide) (by decide) (by decide) (by decide) (by decide) (by decide!) (by decide!)
    (by decide!) (fun _ => by decide!)
  exact ⟨rfl, key.1, key.2.1.trans (by decide!)⟩

/-! ## The payload buffer -/

theorem handleWebsocketCb_complete_eq (h : Host) (fuel : Nat) (s : State) (hr : HeaderReady s)
    (hmax : declaredLen s.client.cWsHeader ≤ h.maxDataSize) :
    handleWebsocketCb h (fuel + 1) s = receivePayload h (atPayload s) := by
  have hle : lengthEnd s.client.cWsHeader ≤ s.client.cWsRXsize :=
    Nat.le_trans (lengthEnd_le_headerEnd _) hr.complete
  have h10 := lengthEnd_le s.client.cWsHeader
  rw [handleWebsocketCb_lengthReady h fuel s hr.tcp hr.connected hle, afterLength_reported,
    if_neg (Nat.not_lt.mpr hmax)]
  unfold atPayload
  by_cases hm : (decodeLength s.client).cWsHeaderDecode.mask = true
  · have hend : lengthEnd s.client.cWsHeader + 4 ≤ s.client.cWsRXsize := by
      have := hr.complete
      have hm' : (((s.client.cWsHeader.getD 1 0 >>> 7) &&& 0x01) != 0) = true := hm
      unfold headerEnd at this
      rw [if_pos hm'] at this
      exact this
    rw [if_pos hm, if_pos hm,
      handleWebsocketWaitFor_ready h _ (reported s) (lengthEnd s.client.cWsHeader + 4) hr.tcp
        hr.connected (by omega) hend]
  · rw [if_neg hm, if_neg hm]
    rfl

theorem receivePayload_read (h : Host) (s : State)
    (hl : 0 < s.client.cWsHeaderDecode.payloadLen)
    (hm : h.mallocOk ((s.client.cWsHeaderDecode.payloadLen + 1) % 2 ^ 32) = true) :
    receivePayload h s
      = match handleWebsocketPayloadCb h (afterPayloadRead h s)
            (payloadRead h s s.client.cWsHeaderDecode.payloadLen).1
            (some (payloadRead h s s.client.cWsHeaderDecode.payloadLen).2.1) with
        | Except.error e => Except.error e
        | Except.ok s1 =>
          Except.ok (if (payloadRead h s s.client.cWsHeaderDecode.payloadLen).1
            then yield s1 else s1) := by
  unfold receivePayload afterPayloadRead
  simp only [gt_iff_lt, hl, if_true, hm]
  cases hr : (payloadRead h s s.client.cWsHeaderDecode.payloadLen).1
  · rw [readCb_fail h (log s _) Dst.payload _ 0 _ _ hr]
    simp only [log_client, log_tcp, log_polls, log_trace, log_rngCalls]
    rw [show readLoop h.tcpTimeout s.client.tcp s.polls s.tcp
        (List.map h.junk (List.range ((s.client.cWsHeaderDecode.payloadLen + 1) % 2 ^ 32)))
        0 s.client.cWsHeaderDecode.payloadLen s.tcp.now
        = payloadRead h s s.client.cWsHeaderDecode.payloadLen from rfl]
    generalize handleWebsocketPayloadCb h _ _ _ = X
    cases X <;> rfl
  · rw [readCb_ok h (log s _) Dst.payload _ 0 _ _ hr]
    simp only [log_client, log_tcp, log_polls, log_trace, log_rngCalls]
    rw [show readLoop h.tcpTimeout s.client.tcp s.polls s.tcp
        (List.map h.junk (List.range ((s.client.cWsHeaderDecode.payloadLen + 1) % 2 ^ 32)))
        0 s.client.cWsHeaderDecode.payloadLen s.tcp.now
        = payloadRead h s s.client.cWsHeaderDecode.payloadLen from rfl]
    generalize handleWebsocketPayloadCb h _ _ _ = X
    cases X <;> rfl

theorem receivePayload_nomem (h : Host) (s : State)
    (hl : 0 < s.client.cWsHeaderDecode.payloadLen)
    (hm : h.mallocOk ((s.client.cWsHeaderDecode.payloadLen + 1) % 2 ^ 32) = false) :
    receivePayload h s
      = Except.ok (clientDisconnect h (log s (Event.malloc
          ((s.client.cWsHeaderDecode.payloadLen + 1) % 2 ^ 32) false)) 1011 none 0) := by
  unfold receivePayload
  simp only [gt_iff_lt, hl, if_true, hm, Bool.false_eq_true, if_false]

theorem receivePayload_zero (h : Host) (s : State)
    (hl : ¬ 0 < s.client.cWsHeaderDecode.payloadLen) :
    receivePayload h s = handleWebsocketPayloadCb h s true none := by
  unfold receivePayload
  simp only [gt_iff_lt, hl, if_false]

/-- A payload stage that returns has first called `malloc` for the payload length plus
one, as a `size_t`. -/
theorem receivePayload_acquires (h : Host) (s s' : State)
    (hl : 0 < s.client.cWsHeaderDecode.payloadLen)
    (hrun : receivePayload h s = Except.ok s') :
    ∃ ok evs, s'.trace
      = s.trace ++ Event.malloc ((s.client.cWsHeaderDecode.payloadLen + 1) % 2 ^ 32) ok
          :: evs := by
  cases hm : h.mallocOk ((s.client.cWsHeaderDecode.payloadLen + 1) % 2 ^ 32)
  · rw [receivePayload_nomem h s hl hm] at hrun
    cases hrun
    obtain ⟨evs, he, _⟩ := clientDisconnect_grows Event.any h
      (log s (Event.malloc ((s.client.cWsHeaderDecode.payloadLen + 1) % 2 ^ 32) false)) 1011
      (by decide) rfl
    exact ⟨false, evs, by rw [he, log_trace, List.append_assoc, List.singleton_append]⟩
  · rw [receivePayload_read h s hl hm] at hrun
    rcases handleWebsocketPayloadCb_outcome h (afterPayloadRead h s)
      (payloadRead h s s.client.cWsHeaderDecode.payloadLen).1
      (some (payloadRead h s s.client.cWsHeaderDecode.payloadLen).2.1)
      with ⟨s1, h1, evs, he, _⟩ | ⟨⟨e, he⟩, _⟩
    · rw [h1] at hrun
      cases hrun
      refine ⟨true, Event.read Dst.payload s.client.cWsHeaderDecode.payloadLen :: evs, ?_⟩
      have ht : (if (payloadRead h s s.client.cWsHeaderDecode.payloadLen).1 = true
          then yield s1 else s1).trace = s1.trace := by
        split_ifs
        · exact yield_trace _
        · rfl
      rw [ht, he]
      unfold afterPayloadRead
      simp only [List.append_assoc, List.singleton_append, List.cons_append, List.nil_append]
    · rw [he] at hrun
      cases hrun

/-- C23 as amended. A connected client holds a complete header that declares a payload of
`L > 0` bytes, `L` at most `WEBSOCKETS_MAX_DATA_SIZE`, and `WEBSOCKETS_MAX_DATA_SIZE` is below
`0xFFFFFFFF`.  Then `L + 1` does not wrap around in `size_t`; `handleWebsocketCb` returns (it
never stops at an access outside the payload buffer) after reporting the header and calling
`malloc(L + 1)`; the buffer the payload read works on has `L + 1` bytes and the read leaves
index `L` as it was; `handleWebsocketPayloadCb` finds every index it touches inside the
buffer (`unmaskPayload` succeeds), the buffer it hands to the dispatcher still has `L + 1`
bytes with `0x00` at index `L`; and the unmasking loop changes no byte at an index `L` or
above.  When `malloc` succeeds the run is the callback on that buffer. -/
theorem payload_buffer_bounds (h : Host) (fuel : Nat) (s : State) (hr : HeaderReady s)
    (hcfg : h.maxDataSize < 0xFFFFFFFF)
    (hmax : declaredLen s.client.cWsHeader ≤ h.maxDataSize)
    (hpos : 0 < declaredLen s.client.cWsHeader) :
    (declaredLen s.client.cWsHeader + 1) % 2 ^ 32 = declaredLen s.client.cWsHeader + 1
      ∧ (∃ s', handleWebsocketCb h (fuel + 1) s = Except.ok s'
          ∧ ∃ ok evs, newEvents s.trace s'
              = decodedEvent s.client
                  :: Event.malloc (declaredLen s.client.cWsHeader + 1) ok :: evs)
      ∧ (payloadRead h s (declaredLen s.client.cWsHeader)).2.1.length
          = declaredLen s.client.cWsHeader + 1
      ∧ (payloadRead h s (declaredLen s.client.cWsHeader)).2.1[declaredLen s.client.cWsHeader]?
          = some (h.junk (declaredLen s.client.cWsHeader))
      ∧ (∃ buf, unmaskPayload (atPayload s).client
              (some (payloadRead h s (declaredLen s.client.cWsHeader)).2.1)
            = Except.ok (some buf)
          ∧ buf.length = declaredLen s.client.cWsHeader + 1
          ∧ buf[declaredLen s.client.cWsHeader]? = some 0x00)
      ∧ (∀ (key : Nat → Nat) (p : List Nat) (j : Nat), declaredLen s.client.cWsHeader ≤ j →
          (xorMask key 0 (declaredLen s.client.cWsHeader) p)[j]? = p[j]?)
      ∧ (h.mallocOk (declaredLen s.client.cWsHeader + 1) = true →
          handleWebsocketCb h (fuel + 1) s
            = match handleWebsocketPayloadCb h (afterPayloadRead h (atPayload s))
                  (payloadRead h s (declaredLen s.client.cWsHeader)).1
                  (some (payloadRead h s (declaredLen s.client.cWsHeader)).2.1) with
              | Except.error e => Except.error e
              | Except.ok s1 =>
                Except.ok (if (payloadRead h s (declaredLen s.client.cWsHeader)).1
                  then yield s1 else s1)) := by
  have hfit : declaredLen s.client.cWsHeader + 1 < 2 ^ 32 := by omega
  have hmod : (declaredLen s.client.cWsHeader + 1) % 2 ^ 32
      = declaredLen s.client.cWsHeader + 1 := Nat.mod_eq_of_lt hfit
  have hpl : (atPayload s).client.cWsHeaderDecode.payloadLen = declaredLen s.client.cWsHeader :=
    rfl
  have hlen : (payloadRead h s (declaredLen s.client.cWsHeader)).2.1.length
      = declaredLen s.client.cWsHeader + 1 := by
    rw [payloadRead_length, hmod]
  have hrun := handleWebsocketCb_complete_eq h fuel s hr hmax
  refine ⟨hmod, ?_, hlen, ?_, ?_, fun key p j hj => ?_, fun hm => ?_⟩
  · rcases complete_outcome h fuel s hr hmax with ⟨s', hs', -⟩ | ⟨-, hno⟩
    · refine ⟨s', hs', ?_⟩
      rw [hrun] at hs'
      obtain ⟨ok, evs, he⟩ := receivePayload_acquires h (atPayload s) s'
        (by rw [hpl]; exact hpos) hs'
      rw [hpl, hmod] at he
      exact ⟨ok, evs, newEvents_append _ _ _ (by
        rw [he]
        show s.trace ++ [decodedEvent s.client] ++ _ = _
        rw [List.append_assoc, List.singleton_append])⟩
    · exact absurd hfit hno
  · unfold payloadRead
    rw [readLoop_getElem?_ge _ _ _ _ _ _ _ _ _ (by omega), List.getElem?_map,
      List.getElem?_range (by omega)]
    rfl
  · have hb : (atPayload s).client.cWsHeaderDecode.payloadLen
        < (payloadRead h s (declaredLen s.client.cWsHeader)).2.1.length := by
      rw [hpl, hlen]; omega
    have hset : ((payloadRead h s (declaredLen s.client.cWsHeader)).2.1.set
        (declaredLen s.client.cWsHeader) 0x00)[declaredLen s.client.cWsHeader]? = some 0x00 := by
      rw [List.getElem?_set_self (by omega)]
    unfold unmaskPayload
    simp only [gt_iff_lt, hpl, hpos, if_true, hb, hlen, Nat.lt_succ_self]
    split_ifs
    · refine ⟨_, rfl, by rw [xorMask_length, List.length_set, hlen], ?_⟩
      rw [xorMask_getElem?, if_neg (by omega), hset]
    · exact ⟨_, rfl, by rw [List.length_set, hlen], hset⟩
  · rw [xorMask_getElem?, if_neg (by omega)]
  · rw [hrun]
    exact receivePayload_read h (atPayload s) (by rw [hpl]; exact hpos)
      (by rw [hpl, hmod]; exact hm)

/-- C23 as amended, worked instance: the masked text frame "hi": `malloc(3)`, and the
buffer handed on after unmasking is 68 69 00. -/
theorem payload_buffer_bounds_witness :
    declaredLen maskedHi.client.cWsHeader = 2
      ∧ (∃ s', handleWebsocketCb demoHost 1 maskedHi = Except.ok s'
          ∧ ∃ ok evs, newEvents maskedHi.trace s'
              = decodedEvent maskedHi.client :: Event.malloc (2 + 1) ok :: evs)
      ∧ (unmaskPayload (atPayload maskedHi).client
            (some (payloadRead demoHost maskedHi 2).2.1)).toOption
          = some (some [0x68, 0x69, 0x00]) := by
  have hr : HeaderReady maskedHi := ⟨rfl, rfl, by decide⟩
  exact ⟨by decide,
    (payload_buffer_bounds demoHost 0 maskedHi hr (by decide) (by decide) (by decide)).2.1,
    by decide!⟩

/-- C23 as stated fails when `WEBSOCKETS_MAX_DATA_SIZE` is `0xFFFFFFFF`: a header that
declares `L = 0xFFFFFFFF` bytes is accepted (`L` does not exceed the maximum), `L + 1` wraps
around to 0, `malloc(0)` is called, and the payload read of `L` bytes takes the byte that
waits in the transport for a buffer of 0 bytes. -/
theorem payload_buffer_wraps_at_max :
    maxHost.maxDataSize = 0xFFFFFFFF
      ∧ declaredLen fullLength.client.cWsHeader = 0xFFFFFFFF
      ∧ runEvents maxHost 1 fullLength
          = some [Event.decoded true false false false WSop_binary false 0xFFFFFFFF,
              Event.malloc 0 true, Event.read Dst.payload 0xFFFFFFFF, Event.free,
              Event.closeReq 1002, Event.frame WSop_close (some [0x03, 0xEA]) 2 true false,
              Event.disconnected]
      ∧ payloadRead maxHost fullLength 0xFFFFFFFF
          = (false, [],
              { now := 1000, connected := true, inbuf := [], sent := [], accept := 1460 },
              []) := by
  refine ⟨by decide, by decide, ?_, ?_⟩
  · decide!
  · decide!

/-! ## Reserved bits -/

theorem bit7_of_and (x y : Nat) (h : x &&& 0x8F = y &&& 0x8F) :
    (x >>> 7) &&& 0x01 = (y >>> 7) &&& 0x01 := by
  have e : ∀ z : Nat, (z &&& 0x8F).testBit 7 = z.testBit 7 := by
    intro z
    rw [Nat.testBit_and, show Nat.testBit 0x8F 7 = true from by decide, Bool.and_true]
  have ht : x.testBit 7 = y.testBit 7 := by rw [← e x, ← e y, h]
  rw [Nat.testBit_to_div_mod, Nat.testBit_to_div_mod] at ht
  have hx : (x >>> 7) &&& 0x01 = x / 2 ^ 7 % 2 := by
    rw [Nat.and_one_is_mod, Nat.shiftRight_eq_div_pow]
  have hy : (y >>> 7) &&& 0x01 = y / 2 ^ 7 % 2 := by
    rw [Nat.and_one_is_mod, Nat.shiftRight_eq_div_pow]
  rw [hx, hy]
  have h1 := Nat.mod_lt (x / 2 ^ 7) (show 0 < 2 by decide)
  have h2 := Nat.mod_lt (y / 2 ^ 7) (show 0 < 2 by decide)
  generalize x / 2 ^ 7 % 2 = u at *
  generalize y / 2 ^ 7 % 2 = v at *
  interval_cases u <;> interval_cases v <;> simp_all

theorem low4_of_and (x y : Nat) (h : x &&& 0x8F = y &&& 0x8F) : x &&& 0x0F = y &&& 0x0F := by
  have e : ∀ z : Nat, z &&& 0x0F = (z &&& 0x8F) &&& 0x0F := by
    intro z
    rw [Nat.land_assoc]
    rfl
  rw [e x, e y, h]

theorem handling_ok (s : State) :
    handling (Except.ok s) = Except.ok (s.trace.map Event.withoutRsv) := rfl

theorem handling_error (e : Fault) : handling (Except.error e) = Except.error e := rfl

/-- Two runs that show the same, followed by steps that add the same events, show the
same. -/
theorem handling_then (ra rb Ra Rb : Except Fault State) (extra : List Event)
    (ha : ∀ e, ra = Except.error e → Ra = Except.error e)
    (ha' : ∀ s, ra = Except.ok s → ∃ s', Ra = Except.ok s' ∧ s'.trace = s.trace ++ extra)
    (hb : ∀ e, rb = Except.error e → Rb = Except.error e)
    (hb' : ∀ s, rb = Except.ok s → ∃ s', Rb = Except.ok s' ∧ s'.trace = s.trace ++ extra)
    (hr : handling ra = handling rb) : handling Ra = handling Rb := by
  cases hra : ra with
  | error e =>
    cases hrb : rb with
    | error e2 =>
      rw [hra, hrb] at hr
      rw [ha e hra, hb e2 hrb]
      exact hr
    | ok s2 => rw [hra, hrb] at hr; cases hr
  | ok s1 =>
    cases hrb : rb with
    | error e2 => rw [hra, hrb] at hr; cases hr
    | ok s2 =>
      rw [hra, hrb, handling_ok, handling_ok] at hr
      obtain ⟨sa, hsa, hta⟩ := ha' s1 hra
      obtain ⟨sb, hsb, htb⟩ := hb' s2 hrb
      rw [hsa, hsb, handling_ok, handling_ok, hta, htb, List.map_append, List.map_append,
        Except.ok.inj hr]

theorem clientDisconnect_handling (h : Host) (a b : State) (code : Nat)
    (htr : a.trace.map Event.withoutRsv = b.trace.map Event.withoutRsv)
    (hcs : canSend a = canSend b) :
    handling (Except.ok (clientDisconnect h a code none 0))
      = handling (Except.ok (clientDisconnect h b code none 0)) := by
  rw [handling_ok, handling_ok, clientDisconnect_trace, clientDisconnect_trace, hcs]
  simp only [List.map_append, htr]

theorem canSend_congr (a b : State) (htcp : a.client.tcp = b.client.tcp)
    (hst : a.client.status = b.client.status) (hconn : a.tcp.connected = b.tcp.connected) :
    canSend a = canSend b := by
  unfold canSend
  rw [htcp, hst, hconn]

theorem closeReasonCode_congr (hd1 hd2 : WSMessageHeader_t)
    (hlen : hd1.payloadLen = hd2.payloadLen) (p : Option (List Nat)) :
    closeReasonCode hd1 p = closeReasonCode hd2 p := by
  unfold closeReasonCode
  rw [hlen]

theorem dispatch_handling (h : Host) (a b : State) (p : Option (List Nat))
    (hop : a.client.cWsHeaderDecode.opCode = b.client.cWsHeaderDecode.opCode)
    (hlen : a.client.cWsHeaderDecode.payloadLen = b.client.cWsHeaderDecode.payloadLen)
    (hfin : a.client.cWsHeaderDecode.fin = b.client.cWsHeaderDecode.fin)
    (htr : a.trace.map Event.withoutRsv = b.trace.map Event.withoutRsv)
    (hcs : canSend a = canSend b) :
    handling (dispatch h a p) = handling (dispatch h b p) := by
  have hcr := closeReasonCode_congr a.client.cWsHeaderDecode b.client.cWsHeaderDecode hlen p
  unfold dispatch
  simp only []
  rw [← hop, ← hlen, ← hfin, ← hcr]
  split_ifs
  · rw [handling_ok, handling_ok, log_trace, log_trace, List.map_append, List.map_append, htr]
  · rw [handling_ok, handling_ok, log_trace, log_trace, List.map_append, List.map_append, htr]
  · rw [handling_ok, handling_ok, log_trace, log_trace, sendFrame_trace, sendFrame_trace, hcs]
    simp only [List.map_append, htr]
  · rw [handling_ok, handling_ok, log_trace, log_trace, List.map_append, List.map_append]
    show Except.ok (a.trace.map Event.withoutRsv ++ _)
      = Except.ok (b.trace.map Event.withoutRsv ++ _)
    rw [htr]
  · cases closeReasonCode a.client.cWsHeaderDecode p with
    | error e => rfl
    | ok c => exact clientDisconnect_handling h a b 1000 htr hcs
  · exact clientDisconnect_handling h a b 1002 htr hcs

theorem unmaskPayload_congr (a b : WSclient_t) (p : Option (List Nat))
    (hlen : a.cWsHeaderDecode.payloadLen = b.cWsHeaderDecode.payloadLen)
    (hmask : a.cWsHeaderDecode.mask = b.cWsHeaderDecode.mask)
    (hkey : a.cWsHeaderDecode.mask = true →
      a.cWsHeaderDecode.maskKey = b.cWsHeaderDecode.maskKey ∧ 1 ≤ a.cWsHeaderDecode.maskKey)
    (hhdr : a.cWsHeader.drop 1 = b.cWsHeader.drop 1) :
    unmaskPayload a p = unmaskPayload b p := by
  unfold unmaskPayload
  simp only []
  rw [← hlen, ← hmask]
  by_cases hm : a.cWsHeaderDecode.mask = true
  · obtain ⟨hk, h1⟩ := hkey hm
    have hfun : (fun j => b.cWsHeader.getD (b.cWsHeaderDecode.maskKey + j) 0)
        = (fun j => a.cWsHeader.getD (a.cWsHeaderDecode.maskKey + j) 0) := by
      funext j
      rw [← hk]
      have e : a.cWsHeaderDecode.maskKey + j = 1 + (a.cWsHeaderDecode.maskKey - 1 + j) := by
        omega
      rw [e, ← getD_drop a.cWsHeader 1 (a.cWsHeaderDecode.maskKey - 1 + j),
        ← getD_drop b.cWsHeader 1 (a.cWsHeaderDecode.maskKey - 1 + j), hhdr]
    rw [hfun]
  · simp only [hm, Bool.false_eq_true, if_false]

theorem handleWebsocketPayloadCb_handling (h : Host) (a b : State) (ok : Bool)
    (p : Option (List Nat)) (htw : PayloadTwins a b) :
    handling (handleWebsocketPayloadCb h a ok p) = handling (handleWebsocketPayloadCb h b ok p) := by
  have hcs : canSend a = canSend b :=
    canSend_congr a b htw.tcp htw.status (congrArg Tcp.connected htw.transport)
  cases ok
  · unfold handleWebsocketPayloadCb
    simp only [Bool.false_eq_true, if_false]
    apply clientDisconnect_handling
    · cases p.isSome
      · exact htw.trace
      · simp only [if_true, log_trace, List.map_append, htw.trace]
    · cases p.isSome
      · exact hcs
      · exact hcs
  · have hu := unmaskPayload_congr a.client b.client p htw.payloadLen htw.mask htw.maskKey
      htw.header
    cases hub : unmaskPayload b.client p with
    | error e =>
      rw [hub] at hu
      unfold handleWebsocketPayloadCb
      simp only [if_true, hu, hub]
    | ok q =>
      rw [hub] at hu
      rw [handleWebsocketPayloadCb_ok h a p q hu, handleWebsocketPayloadCb_ok h b p q hub]
      refine handling_then (dispatch h a q) (dispatch h b q) _ _
        (if q.isSome then [Event.free] else []) ?_ ?_ ?_ ?_
        (dispatch_handling h a b q htw.opCode htw.payloadLen htw.fin htw.trace hcs)
      · intro e he; rw [he]
      · intro s hs
        rw [hs]
        refine ⟨_, rfl, ?_⟩
        cases q.isSome
        · simp only [Bool.false_eq_true, if_false, List.append_nil]
        · simp only [if_true, log_trace]
      · intro e he; rw [he]
      · intro s hs
        rw [hs]
        refine ⟨_, rfl, ?_⟩
        cases q.isSome
        · simp only [Bool.false_eq_true, if_false, List.append_nil]
        · simp only [if_true, log_trace]

theorem receivePayload_handling (h : Host) (a b : State) (htw : PayloadTwins a b) :
    handling (receivePayload h a) = handling (receivePayload h b) := by
  have hcs : canSend a = canSend b :=
    canSend_congr a b htw.tcp htw.status (congrArg Tcp.connected htw.transport)
  have hlen := htw.payloadLen
  by_cases hl : 0 < a.client.cWsHeaderDecode.payloadLen
  · have hl' : 0 < b.client.cWsHeaderDecode.payloadLen := by rw [← hlen]; exact hl
    have hpr : payloadRead h b b.client.cWsHeaderDecode.payloadLen
        = payloadRead h a a.client.cWsHeaderDecode.payloadLen := by
      unfold payloadRead
      rw [htw.tcp, htw.polls, htw.transport, hlen]
    cases hm : h.mallocOk ((a.client.cWsHeaderDecode.payloadLen + 1) % 2 ^ 32)
    · rw [receivePayload_nomem h a hl hm, receivePayload_nomem h b hl' (by rw [← hlen]; exact hm)]
      apply clientDisconnect_handling
      · rw [log_trace, log_trace, List.map_append, List.map_append, htw.trace, hlen]
      · exact hcs
    · rw [receivePayload_read h a hl hm, receivePayload_read h b hl' (by rw [← hlen]; exact hm),
        hpr]
      have htw2 : PayloadTwins (afterPayloadRead h a) (afterPayloadRead h b) := by
        refine ⟨htw.tcp, htw.status, htw.fin, htw.opCode, htw.mask, htw.payloadLen,
          htw.maskKey, htw.header, ?_, ?_, ?_⟩
        · show (payloadRead h a _).2.2.1 = (payloadRead h b _).2.2.1
          rw [hpr]
        · show (payloadRead h a _).2.2.2 = (payloadRead h b _).2.2.2
          rw [hpr]
        · unfold afterPayloadRead
          simp only [List.map_append, htw.trace, hlen]
      refine handling_then _ _ _ _ [] ?_ ?_ ?_ ?_
        (handleWebsocketPayloadCb_handling h (afterPayloadRead h a) (afterPayloadRead h b)
          (payloadRead h a a.client.cWsHeaderDecode.payloadLen).1
          (some (payloadRead h a a.client.cWsHeaderDecode.payloadLen).2.1) htw2)
      · intro e he; rw [he]
      · intro s hs
        rw [hs]
        refine ⟨_, rfl, ?_⟩
        split_ifs
        · rw [yield_trace, List.append_nil]
        · rw [List.append_nil]
      · intro e he; rw [he]
      · intro s hs
        rw [hs]
        refine ⟨_, rfl, ?_⟩
        split_ifs
        · rw [yield_trace, List.append_nil]
        · rw [List.append_nil]
  · have hl' : ¬ 0 < b.client.cWsHeaderDecode.payloadLen := by rw [← hlen]; exact hl
    rw [receivePayload_zero h a hl, receivePayload_zero h b hl']
    exact handleWebsocketPayloadCb_handling h a b true none htw

theorem writeAt_getElem? (bs : List Nat) : ∀ (buf : List Nat) (off i : Nat),
    (writeAt buf off bs)[i]?
      = if off ≤ i ∧ i - off < bs.length ∧ i < buf.length then bs[i - off]? else buf[i]? := by
  induction bs with
  | nil =>
    intro buf off i
    have hc : ¬ (off ≤ i ∧ i - off < ([] : List Nat).length ∧ i < buf.length) := by
      simp only [List.length_nil]; omega
    rw [if_neg hc]
    rfl
  | cons b bs ih =>
    intro buf off i
    simp only [writeAt]
    rw [ih (buf.set off b) (off + 1) i, List.length_set, List.length_cons]
    by_cases hi : i = off
    · subst hi
      rw [if_neg (by omega), List.getElem?_set]
      simp only [if_true, Nat.sub_self, Nat.le_refl, true_and, Nat.zero_lt_succ,
        List.getElem?_cons_zero]
      split_ifs with hlt
      · rfl
      · rw [List.getElem?_eq_none (by omega)]
    · rw [List.getElem?_set_ne (fun hh => hi hh.symm)]
      by_cases hc : off + 1 ≤ i ∧ i - (off + 1) < bs.length ∧ i < buf.length
      · rw [if_pos hc, if_pos (by omega)]
        obtain ⟨j, hj⟩ : ∃ j, i - off = j + 1 := ⟨i - off - 1, by omega⟩
        rw [hj, List.getElem?_cons_succ]
        congr 1
        omega
      · rw [if_neg hc, if_neg (by omega)]

theorem writeAt_append (c : List Nat) : ∀ (out : List Nat) (off : Nat) (d : List Nat),
    writeAt (writeAt out off c) (off + c.length) d = writeAt out off (c ++ d) := by
  induction c with
  | nil => intro out off d; rfl
  | cons x c ih =>
    intro out off d
    show writeAt (writeAt (out.set off x) (off + 1) c) (off + (c.length + 1)) d
      = writeAt (out.set off x) (off + 1) (c ++ d)
    rw [← ih (out.set off x) (off + 1) d]
    congr 1
    omega

/-- The loop of `readCb` looks at what it reads only to store it: the outcome, the bytes
stored and the transport do not depend on the memory behind `out`. -/
theorem readLoop_shape (tmo : Nat) (hasTcp : Bool) : ∀ (polls : List Poll) (tcp : Tcp)
    (off n t : Nat), ∃ flag data tcp1 polls1, ∀ out,
      readLoop tmo hasTcp polls tcp out off n t = (flag, writeAt out off data, tcp1, polls1) := by
  intro polls
  induction polls with
  | nil =>
    intro tcp off n t
    by_cases h1 : n = 0
    · exact ⟨true, [], tcp, [], fun out => by rw [readLoop]; dsimp only; rw [if_pos h1]; rfl⟩
    by_cases h2 : (!hasTcp) = true
    · exact ⟨false, [], tcp, [], fun out => by rw [readLoop]; dsimp only; rw [if_neg h1, if_pos h2]; rfl⟩
    by_cases h3 : (!tcp.connected) = true
    · exact ⟨false, [], tcp, [], fun out => by
        rw [readLoop]; dsimp only; rw [if_neg h1, if_neg h2, if_pos h3]; rfl⟩
    by_cases h4 : elapsed tcp.now t > tmo
    · exact ⟨false, [], tcp, [], fun out => by
        rw [readLoop]; dsimp only; rw [if_neg h1, if_neg h2, if_neg h3, if_pos h4]; rfl⟩
    by_cases h5 : tcp.inbuf.length = 0
    · exact ⟨false, [], tcp, [], fun out => by
        rw [readLoop]; dsimp only; rw [if_neg h1, if_neg h2, if_neg h3, if_neg h4, if_pos h5]; rfl⟩
    by_cases h6 : n - min n tcp.inbuf.length > 0
    · exact ⟨false, tcp.inbuf.take (min n tcp.inbuf.length),
        { tcp with inbuf := tcp.inbuf.drop (min n tcp.inbuf.length) }, [], fun out => by
        rw [readLoop]; dsimp only
        rw [if_neg h1, if_neg h2, if_neg h3, if_neg h4, if_neg h5]
        simp only [h6, if_true]⟩
    · exact ⟨true, tcp.inbuf.take (min n tcp.inbuf.length),
        { tcp with inbuf := tcp.inbuf.drop (min n tcp.inbuf.length) }, [], fun out => by
        rw [readLoop]; dsimp only
        rw [if_neg h1, if_neg h2, if_neg h3, if_neg h4, if_neg h5]
        simp only [h6, if_false]⟩
  | cons p ps ih =>
    intro tcp off n t
    by_cases h1 : n = 0
    · exact ⟨true, [], tcp, p :: ps, fun out => by rw [readLoop]; dsimp only; rw [if_pos h1]; rfl⟩
    by_cases h2 : (!hasTcp) = true
    · exact ⟨false, [], tcp, p :: ps, fun out => by
        rw [readLoop]; dsimp only; rw [if_neg h1, if_pos h2]; rfl⟩
    by_cases h3 : (!tcp.connected) = true
    · exact ⟨false, [], tcp, p :: ps, fun out => by
        rw [readLoop]; dsimp only; rw [if_neg h1, if_neg h2, if_pos h3]; rfl⟩
    by_cases h4 : elapsed tcp.now t > tmo
    · exact ⟨false, [], tcp, p :: ps, fun out => by
        rw [readLoop]; dsimp only; rw [if_neg h1, if_neg h2, if_neg h3, if_pos h4]; rfl⟩
    by_cases h5 : tcp.inbuf.length = 0
    · obtain ⟨f, d, t1, p1, hh⟩ := ih (advance p tcp) off n t
      exact ⟨f, d, t1, p1, fun out => by
        rw [readLoop]; dsimp only
        rw [if_neg h1, if_neg h2, if_neg h3, if_neg h4, if_pos h5]
        exact hh out⟩
    by_cases h6 : n - min n tcp.inbuf.length > 0
    · obtain ⟨f, d, t1, p1, hh⟩ := ih
        (advance p { tcp with inbuf := tcp.inbuf.drop (min n tcp.inbuf.length) })
        (off + min n tcp.inbuf.length) (n - min n tcp.inbuf.length) tcp.now
      have hlen : (tcp.inbuf.take (min n tcp.inbuf.length)).length = min n tcp.inbuf.length := by
        rw [List.length_take]; omega
      exact ⟨f, tcp.inbuf.take (min n tcp.inbuf.length) ++ d, t1, p1, fun out => by
        rw [readLoop]; dsimp only
        rw [if_neg h1, if_neg h2, if_neg h3, if_neg h4, if_neg h5]
        simp only [h6, if_true]
        rw [hh, ← writeAt_append, hlen]⟩
    · exact ⟨true, tcp.inbuf.take (min n tcp.inbuf.length),
        { tcp with inbuf := tcp.inbuf.drop (min n tcp.inbuf.length) }, p :: ps, fun out => by
        rw [readLoop]; dsimp only
        rw [if_neg h1, if_neg h2, if_neg h3, if_neg h4, if_neg h5]
        simp only [h6, if_false]⟩

/-- The same for the first byte that waits in the transport: a read of at least one byte
on a connected transport stores it first, and nothing else depends on it. -/
theorem readLoop_head (tmo : Nat) (polls : List Poll) (now : Nat) (sent : List Nat)
    (accept : Nat) (rest : List Nat) (off n : Nat) (hn : 0 < n) :
    ∃ flag data tcp1 polls1, ∀ (x : Nat) (out : List Nat),
      readLoop tmo true polls
          { now := now, connected := true, inbuf := x :: rest, sent := sent, accept := accept }
          out off n now
        = (flag, writeAt out off (x :: data), tcp1, polls1) := by
  obtain ⟨m, hm⟩ : ∃ m, min n (rest.length + 1) = m + 1 := ⟨min n (rest.length + 1) - 1, by omega⟩
  have h1 : ¬ n = 0 := by omega
  have h4 : ¬ elapsed now now > tmo := by rw [elapsed_self]; omega
  have hlen : ∀ x : Nat, (x :: rest.take m).length = m + 1 := by
    intro x
    rw [List.length_cons, List.length_take]; omega
  by_cases h6 : n - (m + 1) > 0
  · cases polls with
    | nil =>
      exact ⟨false, rest.take m,
        { now := now, connected := true, inbuf := rest.drop m, sent := sent, accept := accept },
        [], fun x out => by
          rw [readLoop.eq_def]
          simp only [h1, h4, if_false, Bool.not_true, Bool.false_eq_true, List.length_cons,
            Nat.succ_ne_zero, hm, h6, if_true, List.take_succ_cons, List.drop_succ_cons]⟩
    | cons p ps =>
      obtain ⟨f, d, t1, p1, hh⟩ := readLoop_shape tmo true ps
        (advance p
          { now := now, connected := true, inbuf := rest.drop m, sent := sent, accept := accept })
        (off + (m + 1)) (n - (m + 1)) now
      exact ⟨f, rest.take m ++ d, t1, p1, fun x out => by
        rw [readLoop.eq_def]
        simp only [h1, h4, if_false, Bool.not_true, Bool.false_eq_true, List.length_cons,
          Nat.succ_ne_zero, hm, h6, if_true, List.take_succ_cons, List.drop_succ_cons]
        rw [hh, ← List.cons_append, ← writeAt_append, hlen]⟩
  · exact ⟨true, rest.take m,
      { now := now, connected := true, inbuf := rest.drop m, sent := sent, accept := accept },
      polls, fun x out => by
        rw [readLoop.eq_def]
        simp only [h1, h4, if_false, Bool.not_true, Bool.false_eq_true, List.length_cons,
          Nat.succ_ne_zero, hm, h6, List.take_succ_cons, List.drop_succ_cons]⟩

theorem rsvBytes_same (a : List Nat) : RsvBytes a a := ⟨rfl, rfl, rfl⟩

theorem rsvBytes_at (a b : List Nat) (hab : RsvBytes a b) (i : Nat) (hi : 1 ≤ i) :
    a[i]? = b[i]? := by
  obtain ⟨j, rfl⟩ : ∃ j, i = 1 + j := ⟨i - 1, by omega⟩
  rw [← List.getElem?_drop, ← List.getElem?_drop, hab.rest]

theorem rsvBytes_of_pointwise (a b : List Nat) (hlen : a.length = b.length)
    (hfirst : a.getD 0 0 &&& 0x8F = b.getD 0 0 &&& 0x8F)
    (hrest : ∀ i, 1 ≤ i → a[i]? = b[i]?) : RsvBytes a b := by
  refine ⟨hlen, hfirst, ?_⟩
  apply List.ext_getElem?
  intro i
  rw [List.getElem?_drop, List.getElem?_drop]
  exact hrest (1 + i) (by omega)

theorem writeAt_rsvBytes (A B da db : List Nat) (off : Nat) (hAB : RsvBytes A B)
    (hd : RsvBytes da db) (hoff : 0 < off → da = db) :
    RsvBytes (writeAt A off da) (writeAt B off db) := by
  apply rsvBytes_of_pointwise
  · rw [writeAt_length, writeAt_length, hAB.length]
  · rw [List.getD_eq_getElem?_getD, List.getD_eq_getElem?_getD, writeAt_getElem?,
      writeAt_getElem?, ← hd.length, ← hAB.length]
    by_cases hc : off ≤ 0 ∧ 0 - off < da.length ∧ 0 < A.length
    · rw [if_pos hc, if_pos hc]
      have h0 : off = 0 := by omega
      rw [h0, Nat.sub_self, ← List.getD_eq_getElem?_getD, ← List.getD_eq_getElem?_getD]
      exact hd.first
    · rw [if_neg hc, if_neg hc, ← List.getD_eq_getElem?_getD, ← List.getD_eq_getElem?_getD]
      exact hAB.first
  · intro i hi
    rw [writeAt_getElem?, writeAt_getElem?, ← hd.length, ← hAB.length]
    by_cases hc : off ≤ i ∧ i - off < da.length ∧ i < A.length
    · rw [if_pos hc, if_pos hc]
      by_cases h0 : 0 < off
      · rw [hoff h0]
      · exact rsvBytes_at da db hd (i - off) (by omega)
    · rw [if_neg hc, if_neg hc]
      exact rsvBytes_at A B hAB i hi

theorem readLoop_twins (tmo : Nat) (polls : List Poll) (now : Nat) (sent : List Nat)
    (accept : Nat) (ina inb outa outb : List Nat) (off n : Nat) (hn : 0 < n)
    (hin : RsvBytes ina inb) (hset : 0 < off → ina = inb) :
    ∃ flag da db tcp1 polls1,
      readLoop tmo true polls
          { now := now, connected := true, inbuf := ina, sent := sent, accept := accept }
          outa off n now
        = (flag, writeAt outa off da, tcp1, polls1)
      ∧ readLoop tmo true polls
          { now := now, connected := true, inbuf := inb, sent := sent, accept := accept }
          outb off n now
        = (flag, writeAt outb off db, tcp1, polls1)
      ∧ RsvBytes da db ∧ (0 < off → da = db) := by
  cases ina with
  | nil =>
    have hb : inb = [] := List.length_eq_zero.mp hin.length.symm
    subst hb
    obtain ⟨f, d, t1, p1, hh⟩ := readLoop_shape tmo true polls
      { now := now, connected := true, inbuf := [], sent := sent, accept := accept } off n now
    exact ⟨f, d, d, t1, p1, hh outa, hh outb, rsvBytes_same d, fun _ => rfl⟩
  | cons x rest =>
    cases inb with
    | nil => exact absurd hin.length (by simp)
    | cons y rest2 =>
      have hr : rest = rest2 := hin.rest
      subst hr
      obtain ⟨f, d, t1, p1, hh⟩ := readLoop_head tmo polls now sent accept rest off n hn
      refine ⟨f, x :: d, y :: d, t1, p1, hh x outa, hh y outb, ⟨rfl, hin.first, rfl⟩,
        fun ho => ?_⟩
      have := hset ho
      rw [List.cons.injEq] at this
      rw [this.1]

theorem afterWait_handling (h : Host) (k : State → Except Fault State)
    (hk : ∀ a b, RsvTwins a b → handling (k a) = handling (k b)) (a b : State) (size : Nat)
    (htw : RsvTwins a b) (htcp : a.client.tcp = true) (hconn : a.tcp.connected = true)
    (hrx : a.client.cWsRXsize < size) :
    handling (afterWait h k a size) = handling (afterWait h k b size) := by
  obtain ⟨ca, ⟨na, conna, ina, senta, acca⟩, pa, tra, ra⟩ := a
  obtain ⟨cb, ⟨nb, connb, inb, sentb, accb⟩, pb, trb, rb⟩ := b
  obtain ⟨t1, t2, t3, t4, t5, t6, t7, t8, t9, t10, t11, t12⟩ := htw
  dsimp only at t1 t2 t3 t4 t5 t6 t7 t8 t9 t10 t11 t12 htcp hconn hrx
  subst t5 t6 t7 t8 t11 hconn
  have htcpb : cb.tcp = true := by rw [← t1]; exact htcp
  obtain ⟨flag, da, db, tcp1, polls1, ea, eb, hd, hoff⟩ :=
    readLoop_twins h.tcpTimeout pa na senta acca ina inb ca.cWsHeader cb.cWsHeader
      ca.cWsRXsize (size - ca.cWsRXsize) (by omega) t9 t10
  have hma := writeAt_rsvBytes ca.cWsHeader cb.cWsHeader da db ca.cWsRXsize t4 hd hoff
  have ha : headerRead h
      { client := ca
        tcp := { now := na, connected := true, inbuf := ina, sent := senta, accept := acca }
        polls := pa, trace := tra, rngCalls := ra } size
      = (flag, writeAt ca.cWsHeader ca.cWsRXsize da, tcp1, polls1) := by
    unfold headerRead
    dsimp only
    rw [htcp]
    exact ea
  have hb : headerRead h
      { client := cb
        tcp := { now := na, connected := true, inbuf := inb, sent := senta, accept := acca }
        polls := pa, trace := trb, rngCalls := rb } size
      = (flag, writeAt cb.cWsHeader ca.cWsRXsize db, tcp1, polls1) := by
    unfold headerRead
    dsimp only
    rw [htcpb, ← t3]
    exact eb
  have hflag : (headerRead h
      { client := cb
        tcp := { now := na, connected := true, inbuf := inb, sent := senta, accept := acca }
        polls := pa, trace := trb, rngCalls := rb } size).1
      = (headerRead h
      { client := ca
        tcp := { now := na, connected := true, inbuf := ina, sent := senta, accept := acca }
        polls := pa, trace := tra, rngCalls := ra } size).1 := by
    rw [ha, hb]
  have htrace : (tra ++ [Event.read (Dst.header ca.cWsRXsize) (size - ca.cWsRXsize)]).map
        Event.withoutRsv
      = (trb ++ [Event.read (Dst.header cb.cWsRXsize) (size - cb.cWsRXsize)]).map
        Event.withoutRsv := by
    rw [List.map_append, List.map_append, t12, t3]
  have hfail : handling (Except.ok (clientDisconnect h (setRXsize (afterHeaderRead h
      { client := ca
        tcp := { now := na, connected := true, inbuf := ina, sent := senta, accept := acca }
        polls := pa, trace := tra, rngCalls := ra } size) 0) 1002 none 0))
      = handling (Except.ok (clientDisconnect h (setRXsize (afterHeaderRead h
      { client := cb
        tcp := { now := na, connected := true, inbuf := inb, sent := senta, accept := acca }
        polls := pa, trace := trb, rngCalls := rb } size) 0) 1002 none 0)) := by
    apply clientDisconnect_handling
    · exact htrace
    · refine canSend_congr _ _ t1 t2 ?_
      unfold afterHeaderRead setRXsize
      rw [ha, hb]
  have htwins : RsvTwins
      (setRXsize (afterHeaderRead h
        { client := ca
          tcp := { now := na, connected := true, inbuf := ina, sent := senta, accept := acca }
          polls := pa, trace := tra, rngCalls := ra } size) size)
      (setRXsize (afterHeaderRead h
        { client := cb
          tcp := { now := na, connected := true, inbuf := inb, sent := senta, accept := acca }
          polls := pa, trace := trb, rngCalls := rb } size) size) := by
    unfold afterHeaderRead setRXsize
    rw [ha, hb]
    exact ⟨t1, t2, rfl, hma, rfl, rfl, rfl, rfl, rsvBytes_same _, fun _ => rfl, rfl, htrace⟩
  unfold afterWait
  rw [hflag]
  cases hf : (headerRead h
      { client := ca
        tcp := { now := na, connected := true, inbuf := ina, sent := senta, accept := acca }
        polls := pa, trace := tra, rngCalls := ra } size).1
  · simp only [Bool.false_eq_true, if_false]
    exact hfail
  · simp only [if_true]
    refine handling_then _ _ _ _ [] ?_ ?_ ?_ ?_ (hk _ _ htwins)
    · intro e he; rw [he]
    · intro s hs
      rw [hs]
      exact ⟨_, rfl, by rw [yield_trace, List.append_nil]⟩
    · intro e he; rw [he]
    · intro s hs
      rw [hs]
      exact ⟨_, rfl, by rw [yield_trace, List.append_nil]⟩

theorem byte1_of_tail (a b : List Nat) (hab : a.drop 1 = b.drop 1) :
    a.getD 1 0 = b.getD 1 0 := by
  have e1 : ∀ l : List Nat, l.getD 1 0 = (l.drop 1).getD 0 0 := fun l => (getD_drop l 1 0).symm
  rw [e1 a, e1 b, hab]

theorem declaredLen_of_tail (a b : List Nat) (hab : a.drop 1 = b.drop 1) :
    declaredLen a = declaredLen b := by
  have e2 : ∀ l : List Nat, l.drop 2 = (l.drop 1).drop 1 := by
    intro l; rw [List.drop_drop]
  unfold declaredLen
  rw [byte1_of_tail a b hab, e2 a, e2 b, hab]

theorem lengthEnd_of_tail (a b : List Nat) (hab : a.drop 1 = b.drop 1) :
    lengthEnd a = lengthEnd b := by
  unfold lengthEnd
  rw [byte1_of_tail a b hab]

theorem headerEnd_of_tail (a b : List Nat) (hab : a.drop 1 = b.drop 1) :
    headerEnd a = headerEnd b := by
  unfold headerEnd
  rw [byte1_of_tail a b hab, lengthEnd_of_tail a b hab]

theorem decodedEvent_withoutRsv (a b : WSclient_t)
    (hh : RsvBytes a.cWsHeader b.cWsHeader) :
    (decodedEvent a).withoutRsv = (decodedEvent b).withoutRsv := by
  rw [decodedEvent_eq, decodedEvent_eq]
  show Event.decoded _ false false false _ _ _ = Event.decoded _ false false false _ _ _
  rw [bit7_of_and _ _ hh.first, low4_of_and _ _ hh.first, byte1_of_tail _ _ hh.rest,
    declaredLen_of_tail _ _ hh.rest]

theorem tcp_eq_of_fields (x y : Tcp) (h1 : x.now = y.now) (h2 : x.connected = y.connected)
    (h3 : x.inbuf = y.inbuf) (h4 : x.sent = y.sent) (h5 : x.accept = y.accept) : x = y := by
  cases x
  cases y
  dsimp only at h1 h2 h3 h4 h5
  subst h1 h2 h3 h4 h5
  rfl

theorem handleWebsocketCb_idle (h : Host) (fuel : Nat) (s : State)
    (hg : ¬ (s.client.tcp = true ∧ s.tcp.connected = true)) :
    handleWebsocketCb h (fuel + 1) s = Except.ok s := by
  rw [handleWebsocketCb]
  have : (!s.client.tcp || !s.tcp.connected) = true := by
    cases h1 : s.client.tcp <;> cases h2 : s.tcp.connected <;> simp_all
  rw [if_pos this]

theorem reported_twins (a b : State) (htw : RsvTwins a b) :
    RsvTwins (reported a) (reported b) :=
  ⟨htw.tcp, htw.status, htw.rx, htw.header, htw.now, htw.connected, htw.sent, htw.accept,
    htw.inbuf, htw.settled, htw.polls, by
      show (a.trace ++ [decodedEvent a.client]).map Event.withoutRsv
        = (b.trace ++ [decodedEvent b.client]).map Event.withoutRsv
      rw [List.map_append, List.map_append, htw.trace, List.map_singleton, List.map_singleton,
        decodedEvent_withoutRsv _ _ htw.header]⟩

theorem atPayload_twins (a b : State) (htw : RsvTwins a b)
    (hrx : 0 < a.client.cWsRXsize) : PayloadTwins (atPayload a) (atPayload b) := by
  have hb1 := byte1_of_tail _ _ htw.header.rest
  have hmask : (decodeLength a.client).cWsHeaderDecode.mask
      = (decodeLength b.client).cWsHeaderDecode.mask := by
    show (((a.client.cWsHeader.getD 1 0 >>> 7) &&& 0x01) != 0)
      = (((b.client.cWsHeader.getD 1 0 >>> 7) &&& 0x01) != 0)
    rw [hb1]
  refine ⟨htw.tcp, htw.status, ?_, ?_, hmask, ?_, ?_, htw.header.rest, ?_, htw.polls,
    (reported_twins a b htw).trace⟩
  · show (((a.client.cWsHeader.getD 0 0 >>> 7) &&& 0x01) != 0)
      = (((b.client.cWsHeader.getD 0 0 >>> 7) &&& 0x01) != 0)
    rw [bit7_of_and _ _ htw.header.first]
  · exact low4_of_and _ _ htw.header.first
  · exact declaredLen_of_tail _ _ htw.header.rest
  · intro hm
    have hm' : (decodeLength a.client).cWsHeaderDecode.mask = true := hm
    have hmb : (decodeLength b.client).cWsHeaderDecode.mask = true := by rw [← hmask]; exact hm'
    have h2 := two_le_lengthEnd a.client.cWsHeader
    have ea : (atPayload a).client.cWsHeaderDecode.maskKey = lengthEnd a.client.cWsHeader := by
      show (if (decodeLength a.client).cWsHeaderDecode.mask then lengthEnd a.client.cWsHeader
        else a.client.cWsHeaderDecode.maskKey) = _
      rw [if_pos hm']
    have eb : (atPayload b).client.cWsHeaderDecode.maskKey = lengthEnd b.client.cWsHeader := by
      show (if (decodeLength b.client).cWsHeaderDecode.mask then lengthEnd b.client.cWsHeader
        else b.client.cWsHeaderDecode.maskKey) = _
      rw [if_pos hmb]
    rw [ea, eb, lengthEnd_of_tail _ _ htw.header.rest]
    exact ⟨rfl, by rw [← lengthEnd_of_tail _ _ htw.header.rest]; omega⟩
  · exact tcp_eq_of_fields _ _ htw.now htw.connected (htw.settled hrx) htw.sent htw.accept

/-- The reserved bits have no part in what `handleWebsocketCb` does. -/
theorem handleWebsocketCb_handling (h : Host) : ∀ (fuel : Nat) (a b : State), RsvTwins a b →
    handling (handleWebsocketCb h fuel a) = handling (handleWebsocketCb h fuel b) := by
  intro fuel
  induction fuel with
  | zero => intro a b _; rfl
  | succ n ih =>
    intro a b htw
    by_cases hg : a.client.tcp = true ∧ a.tcp.connected = true
    · obtain ⟨htcp, hconn⟩ := hg
      have htcpb : b.client.tcp = true := by rw [← htw.tcp]; exact htcp
      have hconnb : b.tcp.connected = true := by rw [← htw.connected]; exact hconn
      have eL := lengthEnd_of_tail _ _ htw.header.rest
      have eD := declaredLen_of_tail _ _ htw.header.rest
      have eH := headerEnd_of_tail _ _ htw.header.rest
      have hrxe := htw.rx
      have h2 := two_le_lengthEnd a.client.cWsHeader
      by_cases hr2 : a.client.cWsRXsize < 2
      · rw [handleWebsocketCb_stage1 h n a htcp hconn hr2,
          handleWebsocketCb_stage1 h n b htcpb hconnb (by rw [← hrxe]; exact hr2)]
        exact afterWait_handling h _ ih a b 2 htw htcp hconn hr2
      by_cases hrL : a.client.cWsRXsize < lengthEnd a.client.cWsHeader
      · rw [handleWebsocketCb_stage2 h n a htcp hconn (by omega) hrL,
          handleWebsocketCb_stage2 h n b htcpb hconnb (by rw [← hrxe]; omega)
            (by rw [← hrxe, ← eL]; exact hrL), ← eL]
        exact afterWait_handling h _ ih { a with client := splitFirstBytes a.client }
          { b with client := splitFirstBytes b.client } _
          ⟨htw.tcp, htw.status, htw.rx, htw.header, htw.now, htw.connected, htw.sent,
            htw.accept, htw.inbuf, htw.settled, htw.polls, htw.trace⟩ htcp hconn hrL
      by_cases hbig : h.maxDataSize < declaredLen a.client.cWsHeader
      · rw [handleWebsocketCb_tooBig_eq h n a htcp hconn (by omega) hbig,
          handleWebsocketCb_tooBig_eq h n b htcpb hconnb (by rw [← hrxe, ← eL]; omega)
            (by rw [← eD]; exact hbig)]
        exact clientDisconnect_handling h _ _ 1009 (reported_twins a b htw).trace
          (canSend_congr _ _ htw.tcp htw.status htw.connected)
      by_cases hcomp : headerEnd a.client.cWsHeader ≤ a.client.cWsRXsize
      · rw [handleWebsocketCb_complete_eq h n a ⟨htcp, hconn, hcomp⟩ (by omega),
          handleWebsocketCb_complete_eq h n b ⟨htcpb, hconnb, by rw [← hrxe, ← eH]; exact hcomp⟩
            (by rw [← eD]; omega)]
        exact receivePayload_handling h _ _ (atPayload_twins a b htw (by omega))
      · rw [handleWebsocketCb_stage3 h n a htcp hconn (by omega) (by omega) (by omega),
          handleWebsocketCb_stage3 h n b htcpb hconnb (by rw [← hrxe, ← eL]; omega)
            (by rw [← hrxe, ← eH]; omega) (by rw [← eD]; omega), ← eH]
        exact afterWait_handling h _ ih (reported a) (reported b) _ (reported_twins a b htw)
          htcp hconn (by show a.client.cWsRXsize < _; omega)
    · have hgb : ¬ (b.client.tcp = true ∧ b.tcp.connected = true) := by
        rw [← htw.tcp, ← htw.connected]; exact hg
      rw [handleWebsocketCb_idle h n a hg, handleWebsocketCb_idle h n b hgb, handling_ok,
        handling_ok, htw.trace]

theorem isReaction_withoutRsv (e : Event) : e.withoutRsv.isReaction = e.isReaction := by
  cases e <;> rfl

theorem withoutRsv_of_isReaction (e : Event) (he : e.isReaction = true) : e.withoutRsv = e := by
  cases e <;> first | rfl | cases he

theorem filter_isReaction_map (l : List Event) :
    (l.map Event.withoutRsv).filter Event.isReaction = l.filter Event.isReaction := by
  induction l with
  | nil => rfl
  | cons e t ih =>
    rw [List.map_cons, List.filter_cons, List.filter_cons, isReaction_withoutRsv, ih]
    by_cases he : e.isReaction = true
    · rw [if_pos he, if_pos he, withoutRsv_of_isReaction e he]
    · rw [if_neg he, if_neg he]

theorem clearRsv_twins (a : State) : RsvTwins a (clearRsv a) := by
  refine ⟨rfl, rfl, rfl, ?_, rfl, rfl, rfl, rfl, rsvBytes_same _, fun _ => rfl, rfl, rfl⟩
  show RsvBytes a.client.cWsHeader
    (a.client.cWsHeader.set 0 (a.client.cWsHeader.getD 0 0 &&& 0x8F))
  cases a.client.cWsHeader with
  | nil => exact rsvBytes_same _
  | cons x t =>
    refine ⟨rfl, ?_, rfl⟩
    show x &&& 0x8F = (x &&& 0x8F) &&& 0x8F
    rw [Nat.land_assoc]
    rfl

/-- C22. Two states of the receive path that differ at most in the reserved bits of the
frame being received (bits 6-4 of the first header byte, in the accumulator or, before the
first read, at the head of the transport's buffer) and in what was decoded and reported of
these bits.  `handleWebsocketCb` and `handleWebsocket` then make the same calls with the
same arguments in the same order, the reserved bits of the decode reports apart: the same
close codes, the same frames sent, the same message callbacks, the same reads and buffer
acquisitions; and one run returns exactly when the other does.  In particular a frame is
handled as the frame with rsv1 = rsv2 = rsv3 = 0 is (`clearRsv`): non-zero reserved bits
are never a reason to reject it. -/
theorem rsv_bits_ignored (h : Host) (fuel : Nat) (a b : State) (htw : RsvTwins a b) :
    handling (handleWebsocketCb h fuel a) = handling (handleWebsocketCb h fuel b)
      ∧ handling (handleWebsocket h fuel a) = handling (handleWebsocket h fuel b)
      ∧ (∀ sa, handleWebsocketCb h fuel a = Except.ok sa →
          ∃ sb, handleWebsocketCb h fuel b = Except.ok sb
            ∧ sa.trace.filter Event.isReaction = sb.trace.filter Event.isReaction)
      ∧ handling (handleWebsocketCb h fuel a)
          = handling (handleWebsocketCb h fuel (clearRsv a)) := by
  have key := handleWebsocketCb_handling h fuel a b htw
  refine ⟨key, ?_, fun sa hsa => ?_, handleWebsocketCb_handling h fuel a _ (clearRsv_twins a)⟩
  · unfold handleWebsocket
    rw [← htw.rx]
    split_ifs
    · exact key
    · rw [handling_ok, handling_ok, htw.trace]
  · rw [hsa] at key
    cases hsb : handleWebsocketCb h fuel b with
    | error e => rw [hsb] at key; cases key
    | ok sb =>
      rw [hsb, handling_ok, handling_ok] at key
      refine ⟨sb, rfl, ?_⟩
      rw [← filter_isReaction_map sa.trace, ← filter_isReaction_map sb.trace,
        Except.ok.inj key]

/-- C22, worked instance: the masked text frame "hi" with first byte 81 and with first byte
F1 (rsv1, rsv2 and rsv3 set).  The second frame is accepted like the first: the same
buffer is acquired, the same payload read and the same message delivered; only the decode
report differs. -/
theorem rsv_bits_ignored_witness :
    handling (handleWebsocketCb demoHost 1 maskedHi)
        = handling (handleWebsocketCb demoHost 1 maskedHiRsv)
      ∧ runEvents demoHost 1 maskedHi
          = some [Event.decoded true false false false WSop_text true 2,
              Event.malloc 3 true, Event.read Dst.payload 2,
              Event.message WSop_text (some [0x68, 0x69, 0]) 2 true, Event.free]
      ∧ runEvents demoHost 1 maskedHiRsv
          = some [Event.decoded true true true true WSop_text true 2,
              Event.malloc 3 true, Event.read Dst.payload 2,
              Event.message WSop_text (some [0x68, 0x69, 0]) 2 true, Event.free] :=
  ⟨(rsv_bits_ignored demoHost 1 maskedHi maskedHiRsv
      ⟨rfl, rfl, rfl, ⟨rfl, by decide, rfl⟩, rfl, rfl, rfl, rfl, rsvBytes_same _,
        fun _ => rfl, rfl, rfl⟩).1,
    by decide!, by decide!⟩

end WebSockets
